import Mathlib

/-!
# XPBD cloth solver: a shallow embedding of `PbdSolver.hpp` and `Mesh.cpp`

The development embeds the constraint projections (`ConstraintAttach`,
`ConstraintStretch`, `ConstraintBend`), the solver (`PbdSolver::initSim`,
`PbdSolver::step`, `PbdSolver::updateMesh`), `Mesh::recomputePerVertexNormals`, and the mesh
generators `Mesh::addCloth` and `Mesh::addCube` with their call in `Scene::resetSim`.

Modelling conventions.

* `tReal` (declared in `typedefs.hpp`, which is not part of the sources) is modelled by an
  arbitrary linearly ordered field `K` with exact arithmetic; rounding and overflow are outside
  the model. Theorems that need the square root are stated over `ℝ` with `Real.sqrt`.
* Division in `K` is total (`x / 0 = 0`), where the program produces an infinity or `NaN`: the
  exact model follows the program as long as no division by zero is evaluated. The lists
  `ConstraintStretch.divisors`, `ConstraintBend.divisors` and `PbdSolver.stepDivisors` name the
  divisors a call evaluates, and the part on `IEEE K` evaluates the projections and `step` with
  infinities and `NaN`, for the inputs on which a divisor is zero.
* The `glm` library is not part of the sources. `glm::length`, `glm::normalize`, `glm::dot`,
  `glm::cross` and `glm::clamp` follow the library's documented formulas; the scalar square root
  and `std::acos` are parameters `sqrt acos : K → K` of every definition that calls them.
* `std::vector` is a `List`. `a[i]` is `a.getD i 0` and `a[i] = e` is `a.set i e`; on an index out
  of range the C++ program has undefined behaviour, the model reads `0` and writes nothing, and
  the theorems say nothing about the program there.
* `tUint` (also from `typedefs.hpp`) is an unsigned machine integer of `tUintBits` bits, a
  parameter of `step`; the step counter wraps modulo `2 ^ tUintBits`. Vector sizes and particle
  indices are assumed to fit the machine types and are plain `Nat`.
* A mutating member function returns the new object; loops are folds over `List.range`.
-/

namespace XPBD

/-! ## `glm::vec3` -/

/-- Three-component vector `glm::vec3`; index `0, 1, 2` is `x, y, z`. -/
structure Vec3 (K : Type) where
  x : K
  y : K
  z : K
  deriving DecidableEq, Repr

namespace Vec3

variable {K : Type} [LinearOrderedField K]

instance : Zero (Vec3 K) := ⟨⟨0, 0, 0⟩⟩
instance : Add (Vec3 K) := ⟨fun a b => ⟨a.x + b.x, a.y + b.y, a.z + b.z⟩⟩
instance : Sub (Vec3 K) := ⟨fun a b => ⟨a.x - b.x, a.y - b.y, a.z - b.z⟩⟩
instance : Neg (Vec3 K) := ⟨fun a => ⟨-a.x, -a.y, -a.z⟩⟩

/-- Vector times scalar, `v * s`. -/
def mulS (a : Vec3 K) (s : K) : Vec3 K := ⟨a.x * s, a.y * s, a.z * s⟩

/-- Scalar times vector, `s * v`. -/
def smul (s : K) (a : Vec3 K) : Vec3 K := ⟨s * a.x, s * a.y, s * a.z⟩

/-- Vector divided by scalar, `v / s`. -/
def divS (a : Vec3 K) (s : K) : Vec3 K := ⟨a.x / s, a.y / s, a.z / s⟩

/-- The function `glm::dot`. -/
def dot (a b : Vec3 K) : K := a.x * b.x + a.y * b.y + a.z * b.z

/-- The function `glm::cross`. -/
def cross (a b : Vec3 K) : Vec3 K :=
  ⟨a.y * b.z - b.y * a.z, a.z * b.x - b.z * a.x, a.x * b.y - b.x * a.y⟩

/-- The function `glm::length`: `sqrt(dot(v, v))`. -/
def length (sqrt : K → K) (a : Vec3 K) : K := sqrt (dot a a)

/-- The function `glm::normalize`: `v * inversesqrt(dot(v, v))`. -/
def normalize (sqrt : K → K) (a : Vec3 K) : Vec3 K := mulS a (1 / sqrt (dot a a))

end Vec3

/-- The function `glm::clamp`: `min(max(x, lo), hi)`. -/
def clamp {K : Type} [LinearOrderedField K] (x lo hi : K) : K := min (max x lo) hi

/-! ## Constraints -/

/-- The variant part of a constraint: the fields the three subclasses add to `Constraint`. -/
inductive ConstraintKind (K : Type) where
  /-- `ConstraintAttach`: vertex id `_i`, fixed position `_p`. -/
  | attach (i : Nat) (p : Vec3 K)
  /-- `ConstraintStretch`: vertices `_i`, `_j`, initial length `_d`. -/
  | stretch (i j : Nat) (d : K)
  /-- `ConstraintBend`: vertices `_i1 .. _i4`, initial angle `_phi0`. -/
  | bend (i1 i2 i3 i4 : Nat) (phi0 : K)
  deriving DecidableEq, Repr

/-- A constraint object: the base-class fields `_lambda`, `_compliance`, `_damp_coef` and the
subclass part. -/
structure Constraint (K : Type) where
  _lambda : K
  _compliance : K
  _damp_coef : K
  kind : ConstraintKind K
  deriving DecidableEq, Repr

namespace Constraint

variable {K : Type} [LinearOrderedField K]

/-- The test `Constraint::is_zero`: `(x <= 1e-5) && (x >= -1e-5)`. -/
def is_zero (x : K) : Bool := decide (x ≤ 1 / 100000) && decide (x ≥ -(1 / 100000))

/-- The method `Constraint::reset`: `_lambda = 0`. -/
def reset (c : Constraint K) : Constraint K := { c with _lambda := 0 }

end Constraint

/-- Constructor of `ConstraintAttach`. It leaves the base-class fields uninitialised (they are
never read by `ConstraintAttach::project`); the model stores `0` there. -/
def ConstraintAttach.mk {K : Type} [LinearOrderedField K] (i : Nat) (p : Vec3 K) :
    Constraint K :=
  { _lambda := 0, _compliance := 0, _damp_coef := 0, kind := .attach i p }

/-- The method `ConstraintAttach::project`: `x[_i] = _p`. -/
def ConstraintAttach.project {K : Type} [LinearOrderedField K] (c : Constraint K) (i : Nat)
    (p : Vec3 K) (x : List (Vec3 K)) : Constraint K × List (Vec3 K) :=
  (c, x.set i p)

/-- Constructor of `ConstraintStretch`. -/
def ConstraintStretch.mk {K : Type} [LinearOrderedField K] (i j : Nat) (d k damp : K) :
    Constraint K :=
  { _lambda := 0, _compliance := k, _damp_coef := damp, kind := .stretch i j d }

/-- The method `ConstraintStretch::project`. -/
def ConstraintStretch.project {K : Type} [LinearOrderedField K] (sqrt : K → K)
    (c : Constraint K) (i j : Nat) (d : K) (x x_last : List (Vec3 K)) (w : List K) (dt : K) :
    Constraint K × List (Vec3 K) :=
  let diff := x.getD i 0 - x.getD j 0
  let dist := Vec3.length sqrt diff
  if Constraint.is_zero (dist - d) then (c, x) else
  let compliance_tilda := c._compliance / (dt * dt)
  let gamma := compliance_tilda * c._damp_coef * dt
  let n := diff.divS dist
  let vel1 := x.getD i 0 - x_last.getD i 0
  let vel2 := x.getD j 0 - x_last.getD j 0
  let damp_term := gamma * (Vec3.dot n vel1 + Vec3.dot (-n) vel2)
  let dlambda := (-(dist - d) - compliance_tilda * c._lambda - damp_term) /
    ((1 + gamma) * (w.getD i 0 + w.getD j 0) + compliance_tilda)
  let x1 := x.set i (x.getD i 0 + (n.mulS (w.getD i 0)).mulS dlambda)
  let x2 := x1.set j (x1.getD j 0 + ((-n).mulS (w.getD j 0)).mulS dlambda)
  ({ c with _lambda := c._lambda + dlambda }, x2)

/-- Constructor of `ConstraintBend`. -/
def ConstraintBend.mk {K : Type} [LinearOrderedField K] (i1 i2 i3 i4 : Nat) (phi0 k damp : K) :
    Constraint K :=
  { _lambda := 0, _compliance := k, _damp_coef := damp, kind := .bend i1 i2 i3 i4 phi0 }

/-- The method `ConstraintBend::project`. -/
def ConstraintBend.project {K : Type} [LinearOrderedField K] (sqrt acos : K → K)
    (c : Constraint K) (i1 i2 i3 i4 : Nat) (phi0 : K) (x x_last : List (Vec3 K)) (w : List K)
    (dt : K) : Constraint K × List (Vec3 K) :=
  let p2 := x.getD i2 0 - x.getD i1 0
  let p3 := x.getD i3 0 - x.getD i1 0
  let p4 := x.getD i4 0 - x.getD i1 0
  let n1 := Vec3.normalize sqrt (Vec3.cross p2 p3)
  let n2 := Vec3.normalize sqrt (Vec3.cross p2 p4)
  let p2xp3_len := Vec3.length sqrt (Vec3.cross p2 p3) + 1 / 100000
  let p2xp4_len := Vec3.length sqrt (Vec3.cross p2 p4) + 1 / 100000
  if Constraint.is_zero (Vec3.length sqrt n1) || Constraint.is_zero (Vec3.length sqrt n2) then
    (c, x)
  else
  let d := clamp (Vec3.dot n1 n2) (-1) 1
  let phi := acos d
  if Constraint.is_zero (phi - phi0) || Constraint.is_zero (1 - d * d) then (c, x) else
  let q3 := ((Vec3.cross p2 n2) + (Vec3.cross n1 p2).mulS d).divS p2xp3_len
  let q4 := ((Vec3.cross p2 n1) + (Vec3.cross n2 p2).mulS d).divS p2xp4_len
  let q2 := (-((Vec3.cross p3 n2) + (Vec3.cross n1 p3).mulS d)).divS p2xp3_len
    - ((Vec3.cross p4 n1) + (Vec3.cross n2 p4).mulS d).divS p2xp4_len
  let q1 := -q2 - q3 - q4
  let weighted_sum := (1 / 1000000 + w.getD i1 0 * Vec3.dot q1 q1 + w.getD i2 0 * Vec3.dot q2 q2
    + w.getD i3 0 * Vec3.dot q3 q3 + w.getD i4 0 * Vec3.dot q4 q4) / (1 - d * d)
  let compliance_tilda := c._compliance / (dt * dt)
  let gamma := compliance_tilda * c._damp_coef * dt
  let vel1 := x.getD i1 0 - x_last.getD i1 0
  let vel2 := x.getD i2 0 - x_last.getD i2 0
  let vel3 := x.getD i3 0 - x_last.getD i3 0
  let vel4 := x.getD i4 0 - x_last.getD i4 0
  let denom := sqrt (1 - d * d)
  let damp_term := (0 + Vec3.dot q1 vel1 + Vec3.dot q2 vel2 + Vec3.dot q3 vel3
    + Vec3.dot q4 vel4) * (gamma / denom)
  let dlambda := (phi0 - phi - compliance_tilda * c._lambda - damp_term) /
    ((1 + gamma) * weighted_sum + compliance_tilda)
  let xa := x.set i1 (x.getD i1 0 + (Vec3.smul (w.getD i1 0 * dlambda) q1).divS denom)
  let xb := xa.set i2 (xa.getD i2 0 + (Vec3.smul (w.getD i2 0 * dlambda) q2).divS denom)
  let xc := xb.set i3 (xb.getD i3 0 + (Vec3.smul (w.getD i3 0 * dlambda) q3).divS denom)
  let xd := xc.set i4 (xc.getD i4 0 + (Vec3.smul (w.getD i4 0 * dlambda) q4).divS denom)
  ({ c with _lambda := c._lambda + dlambda }, xd)

/-- The virtual call `constraint->project(x, x_last, w, dt)`, dispatched on the dynamic type. -/
def Constraint.project {K : Type} [LinearOrderedField K] (sqrt acos : K → K) (c : Constraint K)
    (x x_last : List (Vec3 K)) (w : List K) (dt : K) : Constraint K × List (Vec3 K) :=
  match c.kind with
  | .attach i p => ConstraintAttach.project c i p x
  | .stretch i j d => ConstraintStretch.project sqrt c i j d x x_last w dt
  | .bend i1 i2 i3 i4 phi0 => ConstraintBend.project sqrt acos c i1 i2 i3 i4 phi0 x x_last w dt

/-- The particle indices a constraint refers to. -/
def Constraint.indices {K : Type} (c : Constraint K) : List Nat :=
  match c.kind with
  | .attach i _ => [i]
  | .stretch i j _ => [i, j]
  | .bend i1 i2 i3 i4 _ => [i1, i2, i3, i4]

/-- Every particle index of the constraint is below `n`, the size of the particle arrays. -/
def Constraint.InRange {K : Type} (n : Nat) (c : Constraint K) : Prop :=
  ∀ k ∈ c.indices, k < n

/-- Particle `i` is pinned at `p` by the constraint list: some constraint is `Attach(i, p)`, and
every constraint that refers to `i` is `Attach(i, p)`. -/
def PinnedBy {K : Type} (cs : List (Constraint K)) (i : Nat) (p : Vec3 K) : Prop :=
  (∃ c ∈ cs, c.kind = .attach i p) ∧ ∀ c ∈ cs, i ∈ c.indices → c.kind = .attach i p

/-- Successive `project` calls on one constraint, `n` of them, each on the positions and the
constraint the previous call left. -/
def Constraint.projectN {K : Type} [LinearOrderedField K] (sqrt acos : K → K)
    (x_last : List (Vec3 K)) (w : List K) (dt : K) :
    Nat → Constraint K × List (Vec3 K) → Constraint K × List (Vec3 K)
  | 0, r => r
  | n + 1, r =>
    let r1 := Constraint.projectN sqrt acos x_last w dt n r
    Constraint.project sqrt acos r1.1 r1.2 x_last w dt

/-! ## `Mesh` -/

/-- Index triple `glm::uvec3` of a triangle. -/
structure UVec3 where
  x : Nat
  y : Nat
  z : Nat
  deriving DecidableEq, Repr

/-- Component access `t[k]` of a `glm::uvec3`, for `k = 0, 1, 2`. -/
def UVec3.get (t : UVec3) (k : Nat) : Nat := if k = 0 then t.x else if k = 1 then t.y else t.z

/-- The fields of `Mesh` that the solver reads or writes. The texture coordinates and the GPU
buffer handles are touched by none of the functions below and are left out. -/
structure Mesh (K : Type) where
  _vertexPositions : List (Vec3 K)
  _vertexNormals : List (Vec3 K)
  _triangleIndices : List UVec3
  deriving DecidableEq, Repr

/-- Body of the triangle loop of `Mesh::recomputePerVertexNormals`: the face normal `n_t` is
added to the normals of the three corners. -/
def Mesh.accumulateFace {K : Type} [LinearOrderedField K] (pos : List (Vec3 K))
    (normals : List (Vec3 K)) (t : UVec3) : List (Vec3 K) :=
  let n_t := Vec3.cross (pos.getD t.y 0 - pos.getD t.x 0) (pos.getD t.z 0 - pos.getD t.x 0)
  let na := normals.set t.x (normals.getD t.x 0 + n_t)
  let nb := na.set t.y (na.getD t.y 0 + n_t)
  nb.set t.z (nb.getD t.z 0 + n_t)

/-- Body of the last loop of `Mesh::recomputePerVertexNormals`: the statement
`glm::normalize(_vertexNormals[nIt]);` computes a value and drops it. -/
def Mesh.normalizeStatement {K : Type} [LinearOrderedField K] (sqrt : K → K)
    (normals : List (Vec3 K)) (nIt : Nat) : List (Vec3 K) :=
  let _dropped := Vec3.normalize sqrt (normals.getD nIt 0)
  normals

/-- The method `Mesh::recomputePerVertexNormals`. Its parameter `angleBased` is not used by the
body and is left out. -/
def Mesh.recomputePerVertexNormals {K : Type} [LinearOrderedField K] (sqrt : K → K)
    (m : Mesh K) : Mesh K :=
  let cleared := List.replicate m._vertexPositions.length (0 : Vec3 K)
  let summed := m._triangleIndices.foldl (Mesh.accumulateFace m._vertexPositions) cleared
  let normals := (List.range summed.length).foldl (Mesh.normalizeStatement sqrt) summed
  { m with _vertexNormals := normals }

/-! ## Edge set and edge-to-apex map of `initSim` -/

/-- An edge `std::set<tUint>`: its elements in increasing order, without repetition. -/
abbrev Edge := List Nat

/-- The initialiser `std::set<tUint> edge = {a, b}`. -/
def mkEdge (a b : Nat) : Edge := if a < b then [a, b] else if b < a then [b, a] else [a]

/-- Order of `std::set<tUint>` as a key: lexicographic comparison of the sorted elements. -/
def edgeLt : Edge → Edge → Bool
  | [], [] => false
  | [], _ :: _ => true
  | _ :: _, [] => false
  | a :: as, b :: bs => decide (a < b) || (decide (a = b) && edgeLt as bs)

/-- The call `connections.insert(edge)` on a `std::set<std::set<tUint>>`, kept as the increasing
list of its elements. -/
def setInsert (e : Edge) : List Edge → List Edge
  | [] => [e]
  | h :: t =>
    if edgeLt e h then e :: h :: t
    else if edgeLt h e then h :: setInsert e t
    else h :: t

/-- The statement `tri_neighbors[edge].push_back(v)` on the `std::map`, kept as the list of its
entries in increasing key order. -/
def mapPushBack (e : Edge) (v : Nat) : List (Edge × List Nat) → List (Edge × List Nat)
  | [] => [(e, [v])]
  | (k, vs) :: t =>
    if edgeLt e k then (e, [v]) :: (k, vs) :: t
    else if edgeLt k e then (k, vs) :: mapPushBack e v t
    else (k, vs ++ [v]) :: t

/-- The lookup `tri_neighbors[edge]`; a key without entry reads as the empty vector. -/
def mapAt (m : List (Edge × List Nat)) (e : Edge) : List Nat :=
  match m.find? (fun kv => decide (kv.1 = e)) with
  | some kv => kv.2
  | none => []

/-- The call `tri_neighbors.erase(edge)`. -/
def mapErase (m : List (Edge × List Nat)) (e : Edge) : List (Edge × List Nat) :=
  m.filter (fun kv => !decide (kv.1 = e))

/-- Body of the loop `for (int i = 0; i < 3; i += 1)` over the sides of one triangle. -/
def addTriangleSide (triangle : UVec3) (st : List Edge × List (Edge × List Nat)) (i : Nat) :
    List Edge × List (Edge × List Nat) :=
  let edge := mkEdge (triangle.get i) (triangle.get ((i + 1) % 3))
  (setInsert edge st.1, mapPushBack edge (triangle.get ((i + 2) % 3)) st.2)

/-- Step 1 of `initSim`, "edge-triangle information": the pair `(connections, tri_neighbors)`. -/
def edgeTriangleInfo (idx : List UVec3) : List Edge × List (Edge × List Nat) :=
  idx.foldl (fun st triangle => (List.range 3).foldl (addTriangleSide triangle) st) ([], [])

/-! ## `PbdSolver` -/

/-- The data members of `PbdSolver`. -/
structure PbdSolver (K : Type) where
  _x : List (Vec3 K)
  _x_next : List (Vec3 K)
  _v : List (Vec3 K)
  _f : List (Vec3 K)
  _idx : List UVec3
  _w : List K
  _vertex_number : Nat
  _constraints : List (Constraint K)
  _g : Vec3 K
  _step : Nat
  _sim_t : K
  _Ns : Nat
  _kStretch : K
  _kBend : K
  _kDamp : K
  deriving DecidableEq, Repr

namespace PbdSolver

variable {K : Type} [LinearOrderedField K]

/-- The constructor `PbdSolver(num_solve, k_stretch, k_bend, k_damp, gravity)`: the vectors start
empty. It does not initialise `_vertex_number`, which `initSim` overwrites; the model stores `0`. -/
def new (num_solve : Nat) (k_stretch k_bend k_damp : K) (gravity : Vec3 K) : PbdSolver K :=
  { _x := [], _x_next := [], _v := [], _f := [], _idx := [], _w := [], _vertex_number := 0,
    _constraints := [], _g := gravity, _step := 0, _sim_t := 0, _Ns := num_solve,
    _kStretch := k_stretch, _kBend := k_bend, _kDamp := k_damp }

/-- Body of the first loop of `initSim`: `_w.push_back(1.0)`, `m = 1.0 / _w[i]`,
`_v.push_back(0)`, `_f.push_back(m * _g)`. -/
def initParticle (s : PbdSolver K) (i : Nat) : PbdSolver K :=
  let w1 := s._w ++ [1]
  let m := 1 / w1.getD i 0
  { s with _w := w1, _v := s._v ++ [0],
           _f := s._f ++ [⟨m * s._g.x, m * s._g.y, m * s._g.z⟩] }

/-- The index `30 * (3 + j) + i + 7` pinned by the loop "a table" of `initSim`. -/
def pinIndex (i j : Nat) : Nat := 30 * (3 + j) + i + 7

/-- Body of the inner loop of "a table": an Attach constraint at the current position of the
particle is appended and its inverse mass is set to zero. -/
def pinParticle (i : Nat) (s : PbdSolver K) (j : Nat) : PbdSolver K :=
  let index := pinIndex i j
  { s with _constraints := s._constraints ++ [ConstraintAttach.mk index (s._x.getD index 0)],
           _w := s._w.set index 0 }

/-- The loops `for i < 16`, `for j < 9` of "a table". -/
def pinTable (s : PbdSolver K) : PbdSolver K :=
  (List.range 16).foldl (fun s1 i => (List.range 9).foldl (pinParticle i) s1) s

/-- Body of the loop "3. stretch" over `connections`. -/
def addStretch (sqrt : K → K) (s : PbdSolver K) (edge : Edge) : PbdSolver K :=
  let i := edge.getD 0 0
  let j := edge.getD 1 0
  if s._w.getD i 0 = 0 ∧ s._w.getD j 0 = 0 then s else
  let len := Vec3.length sqrt (s._x.getD i 0 - s._x.getD j 0)
  { s with _constraints := s._constraints ++ [ConstraintStretch.mk i j len s._kStretch (9 / 10)] }

/-- The rest angle `phi_0` that the loop "4. bend" of `initSim` measures on the positions `x` for
the edge `(i1, i2)` with apexes `i3`, `i4`: `acos(dot(n1, n2))` of the two unit normals. -/
def bendRestAngle (sqrt acos : K → K) (x : List (Vec3 K)) (i1 i2 i3 i4 : Nat) : K :=
  let p2 := x.getD i2 0 - x.getD i1 0
  let p3 := x.getD i3 0 - x.getD i1 0
  let p4 := x.getD i4 0 - x.getD i1 0
  let n1 := Vec3.normalize sqrt (Vec3.cross p2 p3)
  let n2 := Vec3.normalize sqrt (Vec3.cross p2 p4)
  acos (Vec3.dot n1 n2)

/-- Body of the loop "4. bend" over `connections`; the state is the solver and the local map
`tri_neighbors`. -/
def addBend (sqrt acos : K → K) (st : PbdSolver K × List (Edge × List Nat)) (edge : Edge) :
    PbdSolver K × List (Edge × List Nat) :=
  let s := st.1
  let tri_neighbors := st.2
  if (mapAt tri_neighbors edge).length = 2 then
    let i1 := edge.getD 0 0
    let i2 := edge.getD 1 0
    let i3 := (mapAt tri_neighbors edge).getD 0 0
    let i4 := (mapAt tri_neighbors edge).getD 1 0
    if s._w.getD i1 0 = 0 ∧ s._w.getD i2 0 = 0 ∧ s._w.getD i3 0 = 0 ∧ s._w.getD i4 0 = 0 then
      st
    else
    let phi_0 := bendRestAngle sqrt acos s._x i1 i2 i3 i4
    ({ s with _constraints :=
        s._constraints ++ [ConstraintBend.mk i1 i2 i3 i4 phi_0 s._kBend (5 / 100)] },
      tri_neighbors)
  else
    (s, mapErase tri_neighbors edge)

/-- The method `PbdSolver::initSim`. -/
def initSim (sqrt acos : K → K) (s : PbdSolver K) (mesh : Mesh K) : PbdSolver K :=
  let s0 : PbdSolver K :=
    { s with _step := 0, _sim_t := 0, _x := mesh._vertexPositions,
             _x_next := mesh._vertexPositions, _idx := mesh._triangleIndices,
             _vertex_number := mesh._vertexPositions.length }
  let s1 := (List.range s0._vertex_number).foldl initParticle s0
  let info := edgeTriangleInfo s1._idx
  let connections := info.1
  let tri_neighbors := info.2
  let s2 := pinTable s1
  let s3 := connections.foldl (addStretch sqrt) s2
  (connections.foldl (addBend sqrt acos) (s3, tri_neighbors)).1

/-- The state of `initSim` after its assignments from the mesh (`_step = 0` to
`_vertex_number = _x.size()`). -/
def initAssigned (s : PbdSolver K) (mesh : Mesh K) : PbdSolver K :=
  { s with _step := 0, _sim_t := 0, _x := mesh._vertexPositions,
           _x_next := mesh._vertexPositions, _idx := mesh._triangleIndices,
           _vertex_number := mesh._vertexPositions.length }

/-- The state of `initSim` before its loops "3. stretch" and "4. bend": members assigned, one
particle appended per vertex, the table pinned. -/
def initPinned (s : PbdSolver K) (mesh : Mesh K) : PbdSolver K :=
  pinTable ((List.range mesh._vertexPositions.length).foldl initParticle (initAssigned s mesh))

/-- The method `PbdSolver::updateMesh`: the solver is only read, the mesh is returned with the
solver positions and the normals recomputed. -/
def updateMesh (sqrt : K → K) (s : PbdSolver K) (mesh : Mesh K) : PbdSolver K × Mesh K :=
  (s, Mesh.recomputePerVertexNormals sqrt { mesh with _vertexPositions := s._x })

/-- Body of the first loop of `step`: `_v[i] += dt * _f[i] * _w[i]`,
`_x_next[i] = _x[i] + dt * _v[i]`. -/
def predict (dt : K) (s : PbdSolver K) (i : Nat) : PbdSolver K :=
  let v1 := s._v.set i (s._v.getD i 0 + (Vec3.smul dt (s._f.getD i 0)).mulS (s._w.getD i 0))
  { s with _v := v1, _x_next := s._x_next.set i (s._x.getD i 0 + Vec3.smul dt (v1.getD i 0)) }

/-- One pass `for (auto constraint : _constraints) constraint->project(_x_next, _x, _w, dt)`:
every constraint sees the positions the earlier ones of the pass left. -/
def projectAll (sqrt acos : K → K) (x_last : List (Vec3 K)) (w : List K) (dt : K) :
    List (Constraint K) → List (Vec3 K) → List (Constraint K) × List (Vec3 K)
  | [], x => ([], x)
  | c :: cs, x =>
    let r := Constraint.project sqrt acos c x x_last w dt
    let rs := projectAll sqrt acos x_last w dt cs r.2
    (r.1 :: rs.1, rs.2)

/-- Body of the loop `for (int i = 0; i < _Ns; ++i)` of `step`: one pass over the constraints. -/
def solvePass (sqrt acos : K → K) (dt : K) (s : PbdSolver K) : PbdSolver K :=
  let r := projectAll sqrt acos s._x s._w dt s._constraints s._x_next
  { s with _constraints := r.1, _x_next := r.2 }

/-- Body of the loop over `_x_next` of `step`: `x[1] = glm::clamp(x[1], 0.0001f - 1.f, 1.f)`. -/
def clampFloor (p : Vec3 K) : Vec3 K := { p with y := clamp p.y (1 / 10000 - 1) 1 }

/-- Body of the last loop of `step`: `_v[i] = (_x_next[i] - _x[i]) / dt`, `_x[i] = _x_next[i]`. -/
def commit (dt : K) (s : PbdSolver K) (i : Nat) : PbdSolver K :=
  { s with _v := s._v.set i ((s._x_next.getD i 0 - s._x.getD i 0).divS dt),
           _x := s._x.set i (s._x_next.getD i 0) }

/-- The method `PbdSolver::step`. -/
def step (sqrt acos : K → K) (tUintBits : Nat) (s : PbdSolver K) (dt : K) : PbdSolver K :=
  let s1 := (List.range s._vertex_number).foldl (predict dt) s
  let s2 := { s1 with _constraints := s1._constraints.map Constraint.reset }
  let s3 := (List.range s2._Ns).foldl (fun st _ => solvePass sqrt acos dt st) s2
  let s4 := { s3 with _x_next := s3._x_next.map clampFloor }
  let s5 := (List.range s4._vertex_number).foldl (commit dt) s4
  { s5 with _step := (s5._step + 1) % 2 ^ tUintBits, _sim_t := s5._sim_t + dt }

/-- The state of `step` after its first three loops (prediction, `reset`, the `_Ns` passes),
before the floor clamp. -/
def stepRelax (sqrt acos : K → K) (s : PbdSolver K) (dt : K) : PbdSolver K :=
  let s1 := (List.range s._vertex_number).foldl (predict dt) s
  let s2 := { s1 with _constraints := s1._constraints.map Constraint.reset }
  (List.range s2._Ns).foldl (fun st _ => solvePass sqrt acos dt st) s2

/-- Successive calls `step(dt)`, one per element of `dts`, in order. -/
def steps (sqrt acos : K → K) (tUintBits : Nat) (s : PbdSolver K) (dts : List K) : PbdSolver K :=
  dts.foldl (step sqrt acos tUintBits) s

/-- Example state with a single particle at height `h` with velocity `vel`, inverse mass `0` and
no force, pinned by one Attach constraint at its own position; the solver makes `ns` passes. -/
def examplePinned (ns : Nat) (h : K) (vel : Vec3 K) : PbdSolver K :=
  { new ns 0 10 0 ⟨0, 0, 0⟩ with
    _x := [⟨0, h, 0⟩], _x_next := [⟨0, h, 0⟩], _v := [vel], _f := [0], _w := [0],
    _vertex_number := 1, _constraints := [ConstraintAttach.mk 0 ⟨0, h, 0⟩] }

/-- Example state with a single free particle (inverse mass `1`) at `p` with velocity `vel` and
force `force`, no constraint; the solver makes `ns` passes. -/
def exampleFree (ns : Nat) (p vel force : Vec3 K) : PbdSolver K :=
  { new ns 0 10 0 ⟨0, 0, 0⟩ with
    _x := [p], _x_next := [p], _v := [vel], _f := [force], _w := [1], _vertex_number := 1 }

end PbdSolver

/-! ## Reference formulas and auxiliary notions -/

section Reference

variable {K : Type} [LinearOrderedField K]

/-- The value `d` of `ConstraintBend::project`: the dot product of the two unit triangle normals
`n1 = normalize(p2 × p3)`, `n2 = normalize(p2 × p4)`, clamped to `[-1, 1]`. -/
def ConstraintBend.cosAngle (sqrt : K → K) (x : List (Vec3 K)) (i1 i2 i3 i4 : Nat) : K :=
  let p2 := x.getD i2 0 - x.getD i1 0
  let p3 := x.getD i3 0 - x.getD i1 0
  let p4 := x.getD i4 0 - x.getD i1 0
  let n1 := Vec3.normalize sqrt (Vec3.cross p2 p3)
  let n2 := Vec3.normalize sqrt (Vec3.cross p2 p4)
  clamp (Vec3.dot n1 n2) (-1) 1

/-- The vectors `(q1, q2, q3, q4)` of `ConstraintBend::project`. -/
def ConstraintBend.gradients (sqrt : K → K) (x : List (Vec3 K)) (i1 i2 i3 i4 : Nat) :
    Vec3 K × Vec3 K × Vec3 K × Vec3 K :=
  let p2 := x.getD i2 0 - x.getD i1 0
  let p3 := x.getD i3 0 - x.getD i1 0
  let p4 := x.getD i4 0 - x.getD i1 0
  let n1 := Vec3.normalize sqrt (Vec3.cross p2 p3)
  let n2 := Vec3.normalize sqrt (Vec3.cross p2 p4)
  let p2xp3_len := Vec3.length sqrt (Vec3.cross p2 p3) + 1 / 100000
  let p2xp4_len := Vec3.length sqrt (Vec3.cross p2 p4) + 1 / 100000
  let d := clamp (Vec3.dot n1 n2) (-1) 1
  let q3 := ((Vec3.cross p2 n2) + (Vec3.cross n1 p2).mulS d).divS p2xp3_len
  let q4 := ((Vec3.cross p2 n1) + (Vec3.cross n2 p2).mulS d).divS p2xp4_len
  let q2 := (-((Vec3.cross p3 n2) + (Vec3.cross n1 p3).mulS d)).divS p2xp3_len
    - ((Vec3.cross p4 n1) + (Vec3.cross n2 p4).mulS d).divS p2xp4_len
  let q1 := -q2 - q3 - q4
  (q1, q2, q3, q4)

/-- The two `return` tests of `ConstraintBend::project` taken together: a normal of length
`is_zero`, or `is_zero(phi - _phi0)`, or `is_zero(1 - d * d)`. -/
def ConstraintBend.skips (sqrt acos : K → K) (phi0 : K) (x : List (Vec3 K))
    (i1 i2 i3 i4 : Nat) : Bool :=
  let p2 := x.getD i2 0 - x.getD i1 0
  let p3 := x.getD i3 0 - x.getD i1 0
  let p4 := x.getD i4 0 - x.getD i1 0
  let n1 := Vec3.normalize sqrt (Vec3.cross p2 p3)
  let n2 := Vec3.normalize sqrt (Vec3.cross p2 p4)
  let d := ConstraintBend.cosAngle sqrt x i1 i2 i3 i4
  (Constraint.is_zero (Vec3.length sqrt n1) || Constraint.is_zero (Vec3.length sqrt n2)) ||
    (Constraint.is_zero (acos d - phi0) || Constraint.is_zero (1 - d * d))

/-- Reference for the Stretch projection, written from the specification: with
`C = dist - restLength`, `n = (x_i - x_j) / dist`, `complianceTilde = compliance / dt²` and
`gamma = complianceTilde * dampingCoefficient * dt`, nothing changes if `|C| ≤ 1e-5`; otherwise
`dlambda = (-C - complianceTilde*lambda - gamma*(n·(x_i - xlast_i) - n·(x_j - xlast_j)))
/ ((1 + gamma)*(w_i + w_j) + complianceTilde)`, `x_i += w_i*dlambda*n`, `x_j -= w_j*dlambda*n`,
`lambda += dlambda`. -/
def stretchReference (sqrt : K → K) (c : Constraint K) (i j : Nat) (restLength : K)
    (x x_last : List (Vec3 K)) (w : List K) (dt : K) : Constraint K × List (Vec3 K) :=
  let xi := x.getD i 0
  let xj := x.getD j 0
  let dist := Vec3.length sqrt (xi - xj)
  let C := dist - restLength
  let n := (xi - xj).divS dist
  let complianceTilde := c._compliance / dt ^ 2
  let gamma := complianceTilde * c._damp_coef * dt
  if |C| ≤ 1 / 100000 then (c, x) else
  let dlambda := (-C - complianceTilde * c._lambda
      - gamma * (Vec3.dot n (xi - x_last.getD i 0) - Vec3.dot n (xj - x_last.getD j 0))) /
    ((1 + gamma) * (w.getD i 0 + w.getD j 0) + complianceTilde)
  ({ c with _lambda := c._lambda + dlambda },
    (x.set i (xi + Vec3.smul (w.getD i 0 * dlambda) n)).set j
      (xj - Vec3.smul (w.getD j 0 * dlambda) n))

/-- The `+=` of the Bend references: `x_k += w_k * dlambda * gradC_k`. -/
def addCorrection (x : List (Vec3 K)) (w : List K) (k : Nat) (dlambda : K) (gradC : Vec3 K) :
    List (Vec3 K) :=
  x.set k (x.getD k 0 + Vec3.smul (w.getD k 0 * dlambda) gradC)

/-- The value `dlambda` of `ConstraintBend::project` (from `tReal weighted_sum = 1e-6` to the
assignment of `dlambda`), as a function of the values `d`, `phi` and `q1 .. q4` computed
before. -/
def ConstraintBend.dlambda (sqrt : K → K) (c : Constraint K) (i1 i2 i3 i4 : Nat)
    (phi0 phi d : K) (q1 q2 q3 q4 : Vec3 K) (x x_last : List (Vec3 K)) (w : List K) (dt : K) :
    K :=
  let weighted_sum := (1 / 1000000 + w.getD i1 0 * Vec3.dot q1 q1 + w.getD i2 0 * Vec3.dot q2 q2
    + w.getD i3 0 * Vec3.dot q3 q3 + w.getD i4 0 * Vec3.dot q4 q4) / (1 - d * d)
  let compliance_tilda := c._compliance / (dt * dt)
  let gamma := compliance_tilda * c._damp_coef * dt
  let vel1 := x.getD i1 0 - x_last.getD i1 0
  let vel2 := x.getD i2 0 - x_last.getD i2 0
  let vel3 := x.getD i3 0 - x_last.getD i3 0
  let vel4 := x.getD i4 0 - x_last.getD i4 0
  let denom := sqrt (1 - d * d)
  let damp_term := (0 + Vec3.dot q1 vel1 + Vec3.dot q2 vel2 + Vec3.dot q3 vel3
    + Vec3.dot q4 vel4) * (gamma / denom)
  (phi0 - phi - compliance_tilda * c._lambda - damp_term) /
    ((1 + gamma) * weighted_sum + compliance_tilda)

/-- The four position updates `x[_ik] += w[_ik] * dlambda * qk / denom` that end
`ConstraintBend::project`, as a function of `d`, `dlambda` and `q1 .. q4`. -/
def ConstraintBend.displace (sqrt : K → K) (i1 i2 i3 i4 : Nat) (d dlambda : K)
    (q1 q2 q3 q4 : Vec3 K) (x : List (Vec3 K)) (w : List K) : List (Vec3 K) :=
  let denom := sqrt (1 - d * d)
  let xa := x.set i1 (x.getD i1 0 + (Vec3.smul (w.getD i1 0 * dlambda) q1).divS denom)
  let xb := xa.set i2 (xa.getD i2 0 + (Vec3.smul (w.getD i2 0 * dlambda) q2).divS denom)
  let xc := xb.set i3 (xb.getD i3 0 + (Vec3.smul (w.getD i3 0 * dlambda) q3).divS denom)
  xc.set i4 (xc.getD i4 0 + (Vec3.smul (w.getD i4 0 * dlambda) q4).divS denom)

/-- The part of `ConstraintBend::project` after its two `return` tests: `dlambda` is computed,
the four positions are updated and `_lambda += dlambda`. -/
def ConstraintBend.update (sqrt : K → K) (c : Constraint K) (i1 i2 i3 i4 : Nat)
    (phi0 phi d : K) (q1 q2 q3 q4 : Vec3 K) (x x_last : List (Vec3 K)) (w : List K) (dt : K) :
    Constraint K × List (Vec3 K) :=
  ({ c with _lambda := c._lambda
      + ConstraintBend.dlambda sqrt c i1 i2 i3 i4 phi0 phi d q1 q2 q3 q4 x x_last w dt },
    ConstraintBend.displace sqrt i1 i2 i3 i4 d
      (ConstraintBend.dlambda sqrt c i1 i2 i3 i4 phi0 phi d q1 q2 q3 q4 x x_last w dt)
      q1 q2 q3 q4 x w)

/-- The `dlambda` of the Bend projection as the specification states it, for given `d` and
`q1 .. q4`: with `C = restAngle - arccos(d)` and `gradC_k = q_k / sqrt(1 - d²)`,
`dlambda = (-C - complianceTilde*lambda - gamma*Σ_k gradC_k·(x_k - xlast_k))
/ ((1 + gamma)*Σ_k w_k*|gradC_k|² + complianceTilde)`. -/
def bendReferenceClaimedDlambda (sqrt acos : K → K) (c : Constraint K) (i1 i2 i3 i4 : Nat)
    (restAngle d : K) (q1 q2 q3 q4 : Vec3 K) (x x_last : List (Vec3 K)) (w : List K) (dt : K) :
    K :=
  let g1 := q1.divS (sqrt (1 - d ^ 2))
  let g2 := q2.divS (sqrt (1 - d ^ 2))
  let g3 := q3.divS (sqrt (1 - d ^ 2))
  let g4 := q4.divS (sqrt (1 - d ^ 2))
  let C := restAngle - acos d
  let complianceTilde := c._compliance / dt ^ 2
  let gamma := complianceTilde * c._damp_coef * dt
  (-C - complianceTilde * c._lambda
      - gamma * (Vec3.dot g1 (x.getD i1 0 - x_last.getD i1 0)
        + Vec3.dot g2 (x.getD i2 0 - x_last.getD i2 0)
        + Vec3.dot g3 (x.getD i3 0 - x_last.getD i3 0)
        + Vec3.dot g4 (x.getD i4 0 - x_last.getD i4 0))) /
    ((1 + gamma) * (w.getD i1 0 * Vec3.dot g1 g1 + w.getD i2 0 * Vec3.dot g2 g2
        + w.getD i3 0 * Vec3.dot g3 g3 + w.getD i4 0 * Vec3.dot g4 g4) + complianceTilde)

/-- The `dlambda` of the Bend projection as the code computes it, for given `d` and `q1 .. q4`:
as `bendReferenceClaimedDlambda`, but the constraint value enters with the sign `+C` and the
weighted sum carries the regulariser `1e-6 / (1 - d²)`:
`dlambda = (C - complianceTilde*lambda - gamma*Σ_k gradC_k·(x_k - xlast_k))
/ ((1 + gamma)*(Σ_k w_k*|gradC_k|² + 1e-6/(1 - d²)) + complianceTilde)`. -/
def bendReferenceDlambda (sqrt acos : K → K) (c : Constraint K) (i1 i2 i3 i4 : Nat)
    (restAngle d : K) (q1 q2 q3 q4 : Vec3 K) (x x_last : List (Vec3 K)) (w : List K) (dt : K) :
    K :=
  let g1 := q1.divS (sqrt (1 - d ^ 2))
  let g2 := q2.divS (sqrt (1 - d ^ 2))
  let g3 := q3.divS (sqrt (1 - d ^ 2))
  let g4 := q4.divS (sqrt (1 - d ^ 2))
  let C := restAngle - acos d
  let complianceTilde := c._compliance / dt ^ 2
  let gamma := complianceTilde * c._damp_coef * dt
  (C - complianceTilde * c._lambda
      - gamma * (Vec3.dot g1 (x.getD i1 0 - x_last.getD i1 0)
        + Vec3.dot g2 (x.getD i2 0 - x_last.getD i2 0)
        + Vec3.dot g3 (x.getD i3 0 - x_last.getD i3 0)
        + Vec3.dot g4 (x.getD i4 0 - x_last.getD i4 0))) /
    ((1 + gamma) * (w.getD i1 0 * Vec3.dot g1 g1 + w.getD i2 0 * Vec3.dot g2 g2
        + w.getD i3 0 * Vec3.dot g3 g3 + w.getD i4 0 * Vec3.dot g4 g4
        + 1 / 1000000 / (1 - d ^ 2)) + complianceTilde)

/-- The position updates of the Bend references: `x_k += w_k*dlambda*gradC_k` for the four
particles, with `gradC_k = q_k / sqrt(1 - d²)`. -/
def bendReferenceDisplace (sqrt : K → K) (i1 i2 i3 i4 : Nat) (d dlambda : K)
    (q1 q2 q3 q4 : Vec3 K) (x : List (Vec3 K)) (w : List K) : List (Vec3 K) :=
  addCorrection (addCorrection (addCorrection (addCorrection x w i1 dlambda
    (q1.divS (sqrt (1 - d ^ 2)))) w i2 dlambda (q2.divS (sqrt (1 - d ^ 2))))
    w i3 dlambda (q3.divS (sqrt (1 - d ^ 2)))) w i4 dlambda (q4.divS (sqrt (1 - d ^ 2)))

/-- Reference for the Bend projection as the specification states it, for a configuration where
no skip test applies, with `d` and `q1 .. q4` the values the projection computes: `dlambda` is
`bendReferenceClaimedDlambda`, then `x_k += w_k*dlambda*gradC_k` for the four particles and
`lambda += dlambda`. -/
def bendReferenceClaimed (sqrt acos : K → K) (c : Constraint K) (i1 i2 i3 i4 : Nat)
    (restAngle : K) (x x_last : List (Vec3 K)) (w : List K) (dt : K) :
    Constraint K × List (Vec3 K) :=
  let d := ConstraintBend.cosAngle sqrt x i1 i2 i3 i4
  let q := ConstraintBend.gradients sqrt x i1 i2 i3 i4
  let dlambda := bendReferenceClaimedDlambda sqrt acos c i1 i2 i3 i4 restAngle d
    q.1 q.2.1 q.2.2.1 q.2.2.2 x x_last w dt
  ({ c with _lambda := c._lambda + dlambda },
    bendReferenceDisplace sqrt i1 i2 i3 i4 d dlambda q.1 q.2.1 q.2.2.1 q.2.2.2 x w)

/-- Reference for the Bend projection as the code computes it, for a configuration where no skip
test applies: as `bendReferenceClaimed` with `bendReferenceDlambda` for `dlambda`. -/
def bendReference (sqrt acos : K → K) (c : Constraint K) (i1 i2 i3 i4 : Nat)
    (restAngle : K) (x x_last : List (Vec3 K)) (w : List K) (dt : K) :
    Constraint K × List (Vec3 K) :=
  let d := ConstraintBend.cosAngle sqrt x i1 i2 i3 i4
  let q := ConstraintBend.gradients sqrt x i1 i2 i3 i4
  let dlambda := bendReferenceDlambda sqrt acos c i1 i2 i3 i4 restAngle d
    q.1 q.2.1 q.2.2.1 q.2.2.2 x x_last w dt
  ({ c with _lambda := c._lambda + dlambda },
    bendReferenceDisplace sqrt i1 i2 i3 i4 d dlambda q.1 q.2.1 q.2.2.1 q.2.2.2 x w)

/-- The divisors of the divisions that `ConstraintStretch::project` evaluates, in the order of
evaluation: `dt * dt` (for `compliance_tilda`), `dist` (for `n = diff / dist`) and the denominator
of `dlambda`; none when the function returns at the `is_zero` test. -/
def ConstraintStretch.divisors (sqrt : K → K) (c : Constraint K) (i j : Nat) (d : K)
    (x : List (Vec3 K)) (w : List K) (dt : K) : List K :=
  let diff := x.getD i 0 - x.getD j 0
  let dist := Vec3.length sqrt diff
  if Constraint.is_zero (dist - d) then [] else
  let compliance_tilda := c._compliance / (dt * dt)
  let gamma := compliance_tilda * c._damp_coef * dt
  [dt * dt, dist, (1 + gamma) * (w.getD i 0 + w.getD j 0) + compliance_tilda]

/-- The particle arrays have room for `_vertex_number` particles: `_x` and `_x_next` have exactly
that many entries (as `initSim` leaves them), `_v`, `_f`, `_w` at least that many. -/
def PbdSolver.WellSized (s : PbdSolver K) : Prop :=
  s._x.length = s._vertex_number ∧ s._x_next.length = s._vertex_number ∧
    s._vertex_number ≤ s._v.length ∧ s._vertex_number ≤ s._f.length ∧
    s._vertex_number ≤ s._w.length

end Reference

/-- Example configuration: the flat quad `(0,0,0), (1,0,0), (0,0,2), (0,0,-3)` in the plane
`y = 0`; the apexes `2` and `3` lie on opposite sides of the edge `(0, 1)`. -/
def exampleFlatQuad (K : Type) [LinearOrderedField K] : List (Vec3 K) :=
  [⟨0, 0, 0⟩, ⟨1, 0, 0⟩, ⟨0, 0, 2⟩, ⟨0, 0, -3⟩]

/-- Example configuration: the two perpendicular triangles `(0,0,0), (1,0,0), (0,h,0)` and
`(0,0,0), (1,0,0), (0,0,1)` on the shared edge `(0, 1)`; the first has area `h / 2`. -/
def examplePerpQuad (K : Type) [LinearOrderedField K] (h : K) : List (Vec3 K) :=
  [⟨0, 0, 0⟩, ⟨1, 0, 0⟩, ⟨0, h, 0⟩, ⟨0, 0, 1⟩]

/-! ## Mesh edges and adjacent triangles -/

/-- The three indices of the triangle are pairwise different. -/
def UVec3.Distinct (t : UVec3) : Prop := t.x ≠ t.y ∧ t.y ≠ t.z ∧ t.z ≠ t.x

/-- The three sides of a triangle, as edges, in the order `initSim` visits them. -/
def triangleSides (t : UVec3) : List Edge := [mkEdge t.x t.y, mkEdge t.y t.z, mkEdge t.z t.x]

/-- The triangles of the list that have `e` as a side (the triangles adjacent to `e`). -/
def adjacentTriangles (idx : List UVec3) (e : Edge) : List UVec3 :=
  idx.filter (fun t => decide (e ∈ triangleSides t))

/-- The constraint is a `ConstraintBend`. -/
def Constraint.isBend {K : Type} (c : Constraint K) : Bool :=
  match c.kind with
  | .bend _ _ _ _ _ => true
  | _ => false

/-- The pairs `(edge, opposite vertex)` of one triangle, in the order the loop `for i < 3` of
`initSim` visits them. -/
def sidePushes (t : UVec3) : List (Edge × Nat) :=
  [(mkEdge t.x t.y, t.z), (mkEdge t.y t.z, t.x), (mkEdge t.z t.x, t.y)]

/-- The two statements `connections.insert(edge)` and `tri_neighbors[edge].push_back(v)` for one
pair `(edge, v)`. -/
def pushSide (st : List Edge × List (Edge × List Nat)) (p : Edge × Nat) :
    List Edge × List (Edge × List Nat) :=
  (setInsert p.1 st.1, mapPushBack p.1 p.2 st.2)

/-- Example mesh: the grid of `30 x 12` vertices `(i mod 30, 0, i / 30)`, `i < 360`, of which one
cell is cut into the triangles `(0, 1, 30)` and `(1, 31, 30)` along the diagonal `(1, 30)`. -/
def exampleGridMesh (K : Type) [LinearOrderedField K] : Mesh K :=
  { _vertexPositions :=
      (List.range 360).map (fun i => ⟨((i % 30 : Nat) : K), 0, ((i / 30 : Nat) : K)⟩),
    _vertexNormals := (List.range 360).map (fun _ => ⟨0, 1, 0⟩),
    _triangleIndices := [⟨0, 1, 30⟩, ⟨1, 31, 30⟩] }

/-! ## The constraints `initSim` builds -/

/-- The values of `index` in the loops `for i < 16`, `for j < 9` of "a table", in the order of
the iterations. -/
def pinList : List Nat :=
  (List.range 16).flatMap (fun i => (List.range 9).map (PbdSolver.pinIndex i))

/-- The constraint is a `ConstraintAttach`. -/
def Constraint.isAttach {K : Type} (c : Constraint K) : Bool :=
  match c.kind with
  | .attach _ _ => true
  | _ => false

/-- The constraint is a `ConstraintStretch`. -/
def Constraint.isStretch {K : Type} (c : Constraint K) : Bool :=
  match c.kind with
  | .stretch _ _ _ => true
  | _ => false

/-- The constraint that the loop "3. stretch" of `initSim` builds for `edge` on the positions
`x` with the compliance `k`. -/
def stretchFor {K : Type} [LinearOrderedField K] (sqrt : K → K) (x : List (Vec3 K)) (k : K)
    (edge : Edge) : Constraint K :=
  ConstraintStretch.mk (edge.getD 0 0) (edge.getD 1 0)
    (Vec3.length sqrt (x.getD (edge.getD 0 0) 0 - x.getD (edge.getD 1 0) 0)) k (9 / 10)

/-- The constraint that the loop "4. bend" of `initSim` builds for `edge` with the opposite
vertices `nb = tri_neighbors[edge]` on the positions `x` with the compliance `k`. -/
def bendFor {K : Type} [LinearOrderedField K] (sqrt acos : K → K) (x : List (Vec3 K)) (k : K)
    (edge : Edge) (nb : List Nat) : Constraint K :=
  ConstraintBend.mk (edge.getD 0 0) (edge.getD 1 0) (nb.getD 0 0) (nb.getD 1 0)
    (PbdSolver.bendRestAngle sqrt acos x (edge.getD 0 0) (edge.getD 1 0) (nb.getD 0 0)
      (nb.getD 1 0)) k (5 / 100)

/-- The test `_w[i] == 0 && _w[j] == 0` of the loop "3. stretch" for `edge`. -/
def bothPinned {K : Type} [LinearOrderedField K] (w : List K) (edge : Edge) : Bool :=
  decide (w.getD (edge.getD 0 0) 0 = 0 ∧ w.getD (edge.getD 1 0) 0 = 0)

/-- The test `_w[i1] == 0 && _w[i2] == 0 && _w[i3] == 0 && _w[i4] == 0` of the loop "4. bend"
for `edge` with the opposite vertices `nb`. -/
def allPinned {K : Type} [LinearOrderedField K] (w : List K) (edge : Edge) (nb : List Nat) :
    Bool :=
  decide (w.getD (edge.getD 0 0) 0 = 0 ∧ w.getD (edge.getD 1 0) 0 = 0 ∧
    w.getD (nb.getD 0 0) 0 = 0 ∧ w.getD (nb.getD 1 0) 0 = 0)

/-- The third vertex of triangle `t` with respect to its side `e`, as the specification words
it: the corner of `t` that is not an end of `e`. -/
def oppositeVertex (t : UVec3) (e : Edge) : Nat :=
  if t.x ∉ e then t.x else if t.y ∉ e then t.y else t.z

/-! ## Mesh generators called by the scene -/

/-- Body of the inner loop of `Mesh::addCloth` for the grid point `(x_i, z_i)`: one vertex and
one normal are appended, and two triangles if `x_i > 0 && z_i > 0`. The texture coordinates are
left out, as in `Mesh`. -/
def Mesh.addClothVertex {K : Type} [LinearOrderedField K] (rz : Nat)
    (start_x start_z x_step z_step : K) (x_i : Nat) (m : Mesh K) (z_i : Nat) : Mesh K :=
  let pos := m._vertexPositions ++
    [⟨start_x + x_step * (x_i : K), 0, start_z + z_step * (z_i : K)⟩]
  let size := pos.length
  { _vertexPositions := pos,
    _vertexNormals := m._vertexNormals ++ [⟨0, 1, 0⟩],
    _triangleIndices :=
      if 0 < x_i ∧ 0 < z_i then
        m._triangleIndices ++ [⟨size - 2 - rz, size - 1 - rz, size - 2⟩,
          ⟨size - 1 - rz, size - 1, size - 2⟩]
      else m._triangleIndices }

/-- The method `Mesh::addCloth(rx, rz, w, h)`, for `rx, rz ≥ 1`. -/
def Mesh.addCloth {K : Type} [LinearOrderedField K] (rx rz : Nat) (w h : K) (m : Mesh K) :
    Mesh K :=
  let start_x := -(1 / 2) * w
  let start_z := -(1 / 2) * h
  let x_step := w / ((rx - 1 : Nat) : K)
  let z_step := h / ((rz - 1 : Nat) : K)
  (List.range rx).foldl
    (fun m1 x_i => (List.range rz).foldl
      (Mesh.addClothVertex rz start_x start_z x_step z_step x_i) m1) m

/-- The method `Mesh::addCube(h)`: eight vertices, twelve triangles and six normals are
appended. -/
def Mesh.addCube {K : Type} [LinearOrderedField K] (h : K) (m : Mesh K) : Mesh K :=
  let a := 1 / 2 * h
  let i_cur := m._vertexPositions.length
  { _vertexPositions := m._vertexPositions ++
      [⟨a, a, a⟩, ⟨a, a, -a⟩, ⟨-a, a, -a⟩, ⟨-a, a, a⟩,
        ⟨a, -a, a⟩, ⟨a, -a, -a⟩, ⟨-a, -a, -a⟩, ⟨-a, -a, a⟩],
    _vertexNormals := m._vertexNormals ++
      [⟨0, 1, 0⟩, ⟨0, 0, 1⟩, ⟨1, 0, 0⟩, ⟨0, -1, 0⟩, ⟨-1, 0, 0⟩, ⟨0, 0, -1⟩],
    _triangleIndices := m._triangleIndices ++
      [⟨i_cur, i_cur + 1, i_cur + 3⟩, ⟨i_cur + 1, i_cur + 2, i_cur + 3⟩,
        ⟨i_cur, i_cur + 7, i_cur + 4⟩, ⟨i_cur, i_cur + 3, i_cur + 7⟩,
        ⟨i_cur, i_cur + 4, i_cur + 1⟩, ⟨i_cur + 4, i_cur + 5, i_cur + 1⟩,
        ⟨i_cur + 4, i_cur + 7, i_cur + 5⟩, ⟨i_cur + 5, i_cur + 7, i_cur + 6⟩,
        ⟨i_cur + 7, i_cur + 3, i_cur + 6⟩, ⟨i_cur + 3, i_cur + 2, i_cur + 6⟩,
        ⟨i_cur + 5, i_cur + 6, i_cur + 1⟩, ⟨i_cur + 6, i_cur + 2, i_cur + 1⟩] }

/-- The mesh `cloth` that `Scene::resetSim` hands to `initSim`: `addCloth(15, 30, 0.6f, 1.2f)`
on the object `newMesh` that `std::make_shared<Mesh>()` returns (the class declaration `Mesh.h`
is not part of the sources, so the new object is a parameter). The call `cloth->init()` fills
GPU buffers only. -/
def resetSimCloth {K : Type} [LinearOrderedField K] (newMesh : Mesh K) : Mesh K :=
  Mesh.addCloth 15 30 (6 / 10) (12 / 10) newMesh

/-! ## The divisions that the projections and `step` evaluate -/

section Divisors

variable {K : Type} [LinearOrderedField K]

/-- The divisors of the divisions that `ConstraintBend::project` evaluates, each once, in the
order of first use: the two square roots under `glm::normalize` (`inversesqrt` is `1 / sqrt`);
then, when the function passes its two `return` tests, `p2xp3_len`, `p2xp4_len`, `1 - d * d`
(for `weighted_sum`), `dt * dt` (for `compliance_tilda`), `denom` and the denominator of
`dlambda`. -/
def ConstraintBend.divisors (sqrt acos : K → K) (c : Constraint K) (i1 i2 i3 i4 : Nat)
    (phi0 : K) (x : List (Vec3 K)) (w : List K) (dt : K) : List K :=
  let p2 := x.getD i2 0 - x.getD i1 0
  let p3 := x.getD i3 0 - x.getD i1 0
  let p4 := x.getD i4 0 - x.getD i1 0
  let n1 := Vec3.normalize sqrt (Vec3.cross p2 p3)
  let n2 := Vec3.normalize sqrt (Vec3.cross p2 p4)
  let p2xp3_len := Vec3.length sqrt (Vec3.cross p2 p3) + 1 / 100000
  let p2xp4_len := Vec3.length sqrt (Vec3.cross p2 p4) + 1 / 100000
  let normalized := [sqrt (Vec3.dot (Vec3.cross p2 p3) (Vec3.cross p2 p3)),
    sqrt (Vec3.dot (Vec3.cross p2 p4) (Vec3.cross p2 p4))]
  if Constraint.is_zero (Vec3.length sqrt n1) || Constraint.is_zero (Vec3.length sqrt n2) then
    normalized
  else
  let d := clamp (Vec3.dot n1 n2) (-1) 1
  let phi := acos d
  if Constraint.is_zero (phi - phi0) || Constraint.is_zero (1 - d * d) then normalized else
  let q3 := ((Vec3.cross p2 n2) + (Vec3.cross n1 p2).mulS d).divS p2xp3_len
  let q4 := ((Vec3.cross p2 n1) + (Vec3.cross n2 p2).mulS d).divS p2xp4_len
  let q2 := (-((Vec3.cross p3 n2) + (Vec3.cross n1 p3).mulS d)).divS p2xp3_len
    - ((Vec3.cross p4 n1) + (Vec3.cross n2 p4).mulS d).divS p2xp4_len
  let q1 := -q2 - q3 - q4
  let weighted_sum := (1 / 1000000 + w.getD i1 0 * Vec3.dot q1 q1 + w.getD i2 0 * Vec3.dot q2 q2
    + w.getD i3 0 * Vec3.dot q3 q3 + w.getD i4 0 * Vec3.dot q4 q4) / (1 - d * d)
  let compliance_tilda := c._compliance / (dt * dt)
  let gamma := compliance_tilda * c._damp_coef * dt
  let denom := sqrt (1 - d * d)
  normalized ++ [p2xp3_len, p2xp4_len, 1 - d * d, dt * dt, denom,
    (1 + gamma) * weighted_sum + compliance_tilda]

/-- The divisors of the divisions that the call `constraint->project(x, x_last, w, dt)`
evaluates; `ConstraintAttach::project` divides nothing. -/
def Constraint.divisors (sqrt acos : K → K) (c : Constraint K) (x : List (Vec3 K)) (w : List K)
    (dt : K) : List K :=
  match c.kind with
  | .attach _ _ => []
  | .stretch i j d => ConstraintStretch.divisors sqrt c i j d x w dt
  | .bend i1 i2 i3 i4 phi0 => ConstraintBend.divisors sqrt acos c i1 i2 i3 i4 phi0 x w dt

/-- The divisors of the divisions that one pass over the constraints evaluates: those of each
`project` call, on the positions the earlier calls of the pass left. -/
def PbdSolver.projectAllDivisors (sqrt acos : K → K) (x_last : List (Vec3 K)) (w : List K)
    (dt : K) : List (Constraint K) → List (Vec3 K) → List K
  | [], _ => []
  | c :: cs, x =>
    Constraint.divisors sqrt acos c x w dt ++
      PbdSolver.projectAllDivisors sqrt acos x_last w dt cs
        (Constraint.project sqrt acos c x x_last w dt).2

/-- Body of the loop `for (int i = 0; i < _Ns; ++i)` of `step`, with the divisors met so far:
the divisors of the pass are appended and the pass is made. -/
def PbdSolver.solvePassDivisors (sqrt acos : K → K) (dt : K) (st : PbdSolver K × List K) :
    PbdSolver K × List K :=
  (PbdSolver.solvePass sqrt acos dt st.1,
    st.2 ++ PbdSolver.projectAllDivisors sqrt acos st.1._x st.1._w dt st.1._constraints
      st.1._x_next)

/-- The divisors of all the divisions that `step(dt)` evaluates: those of the `_Ns` passes over
the constraints, then `dt` once for every particle, from `_v[i] = (_x_next[i] - _x[i]) / dt` in
the last loop. The first loop, `reset` and the floor clamp divide nothing. -/
def PbdSolver.stepDivisors (sqrt acos : K → K) (s : PbdSolver K) (dt : K) : List K :=
  let s1 := (List.range s._vertex_number).foldl (PbdSolver.predict dt) s
  let s2 := { s1 with _constraints := s1._constraints.map Constraint.reset }
  let r := (List.range s2._Ns).foldl
    (fun st _ => PbdSolver.solvePassDivisors sqrt acos dt st) (s2, [])
  r.2 ++ List.replicate s._vertex_number dt

end Divisors

/-! ## The program in arithmetic with `NaN` and infinities

The exact model above has a total division (`x / 0 = 0`), so it follows the program only as long
as no division by zero is evaluated. The definitions of this part evaluate the same functions
over `IEEE K`, where a division by zero gives an infinity or `NaN` as in the program. -/

/-- A `tReal` value of IEEE-754 arithmetic: a finite number, `+Inf`, `-Inf` or `NaN`. Arithmetic
on finite numbers is exact (no rounding, no overflow). There is one zero; where the sign of a
zero decides a result (a non-zero number divided by zero), the zero counts as `+0`. -/
inductive IEEE (K : Type) where
  /-- A finite number. -/
  | fin (v : K)
  /-- The value `+Inf`. -/
  | pinf
  /-- The value `-Inf`. -/
  | ninf
  /-- The value `NaN`. -/
  | nan
  deriving DecidableEq, Repr

namespace IEEE

variable {K : Type} [LinearOrderedField K]

/-- Unary minus. -/
def neg : IEEE K → IEEE K
  | fin a => fin (-a)
  | pinf => ninf
  | ninf => pinf
  | nan => nan

/-- Addition: `Inf + (-Inf)` is `NaN`, and `NaN` propagates. -/
def add : IEEE K → IEEE K → IEEE K
  | fin a, fin b => fin (a + b)
  | fin _, pinf => pinf
  | fin _, ninf => ninf
  | pinf, fin _ => pinf
  | ninf, fin _ => ninf
  | pinf, pinf => pinf
  | ninf, ninf => ninf
  | _, _ => nan

/-- Subtraction, `a + (-b)`. -/
def sub (a b : IEEE K) : IEEE K := add a (neg b)

/-- The infinity with the sign of the finite number `a`, which is not zero. -/
def signedInf (a : K) : IEEE K := if 0 < a then pinf else ninf

/-- Multiplication: `0 * Inf` is `NaN`, and `NaN` propagates. -/
def mul : IEEE K → IEEE K → IEEE K
  | fin a, fin b => fin (a * b)
  | fin a, pinf => if a = 0 then nan else signedInf a
  | fin a, ninf => if a = 0 then nan else signedInf (-a)
  | pinf, fin b => if b = 0 then nan else signedInf b
  | ninf, fin b => if b = 0 then nan else signedInf (-b)
  | pinf, pinf => pinf
  | pinf, ninf => ninf
  | ninf, pinf => ninf
  | ninf, ninf => pinf
  | _, _ => nan

/-- Division: `0 / 0` and `Inf / Inf` are `NaN`, a non-zero number divided by zero is an infinity,
a finite number divided by an infinity is zero, and `NaN` propagates. -/
def div : IEEE K → IEEE K → IEEE K
  | fin a, fin b => if b = 0 then (if a = 0 then nan else signedInf a) else fin (a / b)
  | fin _, pinf => fin 0
  | fin _, ninf => fin 0
  | pinf, fin b => if 0 ≤ b then pinf else ninf
  | ninf, fin b => if 0 ≤ b then ninf else pinf
  | _, _ => nan

/-- The comparison `a <= b`: false when an operand is `NaN`. -/
def le : IEEE K → IEEE K → Bool
  | fin a, fin b => decide (a ≤ b)
  | fin _, pinf => true
  | ninf, fin _ => true
  | ninf, ninf => true
  | ninf, pinf => true
  | pinf, pinf => true
  | _, _ => false

/-- The comparison `a < b`: false when an operand is `NaN`. -/
def lt : IEEE K → IEEE K → Bool
  | fin a, fin b => decide (a < b)
  | fin _, pinf => true
  | ninf, fin _ => true
  | ninf, pinf => true
  | _, _ => false

instance : Zero (IEEE K) := ⟨fin 0⟩
instance : Neg (IEEE K) := ⟨neg⟩
instance : Add (IEEE K) := ⟨add⟩
instance : Sub (IEEE K) := ⟨sub⟩
instance : Mul (IEEE K) := ⟨mul⟩
instance : Div (IEEE K) := ⟨div⟩

/-- The square root: `NaN` on a negative number, on `-Inf` and on `NaN`. -/
def sqrt (sqrtK : K → K) : IEEE K → IEEE K
  | fin a => if a < 0 then nan else fin (sqrtK a)
  | pinf => pinf
  | _ => nan

/-- The function `std::acos`: `NaN` outside `[-1, 1]`. -/
def acos (acosK : K → K) : IEEE K → IEEE K
  | fin a => if -1 ≤ a ∧ a ≤ 1 then fin (acosK a) else nan
  | _ => nan

instance : Zero (Vec3 (IEEE K)) := ⟨⟨fin 0, fin 0, fin 0⟩⟩
instance : Add (Vec3 (IEEE K)) := ⟨fun a b => ⟨a.x + b.x, a.y + b.y, a.z + b.z⟩⟩
instance : Sub (Vec3 (IEEE K)) := ⟨fun a b => ⟨a.x - b.x, a.y - b.y, a.z - b.z⟩⟩
instance : Neg (Vec3 (IEEE K)) := ⟨fun a => ⟨-a.x, -a.y, -a.z⟩⟩

/-- Vector times scalar, `v * s`. -/
def mulS (a : Vec3 (IEEE K)) (s : IEEE K) : Vec3 (IEEE K) := ⟨a.x * s, a.y * s, a.z * s⟩

/-- Scalar times vector, `s * v`. -/
def smul (s : IEEE K) (a : Vec3 (IEEE K)) : Vec3 (IEEE K) := ⟨s * a.x, s * a.y, s * a.z⟩

/-- Vector divided by scalar, `v / s`. -/
def divS (a : Vec3 (IEEE K)) (s : IEEE K) : Vec3 (IEEE K) := ⟨a.x / s, a.y / s, a.z / s⟩

/-- The function `glm::dot`. -/
def dot (a b : Vec3 (IEEE K)) : IEEE K := a.x * b.x + a.y * b.y + a.z * b.z

/-- The function `glm::cross`. -/
def cross (a b : Vec3 (IEEE K)) : Vec3 (IEEE K) :=
  ⟨a.y * b.z - b.y * a.z, a.z * b.x - b.z * a.x, a.x * b.y - b.x * a.y⟩

/-- The function `glm::length`: `sqrt(dot(v, v))`. -/
def length (sqrtK : K → K) (a : Vec3 (IEEE K)) : IEEE K := sqrt sqrtK (dot a a)

/-- The function `glm::normalize`: `v * inversesqrt(dot(v, v))`, with `inversesqrt(s)` the
quotient `1 / sqrt(s)`. -/
def normalize (sqrtK : K → K) (a : Vec3 (IEEE K)) : Vec3 (IEEE K) :=
  mulS a (fin 1 / sqrt sqrtK (dot a a))

/-- The function `glm::max`: `(x < y) ? y : x`. -/
def max (x y : IEEE K) : IEEE K := if lt x y then y else x

/-- The function `glm::min`: `(y < x) ? y : x`. -/
def min (x y : IEEE K) : IEEE K := if lt y x then y else x

/-- The function `glm::clamp`: `min(max(x, lo), hi)`. -/
def clamp (x lo hi : IEEE K) : IEEE K := min (max x lo) hi

/-- The test `Constraint::is_zero`: `(x <= 1e-5) && (x >= -1e-5)`. -/
def is_zero (x : IEEE K) : Bool := le x (fin (1 / 100000)) && le (fin (-(1 / 100000))) x

/-- The method `Constraint::reset`: `_lambda = 0`. -/
def reset (c : Constraint (IEEE K)) : Constraint (IEEE K) := { c with _lambda := fin 0 }

/-- The method `ConstraintAttach::project`: `x[_i] = _p`. -/
def ConstraintAttach.project (c : Constraint (IEEE K)) (i : Nat) (p : Vec3 (IEEE K))
    (x : List (Vec3 (IEEE K))) : Constraint (IEEE K) × List (Vec3 (IEEE K)) :=
  (c, x.set i p)

/-- The method `ConstraintStretch::project`. -/
def ConstraintStretch.project (sqrtK : K → K) (c : Constraint (IEEE K)) (i j : Nat)
    (d : IEEE K) (x x_last : List (Vec3 (IEEE K))) (w : List (IEEE K)) (dt : IEEE K) :
    Constraint (IEEE K) × List (Vec3 (IEEE K)) :=
  let diff := x.getD i 0 - x.getD j 0
  let dist := length sqrtK diff
  if is_zero (dist - d) then (c, x) else
  let compliance_tilda := c._compliance / (dt * dt)
  let gamma := compliance_tilda * c._damp_coef * dt
  let n := divS diff dist
  let vel1 := x.getD i 0 - x_last.getD i 0
  let vel2 := x.getD j 0 - x_last.getD j 0
  let damp_term := gamma * (dot n vel1 + dot (-n) vel2)
  let dlambda := (-(dist - d) - compliance_tilda * c._lambda - damp_term) /
    ((fin 1 + gamma) * (w.getD i 0 + w.getD j 0) + compliance_tilda)
  let x1 := x.set i (x.getD i 0 + mulS (mulS n (w.getD i 0)) dlambda)
  let x2 := x1.set j (x1.getD j 0 + mulS (mulS (-n) (w.getD j 0)) dlambda)
  ({ c with _lambda := c._lambda + dlambda }, x2)

/-- The method `ConstraintBend::project`. -/
def ConstraintBend.project (sqrtK acosK : K → K) (c : Constraint (IEEE K))
    (i1 i2 i3 i4 : Nat) (phi0 : IEEE K) (x x_last : List (Vec3 (IEEE K))) (w : List (IEEE K))
    (dt : IEEE K) : Constraint (IEEE K) × List (Vec3 (IEEE K)) :=
  let p2 := x.getD i2 0 - x.getD i1 0
  let p3 := x.getD i3 0 - x.getD i1 0
  let p4 := x.getD i4 0 - x.getD i1 0
  let n1 := normalize sqrtK (cross p2 p3)
  let n2 := normalize sqrtK (cross p2 p4)
  let p2xp3_len := length sqrtK (cross p2 p3) + fin (1 / 100000)
  let p2xp4_len := length sqrtK (cross p2 p4) + fin (1 / 100000)
  if is_zero (length sqrtK n1) || is_zero (length sqrtK n2) then (c, x) else
  let d := clamp (dot n1 n2) (fin (-1)) (fin 1)
  let phi := acos acosK d
  if is_zero (phi - phi0) || is_zero (fin 1 - d * d) then (c, x) else
  let q3 := divS ((cross p2 n2) + mulS (cross n1 p2) d) p2xp3_len
  let q4 := divS ((cross p2 n1) + mulS (cross n2 p2) d) p2xp4_len
  let q2 := divS (-((cross p3 n2) + mulS (cross n1 p3) d)) p2xp3_len
    - divS ((cross p4 n1) + mulS (cross n2 p4) d) p2xp4_len
  let q1 := -q2 - q3 - q4
  let weighted_sum := (fin (1 / 1000000) + w.getD i1 0 * dot q1 q1 + w.getD i2 0 * dot q2 q2
    + w.getD i3 0 * dot q3 q3 + w.getD i4 0 * dot q4 q4) / (fin 1 - d * d)
  let compliance_tilda := c._compliance / (dt * dt)
  let gamma := compliance_tilda * c._damp_coef * dt
  let vel1 := x.getD i1 0 - x_last.getD i1 0
  let vel2 := x.getD i2 0 - x_last.getD i2 0
  let vel3 := x.getD i3 0 - x_last.getD i3 0
  let vel4 := x.getD i4 0 - x_last.getD i4 0
  let denom := sqrt sqrtK (fin 1 - d * d)
  let damp_term := (fin 0 + dot q1 vel1 + dot q2 vel2 + dot q3 vel3 + dot q4 vel4)
    * (gamma / denom)
  let dlambda := (phi0 - phi - compliance_tilda * c._lambda - damp_term) /
    ((fin 1 + gamma) * weighted_sum + compliance_tilda)
  let xa := x.set i1 (x.getD i1 0 + divS (smul (w.getD i1 0 * dlambda) q1) denom)
  let xb := xa.set i2 (xa.getD i2 0 + divS (smul (w.getD i2 0 * dlambda) q2) denom)
  let xc := xb.set i3 (xb.getD i3 0 + divS (smul (w.getD i3 0 * dlambda) q3) denom)
  let xd := xc.set i4 (xc.getD i4 0 + divS (smul (w.getD i4 0 * dlambda) q4) denom)
  ({ c with _lambda := c._lambda + dlambda }, xd)

/-- The virtual call `constraint->project(x, x_last, w, dt)`, dispatched on the dynamic type. -/
def Constraint.project (sqrtK acosK : K → K) (c : Constraint (IEEE K))
    (x x_last : List (Vec3 (IEEE K))) (w : List (IEEE K)) (dt : IEEE K) :
    Constraint (IEEE K) × List (Vec3 (IEEE K)) :=
  match c.kind with
  | .attach i p => ConstraintAttach.project c i p x
  | .stretch i j d => ConstraintStretch.project sqrtK c i j d x x_last w dt
  | .bend i1 i2 i3 i4 phi0 => ConstraintBend.project sqrtK acosK c i1 i2 i3 i4 phi0 x x_last w dt

/-- Body of the first loop of `step`: `_v[i] += dt * _f[i] * _w[i]`,
`_x_next[i] = _x[i] + dt * _v[i]`. -/
def predict (dt : IEEE K) (s : PbdSolver (IEEE K)) (i : Nat) : PbdSolver (IEEE K) :=
  let v1 := s._v.set i (s._v.getD i 0 + mulS (smul dt (s._f.getD i 0)) (s._w.getD i 0))
  { s with _v := v1, _x_next := s._x_next.set i (s._x.getD i 0 + smul dt (v1.getD i 0)) }

/-- One pass `for (auto constraint : _constraints) constraint->project(_x_next, _x, _w, dt)`. -/
def projectAll (sqrtK acosK : K → K) (x_last : List (Vec3 (IEEE K))) (w : List (IEEE K))
    (dt : IEEE K) : List (Constraint (IEEE K)) → List (Vec3 (IEEE K)) →
    List (Constraint (IEEE K)) × List (Vec3 (IEEE K))
  | [], x => ([], x)
  | c :: cs, x =>
    let r := Constraint.project sqrtK acosK c x x_last w dt
    let rs := projectAll sqrtK acosK x_last w dt cs r.2
    (r.1 :: rs.1, rs.2)

/-- Body of the loop `for (int i = 0; i < _Ns; ++i)` of `step`: one pass over the constraints. -/
def solvePass (sqrtK acosK : K → K) (dt : IEEE K) (s : PbdSolver (IEEE K)) :
    PbdSolver (IEEE K) :=
  let r := projectAll sqrtK acosK s._x s._w dt s._constraints s._x_next
  { s with _constraints := r.1, _x_next := r.2 }

/-- Body of the loop over `_x_next` of `step`: `x[1] = glm::clamp(x[1], 0.0001f - 1.f, 1.f)`. -/
def clampFloor (p : Vec3 (IEEE K)) : Vec3 (IEEE K) :=
  { p with y := clamp p.y (fin (1 / 10000 - 1)) (fin 1) }

/-- Body of the last loop of `step`: `_v[i] = (_x_next[i] - _x[i]) / dt`, `_x[i] = _x_next[i]`. -/
def commit (dt : IEEE K) (s : PbdSolver (IEEE K)) (i : Nat) : PbdSolver (IEEE K) :=
  { s with _v := s._v.set i (divS (s._x_next.getD i 0 - s._x.getD i 0) dt),
           _x := s._x.set i (s._x_next.getD i 0) }

/-- The method `PbdSolver::step`. -/
def step (sqrtK acosK : K → K) (tUintBits : Nat) (s : PbdSolver (IEEE K)) (dt : IEEE K) :
    PbdSolver (IEEE K) :=
  let s1 := (List.range s._vertex_number).foldl (predict dt) s
  let s2 := { s1 with _constraints := s1._constraints.map reset }
  let s3 := (List.range s2._Ns).foldl (fun st _ => solvePass sqrtK acosK dt st) s2
  let s4 := { s3 with _x_next := s3._x_next.map clampFloor }
  let s5 := (List.range s4._vertex_number).foldl (commit dt) s4
  { s5 with _step := (s5._step + 1) % 2 ^ tUintBits, _sim_t := s5._sim_t + dt }

/-- The vector of the exact model as a vector of finite IEEE values. -/
def ofVec3 (v : Vec3 K) : Vec3 (IEEE K) := ⟨fin v.x, fin v.y, fin v.z⟩

/-- The constraint of the exact model as a constraint of finite IEEE values. -/
def ofConstraint (c : Constraint K) : Constraint (IEEE K) :=
  { _lambda := fin c._lambda, _compliance := fin c._compliance, _damp_coef := fin c._damp_coef,
    kind := match c.kind with
      | .attach i p => .attach i (ofVec3 p)
      | .stretch i j d => .stretch i j (fin d)
      | .bend i1 i2 i3 i4 phi0 => .bend i1 i2 i3 i4 (fin phi0) }

/-- The solver state of the exact model as a state of finite IEEE values. -/
def ofSolver (s : PbdSolver K) : PbdSolver (IEEE K) :=
  { _x := s._x.map ofVec3, _x_next := s._x_next.map ofVec3, _v := s._v.map ofVec3,
    _f := s._f.map ofVec3, _idx := s._idx, _w := s._w.map fin,
    _vertex_number := s._vertex_number, _constraints := s._constraints.map ofConstraint,
    _g := ofVec3 s._g, _step := s._step, _sim_t := fin s._sim_t, _Ns := s._Ns,
    _kStretch := fin s._kStretch, _kBend := fin s._kBend, _kDamp := fin s._kDamp }

end IEEE

/-- Example state with two particles at `p` and `q` (velocity zero, inverse mass `1`, no force)
joined by one Stretch constraint of initial length `d`, compliance `k` and damping coefficient
`0.9`; the solver makes one pass. -/
def PbdSolver.exampleStretch {K : Type} [LinearOrderedField K] (p q : Vec3 K) (d k : K) :
    PbdSolver K :=
  { PbdSolver.new 1 k 10 0 ⟨0, 0, 0⟩ with
    _x := [p, q], _x_next := [p, q], _v := [0, 0], _f := [0, 0], _w := [1, 1],
    _vertex_number := 2, _constraints := [ConstraintStretch.mk 0 1 d k (9 / 10)] }

/-- Example configuration: four particles on one line, `(0,0,0), (1,0,0), (2,0,0), (3,0,0)`; both
triangles on the edge `(0, 1)` have area zero. -/
def exampleCollinearQuad (K : Type) [LinearOrderedField K] : List (Vec3 K) :=
  [⟨0, 0, 0⟩, ⟨1, 0, 0⟩, ⟨2, 0, 0⟩, ⟨3, 0, 0⟩]

/-! ## Lemmas on lists and loops -/

section ListLemmas

variable {α : Type}

theorem getD_set (l : List α) (i k : Nat) (a d : α) :
    (l.set i a).getD k d = if i = k ∧ i < l.length then a else l.getD k d := by
  rw [List.getD_eq_getElem?_getD, List.getD_eq_getElem?_getD, List.getElem?_set]
  by_cases h : i = k
  · subst h
    by_cases hl : i < l.length
    · simp [hl]
    · simp [hl, List.getElem?_eq_none (Nat.le_of_not_lt hl)]
  · simp [h]

theorem getD_set_self (l : List α) (i : Nat) (a d : α) (h : i < l.length) :
    (l.set i a).getD i d = a := by
  rw [getD_set]; simp [h]

theorem getD_set_of_ne (l : List α) (i k : Nat) (a d : α) (h : i ≠ k) :
    (l.set i a).getD k d = l.getD k d := by
  rw [getD_set]; simp [h]

theorem getD_map_of_lt {β : Type} (f : α → β) (l : List α) (i : Nat) (d : β) (e : α)
    (h : i < l.length) : (l.map f).getD i d = f (l.getD i e) := by
  rw [List.getD_eq_getElem?_getD, List.getD_eq_getElem?_getD, List.getElem?_map,
    List.getElem?_eq_getElem h]
  rfl

theorem foldl_range_succ {σ : Type} (f : σ → Nat → σ) (s : σ) (n : Nat) :
    (List.range (n + 1)).foldl f s = f ((List.range n).foldl f s) n := by
  simp [List.range_succ]

theorem foldl_preserves {σ β : Type} (P : σ → Prop) (f : σ → β → σ)
    (hf : ∀ s b, P s → P (f s b)) (l : List β) (s : σ) (hs : P s) : P (l.foldl f s) := by
  induction l generalizing s with
  | nil => exact hs
  | cons b t ih => exact ih (f s b) (hf s b hs)

end ListLemmas

/-! ## Frame properties of `project` -/

section ProjectLemmas

variable {K : Type} [LinearOrderedField K]

theorem stretch_project_length (sqrt : K → K) (c : Constraint K) (i j : Nat) (d : K)
    (x x_last : List (Vec3 K)) (w : List K) (dt : K) :
    (ConstraintStretch.project sqrt c i j d x x_last w dt).2.length = x.length := by
  unfold ConstraintStretch.project
  simp only []
  split_ifs <;> simp [List.length_set]

theorem bend_project_length (sqrt acos : K → K) (c : Constraint K)
    (i1 i2 i3 i4 : Nat) (phi0 : K) (x x_last : List (Vec3 K)) (w : List K) (dt : K) :
    (ConstraintBend.project sqrt acos c i1 i2 i3 i4 phi0 x x_last w dt).2.length = x.length := by
  unfold ConstraintBend.project
  simp only []
  split_ifs <;> simp [List.length_set]

theorem constraint_project_length (sqrt acos : K → K) (c : Constraint K)
    (x x_last : List (Vec3 K)) (w : List K) (dt : K) :
    (Constraint.project sqrt acos c x x_last w dt).2.length = x.length := by
  unfold Constraint.project
  split
  · simp [ConstraintAttach.project, List.length_set]
  · exact stretch_project_length sqrt c _ _ _ x x_last w dt
  · exact bend_project_length sqrt acos c _ _ _ _ _ x x_last w dt

theorem stretch_project_kind (sqrt : K → K) (c : Constraint K) (i j : Nat) (d : K)
    (x x_last : List (Vec3 K)) (w : List K) (dt : K) :
    (ConstraintStretch.project sqrt c i j d x x_last w dt).1.kind = c.kind := by
  unfold ConstraintStretch.project
  simp only []
  split_ifs <;> rfl

theorem bend_project_kind (sqrt acos : K → K) (c : Constraint K)
    (i1 i2 i3 i4 : Nat) (phi0 : K) (x x_last : List (Vec3 K)) (w : List K) (dt : K) :
    (ConstraintBend.project sqrt acos c i1 i2 i3 i4 phi0 x x_last w dt).1.kind = c.kind := by
  unfold ConstraintBend.project
  simp only []
  split_ifs <;> rfl

theorem constraint_project_kind (sqrt acos : K → K) (c : Constraint K)
    (x x_last : List (Vec3 K)) (w : List K) (dt : K) :
    (Constraint.project sqrt acos c x x_last w dt).1.kind = c.kind := by
  unfold Constraint.project
  split
  · rfl
  · exact stretch_project_kind sqrt c _ _ _ x x_last w dt
  · exact bend_project_kind sqrt acos c _ _ _ _ _ x x_last w dt

theorem stretch_project_frame (sqrt : K → K) (c : Constraint K) (i j : Nat) (d : K)
    (x x_last : List (Vec3 K)) (w : List K) (dt : K) (k : Nat) (hi : i ≠ k) (hj : j ≠ k)
    (e : Vec3 K) :
    (ConstraintStretch.project sqrt c i j d x x_last w dt).2.getD k e = x.getD k e := by
  unfold ConstraintStretch.project
  simp only []
  split_ifs
  · rfl
  · rw [getD_set_of_ne _ _ _ _ _ hj, getD_set_of_ne _ _ _ _ _ hi]

theorem bend_project_frame (sqrt acos : K → K) (c : Constraint K)
    (i1 i2 i3 i4 : Nat) (phi0 : K) (x x_last : List (Vec3 K)) (w : List K) (dt : K) (k : Nat)
    (h1 : i1 ≠ k) (h2 : i2 ≠ k) (h3 : i3 ≠ k) (h4 : i4 ≠ k) (e : Vec3 K) :
    (ConstraintBend.project sqrt acos c i1 i2 i3 i4 phi0 x x_last w dt).2.getD k e
      = x.getD k e := by
  unfold ConstraintBend.project
  simp only []
  split_ifs
  · rfl
  · rfl
  · rw [getD_set_of_ne _ _ _ _ _ h4, getD_set_of_ne _ _ _ _ _ h3, getD_set_of_ne _ _ _ _ _ h2,
      getD_set_of_ne _ _ _ _ _ h1]

end ProjectLemmas

/-! ## Attach -/

section Attach

variable {K : Type} [LinearOrderedField K]

theorem constraint_project_attach (sqrt acos : K → K) (c : Constraint K) (i : Nat) (p : Vec3 K)
    (hk : c.kind = .attach i p) (x x_last : List (Vec3 K)) (w : List K) (dt : K) :
    Constraint.project sqrt acos c x x_last w dt = (c, x.set i p) := by
  unfold Constraint.project
  rw [hk]
  rfl

theorem set_set_same {α : Type} (l : List α) (i : Nat) (a : α) :
    (l.set i a).set i a = l.set i a := by
  induction l generalizing i with
  | nil => rfl
  | cons h t ih =>
    cases i with
    | zero => rfl
    | succ n => simp [List.set, ih]

/-- C3. Attach idempotence: for an Attach constraint with vertex `i` (in range) and target `p`,
one `project` call returns positions with `positions[i] = p` exactly and every other position
unchanged (and the same number of positions), and `n + 1` successive calls, for every `n`, return
exactly what the first call returns. -/
theorem attach_project_idempotent (sqrt acos : K → K) (c : Constraint K) (i : Nat) (p : Vec3 K)
    (hk : c.kind = .attach i p) (x x_last : List (Vec3 K)) (w : List K) (dt : K)
    (hi : i < x.length) :
    (Constraint.project sqrt acos c x x_last w dt).2.getD i 0 = p ∧
    (∀ k, k ≠ i → (Constraint.project sqrt acos c x x_last w dt).2.getD k 0 = x.getD k 0) ∧
    (Constraint.project sqrt acos c x x_last w dt).2.length = x.length ∧
    ∀ n, Constraint.projectN sqrt acos x_last w dt (n + 1) (c, x)
      = Constraint.project sqrt acos c x x_last w dt := by
  rw [constraint_project_attach sqrt acos c i p hk]
  refine ⟨getD_set_self _ _ _ _ hi, ?_, List.length_set _ _ _, ?_⟩
  · intro k hki
    exact getD_set_of_ne _ _ _ _ _ (Ne.symm hki)
  · intro n
    induction n with
    | zero => simp [Constraint.projectN, constraint_project_attach sqrt acos c i p hk]
    | succ m ih =>
      rw [Constraint.projectN, ih]
      simp [constraint_project_attach sqrt acos c i p hk, set_set_same]

/-- Witness for C3: an Attach constraint on particle `1` of a three-particle array. -/
theorem attach_project_idempotent_witness :
    (1 : Nat) < ([0, 0, 0] : List (Vec3 ℝ)).length ∧
      (Constraint.project Real.sqrt Real.arccos (ConstraintAttach.mk 1 ⟨1, 2, 3⟩)
        ([0, 0, 0] : List (Vec3 ℝ)) [0, 0, 0] [1, 0, 1] (1 / 100)).2.getD 1 0 = ⟨1, 2, 3⟩ :=
  ⟨by simp, (attach_project_idempotent Real.sqrt Real.arccos (ConstraintAttach.mk 1 ⟨1, 2, 3⟩) 1
    ⟨1, 2, 3⟩ rfl ([0, 0, 0] : List (Vec3 ℝ)) [0, 0, 0] [1, 0, 1] (1 / 100) (by simp)).1⟩

end Attach

/-! ## The loops of `step` -/

section StepLemmas

variable {K : Type} [LinearOrderedField K]

namespace PbdSolver

theorem predict_loop_frame (dt : K) (l : List Nat) (s : PbdSolver K) :
    l.foldl (predict dt) s
        = { s with _v := (l.foldl (predict dt) s)._v,
                   _x_next := (l.foldl (predict dt) s)._x_next } ∧
      (l.foldl (predict dt) s)._v.length = s._v.length ∧
      (l.foldl (predict dt) s)._x_next.length = s._x_next.length := by
  refine foldl_preserves
    (fun r : PbdSolver K => r = { s with _v := r._v, _x_next := r._x_next } ∧
      r._v.length = s._v.length ∧ r._x_next.length = s._x_next.length)
    (predict dt) ?_ l s ⟨rfl, rfl, rfl⟩
  rintro r i ⟨h1, h2, h3⟩
  refine ⟨?_, ?_, ?_⟩
  · rw [h1]; rfl
  · simp [predict, List.length_set, h2]
  · simp [predict, List.length_set, h3]

theorem projectAll_length (sqrt acos : K → K) (x_last : List (Vec3 K)) (w : List K) (dt : K)
    (cs : List (Constraint K)) (x : List (Vec3 K)) :
    (projectAll sqrt acos x_last w dt cs x).2.length = x.length := by
  induction cs generalizing x with
  | nil => rfl
  | cons c t ih =>
    simp only [projectAll]
    rw [ih, constraint_project_length]

theorem projectAll_kind (sqrt acos : K → K) (x_last : List (Vec3 K)) (w : List K) (dt : K)
    (cs : List (Constraint K)) (x : List (Vec3 K)) :
    (projectAll sqrt acos x_last w dt cs x).1.map Constraint.kind = cs.map Constraint.kind := by
  induction cs generalizing x with
  | nil => rfl
  | cons c t ih =>
    simp only [projectAll, List.map_cons]
    rw [ih, constraint_project_kind]

theorem solve_loop_frame (sqrt acos : K → K) (dt : K) (l : List Nat) (s : PbdSolver K) :
    l.foldl (fun st _ => solvePass sqrt acos dt st) s
        = { s with
            _constraints := (l.foldl (fun st _ => solvePass sqrt acos dt st) s)._constraints,
            _x_next := (l.foldl (fun st _ => solvePass sqrt acos dt st) s)._x_next } ∧
      (l.foldl (fun st _ => solvePass sqrt acos dt st) s)._x_next.length = s._x_next.length ∧
      (l.foldl (fun st _ => solvePass sqrt acos dt st) s)._constraints.map Constraint.kind
        = s._constraints.map Constraint.kind := by
  refine foldl_preserves
    (fun r : PbdSolver K => r = { s with _constraints := r._constraints, _x_next := r._x_next } ∧
      r._x_next.length = s._x_next.length ∧
      r._constraints.map Constraint.kind = s._constraints.map Constraint.kind)
    (fun st _ => solvePass sqrt acos dt st) ?_ l s ⟨rfl, rfl, rfl⟩
  rintro r i ⟨h1, h2, h3⟩
  refine ⟨?_, ?_, ?_⟩
  · rw [h1]; rfl
  · simp [solvePass, projectAll_length, h2]
  · simp only [solvePass]
    rw [projectAll_kind, h3]

theorem commit_loop_frame (dt : K) (l : List Nat) (s : PbdSolver K) :
    l.foldl (commit dt) s
        = { s with _v := (l.foldl (commit dt) s)._v, _x := (l.foldl (commit dt) s)._x } ∧
      (l.foldl (commit dt) s)._v.length = s._v.length ∧
      (l.foldl (commit dt) s)._x.length = s._x.length := by
  refine foldl_preserves
    (fun r : PbdSolver K => r = { s with _v := r._v, _x := r._x } ∧
      r._v.length = s._v.length ∧ r._x.length = s._x.length)
    (commit dt) ?_ l s ⟨rfl, rfl, rfl⟩
  rintro r i ⟨h1, h2, h3⟩
  refine ⟨?_, ?_, ?_⟩
  · rw [h1]; rfl
  · simp [commit, List.length_set, h2]
  · simp [commit, List.length_set, h3]

theorem commit_loop_x (dt : K) (s : PbdSolver K) (n k : Nat) (d : Vec3 K) :
    ((List.range n).foldl (commit dt) s)._x.getD k d
      = if k < n ∧ k < s._x.length then s._x_next.getD k 0 else s._x.getD k d := by
  induction n with
  | zero => simp
  | succ m ih =>
    rw [foldl_range_succ]
    have hfr := commit_loop_frame dt (List.range m) s
    have hnext : ((List.range m).foldl (commit dt) s)._x_next = s._x_next := by
      rw [hfr.1]
    simp only [commit]
    rw [getD_set, ih, hnext, hfr.2.2]
    by_cases hk : m = k
    · subst hk
      by_cases hl : m < s._x.length
      · simp [hl]
      · simp [hl]
    · have : (k < m + 1) ↔ (k < m) := by omega
      simp [hk, this]

end PbdSolver

end StepLemmas

/-! ## `step`: frame and floor clamp -/

section StepFrame

variable {K : Type} [LinearOrderedField K]

namespace PbdSolver

theorem stepRelax_frame (sqrt acos : K → K) (s : PbdSolver K) (dt : K) :
    stepRelax sqrt acos s dt
        = { s with _v := (stepRelax sqrt acos s dt)._v,
                   _x_next := (stepRelax sqrt acos s dt)._x_next,
                   _constraints := (stepRelax sqrt acos s dt)._constraints } ∧
      (stepRelax sqrt acos s dt)._x_next.length = s._x_next.length ∧
      (stepRelax sqrt acos s dt)._v.length = s._v.length ∧
      (stepRelax sqrt acos s dt)._constraints.map Constraint.kind
        = s._constraints.map Constraint.kind := by
  obtain ⟨p1, p2, p3⟩ := predict_loop_frame dt (List.range s._vertex_number) s
  generalize hs1 : (List.range s._vertex_number).foldl (predict dt) s = s1 at p1 p2 p3
  have hr : stepRelax sqrt acos s dt
      = (List.range s1._Ns).foldl (fun st _ => solvePass sqrt acos dt st)
          { s1 with _constraints := s1._constraints.map Constraint.reset } := by
    simp only [stepRelax, hs1]
  obtain ⟨q1, q2, q3⟩ := solve_loop_frame sqrt acos dt (List.range s1._Ns)
    { s1 with _constraints := s1._constraints.map Constraint.reset }
  rw [← hr] at q1 q2 q3
  refine ⟨?_, ?_, ?_, ?_⟩
  · rw [q1, p1]
  · rw [q2, p3]
  · rw [q1]; exact p2
  · rw [q3]
    simp only [List.map_map]
    rw [p1]
    apply List.map_congr_left
    intro c _
    rfl

theorem step_eq (sqrt acos : K → K) (tUintBits : Nat) (s : PbdSolver K) (dt : K) :
    step sqrt acos tUintBits s dt
      = { (List.range (stepRelax sqrt acos s dt)._vertex_number).foldl (commit dt)
            { stepRelax sqrt acos s dt with
              _x_next := (stepRelax sqrt acos s dt)._x_next.map clampFloor } with
          _step := ((stepRelax sqrt acos s dt)._step + 1) % 2 ^ tUintBits,
          _sim_t := (stepRelax sqrt acos s dt)._sim_t + dt } := by
  obtain ⟨c1, -, -⟩ := commit_loop_frame dt (List.range (stepRelax sqrt acos s dt)._vertex_number)
    { stepRelax sqrt acos s dt with
      _x_next := (stepRelax sqrt acos s dt)._x_next.map clampFloor }
  have hstep : step sqrt acos tUintBits s dt
      = { (List.range (stepRelax sqrt acos s dt)._vertex_number).foldl (commit dt)
            { stepRelax sqrt acos s dt with
              _x_next := (stepRelax sqrt acos s dt)._x_next.map clampFloor } with
          _step := (((List.range (stepRelax sqrt acos s dt)._vertex_number).foldl (commit dt)
            { stepRelax sqrt acos s dt with
              _x_next := (stepRelax sqrt acos s dt)._x_next.map clampFloor })._step + 1)
                % 2 ^ tUintBits,
          _sim_t := ((List.range (stepRelax sqrt acos s dt)._vertex_number).foldl (commit dt)
            { stepRelax sqrt acos s dt with
              _x_next := (stepRelax sqrt acos s dt)._x_next.map clampFloor })._sim_t + dt } := rfl
  rw [hstep, c1]

theorem step_x_getD (sqrt acos : K → K) (tUintBits : Nat) (s : PbdSolver K) (dt : K) (k : Nat)
    (d : Vec3 K) :
    (step sqrt acos tUintBits s dt)._x.getD k d
      = if k < s._vertex_number ∧ k < s._x.length then
          ((stepRelax sqrt acos s dt)._x_next.map clampFloor).getD k 0
        else s._x.getD k d := by
  obtain ⟨r1, -, -, -⟩ := stepRelax_frame sqrt acos s dt
  have hvn : (stepRelax sqrt acos s dt)._vertex_number = s._vertex_number := by rw [r1]
  have hx : (stepRelax sqrt acos s dt)._x = s._x := by rw [r1]
  rw [step_eq]
  simp only []
  rw [commit_loop_x]
  simp only [hvn, hx]

theorem step_x_length (sqrt acos : K → K) (tUintBits : Nat) (s : PbdSolver K) (dt : K) :
    (step sqrt acos tUintBits s dt)._x.length = s._x.length := by
  obtain ⟨r1, -, -, -⟩ := stepRelax_frame sqrt acos s dt
  have hx : (stepRelax sqrt acos s dt)._x = s._x := by rw [r1]
  rw [step_eq]
  simp only []
  rw [(commit_loop_frame dt _ _).2.2]
  exact congrArg List.length hx

theorem clamp_mem (x lo hi : K) (h : lo ≤ hi) : lo ≤ clamp x lo hi ∧ clamp x lo hi ≤ hi := by
  unfold clamp
  exact ⟨le_min (le_max_right _ _) h, min_le_right _ _⟩

theorem clamp_of_mem (x lo hi : K) (h1 : lo ≤ x) (h2 : x ≤ hi) : clamp x lo hi = x := by
  unfold clamp
  rw [max_eq_left h1, min_eq_left h2]

theorem clampFloor_y_mem (p : Vec3 K) :
    -(9999 / 10000) ≤ (clampFloor p).y ∧ (clampFloor p).y ≤ 1 := by
  have hlo : (1 / 10000 - 1 : K) ≤ 1 := by norm_num
  have hc := clamp_mem p.y (1 / 10000 - 1 : K) 1 hlo
  have he : (1 / 10000 - 1 : K) = -(9999 / 10000) := by norm_num
  rw [he] at hc
  have hy : (clampFloor p).y = clamp p.y (-(9999 / 10000)) 1 := by
    simp only [clampFloor, he]
  rw [hy]
  exact hc

end PbdSolver

end StepFrame

/-! ## Floor invariant -/

section Floor

variable {K : Type} [LinearOrderedField K]

/-- C1 (amended). Floor invariant: for every solver state whose position arrays have
`_vertex_number` entries and whose constraint indices are in range, and for every `dt` such that
`step(dt)` evaluates no division by zero (`PbdSolver.stepDivisors` lists the divisors: those of
the projections, and `dt` itself when there is a particle), after `step(dt)` the vertical
coordinate of every committed position `_x[i]` lies in `[-0.9999, 1.0]`. -/
theorem floor_invariant (sqrt acos : K → K) (tUintBits : Nat) (s : PbdSolver K) (dt : K)
    (hx : s._x.length = s._vertex_number) (hn : s._x_next.length = s._vertex_number)
    (_hc : ∀ c ∈ s._constraints, c.InRange s._vertex_number)
    (_hdiv : (0 : K) ∉ PbdSolver.stepDivisors sqrt acos s dt)
    (i : Nat) (hi : i < (PbdSolver.step sqrt acos tUintBits s dt)._x.length) :
    -(9999 / 10000) ≤ ((PbdSolver.step sqrt acos tUintBits s dt)._x.getD i 0).y ∧
      ((PbdSolver.step sqrt acos tUintBits s dt)._x.getD i 0).y ≤ 1 := by
  rw [PbdSolver.step_x_length] at hi
  obtain ⟨-, r2, -, -⟩ := PbdSolver.stepRelax_frame sqrt acos s dt
  have hin : i < (PbdSolver.stepRelax sqrt acos s dt)._x_next.length := by
    rw [r2, hn, ← hx]; exact hi
  rw [PbdSolver.step_x_getD, if_pos ⟨hx ▸ hi, hi⟩, getD_map_of_lt _ _ _ _ 0 hin]
  exact PbdSolver.clampFloor_y_mem _

end Floor

/-! ## Pinned particles -/

section Pinned

variable {K : Type} [LinearOrderedField K]

@[simp] theorem vec3_add_x (a b : Vec3 K) : (a + b).x = a.x + b.x := rfl
@[simp] theorem vec3_add_y (a b : Vec3 K) : (a + b).y = a.y + b.y := rfl
@[simp] theorem vec3_add_z (a b : Vec3 K) : (a + b).z = a.z + b.z := rfl
@[simp] theorem vec3_sub_x (a b : Vec3 K) : (a - b).x = a.x - b.x := rfl
@[simp] theorem vec3_sub_y (a b : Vec3 K) : (a - b).y = a.y - b.y := rfl
@[simp] theorem vec3_sub_z (a b : Vec3 K) : (a - b).z = a.z - b.z := rfl
@[simp] theorem vec3_neg_x (a : Vec3 K) : (-a).x = -a.x := rfl
@[simp] theorem vec3_neg_y (a : Vec3 K) : (-a).y = -a.y := rfl
@[simp] theorem vec3_neg_z (a : Vec3 K) : (-a).z = -a.z := rfl
@[simp] theorem vec3_zero_x : (0 : Vec3 K).x = 0 := rfl
@[simp] theorem vec3_zero_y : (0 : Vec3 K).y = 0 := rfl
@[simp] theorem vec3_zero_z : (0 : Vec3 K).z = 0 := rfl

theorem vec3_ext {F : Type} (a b : Vec3 F) (hx : a.x = b.x) (hy : a.y = b.y) (hz : a.z = b.z) : a = b := by
  cases a; cases b; simp_all

theorem constraint_project_frame (sqrt acos : K → K) (c : Constraint K)
    (x x_last : List (Vec3 K)) (w : List K) (dt : K) (k : Nat) (hk : k ∉ c.indices)
    (e : Vec3 K) :
    (Constraint.project sqrt acos c x x_last w dt).2.getD k e = x.getD k e := by
  unfold Constraint.indices at hk
  unfold Constraint.project
  split
  · rename_i i p hkind
    rw [hkind] at hk
    simp only [List.mem_singleton] at hk
    simp only [ConstraintAttach.project]
    exact getD_set_of_ne _ _ _ _ _ (Ne.symm hk)
  · rename_i i j d hkind
    rw [hkind] at hk
    simp only [List.mem_cons, List.mem_singleton, List.not_mem_nil, or_false, not_or] at hk
    exact stretch_project_frame sqrt c i j d x x_last w dt k (Ne.symm hk.1) (Ne.symm hk.2) e
  · rename_i i1 i2 i3 i4 phi0 hkind
    rw [hkind] at hk
    simp only [List.mem_cons, List.mem_singleton, List.not_mem_nil, or_false, not_or] at hk
    exact bend_project_frame sqrt acos c i1 i2 i3 i4 phi0 x x_last w dt k (Ne.symm hk.1)
      (Ne.symm hk.2.1) (Ne.symm hk.2.2.1) (Ne.symm hk.2.2.2) e

theorem pinnedBy_congr {F : Type} (cs cs2 : List (Constraint F)) (i : Nat) (p : Vec3 F)
    (h : cs2.map Constraint.kind = cs.map Constraint.kind) (hp : PinnedBy cs i p) :
    PinnedBy cs2 i p := by
  obtain ⟨⟨c, hc, hck⟩, hall⟩ := hp
  constructor
  · have hm : c.kind ∈ cs2.map Constraint.kind := by
      rw [h]; exact List.mem_map_of_mem _ hc
    obtain ⟨c2, hc2, hk2⟩ := List.mem_map.mp hm
    exact ⟨c2, hc2, hk2.trans hck⟩
  · intro c2 hc2 hi
    have hm : c2.kind ∈ cs.map Constraint.kind := by
      rw [← h]; exact List.mem_map_of_mem _ hc2
    obtain ⟨c1, hc1, hk1⟩ := List.mem_map.mp hm
    have hi1 : i ∈ c1.indices := by
      unfold Constraint.indices at hi ⊢
      rw [hk1]; exact hi
    rw [← hk1]
    exact hall c1 hc1 hi1

/-- A pass keeps a pinned position: if `x[i] = p` before the pass and every constraint referring
to `i` is `Attach(i, p)`, then `x[i] = p` after it. -/
theorem projectAll_keeps (sqrt acos : K → K) (x_last : List (Vec3 K)) (w : List K) (dt : K)
    (i : Nat) (p : Vec3 K) (cs : List (Constraint K))
    (hall : ∀ c ∈ cs, i ∈ c.indices → c.kind = .attach i p)
    (x : List (Vec3 K)) (hi : i < x.length) (hx : x.getD i 0 = p) :
    (PbdSolver.projectAll sqrt acos x_last w dt cs x).2.getD i 0 = p := by
  induction cs generalizing x with
  | nil => exact hx
  | cons c t ih =>
    simp only [PbdSolver.projectAll]
    apply ih (fun c2 hc2 => hall c2 (List.mem_cons_of_mem _ hc2))
    · rw [constraint_project_length]; exact hi
    · by_cases hmem : i ∈ c.indices
      · rw [constraint_project_attach sqrt acos c i p (hall c (List.mem_cons_self _ _) hmem)]
        exact getD_set_self _ _ _ _ hi
      · rw [constraint_project_frame sqrt acos c x x_last w dt i hmem]
        exact hx

/-- A pass pins a pinned particle: after it, `x[i] = p` whatever `x[i]` was before. -/
theorem projectAll_pins (sqrt acos : K → K) (x_last : List (Vec3 K)) (w : List K) (dt : K)
    (i : Nat) (p : Vec3 K) (cs : List (Constraint K)) (hp : PinnedBy cs i p)
    (x : List (Vec3 K)) (hi : i < x.length) :
    (PbdSolver.projectAll sqrt acos x_last w dt cs x).2.getD i 0 = p := by
  obtain ⟨⟨c0, hc0, hk0⟩, hall⟩ := hp
  induction cs generalizing x with
  | nil => simp at hc0
  | cons c t ih =>
    simp only [PbdSolver.projectAll]
    have hlen : i < (Constraint.project sqrt acos c x x_last w dt).2.length := by
      rw [constraint_project_length]; exact hi
    have hall2 : ∀ c2 ∈ t, i ∈ c2.indices → c2.kind = .attach i p :=
      fun c2 hc2 => hall c2 (List.mem_cons_of_mem _ hc2)
    rcases List.mem_cons.mp hc0 with h | h
    · subst h
      apply projectAll_keeps sqrt acos x_last w dt i p t hall2 _ hlen
      rw [constraint_project_attach sqrt acos c0 i p hk0]
      exact getD_set_self _ _ _ _ hi
    · exact ih _ hlen hall2 h

end Pinned

/-! ## Pointwise description of the loops of `step` -/

section StepPointwise

variable {K : Type} [LinearOrderedField K]

namespace PbdSolver

theorem predict_loop_v (dt : K) (s : PbdSolver K) (n k : Nat) (d : Vec3 K) :
    ((List.range n).foldl (predict dt) s)._v.getD k d
      = if k < n ∧ k < s._v.length then
          s._v.getD k 0 + (Vec3.smul dt (s._f.getD k 0)).mulS (s._w.getD k 0)
        else s._v.getD k d := by
  induction n generalizing k d with
  | zero => simp
  | succ m ih =>
    rw [foldl_range_succ]
    obtain ⟨hfr, hlv, -⟩ := predict_loop_frame dt (List.range m) s
    have hf : ((List.range m).foldl (predict dt) s)._f = s._f := by rw [hfr]
    have hw : ((List.range m).foldl (predict dt) s)._w = s._w := by rw [hfr]
    simp only [predict]
    rw [getD_set, ih m 0, ih k d, hf, hw, hlv]
    by_cases hk : m = k
    · subst hk
      by_cases hl : m < s._v.length
      · simp [hl]
      · simp [hl]
    · have : (k < m + 1) ↔ (k < m) := by omega
      simp [hk, this]

theorem predict_loop_x_next (dt : K) (s : PbdSolver K) (n k : Nat) (d : Vec3 K) :
    ((List.range n).foldl (predict dt) s)._x_next.getD k d
      = if k < n ∧ k < s._x_next.length then
          s._x.getD k 0 + Vec3.smul dt (((List.range n).foldl (predict dt) s)._v.getD k 0)
        else s._x_next.getD k d := by
  induction n generalizing k d with
  | zero => simp
  | succ m ih =>
    rw [foldl_range_succ]
    obtain ⟨hfr, -, hln⟩ := predict_loop_frame dt (List.range m) s
    have hx : ((List.range m).foldl (predict dt) s)._x = s._x := by rw [hfr]
    simp only [predict]
    rw [getD_set, ih k d, hx, hln]
    by_cases hk : m = k
    · subst hk
      by_cases hl : m < s._x_next.length
      · simp [hl]
      · simp [hl]
    · have : (k < m + 1) ↔ (k < m) := by omega
      rw [getD_set_of_ne _ _ _ _ _ hk]
      simp [hk, this]

theorem commit_loop_v (dt : K) (s : PbdSolver K) (n k : Nat) (d : Vec3 K) :
    ((List.range n).foldl (commit dt) s)._v.getD k d
      = if k < n ∧ k < s._v.length then (s._x_next.getD k 0 - s._x.getD k 0).divS dt
        else s._v.getD k d := by
  induction n generalizing k d with
  | zero => simp
  | succ m ih =>
    rw [foldl_range_succ]
    obtain ⟨hfr, hlv, -⟩ := commit_loop_frame dt (List.range m) s
    have hnext : ((List.range m).foldl (commit dt) s)._x_next = s._x_next := by rw [hfr]
    have hxm : ((List.range m).foldl (commit dt) s)._x.getD m 0 = s._x.getD m 0 := by
      rw [commit_loop_x]; simp
    simp only [commit]
    rw [getD_set, ih k d, hnext, hxm, hlv]
    by_cases hk : m = k
    · subst hk
      by_cases hl : m < s._v.length
      · simp [hl]
      · simp [hl]
    · have : (k < m + 1) ↔ (k < m) := by omega
      simp [hk, this]

theorem solve_loop_pins (sqrt acos : K → K) (dt : K) (i : Nat) (p : Vec3 K) (m : Nat)
    (s : PbdSolver K) (hpin : PinnedBy s._constraints i p) (hi : i < s._x_next.length) :
    ((List.range (m + 1)).foldl (fun st _ => solvePass sqrt acos dt st) s)._x_next.getD i 0
      = p := by
  rw [foldl_range_succ]
  obtain ⟨-, hlen, hkind⟩ := solve_loop_frame sqrt acos dt (List.range m) s
  generalize (List.range m).foldl (fun st _ => solvePass sqrt acos dt st) s = r at hlen hkind ⊢
  exact projectAll_pins sqrt acos r._x r._w dt i p r._constraints
    (pinnedBy_congr _ _ i p hkind hpin) r._x_next (by rw [hlen]; exact hi)

end PbdSolver

end StepPointwise

/-! ## One `step` on a pinned particle -/

section StepPinned

variable {K : Type} [LinearOrderedField K]

namespace PbdSolver

theorem stepRelax_eq (sqrt acos : K → K) (s : PbdSolver K) (dt : K) :
    stepRelax sqrt acos s dt
      = (List.range s._Ns).foldl (fun st _ => solvePass sqrt acos dt st)
          { (List.range s._vertex_number).foldl (predict dt) s with
            _constraints :=
              ((List.range s._vertex_number).foldl (predict dt) s)._constraints.map
                Constraint.reset } := by
  have hNs : ((List.range s._vertex_number).foldl (predict dt) s)._Ns = s._Ns := by
    rw [(predict_loop_frame dt (List.range s._vertex_number) s).1]
  have h : stepRelax sqrt acos s dt
      = (List.range ((List.range s._vertex_number).foldl (predict dt) s)._Ns).foldl
          (fun st _ => solvePass sqrt acos dt st)
          { (List.range s._vertex_number).foldl (predict dt) s with
            _constraints :=
              ((List.range s._vertex_number).foldl (predict dt) s)._constraints.map
                Constraint.reset } := rfl
  rw [h, hNs]

theorem step_fields (sqrt acos : K → K) (tUintBits : Nat) (s : PbdSolver K) (dt : K) :
    (step sqrt acos tUintBits s dt)._w = s._w ∧
    (step sqrt acos tUintBits s dt)._f = s._f ∧
    (step sqrt acos tUintBits s dt)._vertex_number = s._vertex_number ∧
    (step sqrt acos tUintBits s dt)._Ns = s._Ns ∧
    (step sqrt acos tUintBits s dt)._x_next
      = (stepRelax sqrt acos s dt)._x_next.map clampFloor ∧
    (step sqrt acos tUintBits s dt)._constraints = (stepRelax sqrt acos s dt)._constraints ∧
    (step sqrt acos tUintBits s dt)._step = (s._step + 1) % 2 ^ tUintBits ∧
    (step sqrt acos tUintBits s dt)._sim_t = s._sim_t + dt := by
  obtain ⟨r1, -, -, -⟩ := stepRelax_frame sqrt acos s dt
  obtain ⟨c1, -, -⟩ := commit_loop_frame dt
    (List.range (stepRelax sqrt acos s dt)._vertex_number)
    { stepRelax sqrt acos s dt with
      _x_next := (stepRelax sqrt acos s dt)._x_next.map clampFloor }
  rw [step_eq]
  simp only []
  refine ⟨?_, ?_, ?_, ?_, ?_, ?_, ?_, ?_⟩
  · rw [c1]; simp only []; rw [r1]
  · rw [c1]; simp only []; rw [r1]
  · rw [c1]; simp only []; rw [r1]
  · rw [c1]; simp only []; rw [r1]
  · rw [c1]
  · rw [c1]
  · rw [r1]
  · rw [r1]

theorem step_v_getD (sqrt acos : K → K) (tUintBits : Nat) (s : PbdSolver K) (dt : K) (k : Nat)
    (d : Vec3 K) :
    (step sqrt acos tUintBits s dt)._v.getD k d
      = if k < s._vertex_number ∧ k < s._v.length then
          (((stepRelax sqrt acos s dt)._x_next.map clampFloor).getD k 0 - s._x.getD k 0).divS dt
        else (stepRelax sqrt acos s dt)._v.getD k d := by
  obtain ⟨r1, -, r3, -⟩ := stepRelax_frame sqrt acos s dt
  have hvn : (stepRelax sqrt acos s dt)._vertex_number = s._vertex_number := by rw [r1]
  have hx : (stepRelax sqrt acos s dt)._x = s._x := by rw [r1]
  rw [step_eq]
  simp only []
  rw [commit_loop_v]
  simp only [hvn, hx, r3]

theorem stepRelax_pinned (sqrt acos : K → K) (s : PbdSolver K) (dt : K) (i : Nat) (p : Vec3 K)
    (hn : i < s._x_next.length) (hi : i < s._vertex_number)
    (hw : s._w.getD i 0 = 0) (hp : s._x.getD i 0 = p) (hpin : PinnedBy s._constraints i p)
    (hns : 1 ≤ s._Ns ∨ s._v.getD i 0 = 0) :
    (stepRelax sqrt acos s dt)._x_next.getD i 0 = p := by
  obtain ⟨p1, -, p3⟩ := predict_loop_frame dt (List.range s._vertex_number) s
  have hcs : ((List.range s._vertex_number).foldl (predict dt) s)._constraints
      = s._constraints := by rw [p1]
  rw [stepRelax_eq]
  rcases Nat.eq_zero_or_pos s._Ns with h0 | hpos
  · have hv : s._v.getD i 0 = 0 := by
      rcases hns with h | h
      · omega
      · exact h
    rw [h0]
    simp only [List.range_zero, List.foldl_nil]
    rw [predict_loop_x_next, if_pos ⟨hi, hn⟩, predict_loop_v, hp, hv, hw]
    apply vec3_ext <;> split_ifs <;> simp [Vec3.smul, Vec3.mulS]
  · obtain ⟨m, hm⟩ : ∃ m, s._Ns = m + 1 := ⟨s._Ns - 1, by omega⟩
    rw [hm]
    apply solve_loop_pins
    · apply pinnedBy_congr s._constraints _ i p _ hpin
      simp only [List.map_map]
      rw [hcs]
      apply List.map_congr_left
      intro c _
      rfl
    · simp only []
      rw [p3]; exact hn

end PbdSolver

end StepPinned

/-! ## Pinned particle immobility -/

section PinnedImmobile

variable {K : Type} [LinearOrderedField K]

theorem clampFloor_of_mem (p : Vec3 K) (h1 : -(9999 / 10000) ≤ p.y) (h2 : p.y ≤ 1) :
    PbdSolver.clampFloor p = p := by
  have he : (1 / 10000 - 1 : K) = -(9999 / 10000) := by norm_num
  have hc : clamp p.y (1 / 10000 - 1) 1 = p.y :=
    PbdSolver.clamp_of_mem _ _ _ (by rw [he]; exact h1) h2
  cases p
  simp only [PbdSolver.clampFloor] at hc ⊢
  rw [hc]

/-- One `step` keeps the invariant of a pinned particle and leaves it where it is. -/
theorem step_pinned (sqrt acos : K → K) (tUintBits : Nat) (s : PbdSolver K) (dt : K) (i : Nat)
    (p : Vec3 K) (hx : s._x.length = s._vertex_number)
    (hn : s._x_next.length = s._vertex_number) (hi : i < s._vertex_number)
    (hw : s._w.getD i 0 = 0) (hp : s._x.getD i 0 = p)
    (hy : -(9999 / 10000) ≤ p.y ∧ p.y ≤ 1) (hpin : PinnedBy s._constraints i p)
    (hns : 1 ≤ s._Ns ∨ s._v.getD i 0 = 0) :
    (PbdSolver.step sqrt acos tUintBits s dt)._x.length
        = (PbdSolver.step sqrt acos tUintBits s dt)._vertex_number ∧
      (PbdSolver.step sqrt acos tUintBits s dt)._x_next.length
        = (PbdSolver.step sqrt acos tUintBits s dt)._vertex_number ∧
      i < (PbdSolver.step sqrt acos tUintBits s dt)._vertex_number ∧
      (PbdSolver.step sqrt acos tUintBits s dt)._w.getD i 0 = 0 ∧
      (PbdSolver.step sqrt acos tUintBits s dt)._x.getD i 0 = p ∧
      PinnedBy (PbdSolver.step sqrt acos tUintBits s dt)._constraints i p ∧
      (1 ≤ (PbdSolver.step sqrt acos tUintBits s dt)._Ns ∨
        (PbdSolver.step sqrt acos tUintBits s dt)._v.getD i 0 = 0) := by
  obtain ⟨fw, -, fvn, -, fxn, fcs, -, -⟩ := PbdSolver.step_fields sqrt acos tUintBits s dt
  obtain ⟨-, r2, r3, r4⟩ := PbdSolver.stepRelax_frame sqrt acos s dt
  have hrel := PbdSolver.stepRelax_pinned sqrt acos s dt i p (hn ▸ hi) hi hw hp hpin hns
  have hin : i < (PbdSolver.stepRelax sqrt acos s dt)._x_next.length := by
    rw [r2, hn]; exact hi
  have hcl : ((PbdSolver.stepRelax sqrt acos s dt)._x_next.map PbdSolver.clampFloor).getD i 0
      = p := by
    rw [getD_map_of_lt _ _ _ _ 0 hin, hrel]
    exact clampFloor_of_mem p hy.1 hy.2
  have hxi : (PbdSolver.step sqrt acos tUintBits s dt)._x.getD i 0 = p := by
    rw [PbdSolver.step_x_getD, if_pos ⟨hi, hx ▸ hi⟩, hcl]
  refine ⟨?_, ?_, ?_, ?_, hxi, ?_, Or.inr ?_⟩
  · rw [PbdSolver.step_x_length, fvn, hx]
  · rw [fxn, List.length_map, r2, fvn, hn]
  · rw [fvn]; exact hi
  · rw [fw]; exact hw
  · rw [fcs]
    exact pinnedBy_congr _ _ i p r4 hpin
  · rw [PbdSolver.step_v_getD, hcl, hp]
    split_ifs with h
    · apply vec3_ext <;> simp [Vec3.divS]
    · have hle : (PbdSolver.stepRelax sqrt acos s dt)._v.length ≤ i := by
        rw [r3]
        by_contra hc
        exact h ⟨hi, by omega⟩
      exact List.getD_eq_default _ _ hle

/-- C2 (amended). Pinned particle immobility: in a solver state whose position arrays have
`_vertex_number` entries, let particle `i` have `w[i] = 0`, a height `x[i].y` in
`[-0.9999, 1.0]`, an Attach constraint with target `x[i]`, and no other constraint referring to
it than Attach constraints with that target; let the solver make at least one pass
(`_Ns ≥ 1`) or the particle be at rest (`v[i] = 0`). Then after any number of `step` calls, with
any non-zero time steps, `x[i]` is what it was. -/
theorem pinned_immobile (sqrt acos : K → K) (tUintBits : Nat) (s : PbdSolver K) (i : Nat)
    (hx : s._x.length = s._vertex_number) (hn : s._x_next.length = s._vertex_number)
    (hi : i < s._vertex_number) (hw : s._w.getD i 0 = 0)
    (hy : -(9999 / 10000) ≤ (s._x.getD i 0).y ∧ (s._x.getD i 0).y ≤ 1)
    (hpin : PinnedBy s._constraints i (s._x.getD i 0))
    (hns : 1 ≤ s._Ns ∨ s._v.getD i 0 = 0)
    (dts : List K) (_hdt : ∀ dt ∈ dts, dt ≠ 0) :
    (PbdSolver.steps sqrt acos tUintBits s dts)._x.getD i 0 = s._x.getD i 0 := by
  generalize hp : s._x.getD i 0 = p at hy hpin
  clear _hdt
  induction dts generalizing s with
  | nil => exact hp
  | cons dt t ih =>
    obtain ⟨a1, a2, a3, a4, a5, a6, a7⟩ :=
      step_pinned sqrt acos tUintBits s dt i p hx hn hi hw hp hy hpin hns
    apply ih (PbdSolver.step sqrt acos tUintBits s dt) <;> assumption

end PinnedImmobile

/-- Counterexample to C2 as stated. (a) A particle pinned at height `2` with `w = 0`, `f = 0`,
`v = 0` and one Attach constraint at its position is moved to height `1` by one step: the clamp
of `step` acts after the constraints. (b) With `_Ns = 0` the Attach constraint is never projected
and a pinned particle with velocity `(1, 0, 0)` moves. -/
theorem pinned_immobile_counterexample :
    ((PbdSolver.examplePinned 1 (2 : ℝ) 0)._w.getD 0 0 = 0 ∧
      (PbdSolver.examplePinned 1 (2 : ℝ) 0)._f.getD 0 0 = 0 ∧
      PinnedBy (PbdSolver.examplePinned 1 (2 : ℝ) 0)._constraints 0
        ((PbdSolver.examplePinned 1 (2 : ℝ) 0)._x.getD 0 0) ∧
      (1 / 100 : ℝ) ≠ 0 ∧
      (PbdSolver.steps Real.sqrt Real.arccos 32 (PbdSolver.examplePinned 1 (2 : ℝ) 0)
          [1 / 100])._x.getD 0 0 = ⟨0, 1, 0⟩ ∧
      (PbdSolver.steps Real.sqrt Real.arccos 32 (PbdSolver.examplePinned 1 (2 : ℝ) 0)
          [1 / 100])._x.getD 0 0
        ≠ (PbdSolver.examplePinned 1 (2 : ℝ) 0)._x.getD 0 0) ∧
    ((PbdSolver.examplePinned 0 (0 : ℝ) ⟨1, 0, 0⟩)._w.getD 0 0 = 0 ∧
      (PbdSolver.examplePinned 0 (0 : ℝ) ⟨1, 0, 0⟩)._f.getD 0 0 = 0 ∧
      PinnedBy (PbdSolver.examplePinned 0 (0 : ℝ) ⟨1, 0, 0⟩)._constraints 0
        ((PbdSolver.examplePinned 0 (0 : ℝ) ⟨1, 0, 0⟩)._x.getD 0 0) ∧
      (1 / 100 : ℝ) ≠ 0 ∧
      (PbdSolver.steps Real.sqrt Real.arccos 32 (PbdSolver.examplePinned 0 (0 : ℝ) ⟨1, 0, 0⟩)
          [1 / 100])._x.getD 0 0 = ⟨1 / 100, 0, 0⟩ ∧
      (PbdSolver.steps Real.sqrt Real.arccos 32 (PbdSolver.examplePinned 0 (0 : ℝ) ⟨1, 0, 0⟩)
          [1 / 100])._x.getD 0 0
        ≠ (PbdSolver.examplePinned 0 (0 : ℝ) ⟨1, 0, 0⟩)._x.getD 0 0) := by
  have ha : (PbdSolver.steps Real.sqrt Real.arccos 32 (PbdSolver.examplePinned 1 (2 : ℝ) 0)
      [1 / 100])._x.getD 0 0 = ⟨0, 1, 0⟩ := by
    simp [PbdSolver.steps, PbdSolver.step, PbdSolver.examplePinned, PbdSolver.new,
      PbdSolver.predict, PbdSolver.solvePass, PbdSolver.projectAll, Constraint.project,
      Constraint.reset, ConstraintAttach.project, ConstraintAttach.mk, PbdSolver.commit,
      PbdSolver.clampFloor, clamp, List.range, List.range.loop]
  have hb : (PbdSolver.steps Real.sqrt Real.arccos 32
      (PbdSolver.examplePinned 0 (0 : ℝ) ⟨1, 0, 0⟩) [1 / 100])._x.getD 0 0
        = ⟨1 / 100, 0, 0⟩ := by
    simp [PbdSolver.steps, PbdSolver.step, PbdSolver.examplePinned, PbdSolver.new,
      PbdSolver.predict, PbdSolver.solvePass, PbdSolver.projectAll, Constraint.project,
      Constraint.reset, ConstraintAttach.project, ConstraintAttach.mk, PbdSolver.commit,
      PbdSolver.clampFloor, clamp, List.range, List.range.loop, Vec3.smul, Vec3.mulS]
    rw [max_eq_left (by norm_num), min_eq_left (by norm_num)]
  refine ⟨⟨rfl, rfl, ?_, by norm_num, ha, ?_⟩, ⟨rfl, rfl, ?_, by norm_num, hb, ?_⟩⟩
  · simp [PinnedBy, PbdSolver.examplePinned, PbdSolver.new, ConstraintAttach.mk,
      Constraint.indices]
  · rw [ha]
    simp [PbdSolver.examplePinned, PbdSolver.new]
  · simp [PinnedBy, PbdSolver.examplePinned, PbdSolver.new, ConstraintAttach.mk,
      Constraint.indices]
  · rw [hb]
    simp [PbdSolver.examplePinned, PbdSolver.new]

/-- Witness for C2 (amended): a particle pinned at height `1/2` with velocity `(3, 0, 0)` in a
solver that makes one pass, stepped twice. -/
theorem pinned_immobile_witness :
    PinnedBy (PbdSolver.examplePinned 1 (1 / 2 : ℝ) ⟨3, 0, 0⟩)._constraints 0
        ((PbdSolver.examplePinned 1 (1 / 2 : ℝ) ⟨3, 0, 0⟩)._x.getD 0 0) ∧
      (PbdSolver.steps Real.sqrt Real.arccos 32
          (PbdSolver.examplePinned 1 (1 / 2 : ℝ) ⟨3, 0, 0⟩) [1 / 100, 1 / 50])._x.getD 0 0
        = (PbdSolver.examplePinned 1 (1 / 2 : ℝ) ⟨3, 0, 0⟩)._x.getD 0 0 :=
  have hpin : PinnedBy (PbdSolver.examplePinned 1 (1 / 2 : ℝ) ⟨3, 0, 0⟩)._constraints 0
      ((PbdSolver.examplePinned 1 (1 / 2 : ℝ) ⟨3, 0, 0⟩)._x.getD 0 0) := by
    simp [PinnedBy, PbdSolver.examplePinned, PbdSolver.new, ConstraintAttach.mk,
      Constraint.indices]
  ⟨hpin, pinned_immobile Real.sqrt Real.arccos 32
    (PbdSolver.examplePinned 1 (1 / 2 : ℝ) ⟨3, 0, 0⟩) 0 rfl rfl
    (by simp [PbdSolver.examplePinned, PbdSolver.new]) rfl
    (by norm_num [PbdSolver.examplePinned, PbdSolver.new]) hpin
    (Or.inl (by simp [PbdSolver.examplePinned, PbdSolver.new]))
    [1 / 100, 1 / 50] (by norm_num)⟩

/-! ## Rigid distance convergence of the Stretch projection -/

section Rigid

theorem is_zero_iff {K : Type} [LinearOrderedField K] (t : K) :
    Constraint.is_zero t = true ↔ -(1 / 100000) ≤ t ∧ t ≤ 1 / 100000 := by
  simp only [Constraint.is_zero, Bool.and_eq_true, decide_eq_true_eq, ge_iff_le]
  exact And.comm

theorem dot_self_nonneg {K : Type} [LinearOrderedField K] (v : Vec3 K) : 0 ≤ Vec3.dot v v := by
  unfold Vec3.dot
  nlinarith [mul_self_nonneg v.x, mul_self_nonneg v.y, mul_self_nonneg v.z]

theorem dot_scaled {K : Type} [LinearOrderedField K] (u v : Vec3 K) (t : K)
    (hx : u.x = v.x * t) (hy : u.y = v.y * t) (hz : u.z = v.z * t) :
    Vec3.dot u u = Vec3.dot v v * (t * t) := by
  unfold Vec3.dot
  rw [hx, hy, hz]
  ring

/-- A vector rescaled from length `D > 0` by the factor `d / D` has length `d`. -/
theorem length_rescaled (u v : Vec3 ℝ) (d : ℝ) (hd : 0 ≤ d)
    (hD : 0 < Vec3.length Real.sqrt v)
    (hx : u.x = v.x * (d / Vec3.length Real.sqrt v))
    (hy : u.y = v.y * (d / Vec3.length Real.sqrt v))
    (hz : u.z = v.z * (d / Vec3.length Real.sqrt v)) :
    Vec3.length Real.sqrt u = d := by
  have hDD : Vec3.length Real.sqrt v * Vec3.length Real.sqrt v = Vec3.dot v v :=
    Real.mul_self_sqrt (dot_self_nonneg v)
  have hne : Vec3.length Real.sqrt v ≠ 0 := ne_of_gt hD
  have hdot : Vec3.dot u u = d * d := by
    rw [dot_scaled u v _ hx hy hz, ← hDD]
    field_simp
  unfold Vec3.length at hD hne hDD ⊢
  rw [hdot]
  exact Real.sqrt_mul_self hd

theorem stretch_project_fields {K : Type} [LinearOrderedField K] (sqrt : K → K)
    (c : Constraint K) (i j : Nat) (d : K)
    (x x_last : List (Vec3 K)) (w : List K) (dt : K) :
    (ConstraintStretch.project sqrt c i j d x x_last w dt).1._compliance = c._compliance ∧
      (ConstraintStretch.project sqrt c i j d x x_last w dt).1._damp_coef = c._damp_coef := by
  unfold ConstraintStretch.project
  simp only []
  split_ifs <;> exact ⟨rfl, rfl⟩

/-- One rigid Stretch projection between a pinned and a free particle: afterwards the distance of
the two particles passes the `is_zero` test against the rest length. -/
theorem stretch_project_rigid (c : Constraint ℝ) (i j : Nat) (d : ℝ) (hd : 0 < d)
    (hcomp : c._compliance = 0) (x x_last : List (Vec3 ℝ)) (w : List ℝ) (dt : ℝ)
    (hij : i ≠ j) (hi : i < x.length) (hj : j < x.length)
    (hw : (w.getD i 0 = 0 ∧ w.getD j 0 = 1) ∨ (w.getD i 0 = 1 ∧ w.getD j 0 = 0))
    (hs : 0 < Vec3.length Real.sqrt (x.getD i 0 - x.getD j 0)) :
    Constraint.is_zero
      (Vec3.length Real.sqrt
        ((ConstraintStretch.project Real.sqrt c i j d x x_last w dt).2.getD i 0
          - (ConstraintStretch.project Real.sqrt c i j d x x_last w dt).2.getD j 0) - d)
      = true := by
  unfold ConstraintStretch.project
  simp only []
  split_ifs with hz
  · exact hz
  · rw [getD_set_of_ne _ _ _ _ _ (Ne.symm hij), getD_set_self _ _ _ _ hi,
      getD_set_self _ _ _ _ (by rw [List.length_set]; exact hj),
      getD_set_of_ne _ _ _ _ _ hij, hcomp]
    have hne : Vec3.length Real.sqrt (x.getD i 0 - x.getD j 0) ≠ 0 := ne_of_gt hs
    rw [length_rescaled _ (x.getD i 0 - x.getD j 0) d (le_of_lt hd) hs]
    · rw [is_zero_iff]; norm_num
    all_goals
      generalize Vec3.length Real.sqrt (x.getD i 0 - x.getD j 0) = D at hne ⊢
      rcases hw with ⟨h1, h2⟩ | ⟨h1, h2⟩ <;>
      · rw [h1, h2]
        simp only [vec3_add_x, vec3_sub_x, vec3_neg_x, vec3_add_y, vec3_sub_y, vec3_neg_y,
          vec3_add_z, vec3_sub_z, vec3_neg_z, Vec3.mulS, Vec3.divS]
        field_simp
        ring

theorem stretch_project_fixed {K : Type} [LinearOrderedField K] (sqrt : K → K)
    (c : Constraint K) (i j : Nat) (d : K) (x x_last : List (Vec3 K)) (w : List K) (dt : K)
    (h : Constraint.is_zero (Vec3.length sqrt (x.getD i 0 - x.getD j 0) - d) = true) :
    ConstraintStretch.project sqrt c i j d x x_last w dt = (c, x) := by
  unfold ConstraintStretch.project
  simp only []
  rw [if_pos h]

theorem constraint_project_stretch {K : Type} [LinearOrderedField K] (sqrt acos : K → K)
    (c : Constraint K) (i j : Nat) (d : K) (hk : c.kind = .stretch i j d)
    (x x_last : List (Vec3 K)) (w : List K) (dt : K) :
    Constraint.project sqrt acos c x x_last w dt
      = ConstraintStretch.project sqrt c i j d x x_last w dt := by
  unfold Constraint.project
  rw [hk]

/-- C4. Rigid distance convergence: two distinct particles `i`, `j`, one pinned (`w = 0`) and one
free (`w = 1`), at positive distance, a Stretch constraint between them with rest length `d > 0`
and zero compliance (whatever its damping coefficient and its multiplier), any `dt ≠ 0`: after 20
successive `project` calls the distance of the two particles is within `1e-4` of `d`. -/
theorem rigid_distance_convergence (acos : ℝ → ℝ) (c : Constraint ℝ) (i j : Nat) (d : ℝ)
    (hk : c.kind = .stretch i j d) (hd : 0 < d) (hcomp : c._compliance = 0)
    (x x_last : List (Vec3 ℝ)) (w : List ℝ) (dt : ℝ) (_hdt : dt ≠ 0)
    (hij : i ≠ j) (hi : i < x.length) (hj : j < x.length)
    (hw : (w.getD i 0 = 0 ∧ w.getD j 0 = 1) ∨ (w.getD i 0 = 1 ∧ w.getD j 0 = 0))
    (hs : 0 < Vec3.length Real.sqrt (x.getD i 0 - x.getD j 0)) :
    |Vec3.length Real.sqrt
        ((Constraint.projectN Real.sqrt acos x_last w dt 20 (c, x)).2.getD i 0
          - (Constraint.projectN Real.sqrt acos x_last w dt 20 (c, x)).2.getD j 0) - d|
      ≤ 1 / 10000 := by
  have hfix : ∀ n, Constraint.projectN Real.sqrt acos x_last w dt (n + 1) (c, x)
      = ConstraintStretch.project Real.sqrt c i j d x x_last w dt := by
    intro n
    induction n with
    | zero =>
      simp only [Constraint.projectN]
      exact constraint_project_stretch Real.sqrt acos c i j d hk x x_last w dt
    | succ m ih =>
      rw [Constraint.projectN, ih]
      rw [constraint_project_stretch Real.sqrt acos _ i j d
        ((stretch_project_kind Real.sqrt c i j d x x_last w dt).trans hk)]
      exact stretch_project_fixed Real.sqrt _ i j d _ x_last w dt
        (stretch_project_rigid c i j d hd hcomp x x_last w dt hij hi hj hw hs)
  rw [hfix 19]
  have hz := stretch_project_rigid c i j d hd hcomp x x_last w dt hij hi hj hw hs
  rw [is_zero_iff] at hz
  rw [abs_le]
  constructor <;> linarith [hz.1, hz.2]

/-- Witness for C4: the case of the specification, rest length `1`, separation `2`,
`dt = 0.016`, particle `0` pinned and particle `1` free. -/
theorem rigid_distance_convergence_witness :
    |Vec3.length Real.sqrt
        ((Constraint.projectN Real.sqrt Real.arccos [⟨0, 0, 0⟩, ⟨2, 0, 0⟩] [0, 1] (16 / 1000) 20
            (ConstraintStretch.mk 0 1 1 0 0, [⟨0, 0, 0⟩, ⟨2, 0, 0⟩])).2.getD 0 0
          - (Constraint.projectN Real.sqrt Real.arccos [⟨0, 0, 0⟩, ⟨2, 0, 0⟩] [0, 1] (16 / 1000)
            20 (ConstraintStretch.mk 0 1 1 0 0, [⟨0, 0, 0⟩, ⟨2, 0, 0⟩])).2.getD 1 0) - 1|
      ≤ 1 / 10000 :=
  rigid_distance_convergence Real.arccos (ConstraintStretch.mk 0 1 1 0 0) 0 1 1 rfl
    (by norm_num) rfl [⟨0, 0, 0⟩, ⟨2, 0, 0⟩] [⟨0, 0, 0⟩, ⟨2, 0, 0⟩] [0, 1] (16 / 1000)
    (by norm_num) (by decide) (by simp) (by simp) (Or.inl ⟨rfl, rfl⟩)
    (by
      apply Real.sqrt_pos.mpr
      simp [Vec3.dot])

end Rigid

/-! ## Bend projection at the rest configuration -/

section BendRest

theorem dot_self_pos {K : Type} [LinearOrderedField K] (v : Vec3 K) (h : v ≠ 0) :
    0 < Vec3.dot v v := by
  rcases lt_or_eq_of_le (dot_self_nonneg v) with hpos | hzero
  · exact hpos
  · exfalso
    apply h
    unfold Vec3.dot at hzero
    have hx : v.x = 0 := by
      nlinarith [mul_self_nonneg v.x, mul_self_nonneg v.y, mul_self_nonneg v.z]
    have hy : v.y = 0 := by
      nlinarith [mul_self_nonneg v.x, mul_self_nonneg v.y, mul_self_nonneg v.z]
    have hz : v.z = 0 := by
      nlinarith [mul_self_nonneg v.x, mul_self_nonneg v.y, mul_self_nonneg v.z]
    exact vec3_ext v 0 hx hy hz

/-- Cauchy-Schwarz for `glm::dot`. -/
theorem dot_sq_le {K : Type} [LinearOrderedField K] (a b : Vec3 K) :
    Vec3.dot a b * Vec3.dot a b ≤ Vec3.dot a a * Vec3.dot b b := by
  unfold Vec3.dot
  nlinarith [mul_self_nonneg (a.x * b.y - a.y * b.x), mul_self_nonneg (a.y * b.z - a.z * b.y),
    mul_self_nonneg (a.z * b.x - a.x * b.z)]

/-- The result of `glm::normalize` on a non-zero vector is a unit vector. -/
theorem normalize_dot_self (v : Vec3 ℝ) (h : v ≠ 0) :
    Vec3.dot (Vec3.normalize Real.sqrt v) (Vec3.normalize Real.sqrt v) = 1 := by
  have hpos := dot_self_pos v h
  have hs : Real.sqrt (Vec3.dot v v) * Real.sqrt (Vec3.dot v v) = Vec3.dot v v :=
    Real.mul_self_sqrt (le_of_lt hpos)
  have hne : Real.sqrt (Vec3.dot v v) ≠ 0 := ne_of_gt (Real.sqrt_pos.mpr hpos)
  rw [dot_scaled (Vec3.normalize Real.sqrt v) v (1 / Real.sqrt (Vec3.dot v v)) rfl rfl rfl]
  rw [← hs]
  field_simp

/-- The dot product of two normalized non-zero vectors lies in `[-1, 1]`. -/
theorem normalize_dot_mem (u v : Vec3 ℝ) (hu : u ≠ 0) (hv : v ≠ 0) :
    -1 ≤ Vec3.dot (Vec3.normalize Real.sqrt u) (Vec3.normalize Real.sqrt v) ∧
      Vec3.dot (Vec3.normalize Real.sqrt u) (Vec3.normalize Real.sqrt v) ≤ 1 := by
  have h := dot_sq_le (Vec3.normalize Real.sqrt u) (Vec3.normalize Real.sqrt v)
  rw [normalize_dot_self u hu, normalize_dot_self v hv] at h
  constructor <;> nlinarith

theorem is_zero_zero {K : Type} [LinearOrderedField K] : Constraint.is_zero (0 : K) = true := by
  rw [is_zero_iff]
  constructor <;> norm_num

/-- C5. Bend rest-state stability: for a quad with non-degenerate triangles (`p2 × p3 ≠ 0`,
`p2 × p4 ≠ 0`; coplanar or not), a Bend constraint whose rest angle is the angle `initSim`
measures on the configuration `x`, projected on the same `x`, returns the positions and the
constraint unchanged; in particular no position moves by more than `1e-4`. -/
theorem bend_rest_state_stable (acos : ℝ → ℝ) (c : Constraint ℝ) (i1 i2 i3 i4 : Nat)
    (x x_last : List (Vec3 ℝ)) (w : List ℝ) (dt : ℝ)
    (h3 : Vec3.cross (x.getD i2 0 - x.getD i1 0) (x.getD i3 0 - x.getD i1 0) ≠ 0)
    (h4 : Vec3.cross (x.getD i2 0 - x.getD i1 0) (x.getD i4 0 - x.getD i1 0) ≠ 0) :
    ConstraintBend.project Real.sqrt acos c i1 i2 i3 i4
        (PbdSolver.bendRestAngle Real.sqrt acos x i1 i2 i3 i4) x x_last w dt = (c, x) ∧
      ∀ k, Vec3.length Real.sqrt
        ((ConstraintBend.project Real.sqrt acos c i1 i2 i3 i4
            (PbdSolver.bendRestAngle Real.sqrt acos x i1 i2 i3 i4) x x_last w dt).2.getD k 0
          - x.getD k 0) ≤ 1 / 10000 := by
  have hmem := normalize_dot_mem _ _ h3 h4
  have hkey : ConstraintBend.project Real.sqrt acos c i1 i2 i3 i4
      (PbdSolver.bendRestAngle Real.sqrt acos x i1 i2 i3 i4) x x_last w dt = (c, x) := by
    unfold ConstraintBend.project PbdSolver.bendRestAngle
    simp only []
    rw [PbdSolver.clamp_of_mem _ _ _ hmem.1 hmem.2, sub_self, is_zero_zero]
    simp
  refine ⟨hkey, ?_⟩
  intro k
  rw [hkey]
  have h0 : Vec3.dot (x.getD k 0 - x.getD k 0) (x.getD k 0 - x.getD k 0) = 0 := by
    simp [Vec3.dot]
  simp only [Vec3.length]
  rw [h0, Real.sqrt_zero]
  norm_num

/-- Witness for C5: the flat quad `(0,0,0), (1,0,0), (0,0,1), (0,0,-1)` in the plane `y = 0`,
shared edge `(0, 1)`, apexes `2` and `3`. -/
theorem bend_rest_state_stable_witness :
    ConstraintBend.project Real.sqrt Real.arccos
        (ConstraintBend.mk 0 1 2 3
          (PbdSolver.bendRestAngle Real.sqrt Real.arccos
            [⟨0, 0, 0⟩, ⟨1, 0, 0⟩, ⟨0, 0, 1⟩, ⟨0, 0, -1⟩] 0 1 2 3) 10 (5 / 100))
        0 1 2 3
        (PbdSolver.bendRestAngle Real.sqrt Real.arccos
          [⟨0, 0, 0⟩, ⟨1, 0, 0⟩, ⟨0, 0, 1⟩, ⟨0, 0, -1⟩] 0 1 2 3)
        [⟨0, 0, 0⟩, ⟨1, 0, 0⟩, ⟨0, 0, 1⟩, ⟨0, 0, -1⟩]
        [⟨0, 0, 0⟩, ⟨1, 0, 0⟩, ⟨0, 0, 1⟩, ⟨0, 0, -1⟩] [1, 1, 1, 1] (16 / 1000)
      = (ConstraintBend.mk 0 1 2 3
          (PbdSolver.bendRestAngle Real.sqrt Real.arccos
            [⟨0, 0, 0⟩, ⟨1, 0, 0⟩, ⟨0, 0, 1⟩, ⟨0, 0, -1⟩] 0 1 2 3) 10 (5 / 100),
        [⟨0, 0, 0⟩, ⟨1, 0, 0⟩, ⟨0, 0, 1⟩, ⟨0, 0, -1⟩]) :=
  (bend_rest_state_stable Real.arccos _ 0 1 2 3
    [⟨0, 0, 0⟩, ⟨1, 0, 0⟩, ⟨0, 0, 1⟩, ⟨0, 0, -1⟩]
    [⟨0, 0, 0⟩, ⟨1, 0, 0⟩, ⟨0, 0, 1⟩, ⟨0, 0, -1⟩] [1, 1, 1, 1] (16 / 1000)
    (by
      intro h
      have hy := congrArg Vec3.y h
      simp [Vec3.cross] at hy)
    (by
      intro h
      have hy := congrArg Vec3.y h
      simp [Vec3.cross] at hy)).1

end BendRest

/-! ## `initSim`: what each loop changes -/

section InitSim

variable {K : Type} [LinearOrderedField K]

namespace PbdSolver

theorem initParticle_loop (l : List Nat) (s : PbdSolver K) :
    l.foldl initParticle s
        = { s with _w := (l.foldl initParticle s)._w, _v := (l.foldl initParticle s)._v,
                   _f := (l.foldl initParticle s)._f } ∧
      (l.foldl initParticle s)._w.length = s._w.length + l.length ∧
      (l.foldl initParticle s)._v = s._v ++ List.replicate l.length 0 ∧
      (l.foldl initParticle s)._f.length = s._f.length + l.length := by
  induction l generalizing s with
  | nil => simp
  | cons i t ih =>
    obtain ⟨h1, h2, h3, h4⟩ := ih (initParticle s i)
    simp only [List.foldl_cons, List.length_cons]
    refine ⟨?_, ?_, ?_, ?_⟩
    · rw [h1]; rfl
    · rw [h2]; simp [initParticle]; omega
    · rw [h3]; simp [initParticle, List.replicate_succ]
    · rw [h4]; simp [initParticle]; omega

theorem pinParticle_loop (i : Nat) (l : List Nat) (s : PbdSolver K) :
    l.foldl (pinParticle i) s
        = { s with _constraints := (l.foldl (pinParticle i) s)._constraints,
                   _w := (l.foldl (pinParticle i) s)._w } ∧
      (l.foldl (pinParticle i) s)._w.length = s._w.length ∧
      s._constraints <+: (l.foldl (pinParticle i) s)._constraints := by
  refine foldl_preserves
    (fun r : PbdSolver K => r = { s with _constraints := r._constraints, _w := r._w } ∧
      r._w.length = s._w.length ∧ s._constraints <+: r._constraints)
    (pinParticle i) ?_ l s ⟨rfl, rfl, List.prefix_refl _⟩
  rintro r j ⟨h1, h2, h3⟩
  refine ⟨?_, ?_, ?_⟩
  · rw [h1]; rfl
  · simp [pinParticle, List.length_set, h2]
  · exact h3.trans (List.prefix_append _ _)

theorem pinTable_frame (s : PbdSolver K) :
    pinTable s
        = { s with _constraints := (pinTable s)._constraints, _w := (pinTable s)._w } ∧
      (pinTable s)._w.length = s._w.length ∧
      s._constraints <+: (pinTable s)._constraints := by
  unfold pinTable
  refine foldl_preserves
    (fun r : PbdSolver K => r = { s with _constraints := r._constraints, _w := r._w } ∧
      r._w.length = s._w.length ∧ s._constraints <+: r._constraints)
    (fun s1 i => (List.range 9).foldl (pinParticle i) s1) ?_ (List.range 16) s
    ⟨rfl, rfl, List.prefix_refl _⟩
  rintro r i ⟨h1, h2, h3⟩
  obtain ⟨q1, q2, q3⟩ := pinParticle_loop i (List.range 9) r
  beta_reduce
  refine ⟨?_, ?_, ?_⟩
  · rw [q1, h1]
  · rw [q2, h2]
  · exact h3.trans q3

theorem addStretch_loop (sqrt : K → K) (l : List Edge) (s : PbdSolver K) :
    l.foldl (addStretch sqrt) s
        = { s with _constraints := (l.foldl (addStretch sqrt) s)._constraints } ∧
      s._constraints <+: (l.foldl (addStretch sqrt) s)._constraints := by
  refine foldl_preserves
    (fun r : PbdSolver K => r = { s with _constraints := r._constraints } ∧
      s._constraints <+: r._constraints)
    (addStretch sqrt) ?_ l s ⟨rfl, List.prefix_refl _⟩
  rintro r e ⟨h1, h2⟩
  unfold addStretch
  simp only []
  split_ifs
  · exact ⟨h1, h2⟩
  · refine ⟨?_, h2.trans (List.prefix_append _ _)⟩
    rw [h1]

theorem addBend_loop (sqrt acos : K → K) (l : List Edge) (s : PbdSolver K)
    (tn : List (Edge × List Nat)) :
    (l.foldl (addBend sqrt acos) (s, tn)).1
        = { s with _constraints := (l.foldl (addBend sqrt acos) (s, tn)).1._constraints } ∧
      s._constraints <+: (l.foldl (addBend sqrt acos) (s, tn)).1._constraints := by
  refine foldl_preserves
    (fun st : PbdSolver K × List (Edge × List Nat) =>
      st.1 = { s with _constraints := st.1._constraints } ∧ s._constraints <+: st.1._constraints)
    (addBend sqrt acos) ?_ l (s, tn) ⟨rfl, List.prefix_refl _⟩
  rintro st e ⟨h1, h2⟩
  unfold addBend
  simp only []
  split_ifs
  · exact ⟨h1, h2⟩
  · refine ⟨?_, h2.trans (List.prefix_append _ _)⟩
    simp only []
    rw [h1]
  · exact ⟨h1, h2⟩

end PbdSolver

end InitSim

/-! ## `initSim`: the state it returns -/

section InitSimFields

variable {K : Type} [LinearOrderedField K]

namespace PbdSolver

/-- The loops "3. stretch" and "4. bend" of `initSim` only append constraints. -/
theorem initSim_before_loops (sqrt acos : K → K) (s : PbdSolver K) (mesh : Mesh K) :
    initSim sqrt acos s mesh
      = { initPinned s mesh with _constraints := (initSim sqrt acos s mesh)._constraints } ∧
      (initPinned s mesh)._constraints <+: (initSim sqrt acos s mesh)._constraints := by
  have hdef : initSim sqrt acos s mesh
      = ((edgeTriangleInfo ((List.range mesh._vertexPositions.length).foldl initParticle
            (initAssigned s mesh))._idx).1.foldl (addBend sqrt acos)
          ((edgeTriangleInfo ((List.range mesh._vertexPositions.length).foldl initParticle
            (initAssigned s mesh))._idx).1.foldl (addStretch sqrt) (initPinned s mesh),
           (edgeTriangleInfo ((List.range mesh._vertexPositions.length).foldl initParticle
            (initAssigned s mesh))._idx).2)).1 := rfl
  obtain ⟨b1, b2⟩ := addBend_loop sqrt acos
    (edgeTriangleInfo ((List.range mesh._vertexPositions.length).foldl initParticle
      (initAssigned s mesh))._idx).1
    ((edgeTriangleInfo ((List.range mesh._vertexPositions.length).foldl initParticle
      (initAssigned s mesh))._idx).1.foldl (addStretch sqrt) (initPinned s mesh))
    (edgeTriangleInfo ((List.range mesh._vertexPositions.length).foldl initParticle
      (initAssigned s mesh))._idx).2
  obtain ⟨c1, c2⟩ := addStretch_loop sqrt
    (edgeTriangleInfo ((List.range mesh._vertexPositions.length).foldl initParticle
      (initAssigned s mesh))._idx).1 (initPinned s mesh)
  rw [← hdef] at b1 b2
  refine ⟨?_, c2.trans b2⟩
  rw [b1]
  simp only []
  rw [c1]

theorem initPinned_fields (s : PbdSolver K) (mesh : Mesh K) :
    initPinned s mesh
        = { s with _step := 0, _sim_t := 0, _x := mesh._vertexPositions,
                   _x_next := mesh._vertexPositions, _idx := mesh._triangleIndices,
                   _vertex_number := mesh._vertexPositions.length,
                   _v := s._v ++ List.replicate mesh._vertexPositions.length 0,
                   _f := (initPinned s mesh)._f, _w := (initPinned s mesh)._w,
                   _constraints := (initPinned s mesh)._constraints } ∧
      (initPinned s mesh)._f.length = s._f.length + mesh._vertexPositions.length ∧
      (initPinned s mesh)._w.length = s._w.length + mesh._vertexPositions.length ∧
      s._constraints <+: (initPinned s mesh)._constraints := by
  obtain ⟨a1, a2, a3, a4⟩ :=
    initParticle_loop (List.range mesh._vertexPositions.length) (initAssigned s mesh)
  obtain ⟨b1, b2, b3⟩ := pinTable_frame
    ((List.range mesh._vertexPositions.length).foldl initParticle (initAssigned s mesh))
  have hdef : initPinned s mesh = pinTable
      ((List.range mesh._vertexPositions.length).foldl initParticle (initAssigned s mesh)) := rfl
  rw [← hdef] at b1 b2 b3
  rw [List.length_range] at a2 a3 a4
  have hc : ((List.range mesh._vertexPositions.length).foldl initParticle
      (initAssigned s mesh))._constraints = s._constraints := by
    rw [a1]; rfl
  refine ⟨?_, ?_, ?_, ?_⟩
  · rw [b1]
    simp only []
    rw [a3, a1]
    rfl
  · rw [b1]
    simp only []
    rw [a4]; rfl
  · rw [b2, a2]; rfl
  · rw [← hc]; exact b3

/-- The members of the state `initSim` returns. -/
theorem initSim_fields (sqrt acos : K → K) (s : PbdSolver K) (mesh : Mesh K) :
    initSim sqrt acos s mesh
        = { s with _step := 0, _sim_t := 0, _x := mesh._vertexPositions,
                   _x_next := mesh._vertexPositions, _idx := mesh._triangleIndices,
                   _vertex_number := mesh._vertexPositions.length,
                   _v := s._v ++ List.replicate mesh._vertexPositions.length 0,
                   _f := (initSim sqrt acos s mesh)._f, _w := (initSim sqrt acos s mesh)._w,
                   _constraints := (initSim sqrt acos s mesh)._constraints } ∧
      (initSim sqrt acos s mesh)._f.length = s._f.length + mesh._vertexPositions.length ∧
      (initSim sqrt acos s mesh)._w.length = s._w.length + mesh._vertexPositions.length ∧
      s._constraints <+: (initSim sqrt acos s mesh)._constraints := by
  obtain ⟨e1, e2⟩ := initSim_before_loops sqrt acos s mesh
  obtain ⟨p1, p2, p3, p4⟩ := initPinned_fields s mesh
  have hf : (initSim sqrt acos s mesh)._f = (initPinned s mesh)._f := by rw [e1]
  have hw : (initSim sqrt acos s mesh)._w = (initPinned s mesh)._w := by rw [e1]
  refine ⟨?_, ?_, ?_, p4.trans e2⟩
  · rw [hf, hw, e1]
    simp only []
    rw [p1]
  · rw [hf]; exact p2
  · rw [hw]; exact p3

end PbdSolver

end InitSimFields

/-! ## Sequences of `step` calls -/

section Steps

variable {K : Type} [LinearOrderedField K]

namespace PbdSolver

theorem step_v_length (sqrt acos : K → K) (tUintBits : Nat) (s : PbdSolver K) (dt : K) :
    (step sqrt acos tUintBits s dt)._v.length = s._v.length := by
  obtain ⟨-, -, r3, -⟩ := stepRelax_frame sqrt acos s dt
  rw [step_eq]
  simp only []
  rw [(commit_loop_frame dt _ _).2.1]
  exact r3

theorem step_x_next_length (sqrt acos : K → K) (tUintBits : Nat) (s : PbdSolver K) (dt : K) :
    (step sqrt acos tUintBits s dt)._x_next.length = s._x_next.length := by
  obtain ⟨-, r2, -, -⟩ := stepRelax_frame sqrt acos s dt
  rw [(step_fields sqrt acos tUintBits s dt).2.2.2.2.1, List.length_map, r2]

/-- A sequence of steps keeps the sizes of the particle arrays and `_vertex_number`. -/
theorem steps_lengths (sqrt acos : K → K) (tUintBits : Nat) (dts : List K) (s : PbdSolver K) :
    (steps sqrt acos tUintBits s dts)._x.length = s._x.length ∧
      (steps sqrt acos tUintBits s dts)._x_next.length = s._x_next.length ∧
      (steps sqrt acos tUintBits s dts)._v.length = s._v.length ∧
      (steps sqrt acos tUintBits s dts)._f = s._f ∧
      (steps sqrt acos tUintBits s dts)._w = s._w ∧
      (steps sqrt acos tUintBits s dts)._vertex_number = s._vertex_number := by
  induction dts generalizing s with
  | nil => exact ⟨rfl, rfl, rfl, rfl, rfl, rfl⟩
  | cons dt t ih =>
    obtain ⟨h1, h2, h3, h4, h5, h6⟩ := ih (step sqrt acos tUintBits s dt)
    obtain ⟨fw, ff, fvn, -, -, -, -, -⟩ := step_fields sqrt acos tUintBits s dt
    simp only [steps, List.foldl_cons] at h1 h2 h3 h4 h5 h6 ⊢
    exact ⟨h1.trans (step_x_length sqrt acos tUintBits s dt),
      h2.trans (step_x_next_length sqrt acos tUintBits s dt),
      h3.trans (step_v_length sqrt acos tUintBits s dt), h4.trans ff, h5.trans fw,
      h6.trans fvn⟩

/-- The counter after a non-empty sequence of steps. -/
theorem steps_counter (sqrt acos : K → K) (tUintBits : Nat) (dts : List K)
    (s : PbdSolver K) (hne : dts ≠ []) :
    (steps sqrt acos tUintBits s dts)._step = (s._step + dts.length) % 2 ^ tUintBits := by
  induction dts generalizing s with
  | nil => exact absurd rfl hne
  | cons dt t ih =>
    obtain ⟨-, -, -, -, -, -, fst, -⟩ := step_fields sqrt acos tUintBits s dt
    simp only [steps, List.foldl_cons, List.length_cons] at ih ⊢
    rcases t with _ | ⟨dt2, t2⟩
    · simpa using fst
    · rw [ih (step sqrt acos tUintBits s dt) (List.cons_ne_nil _ _), fst, Nat.mod_add_mod]
      congr 1
      simp only [List.length_cons]
      omega

theorem steps_clock (sqrt acos : K → K) (tUintBits : Nat) (dts : List K) (s : PbdSolver K) :
    (steps sqrt acos tUintBits s dts)._sim_t = s._sim_t + dts.sum := by
  induction dts generalizing s with
  | nil => simp [steps]
  | cons dt t ih =>
    obtain ⟨-, -, -, -, -, -, -, fcl⟩ := step_fields sqrt acos tUintBits s dt
    simp only [steps, List.foldl_cons, List.sum_cons] at ih ⊢
    rw [ih, fcl]
    ring

end PbdSolver

end Steps

/-! ## Re-initialisation, counter and clock -/

section Reinit

variable {K : Type} [LinearOrderedField K]

/-- C6 (defect in `initSim`). On a freshly constructed solver, `initSim(m1)` followed by any steps
leaves `_x`, `_x_next`, `_v`, `_f`, `_w` with as many entries as `m1` has vertices. A second
`initSim(m2)` on that solver replaces `_x` and `_x_next` (they get the vertex count `n2` of `m2`)
but appends to `_v`, `_f` and `_w`, which then have `n1 + n2` entries. -/
theorem initSim_array_lengths (sqrt acos : K → K) (tUintBits num_solve : Nat)
    (k_stretch k_bend k_damp : K) (gravity : Vec3 K) (m1 m2 : Mesh K) (dts : List K) :
    ((PbdSolver.steps sqrt acos tUintBits
        (PbdSolver.initSim sqrt acos
          (PbdSolver.new num_solve k_stretch k_bend k_damp gravity) m1) dts)._x.length
        = m1._vertexPositions.length ∧
      (PbdSolver.steps sqrt acos tUintBits
        (PbdSolver.initSim sqrt acos
          (PbdSolver.new num_solve k_stretch k_bend k_damp gravity) m1) dts)._x_next.length
        = m1._vertexPositions.length ∧
      (PbdSolver.steps sqrt acos tUintBits
        (PbdSolver.initSim sqrt acos
          (PbdSolver.new num_solve k_stretch k_bend k_damp gravity) m1) dts)._v.length
        = m1._vertexPositions.length ∧
      (PbdSolver.steps sqrt acos tUintBits
        (PbdSolver.initSim sqrt acos
          (PbdSolver.new num_solve k_stretch k_bend k_damp gravity) m1) dts)._f.length
        = m1._vertexPositions.length ∧
      (PbdSolver.steps sqrt acos tUintBits
        (PbdSolver.initSim sqrt acos
          (PbdSolver.new num_solve k_stretch k_bend k_damp gravity) m1) dts)._w.length
        = m1._vertexPositions.length) ∧
    ((PbdSolver.initSim sqrt acos (PbdSolver.steps sqrt acos tUintBits
        (PbdSolver.initSim sqrt acos
          (PbdSolver.new num_solve k_stretch k_bend k_damp gravity) m1) dts) m2)._x.length
        = m2._vertexPositions.length ∧
      (PbdSolver.initSim sqrt acos (PbdSolver.steps sqrt acos tUintBits
        (PbdSolver.initSim sqrt acos
          (PbdSolver.new num_solve k_stretch k_bend k_damp gravity) m1) dts) m2)._x_next.length
        = m2._vertexPositions.length ∧
      (PbdSolver.initSim sqrt acos (PbdSolver.steps sqrt acos tUintBits
        (PbdSolver.initSim sqrt acos
          (PbdSolver.new num_solve k_stretch k_bend k_damp gravity) m1) dts) m2)._v.length
        = m1._vertexPositions.length + m2._vertexPositions.length ∧
      (PbdSolver.initSim sqrt acos (PbdSolver.steps sqrt acos tUintBits
        (PbdSolver.initSim sqrt acos
          (PbdSolver.new num_solve k_stretch k_bend k_damp gravity) m1) dts) m2)._f.length
        = m1._vertexPositions.length + m2._vertexPositions.length ∧
      (PbdSolver.initSim sqrt acos (PbdSolver.steps sqrt acos tUintBits
        (PbdSolver.initSim sqrt acos
          (PbdSolver.new num_solve k_stretch k_bend k_damp gravity) m1) dts) m2)._w.length
        = m1._vertexPositions.length + m2._vertexPositions.length) := by
  obtain ⟨i1, i2, i3, -⟩ := PbdSolver.initSim_fields sqrt acos
    (PbdSolver.new num_solve k_stretch k_bend k_damp gravity) m1
  obtain ⟨l1, l2, l3, l4, l5, -⟩ := PbdSolver.steps_lengths sqrt acos tUintBits dts
    (PbdSolver.initSim sqrt acos (PbdSolver.new num_solve k_stretch k_bend k_damp gravity) m1)
  have hx : (PbdSolver.initSim sqrt acos
      (PbdSolver.new num_solve k_stretch k_bend k_damp gravity) m1)._x
        = m1._vertexPositions := by rw [i1]
  have hxn : (PbdSolver.initSim sqrt acos
      (PbdSolver.new num_solve k_stretch k_bend k_damp gravity) m1)._x_next
        = m1._vertexPositions := by rw [i1]
  have hv : (PbdSolver.initSim sqrt acos
      (PbdSolver.new num_solve k_stretch k_bend k_damp gravity) m1)._v
        = List.replicate m1._vertexPositions.length 0 := by
    rw [i1]; simp [PbdSolver.new]
  have hf : (PbdSolver.initSim sqrt acos
      (PbdSolver.new num_solve k_stretch k_bend k_damp gravity) m1)._f.length
        = m1._vertexPositions.length := by
    rw [i2]; simp [PbdSolver.new]
  have hw : (PbdSolver.initSim sqrt acos
      (PbdSolver.new num_solve k_stretch k_bend k_damp gravity) m1)._w.length
        = m1._vertexPositions.length := by
    rw [i3]; simp [PbdSolver.new]
  have a1 := l1.trans (congrArg List.length hx)
  have a2 := l2.trans (congrArg List.length hxn)
  have a3 : (PbdSolver.steps sqrt acos tUintBits
      (PbdSolver.initSim sqrt acos
        (PbdSolver.new num_solve k_stretch k_bend k_damp gravity) m1) dts)._v.length
          = m1._vertexPositions.length := by
    rw [l3, hv, List.length_replicate]
  have a4 := (congrArg List.length l4).trans hf
  have a5 := (congrArg List.length l5).trans hw
  obtain ⟨j1, j2, j3, -⟩ := PbdSolver.initSim_fields sqrt acos
    (PbdSolver.steps sqrt acos tUintBits
      (PbdSolver.initSim sqrt acos
        (PbdSolver.new num_solve k_stretch k_bend k_damp gravity) m1) dts) m2
  refine ⟨⟨a1, a2, a3, a4, a5⟩, ?_, ?_, ?_, ?_, ?_⟩
  · rw [j1]
  · rw [j1]
  · rw [j1]
    simp only [List.length_append, List.length_replicate]
    rw [a3]
  · rw [j2, a4]
  · rw [j3, a5]

/-- C7 (defect in `initSim`). `initSim` on a state `s` keeps what `s` held: the velocity array is
the old one followed by one zero per vertex of the mesh, and the old constraint list is a prefix
of the new one; on a freshly constructed solver the velocity array is all zeros. -/
theorem initSim_keeps_old_state (sqrt acos : K → K) (s : PbdSolver K) (mesh : Mesh K)
    (num_solve : Nat) (k_stretch k_bend k_damp : K) (gravity : Vec3 K) :
    (PbdSolver.initSim sqrt acos s mesh)._v
        = s._v ++ List.replicate mesh._vertexPositions.length 0 ∧
      s._constraints <+: (PbdSolver.initSim sqrt acos s mesh)._constraints ∧
      (PbdSolver.initSim sqrt acos
        (PbdSolver.new num_solve k_stretch k_bend k_damp gravity) mesh)._v
        = List.replicate mesh._vertexPositions.length 0 := by
  obtain ⟨i1, -, -, i4⟩ := PbdSolver.initSim_fields sqrt acos s mesh
  obtain ⟨j1, -, -, -⟩ := PbdSolver.initSim_fields sqrt acos
    (PbdSolver.new num_solve k_stretch k_bend k_damp gravity) mesh
  refine ⟨?_, i4, ?_⟩
  · rw [i1]
  · rw [j1]; simp [PbdSolver.new]

/-- C8 (amended). Step counter and clock: `initSim` sets the counter and the clock to `0`; each
`step(dt)` increases the counter by one modulo `2 ^ tUintBits` (the counter is an unsigned
machine integer) and the clock by exactly `dt`, with no clamping of `dt`; after `initSim`
followed by steps with time steps `dts`, the counter is the number of steps modulo
`2 ^ tUintBits` and the clock is the sum of the time steps. -/
theorem step_counter_clock (sqrt acos : K → K) (tUintBits : Nat) (s : PbdSolver K)
    (mesh : Mesh K) (dt : K) (dts : List K) :
    (PbdSolver.initSim sqrt acos s mesh)._step = 0 ∧
      (PbdSolver.initSim sqrt acos s mesh)._sim_t = 0 ∧
      (PbdSolver.step sqrt acos tUintBits s dt)._step = (s._step + 1) % 2 ^ tUintBits ∧
      (PbdSolver.step sqrt acos tUintBits s dt)._sim_t = s._sim_t + dt ∧
      (PbdSolver.steps sqrt acos tUintBits (PbdSolver.initSim sqrt acos s mesh) dts)._step
        = dts.length % 2 ^ tUintBits ∧
      (PbdSolver.steps sqrt acos tUintBits (PbdSolver.initSim sqrt acos s mesh) dts)._sim_t
        = dts.sum := by
  obtain ⟨i1, -, -, -⟩ := PbdSolver.initSim_fields sqrt acos s mesh
  obtain ⟨-, -, -, -, -, -, fst, fcl⟩ := PbdSolver.step_fields sqrt acos tUintBits s dt
  have h0 : (PbdSolver.initSim sqrt acos s mesh)._step = 0 := by rw [i1]
  have t0 : (PbdSolver.initSim sqrt acos s mesh)._sim_t = 0 := by rw [i1]
  refine ⟨h0, t0, fst, fcl, ?_, ?_⟩
  · rcases dts with _ | ⟨d1, t⟩
    · simpa [PbdSolver.steps] using h0
    · rw [PbdSolver.steps_counter sqrt acos tUintBits _ _ (List.cons_ne_nil _ _), h0,
        Nat.zero_add]
  · rw [PbdSolver.steps_clock, t0, zero_add]

end Reinit

/-- Counterexample to C8 as stated: with a 32-bit `tUint`, after `initSim` on a mesh of 353
vertices and `2 ^ 32` steps the counter is `0`, not `2 ^ 32`; with a 64-bit `tUint` the same
happens after `2 ^ 64` steps. -/
theorem step_counter_clock_counterexample :
    ((List.replicate (2 ^ 32) (1 / 100 : ℝ)).length = 2 ^ 32 ∧
      (PbdSolver.steps Real.sqrt Real.arccos 32
        (PbdSolver.initSim Real.sqrt Real.arccos
          (PbdSolver.new 20 (1 / 1000000000) 10 0 ⟨0, -(98 / 10), 0⟩)
          ⟨List.replicate 353 0, List.replicate 353 0, []⟩)
        (List.replicate (2 ^ 32) (1 / 100 : ℝ)))._step = 0) ∧
    ((List.replicate (2 ^ 64) (1 / 100 : ℝ)).length = 2 ^ 64 ∧
      (PbdSolver.steps Real.sqrt Real.arccos 64
        (PbdSolver.initSim Real.sqrt Real.arccos
          (PbdSolver.new 20 (1 / 1000000000) 10 0 ⟨0, -(98 / 10), 0⟩)
          ⟨List.replicate 353 0, List.replicate 353 0, []⟩)
        (List.replicate (2 ^ 64) (1 / 100 : ℝ)))._step = 0) := by
  have hne : ∀ n : Nat, List.replicate (2 ^ n) (1 / 100 : ℝ) ≠ [] := by
    intro n h
    have hl := congrArg List.length h
    rw [List.length_replicate, List.length_nil] at hl
    exact absurd hl (Nat.ne_of_gt (Nat.two_pow_pos n))
  have h0 : (PbdSolver.initSim Real.sqrt Real.arccos
      (PbdSolver.new 20 (1 / 1000000000) 10 0 ⟨0, -(98 / 10), 0⟩)
      ⟨List.replicate 353 0, List.replicate 353 0, []⟩)._step = 0 := by
    rw [(PbdSolver.initSim_fields Real.sqrt Real.arccos _ _).1]
  refine ⟨⟨List.length_replicate _ _, ?_⟩, ⟨List.length_replicate _ _, ?_⟩⟩
  · rw [PbdSolver.steps_counter Real.sqrt Real.arccos 32 _ _ (hne 32), h0,
      List.length_replicate, Nat.zero_add, Nat.mod_self]
  · rw [PbdSolver.steps_counter Real.sqrt Real.arccos 64 _ _ (hne 64), h0,
      List.length_replicate, Nat.zero_add, Nat.mod_self]

/-! ## `updateMesh` and the per-vertex normals -/

section UpdateMesh

variable {K : Type} [LinearOrderedField K]

theorem normalizeStatement_loop (sqrt : K → K) (l : List Nat) (normals : List (Vec3 K)) :
    l.foldl (Mesh.normalizeStatement sqrt) normals = normals := by
  induction l with
  | nil => rfl
  | cons i t ih => exact ih

/-- The normals `Mesh::recomputePerVertexNormals` stores are the accumulated face normals: its
last loop changes nothing. -/
theorem recomputePerVertexNormals_normals (sqrt : K → K) (m : Mesh K) :
    (Mesh.recomputePerVertexNormals sqrt m)._vertexNormals
      = m._triangleIndices.foldl (Mesh.accumulateFace m._vertexPositions)
          (List.replicate m._vertexPositions.length 0) := by
  unfold Mesh.recomputePerVertexNormals
  simp only []
  exact normalizeStatement_loop sqrt _ _

/-- C10. `updateMesh` exports the committed positions: afterwards the vertex positions of the
mesh are the solver's array `_x`, element for element (those of the mesh given to `initSim` if the
solver has just been initialised, those committed by the last `step` after a step), the triangle
list of the mesh is unchanged and the solver is unchanged. -/
theorem updateMesh_exports (sqrt acos : K → K) (tUintBits : Nat) (s : PbdSolver K)
    (mesh mesh0 : Mesh K) (dt : K) :
    (PbdSolver.updateMesh sqrt s mesh).2._vertexPositions = s._x ∧
      (PbdSolver.updateMesh sqrt s mesh).2._triangleIndices = mesh._triangleIndices ∧
      (PbdSolver.updateMesh sqrt s mesh).1 = s ∧
      (PbdSolver.updateMesh sqrt (PbdSolver.initSim sqrt acos s mesh0) mesh).2._vertexPositions
        = mesh0._vertexPositions ∧
      (PbdSolver.updateMesh sqrt (PbdSolver.step sqrt acos tUintBits s dt)
          mesh).2._vertexPositions
        = (PbdSolver.step sqrt acos tUintBits s dt)._x := by
  refine ⟨rfl, rfl, rfl, ?_, rfl⟩
  obtain ⟨i1, -, -, -⟩ := PbdSolver.initSim_fields sqrt acos s mesh0
  have hx : (PbdSolver.initSim sqrt acos s mesh0)._x = mesh0._vertexPositions := by rw [i1]
  exact hx

end UpdateMesh

/-- C9 (defect in `Mesh::recomputePerVertexNormals`). For the solver positions
`(0,0,0), (2,0,0), (0,2,0)` and a mesh with the single triangle `(0, 1, 2)`, `updateMesh` leaves
the three vertex normals equal to the accumulated face normal `(0, 0, 4)`, of length `4`, not
`1`: the value of `glm::normalize` is not stored. -/
theorem updateMesh_normals_not_unit :
    (PbdSolver.updateMesh Real.sqrt
        { PbdSolver.new 20 (1 / 1000000000) 10 0 ⟨0, -(98 / 10), 0⟩ with
          _x := [⟨0, 0, 0⟩, ⟨2, 0, 0⟩, ⟨0, 2, 0⟩] }
        ⟨[⟨0, 0, 0⟩, ⟨2, 0, 0⟩, ⟨0, 2, 0⟩], [0, 0, 0], [⟨0, 1, 2⟩]⟩).2._vertexNormals
      = [⟨0, 0, 4⟩, ⟨0, 0, 4⟩, ⟨0, 0, 4⟩] ∧
    Vec3.length Real.sqrt (⟨0, 0, 4⟩ : Vec3 ℝ) = 4 ∧
    Vec3.normalize Real.sqrt (⟨0, 0, 4⟩ : Vec3 ℝ) = ⟨0, 0, 1⟩ := by
  have h16 : Real.sqrt 16 = 4 := by
    rw [show (16 : ℝ) = 4 * 4 by norm_num]
    exact Real.sqrt_mul_self (by norm_num)
  refine ⟨?_, ?_, ?_⟩
  · simp only [PbdSolver.updateMesh]
    rw [recomputePerVertexNormals_normals]
    simp [PbdSolver.new, Mesh.accumulateFace, Vec3.cross]
    apply vec3_ext <;> norm_num
  · simp only [Vec3.length, Vec3.dot]
    norm_num
    exact h16
  · simp only [Vec3.normalize, Vec3.dot, Vec3.mulS]
    norm_num
    rw [h16]
    norm_num

/-! ## Frame of `project` and the skip tests of the Bend projection -/

section ProjectFrame

variable {K : Type} [LinearOrderedField K]

theorem bend_project_fields (sqrt acos : K → K) (c : Constraint K) (i1 i2 i3 i4 : Nat)
    (phi0 : K) (x x_last : List (Vec3 K)) (w : List K) (dt : K) :
    (ConstraintBend.project sqrt acos c i1 i2 i3 i4 phi0 x x_last w dt).1._compliance
        = c._compliance ∧
      (ConstraintBend.project sqrt acos c i1 i2 i3 i4 phi0 x x_last w dt).1._damp_coef
        = c._damp_coef := by
  unfold ConstraintBend.project
  simp only []
  split_ifs <;> exact ⟨rfl, rfl⟩

theorem constraint_project_fields (sqrt acos : K → K) (c : Constraint K)
    (x x_last : List (Vec3 K)) (w : List K) (dt : K) :
    (Constraint.project sqrt acos c x x_last w dt).1._compliance = c._compliance ∧
      (Constraint.project sqrt acos c x x_last w dt).1._damp_coef = c._damp_coef := by
  unfold Constraint.project
  split
  · exact ⟨rfl, rfl⟩
  · exact stretch_project_fields sqrt c _ _ _ x x_last w dt
  · exact bend_project_fields sqrt acos c _ _ _ _ _ x x_last w dt

/-- C18. Frame of `project`: for each of the three variants, the positions returned by `project`
differ from the given ones only at the particle indices of the constraint (`i` for Attach, `i, j`
for Stretch, `i1 .. i4` for Bend) and there are as many of them; the returned constraint is the
given one except for `_lambda`, and an Attach constraint is returned as it is. The previous
positions and the inverse masses are only read: `project` returns no new value for them. -/
theorem project_frame (sqrt acos : K → K) (c : Constraint K) (x x_last : List (Vec3 K))
    (w : List K) (dt : K) :
    (∀ k e, k ∉ c.indices →
        (Constraint.project sqrt acos c x x_last w dt).2.getD k e = x.getD k e) ∧
      (Constraint.project sqrt acos c x x_last w dt).2.length = x.length ∧
      (Constraint.project sqrt acos c x x_last w dt).1
        = { c with _lambda := (Constraint.project sqrt acos c x x_last w dt).1._lambda } ∧
      (∀ i p, c.kind = .attach i p → (Constraint.project sqrt acos c x x_last w dt).1 = c) ∧
      (∀ i j d, c.kind = .stretch i j d → c.indices = [i, j]) ∧
      (∀ i1 i2 i3 i4 phi0, c.kind = .bend i1 i2 i3 i4 phi0 → c.indices = [i1, i2, i3, i4]) ∧
      (∀ i p, c.kind = .attach i p → c.indices = [i]) := by
  refine ⟨?_, constraint_project_length sqrt acos c x x_last w dt, ?_, ?_, ?_, ?_, ?_⟩
  · intro k e hk
    exact constraint_project_frame sqrt acos c x x_last w dt k hk e
  · obtain ⟨h1, h2⟩ := constraint_project_fields sqrt acos c x x_last w dt
    have h3 := constraint_project_kind sqrt acos c x x_last w dt
    generalize Constraint.project sqrt acos c x x_last w dt = r at h1 h2 h3
    obtain ⟨⟨l, cm, dm, kd⟩, xs⟩ := r
    simp only at h1 h2 h3
    subst h1 h2 h3
    rfl
  · intro i p hk
    rw [constraint_project_attach sqrt acos c i p hk]
  · intro i j d hk
    simp only [Constraint.indices, hk]
  · intro i1 i2 i3 i4 phi0 hk
    simp only [Constraint.indices, hk]
  · intro i p hk
    simp only [Constraint.indices, hk]

theorem clamp_unit_mem (t : K) : -1 ≤ clamp t (-1) 1 ∧ clamp t (-1) 1 ≤ 1 :=
  PbdSolver.clamp_mem t (-1) 1 (by norm_num)

/-- C15. Bend skips a satisfied or singular configuration: with `d` the clamped dot product of
the two unit normals, if `|acos(d) - restAngle| ≤ 1e-5` or `1 - d² ≤ 1e-5`, then
`ConstraintBend::project` returns the positions and the constraint (so `_lambda`) unchanged. -/
theorem bend_skips_satisfied_or_singular (sqrt acos : K → K) (c : Constraint K)
    (i1 i2 i3 i4 : Nat) (phi0 : K) (x x_last : List (Vec3 K)) (w : List K) (dt : K)
    (h : |acos (ConstraintBend.cosAngle sqrt x i1 i2 i3 i4) - phi0| ≤ 1 / 100000 ∨
        1 - ConstraintBend.cosAngle sqrt x i1 i2 i3 i4 ^ 2 ≤ 1 / 100000) :
    ConstraintBend.project sqrt acos c i1 i2 i3 i4 phi0 x x_last w dt = (c, x) := by
  have hd : -1 ≤ ConstraintBend.cosAngle sqrt x i1 i2 i3 i4 ∧
      ConstraintBend.cosAngle sqrt x i1 i2 i3 i4 ≤ 1 := clamp_unit_mem _
  have hproj : ConstraintBend.project sqrt acos c i1 i2 i3 i4 phi0 x x_last w dt
      = if (Constraint.is_zero (Vec3.length sqrt (Vec3.normalize sqrt
              (Vec3.cross (x.getD i2 0 - x.getD i1 0) (x.getD i3 0 - x.getD i1 0)))) ||
            Constraint.is_zero (Vec3.length sqrt (Vec3.normalize sqrt
              (Vec3.cross (x.getD i2 0 - x.getD i1 0) (x.getD i4 0 - x.getD i1 0))))) = true
        then (c, x)
        else if (Constraint.is_zero (acos (ConstraintBend.cosAngle sqrt x i1 i2 i3 i4) - phi0) ||
            Constraint.is_zero (1 - ConstraintBend.cosAngle sqrt x i1 i2 i3 i4 *
              ConstraintBend.cosAngle sqrt x i1 i2 i3 i4)) = true
        then (c, x)
        else ConstraintBend.project sqrt acos c i1 i2 i3 i4 phi0 x x_last w dt := by
    unfold ConstraintBend.project ConstraintBend.cosAngle
    simp only []
    split_ifs <;> rfl
  have key : (Constraint.is_zero (acos (ConstraintBend.cosAngle sqrt x i1 i2 i3 i4) - phi0) ||
      Constraint.is_zero (1 - ConstraintBend.cosAngle sqrt x i1 i2 i3 i4 *
        ConstraintBend.cosAngle sqrt x i1 i2 i3 i4)) = true := by
    rw [Bool.or_eq_true]
    rcases h with h | h
    · left
      rw [is_zero_iff]
      exact abs_le.mp h
    · right
      rw [is_zero_iff]
      constructor
      · nlinarith [hd.1, hd.2]
      · rw [← pow_two]; exact h
  rw [hproj, if_pos key]
  simp

/-- Witness for C15: two perpendicular triangles (`d = 0`) and a Bend constraint whose rest
angle is `arccos 0`; the angle test applies. -/
theorem bend_skips_satisfied_or_singular_witness :
    ConstraintBend.project Real.sqrt Real.arccos (ConstraintBend.mk 0 1 2 3 (Real.arccos 0) 10 0)
        0 1 2 3 (Real.arccos 0) [⟨0, 0, 0⟩, ⟨1, 0, 0⟩, ⟨0, 1, 0⟩, ⟨0, 0, 1⟩]
        [⟨0, 0, 0⟩, ⟨1, 0, 0⟩, ⟨0, 1, 0⟩, ⟨0, 0, 1⟩] [1, 1, 1, 1] (16 / 1000)
      = (ConstraintBend.mk 0 1 2 3 (Real.arccos 0) 10 0,
          [⟨0, 0, 0⟩, ⟨1, 0, 0⟩, ⟨0, 1, 0⟩, ⟨0, 0, 1⟩]) :=
  bend_skips_satisfied_or_singular Real.sqrt Real.arccos _ 0 1 2 3 (Real.arccos 0)
    [⟨0, 0, 0⟩, ⟨1, 0, 0⟩, ⟨0, 1, 0⟩, ⟨0, 0, 1⟩]
    [⟨0, 0, 0⟩, ⟨1, 0, 0⟩, ⟨0, 1, 0⟩, ⟨0, 0, 1⟩] [1, 1, 1, 1] (16 / 1000)
    (Or.inl (by
      have hd : ConstraintBend.cosAngle Real.sqrt
          ([⟨0, 0, 0⟩, ⟨1, 0, 0⟩, ⟨0, 1, 0⟩, ⟨0, 0, 1⟩] : List (Vec3 ℝ)) 0 1 2 3 = 0 := by
        simp [ConstraintBend.cosAngle, Vec3.cross, Vec3.normalize, Vec3.dot, Vec3.mulS, clamp]
      rw [hd, sub_self, abs_zero]
      norm_num))

end ProjectFrame

/-! ## Multiplier reset, prediction and commit -/

section ResetPredict

variable {K : Type} [LinearOrderedField K]

namespace PbdSolver

/-- The prediction loop does not look at the constraints. -/
theorem predict_loop_constraints (dt : K) (l : List Nat) (s : PbdSolver K)
    (cs : List (Constraint K)) :
    l.foldl (predict dt) { s with _constraints := cs }
      = { l.foldl (predict dt) s with _constraints := cs } := by
  induction l generalizing s with
  | nil => rfl
  | cons i t ih =>
    simp only [List.foldl_cons]
    have h : predict dt { s with _constraints := cs } i
        = { predict dt s i with _constraints := cs } := rfl
    rw [h, ih]

/-- States that agree after `reset` of their constraints are taken to the same state by the first
three loops of `step`. -/
theorem stepRelax_reset (sqrt acos : K → K) (s : PbdSolver K) (cs : List (Constraint K))
    (dt : K) (h : cs.map Constraint.reset = s._constraints.map Constraint.reset) :
    stepRelax sqrt acos { s with _constraints := cs } dt = stepRelax sqrt acos s dt := by
  rw [stepRelax_eq, stepRelax_eq]
  have hp := predict_loop_constraints dt (List.range s._vertex_number) s cs
  have hc : ((List.range s._vertex_number).foldl (predict dt) s)._constraints
      = s._constraints := by
    rw [(predict_loop_frame dt (List.range s._vertex_number) s).1]
  simp only []
  rw [hp]
  simp only []
  rw [h, hc]

theorem solve_loop_nil (sqrt acos : K → K) (dt : K) (l : List Nat) (s : PbdSolver K)
    (h : s._constraints = []) :
    l.foldl (fun st _ => solvePass sqrt acos dt st) s = s := by
  induction l with
  | nil => rfl
  | cons i t ih =>
    simp only [List.foldl_cons]
    have hs : solvePass sqrt acos dt s = s := by
      unfold solvePass
      rw [h]
      simp only [projectAll]
      rw [← h]
    rw [hs]
    exact ih

/-- Without constraints, or without passes, the first three loops of `step` leave the predicted
positions of the prediction loop. -/
theorem stepRelax_x_next_free (sqrt acos : K → K) (s : PbdSolver K) (dt : K)
    (h : s._constraints = [] ∨ s._Ns = 0) :
    (stepRelax sqrt acos s dt)._x_next
      = ((List.range s._vertex_number).foldl (predict dt) s)._x_next := by
  rw [stepRelax_eq]
  rcases h with h | h
  · have hc : ((List.range s._vertex_number).foldl (predict dt) s)._constraints = [] := by
      rw [(predict_loop_frame dt (List.range s._vertex_number) s).1]
      exact h
    rw [solve_loop_nil]
    simp only []
    rw [hc]
    rfl
  · rw [h]
    rfl

end PbdSolver

end ResetPredict

/-! ## Multiplier reset (claim) and prediction/commit (claim) -/

section StepClaims

variable {K : Type} [LinearOrderedField K]

/-- C20. Multiplier reset: if two solver states differ only in the `_lambda` fields of their
constraints (their constraint lists agree after `reset`, all else is equal), then `step(dt)` gives
the same positions `_x` and the same velocities `_v` on both; it even gives the same state. -/
theorem multiplier_reset (sqrt acos : K → K) (tUintBits : Nat) (s1 s2 : PbdSolver K) (dt : K)
    (h : s2 = { s1 with _constraints := s2._constraints })
    (hc : s2._constraints.map Constraint.reset = s1._constraints.map Constraint.reset) :
    (PbdSolver.step sqrt acos tUintBits s2 dt)._x = (PbdSolver.step sqrt acos tUintBits s1 dt)._x ∧
      (PbdSolver.step sqrt acos tUintBits s2 dt)._v
        = (PbdSolver.step sqrt acos tUintBits s1 dt)._v ∧
      PbdSolver.step sqrt acos tUintBits s2 dt = PbdSolver.step sqrt acos tUintBits s1 dt := by
  generalize s2._constraints = cs at h hc
  subst h
  have hr := PbdSolver.stepRelax_reset sqrt acos s1 cs dt hc
  have hst : PbdSolver.step sqrt acos tUintBits { s1 with _constraints := cs } dt
      = PbdSolver.step sqrt acos tUintBits s1 dt := by
    rw [PbdSolver.step_eq, PbdSolver.step_eq, hr]
  exact ⟨congrArg PbdSolver._x hst, congrArg PbdSolver._v hst, hst⟩

/-- Witness for C20: the pinned one-particle state, once with multiplier `0` and once with
multiplier `5` in its Attach constraint. -/
theorem multiplier_reset_witness :
    (PbdSolver.step Real.sqrt Real.arccos 32
        { PbdSolver.examplePinned 1 (1 / 2 : ℝ) ⟨3, 0, 0⟩ with
          _constraints := [{ ConstraintAttach.mk 0 ⟨0, 1 / 2, 0⟩ with _lambda := 5 }] }
        (1 / 100))._x
      = (PbdSolver.step Real.sqrt Real.arccos 32
          (PbdSolver.examplePinned 1 (1 / 2 : ℝ) ⟨3, 0, 0⟩) (1 / 100))._x :=
  (multiplier_reset Real.sqrt Real.arccos 32 (PbdSolver.examplePinned 1 (1 / 2 : ℝ) ⟨3, 0, 0⟩)
    { PbdSolver.examplePinned 1 (1 / 2 : ℝ) ⟨3, 0, 0⟩ with
      _constraints := [{ ConstraintAttach.mk 0 ⟨0, 1 / 2, 0⟩ with _lambda := 5 }] }
    (1 / 100) rfl rfl).1

/-- C19. Prediction and commit: in a state whose particle arrays have room for `_vertex_number`
particles, for `dt ≠ 0` and a particle `i`: if the constraint list is empty or `_Ns = 0`, then
after `step(dt)` the coordinates `x` and `z` of `_x[i]` are those of `x + dt*(v + dt*f*w)` and the
coordinate `y` is that of `x + dt*(v + dt*f*w)` clamped to `[-0.9999, 1.0]`; and in every state
the committed velocity is `(x' - x) / dt`. Here `x`, `v`, `f`, `w` are the values before the
step. -/
theorem prediction_commit (sqrt acos : K → K) (tUintBits : Nat) (s : PbdSolver K) (dt : K)
    (_hdt : dt ≠ 0) (hs : s.WellSized) (i : Nat) (hi : i < s._vertex_number) :
    ((s._constraints = [] ∨ s._Ns = 0) →
      ((PbdSolver.step sqrt acos tUintBits s dt)._x.getD i 0).x
          = (s._x.getD i 0 + Vec3.smul dt
              (s._v.getD i 0 + (Vec3.smul dt (s._f.getD i 0)).mulS (s._w.getD i 0))).x ∧
        ((PbdSolver.step sqrt acos tUintBits s dt)._x.getD i 0).z
          = (s._x.getD i 0 + Vec3.smul dt
              (s._v.getD i 0 + (Vec3.smul dt (s._f.getD i 0)).mulS (s._w.getD i 0))).z ∧
        ((PbdSolver.step sqrt acos tUintBits s dt)._x.getD i 0).y
          = clamp (s._x.getD i 0 + Vec3.smul dt
              (s._v.getD i 0 + (Vec3.smul dt (s._f.getD i 0)).mulS (s._w.getD i 0))).y
              (-(9999 / 10000)) 1) ∧
      (PbdSolver.step sqrt acos tUintBits s dt)._v.getD i 0
        = ((PbdSolver.step sqrt acos tUintBits s dt)._x.getD i 0 - s._x.getD i 0).divS dt := by
  obtain ⟨hx, hn, hv, -, -⟩ := hs
  obtain ⟨-, r2, -, -⟩ := PbdSolver.stepRelax_frame sqrt acos s dt
  have hxi : (PbdSolver.step sqrt acos tUintBits s dt)._x.getD i 0
      = ((PbdSolver.stepRelax sqrt acos s dt)._x_next.map PbdSolver.clampFloor).getD i 0 := by
    rw [PbdSolver.step_x_getD, if_pos ⟨hi, hx ▸ hi⟩]
  constructor
  · intro hfree
    have hin : i < (PbdSolver.stepRelax sqrt acos s dt)._x_next.length := by
      rw [r2, hn]; exact hi
    have he : (1 / 10000 - 1 : K) = -(9999 / 10000) := by norm_num
    rw [hxi, getD_map_of_lt _ _ _ _ 0 hin, PbdSolver.stepRelax_x_next_free sqrt acos s dt hfree,
      PbdSolver.predict_loop_x_next, if_pos ⟨hi, hn ▸ hi⟩, PbdSolver.predict_loop_v,
      if_pos ⟨hi, lt_of_lt_of_le hi hv⟩]
    simp only [PbdSolver.clampFloor, he, and_self]
  · rw [PbdSolver.step_v_getD, if_pos ⟨hi, lt_of_lt_of_le hi hv⟩, hxi]

/-- Witness for C19: one free particle at the origin with velocity `(1, 2, 3)` and force
`(0, -10, 0)`, no constraint, `dt = 1/10`. -/
theorem prediction_commit_witness :
    (PbdSolver.exampleFree 20 (0 : Vec3 ℝ) ⟨1, 2, 3⟩ ⟨0, -10, 0⟩).WellSized ∧
      ((PbdSolver.step Real.sqrt Real.arccos 32
          (PbdSolver.exampleFree 20 (0 : Vec3 ℝ) ⟨1, 2, 3⟩ ⟨0, -10, 0⟩) (1 / 10))._x.getD 0 0).y
        = clamp ((PbdSolver.exampleFree 20 (0 : Vec3 ℝ) ⟨1, 2, 3⟩ ⟨0, -10, 0⟩)._x.getD 0 0
            + Vec3.smul (1 / 10)
              ((PbdSolver.exampleFree 20 (0 : Vec3 ℝ) ⟨1, 2, 3⟩ ⟨0, -10, 0⟩)._v.getD 0 0
                + (Vec3.smul (1 / 10)
                  ((PbdSolver.exampleFree 20 (0 : Vec3 ℝ) ⟨1, 2, 3⟩ ⟨0, -10, 0⟩)._f.getD 0
                    0)).mulS
                  ((PbdSolver.exampleFree 20 (0 : Vec3 ℝ) ⟨1, 2, 3⟩ ⟨0, -10, 0⟩)._w.getD 0
                    0))).y
            (-(9999 / 10000)) 1 :=
  have hws : (PbdSolver.exampleFree 20 (0 : Vec3 ℝ) ⟨1, 2, 3⟩ ⟨0, -10, 0⟩).WellSized := by
    simp [PbdSolver.WellSized, PbdSolver.exampleFree, PbdSolver.new]
  ⟨hws, ((prediction_commit Real.sqrt Real.arccos 32
    (PbdSolver.exampleFree 20 (0 : Vec3 ℝ) ⟨1, 2, 3⟩ ⟨0, -10, 0⟩) (1 / 10) (by norm_num) hws 0
    (by simp [PbdSolver.exampleFree, PbdSolver.new])).1 (Or.inl rfl)).2.2⟩

end StepClaims

/-! ## Stretch projection against its reference -/

section StretchReference

theorem is_zero_eq_abs {K : Type} [LinearOrderedField K] (t : K) :
    Constraint.is_zero t = true ↔ |t| ≤ 1 / 100000 := by
  rw [is_zero_iff, abs_le]

theorem stretch_project_eq_reference {K : Type} [LinearOrderedField K] (sqrt : K → K)
    (c : Constraint K) (i j : Nat) (d : K) (x x_last : List (Vec3 K)) (w : List K) (dt : K)
    (hij : i ≠ j) :
    ConstraintStretch.project sqrt c i j d x x_last w dt
      = stretchReference sqrt c i j d x x_last w dt := by
  unfold ConstraintStretch.project stretchReference
  simp only []
  by_cases hz : Constraint.is_zero (Vec3.length sqrt (x.getD i 0 - x.getD j 0) - d) = true
  · rw [if_pos hz, if_pos ((is_zero_eq_abs _).mp hz)]
  · rw [if_neg hz, if_neg (fun h => hz ((is_zero_eq_abs _).mpr h))]
    rw [getD_set_of_ne _ _ _ _ _ hij]
    have hdl : (-(Vec3.length sqrt (x.getD i 0 - x.getD j 0) - d)
          - c._compliance / (dt * dt) * c._lambda
          - c._compliance / (dt * dt) * c._damp_coef * dt *
            (Vec3.dot ((x.getD i 0 - x.getD j 0).divS
                (Vec3.length sqrt (x.getD i 0 - x.getD j 0))) (x.getD i 0 - x_last.getD i 0)
              + Vec3.dot (-(x.getD i 0 - x.getD j 0).divS
                (Vec3.length sqrt (x.getD i 0 - x.getD j 0))) (x.getD j 0 - x_last.getD j 0))) /
          ((1 + c._compliance / (dt * dt) * c._damp_coef * dt) * (w.getD i 0 + w.getD j 0)
            + c._compliance / (dt * dt))
        = (-(Vec3.length sqrt (x.getD i 0 - x.getD j 0) - d)
          - c._compliance / dt ^ 2 * c._lambda
          - c._compliance / dt ^ 2 * c._damp_coef * dt *
            (Vec3.dot ((x.getD i 0 - x.getD j 0).divS
                (Vec3.length sqrt (x.getD i 0 - x.getD j 0))) (x.getD i 0 - x_last.getD i 0)
              - Vec3.dot ((x.getD i 0 - x.getD j 0).divS
                (Vec3.length sqrt (x.getD i 0 - x.getD j 0))) (x.getD j 0 - x_last.getD j 0))) /
          ((1 + c._compliance / dt ^ 2 * c._damp_coef * dt) * (w.getD i 0 + w.getD j 0)
            + c._compliance / dt ^ 2) := by
      rw [pow_two]
      congr 2
      simp only [Vec3.dot, vec3_neg_x, vec3_neg_y, vec3_neg_z]
      ring
    rw [hdl]
    generalize (-(Vec3.length sqrt (x.getD i 0 - x.getD j 0) - d)
          - c._compliance / dt ^ 2 * c._lambda
          - c._compliance / dt ^ 2 * c._damp_coef * dt *
            (Vec3.dot ((x.getD i 0 - x.getD j 0).divS
                (Vec3.length sqrt (x.getD i 0 - x.getD j 0))) (x.getD i 0 - x_last.getD i 0)
              - Vec3.dot ((x.getD i 0 - x.getD j 0).divS
                (Vec3.length sqrt (x.getD i 0 - x.getD j 0))) (x.getD j 0 - x_last.getD j 0))) /
          ((1 + c._compliance / dt ^ 2 * c._damp_coef * dt) * (w.getD i 0 + w.getD j 0)
            + c._compliance / dt ^ 2) = dl
    have hi : x.getD i 0 + (((x.getD i 0 - x.getD j 0).divS
          (Vec3.length sqrt (x.getD i 0 - x.getD j 0))).mulS (w.getD i 0)).mulS dl
        = x.getD i 0 + Vec3.smul (w.getD i 0 * dl) ((x.getD i 0 - x.getD j 0).divS
          (Vec3.length sqrt (x.getD i 0 - x.getD j 0))) := by
      apply vec3_ext <;> simp only [vec3_add_x, vec3_add_y, vec3_add_z, Vec3.mulS, Vec3.smul] <;>
        ring
    have hj : x.getD j 0 + ((-(x.getD i 0 - x.getD j 0).divS
          (Vec3.length sqrt (x.getD i 0 - x.getD j 0))).mulS (w.getD j 0)).mulS dl
        = x.getD j 0 - Vec3.smul (w.getD j 0 * dl) ((x.getD i 0 - x.getD j 0).divS
          (Vec3.length sqrt (x.getD i 0 - x.getD j 0))) := by
      apply vec3_ext <;>
        simp only [vec3_add_x, vec3_add_y, vec3_add_z, vec3_sub_x, vec3_sub_y, vec3_sub_z,
          vec3_neg_x, vec3_neg_y, vec3_neg_z, Vec3.mulS, Vec3.smul] <;>
        ring
    rw [hi, hj]

/-- C12. Stretch projection equals the XPBD reference: for a Stretch constraint
`(i, j, restLength)` with `dist = |x_i - x_j| > 0` and `dt ≠ 0`, `ConstraintStretch::project`
returns what the reference `stretchReference` returns: nothing changes if `|C| ≤ 1e-5`, and
otherwise `lambda += dlambda`, `x_i += w_i*dlambda*n`, `x_j -= w_j*dlambda*n` with the `dlambda`
of the reference. -/
theorem stretch_project_reference (c : Constraint ℝ) (i j : Nat) (restLength : ℝ)
    (x x_last : List (Vec3 ℝ)) (w : List ℝ) (dt : ℝ) (_hdt : dt ≠ 0)
    (hdist : 0 < Vec3.length Real.sqrt (x.getD i 0 - x.getD j 0)) :
    ConstraintStretch.project Real.sqrt c i j restLength x x_last w dt
      = stretchReference Real.sqrt c i j restLength x x_last w dt := by
  apply stretch_project_eq_reference
  intro hij
  subst hij
  have h0 : Vec3.dot (x.getD i 0 - x.getD i 0) (x.getD i 0 - x.getD i 0) = 0 := by
    simp [Vec3.dot]
  simp only [Vec3.length] at hdist
  rw [h0, Real.sqrt_zero] at hdist
  exact lt_irrefl _ hdist

/-- Witness for C12: the two particles `(0,0,0)` and `(2,0,0)` with rest length `1`. -/
theorem stretch_project_reference_witness :
    ConstraintStretch.project Real.sqrt (ConstraintStretch.mk 0 1 1 (1 / 1000000000) (9 / 10))
        0 1 1 [⟨0, 0, 0⟩, ⟨2, 0, 0⟩] [⟨0, 0, 0⟩, ⟨2, 0, 0⟩] [1, 1] (16 / 1000)
      = stretchReference Real.sqrt (ConstraintStretch.mk 0 1 1 (1 / 1000000000) (9 / 10))
        0 1 1 [⟨0, 0, 0⟩, ⟨2, 0, 0⟩] [⟨0, 0, 0⟩, ⟨2, 0, 0⟩] [1, 1] (16 / 1000) :=
  stretch_project_reference _ 0 1 1 [⟨0, 0, 0⟩, ⟨2, 0, 0⟩] [⟨0, 0, 0⟩, ⟨2, 0, 0⟩] [1, 1]
    (16 / 1000) (by norm_num)
    (by
      apply Real.sqrt_pos.mpr
      simp [Vec3.dot])

end StretchReference

/-! ## Zero-length edge in the Stretch projection -/

/-- C16 (defect in `ConstraintStretch::project`). For two coincident particles and the rest
length `1`, with `dt = 0.016`, the `is_zero` test does not apply and the second divisor the
function uses, `dist` in `n = diff / dist`, is `0`. -/
theorem stretch_divides_by_zero :
    (16 / 1000 : ℝ) ≠ 0 ∧
      ConstraintStretch.divisors Real.sqrt (ConstraintStretch.mk 0 1 1 (1 / 1000000000) (9 / 10))
          0 1 1 [⟨0, 0, 0⟩, ⟨0, 0, 0⟩] [1, 1] (16 / 1000)
        = [16 / 1000 * (16 / 1000), 0,
            (1 + 1 / 1000000000 / (16 / 1000 * (16 / 1000)) * (9 / 10) * (16 / 1000)) * (1 + 1)
              + 1 / 1000000000 / (16 / 1000 * (16 / 1000))] ∧
      (0 : ℝ) ∈ ConstraintStretch.divisors Real.sqrt
          (ConstraintStretch.mk 0 1 1 (1 / 1000000000) (9 / 10))
          0 1 1 [⟨0, 0, 0⟩, ⟨0, 0, 0⟩] [1, 1] (16 / 1000) := by
  have hdist : Vec3.length Real.sqrt
      ((([⟨0, 0, 0⟩, ⟨0, 0, 0⟩] : List (Vec3 ℝ)).getD 0 0)
        - (([⟨0, 0, 0⟩, ⟨0, 0, 0⟩] : List (Vec3 ℝ)).getD 1 0)) = 0 := by
    simp [Vec3.length, Vec3.dot]
  have hz : Constraint.is_zero ((0 : ℝ) - 1) = false := by
    rw [Bool.eq_false_iff]
    intro h
    rw [is_zero_iff] at h
    norm_num at h
  have hdiv : ConstraintStretch.divisors Real.sqrt
      (ConstraintStretch.mk 0 1 1 (1 / 1000000000) (9 / 10))
      0 1 1 [⟨0, 0, 0⟩, ⟨0, 0, 0⟩] [1, 1] (16 / 1000)
        = [16 / 1000 * (16 / 1000), 0,
            (1 + 1 / 1000000000 / (16 / 1000 * (16 / 1000)) * (9 / 10) * (16 / 1000)) * (1 + 1)
              + 1 / 1000000000 / (16 / 1000 * (16 / 1000))] := by
    unfold ConstraintStretch.divisors
    simp only []
    rw [hdist, hz]
    simp [ConstraintStretch.mk]
  refine ⟨by norm_num, hdiv, ?_⟩
  rw [hdiv]
  simp

/-! ## Rest angle of a flat quad -/

section FlatQuad

theorem dot_normalize (a b : Vec3 ℝ) :
    Vec3.dot (Vec3.normalize Real.sqrt a) (Vec3.normalize Real.sqrt b)
      = Vec3.dot a b / (Real.sqrt (Vec3.dot a a) * Real.sqrt (Vec3.dot b b)) := by
  simp only [Vec3.normalize, Vec3.mulS]
  generalize Real.sqrt (Vec3.dot a a) = sa
  generalize Real.sqrt (Vec3.dot b b) = sb
  simp only [Vec3.dot]
  ring

/-- Two antiparallel non-zero vectors have normalized dot product `-1`. -/
theorem dot_normalize_antiparallel (a b : Vec3 ℝ) (hpar : Vec3.cross a b = 0)
    (hneg : Vec3.dot a b < 0) :
    Vec3.dot (Vec3.normalize Real.sqrt a) (Vec3.normalize Real.sqrt b) = -1 := by
  have hx := congrArg Vec3.x hpar
  have hy := congrArg Vec3.y hpar
  have hz := congrArg Vec3.z hpar
  simp only [Vec3.cross, vec3_zero_x, vec3_zero_y, vec3_zero_z] at hx hy hz
  have hlag : Vec3.dot a a * Vec3.dot b b = Vec3.dot a b * Vec3.dot a b := by
    simp only [Vec3.dot]
    have e : (a.x * a.x + a.y * a.y + a.z * a.z) * (b.x * b.x + b.y * b.y + b.z * b.z)
        - (a.x * b.x + a.y * b.y + a.z * b.z) * (a.x * b.x + a.y * b.y + a.z * b.z)
        = (a.y * b.z - b.y * a.z) ^ 2 + (a.z * b.x - b.z * a.x) ^ 2
          + (a.x * b.y - b.x * a.y) ^ 2 := by ring
    rw [hx, hy, hz] at e
    linarith
  have hs : Real.sqrt (Vec3.dot a a) * Real.sqrt (Vec3.dot b b) = -Vec3.dot a b := by
    rw [← Real.sqrt_mul (dot_self_nonneg a), hlag, Real.sqrt_mul_self_eq_abs,
      abs_of_neg hneg]
  rw [dot_normalize, hs]
  have hne : Vec3.dot a b ≠ 0 := ne_of_lt hneg
  field_simp

/-- In a coplanar quad the two triangle normals `p2 × p3` and `p2 × p4` are parallel. -/
theorem cross_cross_coplanar {K : Type} [LinearOrderedField K] (p2 p3 p4 : Vec3 K)
    (hcop : Vec3.dot (Vec3.cross p2 p3) p4 = 0) :
    Vec3.cross (Vec3.cross p2 p3) (Vec3.cross p2 p4) = 0 := by
  simp only [Vec3.dot, Vec3.cross] at hcop
  apply vec3_ext <;> simp only [Vec3.cross, vec3_zero_x, vec3_zero_y, vec3_zero_z]
  · linear_combination (p2.x) * hcop
  · linear_combination (p2.y) * hcop
  · linear_combination (p2.z) * hcop

theorem rest_angle_flat (acos : ℝ → ℝ) (x : List (Vec3 ℝ)) (i1 i2 i3 i4 : Nat)
    (hcop : Vec3.dot (Vec3.cross (x.getD i2 0 - x.getD i1 0) (x.getD i3 0 - x.getD i1 0))
      (x.getD i4 0 - x.getD i1 0) = 0)
    (hopp : Vec3.dot (Vec3.cross (x.getD i2 0 - x.getD i1 0) (x.getD i3 0 - x.getD i1 0))
      (Vec3.cross (x.getD i2 0 - x.getD i1 0) (x.getD i4 0 - x.getD i1 0)) < 0) :
    PbdSolver.bendRestAngle Real.sqrt acos x i1 i2 i3 i4 = acos (-1) := by
  unfold PbdSolver.bendRestAngle
  simp only []
  rw [dot_normalize_antiparallel _ _ (cross_cross_coplanar _ _ _ hcop) hopp]

/-- C17 (amended). Rest angle of a flat quad: for a coplanar quad of two triangles sharing the
edge `(i1, i2)` whose apexes `i3`, `i4` lie on opposite sides of that edge (the normals `p2 × p3`
and `p2 × p4` point in opposite directions, so both triangles are non-degenerate), the rest angle
that `initSim` computes, `arccos(n1 · n2)`, is `arccos(-1) = π`. -/
theorem flat_quad_rest_angle (acos : ℝ → ℝ) (x : List (Vec3 ℝ)) (i1 i2 i3 i4 : Nat)
    (hcop : Vec3.dot (Vec3.cross (x.getD i2 0 - x.getD i1 0) (x.getD i3 0 - x.getD i1 0))
      (x.getD i4 0 - x.getD i1 0) = 0)
    (hopp : Vec3.dot (Vec3.cross (x.getD i2 0 - x.getD i1 0) (x.getD i3 0 - x.getD i1 0))
      (Vec3.cross (x.getD i2 0 - x.getD i1 0) (x.getD i4 0 - x.getD i1 0)) < 0) :
    PbdSolver.bendRestAngle Real.sqrt acos x i1 i2 i3 i4 = acos (-1) ∧
      PbdSolver.bendRestAngle Real.sqrt Real.arccos x i1 i2 i3 i4 = Real.pi := by
  refine ⟨rest_angle_flat acos x i1 i2 i3 i4 hcop hopp, ?_⟩
  rw [rest_angle_flat Real.arccos x i1 i2 i3 i4 hcop hopp, Real.arccos_neg_one]

/-- Witness for C17 (amended): the quad `(0,0,0), (1,0,0), (0,0,1), (0,0,-1)` in the plane
`y = 0`, shared edge `(0, 1)`, apexes `2` and `3`. -/
theorem flat_quad_rest_angle_witness :
    PbdSolver.bendRestAngle Real.sqrt Real.arccos
        [⟨0, 0, 0⟩, ⟨1, 0, 0⟩, ⟨0, 0, 1⟩, ⟨0, 0, -1⟩] 0 1 2 3 = Real.pi :=
  (flat_quad_rest_angle Real.arccos [⟨0, 0, 0⟩, ⟨1, 0, 0⟩, ⟨0, 0, 1⟩, ⟨0, 0, -1⟩] 0 1 2 3
    (by simp [Vec3.cross, Vec3.dot]) (by simp [Vec3.cross, Vec3.dot])).2

end FlatQuad

/-- Counterexample to C17 as stated: the quad `(0,0,0), (1,0,0), (0,0,2), (0,0,-3)` lies in the
plane `y = 0` (the triple product of `p2, p3, p4` is `0`), its triangles are non-degenerate and
its apexes lie on opposite sides of the shared edge (`(p2 × p3) · (p2 × p4) = -6 < 0`); the rest
angle `initSim` computes for it is `π`, not `0`. -/
theorem flat_quad_rest_angle_counterexample :
    Vec3.dot
        (Vec3.cross ((exampleFlatQuad ℝ).getD 1 0 - (exampleFlatQuad ℝ).getD 0 0)
          ((exampleFlatQuad ℝ).getD 2 0 - (exampleFlatQuad ℝ).getD 0 0))
        ((exampleFlatQuad ℝ).getD 3 0 - (exampleFlatQuad ℝ).getD 0 0) = 0 ∧
      Vec3.dot
        (Vec3.cross ((exampleFlatQuad ℝ).getD 1 0 - (exampleFlatQuad ℝ).getD 0 0)
          ((exampleFlatQuad ℝ).getD 2 0 - (exampleFlatQuad ℝ).getD 0 0))
        (Vec3.cross ((exampleFlatQuad ℝ).getD 1 0 - (exampleFlatQuad ℝ).getD 0 0)
          ((exampleFlatQuad ℝ).getD 3 0 - (exampleFlatQuad ℝ).getD 0 0)) = -6 ∧
      PbdSolver.bendRestAngle Real.sqrt Real.arccos (exampleFlatQuad ℝ) 0 1 2 3 = Real.pi ∧
      PbdSolver.bendRestAngle Real.sqrt Real.arccos (exampleFlatQuad ℝ) 0 1 2 3 ≠ 0 := by
  have hcop : Vec3.dot
      (Vec3.cross ((exampleFlatQuad ℝ).getD 1 0 - (exampleFlatQuad ℝ).getD 0 0)
        ((exampleFlatQuad ℝ).getD 2 0 - (exampleFlatQuad ℝ).getD 0 0))
      ((exampleFlatQuad ℝ).getD 3 0 - (exampleFlatQuad ℝ).getD 0 0) = 0 := by
    simp [exampleFlatQuad, Vec3.cross, Vec3.dot]
  have hopp : Vec3.dot
      (Vec3.cross ((exampleFlatQuad ℝ).getD 1 0 - (exampleFlatQuad ℝ).getD 0 0)
        ((exampleFlatQuad ℝ).getD 2 0 - (exampleFlatQuad ℝ).getD 0 0))
      (Vec3.cross ((exampleFlatQuad ℝ).getD 1 0 - (exampleFlatQuad ℝ).getD 0 0)
        ((exampleFlatQuad ℝ).getD 3 0 - (exampleFlatQuad ℝ).getD 0 0)) = -6 := by
    simp [exampleFlatQuad, Vec3.cross, Vec3.dot]
    norm_num
  have hpi : PbdSolver.bendRestAngle Real.sqrt Real.arccos (exampleFlatQuad ℝ) 0 1 2 3
      = Real.pi := by
    rw [rest_angle_flat Real.arccos _ 0 1 2 3 hcop (by rw [hopp]; norm_num),
      Real.arccos_neg_one]
  exact ⟨hcop, hopp, hpi, by rw [hpi]; exact Real.pi_ne_zero⟩

/-! ## Bend projection against its reference -/

section BendReference

set_option maxHeartbeats 4000000 in
/-- `ConstraintBend::project` is its two `return` tests followed by `ConstraintBend.update`. -/
theorem bend_project_unfold {K : Type} [LinearOrderedField K] (sqrt acos : K → K)
    (c : Constraint K) (i1 i2 i3 i4 : Nat) (phi0 : K) (x x_last : List (Vec3 K)) (w : List K)
    (dt : K) :
    ConstraintBend.project sqrt acos c i1 i2 i3 i4 phi0 x x_last w dt
      = if ConstraintBend.skips sqrt acos phi0 x i1 i2 i3 i4 = true then (c, x)
        else ConstraintBend.update sqrt c i1 i2 i3 i4 phi0
          (acos (ConstraintBend.cosAngle sqrt x i1 i2 i3 i4))
          (ConstraintBend.cosAngle sqrt x i1 i2 i3 i4)
          (ConstraintBend.gradients sqrt x i1 i2 i3 i4).1
          (ConstraintBend.gradients sqrt x i1 i2 i3 i4).2.1
          (ConstraintBend.gradients sqrt x i1 i2 i3 i4).2.2.1
          (ConstraintBend.gradients sqrt x i1 i2 i3 i4).2.2.2 x x_last w dt := by
  have e1 : ConstraintBend.project sqrt acos c i1 i2 i3 i4 phi0 x x_last w dt
      = if (Constraint.is_zero (Vec3.length sqrt (Vec3.normalize sqrt
              (Vec3.cross (x.getD i2 0 - x.getD i1 0) (x.getD i3 0 - x.getD i1 0)))) ||
            Constraint.is_zero (Vec3.length sqrt (Vec3.normalize sqrt
              (Vec3.cross (x.getD i2 0 - x.getD i1 0) (x.getD i4 0 - x.getD i1 0))))) = true
        then (c, x)
        else if (Constraint.is_zero (acos (ConstraintBend.cosAngle sqrt x i1 i2 i3 i4) - phi0) ||
            Constraint.is_zero (1 - ConstraintBend.cosAngle sqrt x i1 i2 i3 i4 *
              ConstraintBend.cosAngle sqrt x i1 i2 i3 i4)) = true
        then (c, x)
        else ConstraintBend.update sqrt c i1 i2 i3 i4 phi0
          (acos (ConstraintBend.cosAngle sqrt x i1 i2 i3 i4))
          (ConstraintBend.cosAngle sqrt x i1 i2 i3 i4)
          (ConstraintBend.gradients sqrt x i1 i2 i3 i4).1
          (ConstraintBend.gradients sqrt x i1 i2 i3 i4).2.1
          (ConstraintBend.gradients sqrt x i1 i2 i3 i4).2.2.1
          (ConstraintBend.gradients sqrt x i1 i2 i3 i4).2.2.2 x x_last w dt := rfl
  have e2 : ConstraintBend.skips sqrt acos phi0 x i1 i2 i3 i4
      = ((Constraint.is_zero (Vec3.length sqrt (Vec3.normalize sqrt
              (Vec3.cross (x.getD i2 0 - x.getD i1 0) (x.getD i3 0 - x.getD i1 0)))) ||
            Constraint.is_zero (Vec3.length sqrt (Vec3.normalize sqrt
              (Vec3.cross (x.getD i2 0 - x.getD i1 0) (x.getD i4 0 - x.getD i1 0))))) ||
          (Constraint.is_zero (acos (ConstraintBend.cosAngle sqrt x i1 i2 i3 i4) - phi0) ||
            Constraint.is_zero (1 - ConstraintBend.cosAngle sqrt x i1 i2 i3 i4 *
              ConstraintBend.cosAngle sqrt x i1 i2 i3 i4))) := rfl
  rw [e1, e2]
  generalize (Constraint.is_zero (Vec3.length sqrt (Vec3.normalize sqrt
              (Vec3.cross (x.getD i2 0 - x.getD i1 0) (x.getD i3 0 - x.getD i1 0)))) ||
            Constraint.is_zero (Vec3.length sqrt (Vec3.normalize sqrt
              (Vec3.cross (x.getD i2 0 - x.getD i1 0) (x.getD i4 0 - x.getD i1 0))))) = b1
  generalize (Constraint.is_zero (acos (ConstraintBend.cosAngle sqrt x i1 i2 i3 i4) - phi0) ||
            Constraint.is_zero (1 - ConstraintBend.cosAngle sqrt x i1 i2 i3 i4 *
              ConstraintBend.cosAngle sqrt x i1 i2 i3 i4)) = b2
  cases b1 <;> cases b2 <;> simp

theorem dot_divS {K : Type} [LinearOrderedField K] (q v : Vec3 K) (s : K) :
    Vec3.dot (q.divS s) v = Vec3.dot q v / s := by
  simp only [Vec3.dot, Vec3.divS]
  ring

theorem dot_divS_self {K : Type} [LinearOrderedField K] (q : Vec3 K) (s : K) :
    Vec3.dot (q.divS s) (q.divS s) = Vec3.dot q q / (s * s) := by
  simp only [Vec3.dot, Vec3.divS]
  ring

theorem smul_divS {K : Type} [LinearOrderedField K] (a s : K) (q : Vec3 K) :
    (Vec3.smul a q).divS s = Vec3.smul a (q.divS s) := by
  apply vec3_ext <;> simp only [Vec3.smul, Vec3.divS] <;> ring

theorem bend_dlambda_eq_reference (acos : ℝ → ℝ) (c : Constraint ℝ) (i1 i2 i3 i4 : Nat)
    (phi0 d : ℝ) (q1 q2 q3 q4 : Vec3 ℝ) (x x_last : List (Vec3 ℝ)) (w : List ℝ) (dt : ℝ)
    (hd1 : -1 ≤ d) (hd2 : d ≤ 1) :
    ConstraintBend.dlambda Real.sqrt c i1 i2 i3 i4 phi0 (acos d) d q1 q2 q3 q4 x x_last w dt
      = bendReferenceDlambda Real.sqrt acos c i1 i2 i3 i4 phi0 d q1 q2 q3 q4 x x_last w dt := by
  have hnn : 0 ≤ 1 - d * d := by nlinarith
  have hs : Real.sqrt (1 - d * d) * Real.sqrt (1 - d * d) = 1 - d * d :=
    Real.mul_self_sqrt hnn
  unfold ConstraintBend.dlambda bendReferenceDlambda
  simp only [dot_divS_self, pow_two, hs]
  simp only [dot_divS]
  congr 1
  · ring
  · ring

theorem bend_displace_eq_reference {K : Type} [LinearOrderedField K] (sqrt : K → K)
    (i1 i2 i3 i4 : Nat) (d dl : K) (q1 q2 q3 q4 : Vec3 K) (x : List (Vec3 K)) (w : List K) :
    ConstraintBend.displace sqrt i1 i2 i3 i4 d dl q1 q2 q3 q4 x w
      = bendReferenceDisplace sqrt i1 i2 i3 i4 d dl q1 q2 q3 q4 x w := by
  unfold ConstraintBend.displace bendReferenceDisplace addCorrection
  simp only [smul_divS, pow_two]

/-- Where no `return` test applies, the Bend projection computes the amended reference. -/
theorem bend_project_eq_reference (acos : ℝ → ℝ) (c : Constraint ℝ) (i1 i2 i3 i4 : Nat)
    (phi0 : ℝ) (x x_last : List (Vec3 ℝ)) (w : List ℝ) (dt : ℝ)
    (hskip : ConstraintBend.skips Real.sqrt acos phi0 x i1 i2 i3 i4 = false) :
    ConstraintBend.project Real.sqrt acos c i1 i2 i3 i4 phi0 x x_last w dt
      = bendReference Real.sqrt acos c i1 i2 i3 i4 phi0 x x_last w dt := by
  have hd : -1 ≤ ConstraintBend.cosAngle Real.sqrt x i1 i2 i3 i4 ∧
      ConstraintBend.cosAngle Real.sqrt x i1 i2 i3 i4 ≤ 1 := clamp_unit_mem _
  rw [bend_project_unfold, hskip, if_neg (by decide)]
  unfold ConstraintBend.update bendReference
  simp only []
  rw [bend_dlambda_eq_reference acos c i1 i2 i3 i4 phi0 _ _ _ _ _ x x_last w dt hd.1 hd.2,
    bend_displace_eq_reference]

theorem examplePerpQuad_normals (h : ℝ) (hh : 0 < h) :
    Vec3.normalize Real.sqrt
        (Vec3.cross ((examplePerpQuad ℝ h).getD 1 0 - (examplePerpQuad ℝ h).getD 0 0)
          ((examplePerpQuad ℝ h).getD 2 0 - (examplePerpQuad ℝ h).getD 0 0)) = ⟨0, 0, 1⟩ ∧
      Vec3.normalize Real.sqrt
        (Vec3.cross ((examplePerpQuad ℝ h).getD 1 0 - (examplePerpQuad ℝ h).getD 0 0)
          ((examplePerpQuad ℝ h).getD 3 0 - (examplePerpQuad ℝ h).getD 0 0)) = ⟨0, -1, 0⟩ := by
  have hs : Real.sqrt (h * h) = h := Real.sqrt_mul_self (le_of_lt hh)
  have hne : h ≠ 0 := ne_of_gt hh
  constructor
  · apply vec3_ext <;>
      simp [examplePerpQuad, Vec3.cross, Vec3.normalize, Vec3.dot, Vec3.mulS, hs, hne]
  · apply vec3_ext <;>
      simp [examplePerpQuad, Vec3.cross, Vec3.normalize, Vec3.dot, Vec3.mulS]

theorem examplePerpQuad_cosAngle (h : ℝ) (hh : 0 < h) :
    ConstraintBend.cosAngle Real.sqrt (examplePerpQuad ℝ h) 0 1 2 3 = 0 := by
  obtain ⟨h1, h2⟩ := examplePerpQuad_normals h hh
  unfold ConstraintBend.cosAngle
  simp only []
  rw [h1, h2]
  simp [Vec3.dot, clamp]

theorem examplePerpQuad_skips (h : ℝ) (hh : 0 < h) :
    ConstraintBend.skips Real.sqrt Real.arccos (Real.arccos 0 + 1) (examplePerpQuad ℝ h) 0 1 2 3
      = false := by
  obtain ⟨h1, h2⟩ := examplePerpQuad_normals h hh
  unfold ConstraintBend.skips
  simp only []
  rw [h1, h2, examplePerpQuad_cosAngle h hh]
  simp [Vec3.length, Vec3.dot, Constraint.is_zero]
  norm_num

/-- C13 (amended). Bend projection equals the XPBD reference of the code: for a Bend
constraint and a configuration where no skip test applies, and `dt ≠ 0`, with
`C = restAngle - arccos(d)` and `gradC_k = q_k / sqrt(1 - d²)`, `ConstraintBend::project`
computes `dlambda = (C - complianceTilde*lambda - gamma*Σ_k gradC_k·(x_k - xlast_k))
/ ((1 + gamma)*(Σ_k w_k*|gradC_k|² + 1e-6/(1 - d²)) + complianceTilde)`, then sets
`x_k += w_k*dlambda*gradC_k` for the four particles and `lambda += dlambda`. -/
theorem bend_project_reference (acos : ℝ → ℝ) (c : Constraint ℝ) (i1 i2 i3 i4 : Nat)
    (restAngle : ℝ) (x x_last : List (Vec3 ℝ)) (w : List ℝ) (dt : ℝ) (_hdt : dt ≠ 0)
    (hskip : ConstraintBend.skips Real.sqrt acos restAngle x i1 i2 i3 i4 = false) :
    ConstraintBend.project Real.sqrt acos c i1 i2 i3 i4 restAngle x x_last w dt
      = bendReference Real.sqrt acos c i1 i2 i3 i4 restAngle x x_last w dt :=
  bend_project_eq_reference acos c i1 i2 i3 i4 restAngle x x_last w dt hskip

/-- Witness for C13 (amended): two perpendicular unit triangles, rest angle `arccos 0 + 1`, all
inverse masses `1`, `dt = 0.016`. -/
theorem bend_project_reference_witness :
    ConstraintBend.project Real.sqrt Real.arccos
        (ConstraintBend.mk 0 1 2 3 (Real.arccos 0 + 1) 10 (5 / 100)) 0 1 2 3
        (Real.arccos 0 + 1) (examplePerpQuad ℝ 1) (examplePerpQuad ℝ 1) [1, 1, 1, 1] (16 / 1000)
      = bendReference Real.sqrt Real.arccos
        (ConstraintBend.mk 0 1 2 3 (Real.arccos 0 + 1) 10 (5 / 100)) 0 1 2 3
        (Real.arccos 0 + 1) (examplePerpQuad ℝ 1) (examplePerpQuad ℝ 1) [1, 1, 1, 1]
        (16 / 1000) :=
  bend_project_reference Real.arccos _ 0 1 2 3 (Real.arccos 0 + 1) (examplePerpQuad ℝ 1)
    (examplePerpQuad ℝ 1) [1, 1, 1, 1] (16 / 1000) (by norm_num)
    (examplePerpQuad_skips 1 (by norm_num))

end BendReference

/-- Counterexample to C13 as stated: two perpendicular unit triangles (`d = 0`), rest angle
`arccos 0 + 1` (so `C = 1`), compliance `1`, damping `0`, `dt = 1`, multiplier `0`, all four
inverse masses `0`. No skip test applies; the projection leaves the multiplier
`dlambda = 1 / (1e-6 + 1) = 1000000/1000001`, while the formula of the claim gives
`dlambda = -1 / 1 = -1`: the code has `+C` in the numerator and the regulariser `1e-6` in the
weighted sum. -/
theorem bend_project_reference_counterexample :
    ConstraintBend.skips Real.sqrt Real.arccos (Real.arccos 0 + 1) (examplePerpQuad ℝ 1) 0 1 2 3
        = false ∧
      (1 : ℝ) ≠ 0 ∧
      (ConstraintBend.project Real.sqrt Real.arccos
          (ConstraintBend.mk 0 1 2 3 (Real.arccos 0 + 1) 1 0) 0 1 2 3 (Real.arccos 0 + 1)
          (examplePerpQuad ℝ 1) (examplePerpQuad ℝ 1) [0, 0, 0, 0] 1).1._lambda
        = 1000000 / 1000001 ∧
      (bendReferenceClaimed Real.sqrt Real.arccos
          (ConstraintBend.mk 0 1 2 3 (Real.arccos 0 + 1) 1 0) 0 1 2 3 (Real.arccos 0 + 1)
          (examplePerpQuad ℝ 1) (examplePerpQuad ℝ 1) [0, 0, 0, 0] 1).1._lambda = -1 ∧
      ConstraintBend.project Real.sqrt Real.arccos
          (ConstraintBend.mk 0 1 2 3 (Real.arccos 0 + 1) 1 0) 0 1 2 3 (Real.arccos 0 + 1)
          (examplePerpQuad ℝ 1) (examplePerpQuad ℝ 1) [0, 0, 0, 0] 1
        ≠ bendReferenceClaimed Real.sqrt Real.arccos
          (ConstraintBend.mk 0 1 2 3 (Real.arccos 0 + 1) 1 0) 0 1 2 3 (Real.arccos 0 + 1)
          (examplePerpQuad ℝ 1) (examplePerpQuad ℝ 1) [0, 0, 0, 0] 1 := by
  have hsk := examplePerpQuad_skips 1 (by norm_num)
  have hd := examplePerpQuad_cosAngle 1 (by norm_num)
  have hcode : (ConstraintBend.project Real.sqrt Real.arccos
      (ConstraintBend.mk 0 1 2 3 (Real.arccos 0 + 1) 1 0) 0 1 2 3 (Real.arccos 0 + 1)
      (examplePerpQuad ℝ 1) (examplePerpQuad ℝ 1) [0, 0, 0, 0] 1).1._lambda
        = 1000000 / 1000001 := by
    rw [bend_project_eq_reference Real.arccos _ 0 1 2 3 _ _ _ _ _ hsk]
    unfold bendReference bendReferenceDlambda
    simp only []
    rw [hd]
    simp [ConstraintBend.mk]
    norm_num
  have hclaim : (bendReferenceClaimed Real.sqrt Real.arccos
      (ConstraintBend.mk 0 1 2 3 (Real.arccos 0 + 1) 1 0) 0 1 2 3 (Real.arccos 0 + 1)
      (examplePerpQuad ℝ 1) (examplePerpQuad ℝ 1) [0, 0, 0, 0] 1).1._lambda = -1 := by
    unfold bendReferenceClaimed bendReferenceClaimedDlambda
    simp only []
    rw [hd]
    simp [ConstraintBend.mk]
  refine ⟨hsk, by norm_num, hcode, hclaim, ?_⟩
  intro h
  have h2 := congrArg (fun r : Constraint ℝ × List (Vec3 ℝ) => r.1._lambda) h
  simp only [hcode, hclaim] at h2
  norm_num at h2

/-! ## Near-degenerate triangle in the Bend projection -/

theorem examplePerpQuad_cross_length (h : ℝ) (hh : 0 < h) :
    Vec3.length Real.sqrt
        (Vec3.cross ((examplePerpQuad ℝ h).getD 1 0 - (examplePerpQuad ℝ h).getD 0 0)
          ((examplePerpQuad ℝ h).getD 2 0 - (examplePerpQuad ℝ h).getD 0 0)) = h := by
  have hs : Real.sqrt (h * h) = h := Real.sqrt_mul_self (le_of_lt hh)
  have hdot : Vec3.dot
      (Vec3.cross ((examplePerpQuad ℝ h).getD 1 0 - (examplePerpQuad ℝ h).getD 0 0)
        ((examplePerpQuad ℝ h).getD 2 0 - (examplePerpQuad ℝ h).getD 0 0))
      (Vec3.cross ((examplePerpQuad ℝ h).getD 1 0 - (examplePerpQuad ℝ h).getD 0 0)
        ((examplePerpQuad ℝ h).getD 2 0 - (examplePerpQuad ℝ h).getD 0 0)) = h * h := by
    simp [examplePerpQuad, Vec3.cross, Vec3.dot]
  simp only [Vec3.length]
  rw [hdot, hs]

theorem examplePerpQuad_q3 (h : ℝ) (hh : 0 < h) :
    (ConstraintBend.gradients Real.sqrt (examplePerpQuad ℝ h) 0 1 2 3).2.2.1
      = ⟨0, 0, -1 / (h + 1 / 100000)⟩ := by
  obtain ⟨h1, h2⟩ := examplePerpQuad_normals h hh
  have hl := examplePerpQuad_cross_length h hh
  unfold ConstraintBend.gradients
  simp only []
  rw [h1, h2, hl]
  apply vec3_ext <;> simp [examplePerpQuad, Vec3.cross, Vec3.dot, Vec3.divS, Vec3.mulS, clamp]

theorem examplePerpQuad_dlambda (h : ℝ) (hh : 0 < h) :
    0 < bendReferenceDlambda Real.sqrt Real.arccos
      (ConstraintBend.mk 0 1 2 3 (Real.arccos 0 + 1) 0 0) 0 1 2 3 (Real.arccos 0 + 1)
      (ConstraintBend.cosAngle Real.sqrt (examplePerpQuad ℝ h) 0 1 2 3)
      (ConstraintBend.gradients Real.sqrt (examplePerpQuad ℝ h) 0 1 2 3).1
      (ConstraintBend.gradients Real.sqrt (examplePerpQuad ℝ h) 0 1 2 3).2.1
      (ConstraintBend.gradients Real.sqrt (examplePerpQuad ℝ h) 0 1 2 3).2.2.1
      (ConstraintBend.gradients Real.sqrt (examplePerpQuad ℝ h) 0 1 2 3).2.2.2
      (examplePerpQuad ℝ h) (examplePerpQuad ℝ h) [1, 1, 1, 1] (16 / 1000) := by
  rw [examplePerpQuad_cosAngle h hh]
  generalize (ConstraintBend.gradients Real.sqrt (examplePerpQuad ℝ h) 0 1 2 3).1 = q1
  generalize (ConstraintBend.gradients Real.sqrt (examplePerpQuad ℝ h) 0 1 2 3).2.1 = q2
  generalize (ConstraintBend.gradients Real.sqrt (examplePerpQuad ℝ h) 0 1 2 3).2.2.1 = q3
  generalize (ConstraintBend.gradients Real.sqrt (examplePerpQuad ℝ h) 0 1 2 3).2.2.2 = q4
  have a1 := dot_self_nonneg (q1.divS 1)
  have a2 := dot_self_nonneg (q2.divS 1)
  have a3 := dot_self_nonneg (q3.divS 1)
  have a4 := dot_self_nonneg (q4.divS 1)
  have e : (0 : ℝ) < 1000000⁻¹ := by norm_num
  unfold bendReferenceDlambda
  simp [ConstraintBend.mk]
  linarith

/-- C14 (defect in `ConstraintBend::project`). Two perpendicular triangles on the edge `(0, 1)`,
the first with apex `(0, 1e-6, 0)`: the cross product `p2 × p3` has length `1e-6 ≤ 1e-5`. The
`return` test looks at the length of the normalized vector `n1`, which is `1`, so the projection
goes on: the multiplier, `0` before, becomes positive, and particle `2` leaves the plane
`z = 0`. -/
theorem bend_near_degenerate_not_skipped :
    Vec3.length Real.sqrt
        (Vec3.cross
          ((examplePerpQuad ℝ (1 / 1000000)).getD 1 0 - (examplePerpQuad ℝ (1 / 1000000)).getD 0 0)
          ((examplePerpQuad ℝ (1 / 1000000)).getD 2 0
            - (examplePerpQuad ℝ (1 / 1000000)).getD 0 0)) = 1 / 1000000 ∧
      ConstraintBend.skips Real.sqrt Real.arccos (Real.arccos 0 + 1)
        (examplePerpQuad ℝ (1 / 1000000)) 0 1 2 3 = false ∧
      (ConstraintBend.mk 0 1 2 3 (Real.arccos 0 + 1) (0 : ℝ) 0)._lambda = 0 ∧
      0 < (ConstraintBend.project Real.sqrt Real.arccos
          (ConstraintBend.mk 0 1 2 3 (Real.arccos 0 + 1) 0 0) 0 1 2 3 (Real.arccos 0 + 1)
          (examplePerpQuad ℝ (1 / 1000000)) (examplePerpQuad ℝ (1 / 1000000)) [1, 1, 1, 1]
          (16 / 1000)).1._lambda ∧
      ((examplePerpQuad ℝ (1 / 1000000)).getD 2 0).z = 0 ∧
      ((ConstraintBend.project Real.sqrt Real.arccos
          (ConstraintBend.mk 0 1 2 3 (Real.arccos 0 + 1) 0 0) 0 1 2 3 (Real.arccos 0 + 1)
          (examplePerpQuad ℝ (1 / 1000000)) (examplePerpQuad ℝ (1 / 1000000)) [1, 1, 1, 1]
          (16 / 1000)).2.getD 2 0).z < 0 := by
  have hh : (0 : ℝ) < 1 / 1000000 := by norm_num
  have hsk := examplePerpQuad_skips (1 / 1000000) hh
  have hdl := examplePerpQuad_dlambda (1 / 1000000) hh
  refine ⟨examplePerpQuad_cross_length _ hh, hsk, rfl, ?_, ?_, ?_⟩
  · rw [bend_project_eq_reference Real.arccos _ 0 1 2 3 _ _ _ _ _ hsk]
    unfold bendReference
    simp only []
    have e : (ConstraintBend.mk 0 1 2 3 (Real.arccos 0 + 1) (0 : ℝ) 0)._lambda = 0 := rfl
    rw [e, zero_add]
    exact hdl
  · simp [examplePerpQuad]
  · rw [bend_project_eq_reference Real.arccos _ 0 1 2 3 _ _ _ _ _ hsk]
    unfold bendReference
    simp only []
    generalize bendReferenceDlambda Real.sqrt Real.arccos
      (ConstraintBend.mk 0 1 2 3 (Real.arccos 0 + 1) 0 0) 0 1 2 3 (Real.arccos 0 + 1)
      (ConstraintBend.cosAngle Real.sqrt (examplePerpQuad ℝ (1 / 1000000)) 0 1 2 3)
      (ConstraintBend.gradients Real.sqrt (examplePerpQuad ℝ (1 / 1000000)) 0 1 2 3).1
      (ConstraintBend.gradients Real.sqrt (examplePerpQuad ℝ (1 / 1000000)) 0 1 2 3).2.1
      (ConstraintBend.gradients Real.sqrt (examplePerpQuad ℝ (1 / 1000000)) 0 1 2 3).2.2.1
      (ConstraintBend.gradients Real.sqrt (examplePerpQuad ℝ (1 / 1000000)) 0 1 2 3).2.2.2
      (examplePerpQuad ℝ (1 / 1000000)) (examplePerpQuad ℝ (1 / 1000000)) [1, 1, 1, 1]
      (16 / 1000) = dl at hdl
    rw [examplePerpQuad_cosAngle _ hh, examplePerpQuad_q3 _ hh]
    unfold bendReferenceDisplace addCorrection
    simp [examplePerpQuad, getD_set, Vec3.smul, Vec3.divS]
    exact mul_neg_of_pos_of_neg hdl (by norm_num)

/-! ## The order on edges, the edge set and the edge map -/

section EdgeOrder

theorem edgeLt_irrefl (a : Edge) : edgeLt a a = false := by
  induction a with
  | nil => rfl
  | cons h t ih => simp [edgeLt, ih]

theorem edgeLt_trans (a b c : Edge) (hab : edgeLt a b = true) (hbc : edgeLt b c = true) :
    edgeLt a c = true := by
  induction a generalizing b c with
  | nil =>
    cases b with
    | nil => simp [edgeLt] at hab
    | cons hb tb =>
      cases c with
      | nil => simp [edgeLt] at hbc
      | cons hc tc => simp [edgeLt]
  | cons ha ta ih =>
    cases b with
    | nil => simp [edgeLt] at hab
    | cons hb tb =>
      cases c with
      | nil => simp [edgeLt] at hbc
      | cons hc tc =>
        simp only [edgeLt, Bool.or_eq_true, Bool.and_eq_true, decide_eq_true_eq] at hab hbc ⊢
        rcases hab with h1 | ⟨h1, h2⟩
        · rcases hbc with h3 | ⟨h3, _⟩
          · left; omega
          · left; omega
        · rcases hbc with h3 | ⟨h3, h4⟩
          · left; omega
          · right
            exact ⟨by omega, ih tb tc h2 h4⟩

theorem edgeLt_connected (a b : Edge) (hab : edgeLt a b = false) (hba : edgeLt b a = false) :
    a = b := by
  induction a generalizing b with
  | nil =>
    cases b with
    | nil => rfl
    | cons hb tb => simp [edgeLt] at hab
  | cons ha ta ih =>
    cases b with
    | nil => simp [edgeLt] at hba
    | cons hb tb =>
      simp only [edgeLt, Bool.or_eq_false_iff, Bool.and_eq_false_iff, decide_eq_false_iff_not]
        at hab hba
      have hh : ha = hb := by omega
      subst hh
      have h1 : edgeLt ta tb = false := by
        rcases hab.2 with h | h
        · exact absurd rfl h
        · exact h
      have h2 : edgeLt tb ta = false := by
        rcases hba.2 with h | h
        · exact absurd rfl h
        · exact h
      rw [ih tb h1 h2]

theorem edgeLt_ne (a b : Edge) (h : edgeLt a b = true) : a ≠ b := by
  intro hab
  subst hab
  rw [edgeLt_irrefl] at h
  exact Bool.noConfusion h

theorem mem_setInsert (e x : Edge) (l : List Edge) : x ∈ setInsert e l ↔ x = e ∨ x ∈ l := by
  induction l with
  | nil => simp [setInsert]
  | cons h t ih =>
    unfold setInsert
    by_cases h1 : edgeLt e h = true
    · rw [if_pos h1]; simp
    · rw [if_neg h1]
      by_cases h2 : edgeLt h e = true
      · rw [if_pos h2]
        simp only [List.mem_cons, ih]
        tauto
      · rw [if_neg h2]
        have he : e = h :=
          edgeLt_connected e h (Bool.eq_false_iff.mpr h1) (Bool.eq_false_iff.mpr h2)
        subst he
        simp

theorem sorted_setInsert (e : Edge) (l : List Edge)
    (hl : l.Pairwise (fun a b => edgeLt a b = true)) :
    (setInsert e l).Pairwise (fun a b => edgeLt a b = true) := by
  induction l with
  | nil => simp [setInsert]
  | cons h t ih =>
    rw [List.pairwise_cons] at hl
    unfold setInsert
    by_cases h1 : edgeLt e h = true
    · rw [if_pos h1]
      rw [List.pairwise_cons]
      refine ⟨?_, List.pairwise_cons.mpr hl⟩
      intro a ha
      rcases List.mem_cons.mp ha with rfl | ha
      · exact h1
      · exact edgeLt_trans e h a h1 (hl.1 a ha)
    · rw [if_neg h1]
      by_cases h2 : edgeLt h e = true
      · rw [if_pos h2, List.pairwise_cons]
        refine ⟨?_, ih hl.2⟩
        intro a ha
        rcases (mem_setInsert e a t).mp ha with rfl | ha
        · exact h2
        · exact hl.1 a ha
      · rw [if_neg h2]
        exact List.pairwise_cons.mpr hl

theorem nodup_of_sorted (l : List Edge) (hl : l.Pairwise (fun a b => edgeLt a b = true)) :
    l.Nodup :=
  hl.imp (fun {a b} h => edgeLt_ne a b h)

end EdgeOrder

/-! ## The map `tri_neighbors` -/

section EdgeMap

theorem mapAt_nil (e : Edge) : mapAt [] e = [] := rfl

theorem mapAt_cons (k : Edge) (vs : List Nat) (t : List (Edge × List Nat)) (e : Edge) :
    mapAt ((k, vs) :: t) e = if k = e then vs else mapAt t e := by
  unfold mapAt
  rw [List.find?_cons]
  by_cases h : k = e
  · simp [h]
  · simp [h]

/-- A key below every key of the map has no entry. -/
theorem mapAt_of_lt (m : List (Edge × List Nat)) (e : Edge)
    (h : ∀ kv ∈ m, edgeLt e kv.1 = true) : mapAt m e = [] := by
  induction m with
  | nil => rfl
  | cons kv t ih =>
    obtain ⟨k, vs⟩ := kv
    rw [mapAt_cons]
    have hk : edgeLt e k = true := h (k, vs) (List.mem_cons_self _ _)
    rw [if_neg (fun hke => edgeLt_ne e k hk hke.symm)]
    exact ih (fun kv hkv => h kv (List.mem_cons_of_mem _ hkv))

theorem mem_keys_mapPushBack (e : Edge) (v : Nat) (m : List (Edge × List Nat)) (k : Edge) :
    k ∈ (mapPushBack e v m).map Prod.fst ↔ k = e ∨ k ∈ m.map Prod.fst := by
  induction m with
  | nil => simp [mapPushBack]
  | cons kv t ih =>
    obtain ⟨k0, vs⟩ := kv
    unfold mapPushBack
    by_cases h1 : edgeLt e k0 = true
    · rw [if_pos h1]; simp
    · rw [if_neg h1]
      by_cases h2 : edgeLt k0 e = true
      · rw [if_pos h2]
        simp only [List.map_cons, List.mem_cons, ih]
        tauto
      · rw [if_neg h2]
        have he : e = k0 :=
          edgeLt_connected e k0 (Bool.eq_false_iff.mpr h1) (Bool.eq_false_iff.mpr h2)
        subst he
        simp

theorem sorted_mapPushBack (e : Edge) (v : Nat) (m : List (Edge × List Nat))
    (hm : (m.map Prod.fst).Pairwise (fun a b => edgeLt a b = true)) :
    ((mapPushBack e v m).map Prod.fst).Pairwise (fun a b => edgeLt a b = true) := by
  induction m with
  | nil => simp [mapPushBack]
  | cons kv t ih =>
    obtain ⟨k0, vs⟩ := kv
    rw [List.map_cons, List.pairwise_cons] at hm
    unfold mapPushBack
    by_cases h1 : edgeLt e k0 = true
    · rw [if_pos h1]
      simp only [List.map_cons]
      rw [List.pairwise_cons]
      refine ⟨?_, List.pairwise_cons.mpr hm⟩
      intro a ha
      rcases List.mem_cons.mp ha with rfl | ha
      · exact h1
      · exact edgeLt_trans e k0 a h1 (hm.1 a ha)
    · rw [if_neg h1]
      by_cases h2 : edgeLt k0 e = true
      · rw [if_pos h2, List.map_cons, List.pairwise_cons]
        refine ⟨?_, ih hm.2⟩
        intro a ha
        rcases (mem_keys_mapPushBack e v t a).mp ha with rfl | ha
        · exact h2
        · exact hm.1 a ha
      · rw [if_neg h2]
        simp only [List.map_cons]
        exact List.pairwise_cons.mpr hm

/-- The statement `tri_neighbors[edge].push_back(v)` appends `v` to the entry of `edge` and
leaves the other entries as they are. -/
theorem mapAt_mapPushBack (e : Edge) (v : Nat) (m : List (Edge × List Nat)) (k : Edge)
    (hm : (m.map Prod.fst).Pairwise (fun a b => edgeLt a b = true)) :
    mapAt (mapPushBack e v m) k = if k = e then mapAt m e ++ [v] else mapAt m k := by
  induction m with
  | nil =>
    unfold mapPushBack
    rw [mapAt_cons, mapAt_nil, mapAt_nil]
    by_cases h : k = e
    · rw [if_pos h, if_pos h.symm]; rfl
    · rw [if_neg h, if_neg (fun h' => h h'.symm)]
  | cons kv t ih =>
    obtain ⟨k0, vs⟩ := kv
    rw [List.map_cons, List.pairwise_cons] at hm
    unfold mapPushBack
    by_cases h1 : edgeLt e k0 = true
    · rw [if_pos h1, mapAt_cons]
      have hnone : mapAt ((k0, vs) :: t) e = [] := by
        apply mapAt_of_lt
        intro kv hkv
        rcases List.mem_cons.mp hkv with rfl | hkv
        · exact h1
        · exact edgeLt_trans e k0 kv.1 h1 (hm.1 kv.1 (List.mem_map_of_mem _ hkv))
      by_cases h : k = e
      · rw [if_pos h, if_pos h.symm, hnone]; rfl
      · rw [if_neg h, if_neg (fun h' => h h'.symm)]
    · rw [if_neg h1]
      by_cases h2 : edgeLt k0 e = true
      · rw [if_pos h2, mapAt_cons, ih hm.2, mapAt_cons, mapAt_cons]
        have hne : k0 ≠ e := edgeLt_ne k0 e h2
        rw [if_neg hne]
        by_cases h : k = e
        · subst h
          rw [if_neg hne, if_pos rfl, if_pos rfl]
        · rw [if_neg h, if_neg h]
      · rw [if_neg h2]
        have he : e = k0 :=
          edgeLt_connected e k0 (Bool.eq_false_iff.mpr h1) (Bool.eq_false_iff.mpr h2)
        subst he
        rw [mapAt_cons, mapAt_cons, mapAt_cons, if_pos rfl]
        by_cases h : k = e
        · subst h
          rw [if_pos rfl, if_pos rfl]
        · rw [if_neg h, if_neg (fun h' => h h'.symm), if_neg (fun h' => h h'.symm)]

/-- The call `tri_neighbors.erase(edge)` empties the entry of `edge` and leaves the other entries
as they are. -/
theorem mapAt_mapErase (m : List (Edge × List Nat)) (e k : Edge) :
    mapAt (mapErase m e) k = if k = e then [] else mapAt m k := by
  induction m with
  | nil =>
    by_cases h : k = e
    · rw [if_pos h]; rfl
    · rw [if_neg h]; rfl
  | cons kv t ih =>
    obtain ⟨k0, vs⟩ := kv
    unfold mapErase at ih ⊢
    rw [List.filter_cons]
    by_cases h0 : k0 = e
    · subst h0
      simp only [decide_True, Bool.not_true, Bool.false_eq_true, if_false]
      rw [ih, mapAt_cons]
      by_cases h : k = k0
      · rw [if_pos h, if_pos h]
      · rw [if_neg h, if_neg h, if_neg (fun h' => h h'.symm)]
    · simp only [h0, decide_False, Bool.not_false, if_true]
      rw [mapAt_cons, mapAt_cons, ih]
      by_cases h : k = e
      · subst h
        rw [if_neg h0, if_pos rfl, if_pos rfl]
      · rw [if_neg h, if_neg h]

end EdgeMap

/-! ## Edge-triangle information of `initSim` -/

section EdgeTriangleInfo

theorem triangle_loop_eq (t : UVec3) (st : List Edge × List (Edge × List Nat)) :
    (List.range 3).foldl (addTriangleSide t) st = (sidePushes t).foldl pushSide st := rfl

/-- The double loop of step 1 of `initSim` visits the pairs `(edge, opposite vertex)` of the
triangles one after the other. -/
theorem edgeTriangleInfo_loop (idx : List UVec3) (st : List Edge × List (Edge × List Nat)) :
    idx.foldl (fun st triangle => (List.range 3).foldl (addTriangleSide triangle) st) st
      = (idx.flatMap sidePushes).foldl pushSide st := by
  induction idx generalizing st with
  | nil => rfl
  | cons t ts ih =>
    rw [List.foldl_cons, List.flatMap_cons, List.foldl_append, ih, triangle_loop_eq]

theorem pushSide_loop (ps : List (Edge × Nat)) (c0 : List Edge) (m0 : List (Edge × List Nat))
    (hc : c0.Pairwise (fun a b => edgeLt a b = true))
    (hm : (m0.map Prod.fst).Pairwise (fun a b => edgeLt a b = true)) :
    (ps.foldl pushSide (c0, m0)).1.Pairwise (fun a b => edgeLt a b = true) ∧
      (∀ e, e ∈ (ps.foldl pushSide (c0, m0)).1 ↔ e ∈ c0 ∨ e ∈ ps.map Prod.fst) ∧
      (∀ e, mapAt (ps.foldl pushSide (c0, m0)).2 e
        = mapAt m0 e ++ (ps.filter (fun p => decide (p.1 = e))).map Prod.snd) := by
  induction ps generalizing c0 m0 with
  | nil => simp [hc]
  | cons p t ih =>
    obtain ⟨h1, h2, h3⟩ := ih (setInsert p.1 c0) (mapPushBack p.1 p.2 m0)
      (sorted_setInsert p.1 c0 hc) (sorted_mapPushBack p.1 p.2 m0 hm)
    rw [List.foldl_cons]
    have hstep : pushSide (c0, m0) p = (setInsert p.1 c0, mapPushBack p.1 p.2 m0) := rfl
    rw [hstep]
    refine ⟨h1, ?_, ?_⟩
    · intro e
      rw [h2 e, mem_setInsert, List.map_cons, List.mem_cons]
      tauto
    · intro e
      rw [h3 e, mapAt_mapPushBack p.1 p.2 m0 e hm, List.filter_cons]
      by_cases h : e = p.1
      · subst h
        simp
      · rw [if_neg h]
        have h' : ¬ p.1 = e := fun h' => h h'.symm
        simp [h']

theorem mkEdge_of_lt (a b : Nat) (h : a < b) : mkEdge a b = [a, b] := by
  unfold mkEdge
  rw [if_pos h]

theorem mkEdge_of_gt (a b : Nat) (h : b < a) : mkEdge a b = [b, a] := by
  unfold mkEdge
  rw [if_neg (by omega), if_pos h]

/-- An edge between two different vertices holds the smaller one first and the larger one
second. -/
theorem mkEdge_elements (a b : Nat) (h : a ≠ b) :
    mkEdge a b = [(mkEdge a b).getD 0 0, (mkEdge a b).getD 1 0] := by
  rcases Nat.lt_or_gt_of_ne h with h1 | h1
  · rw [mkEdge_of_lt a b h1]; rfl
  · rw [mkEdge_of_gt a b h1]; rfl

theorem triangle_sides_ne (t : UVec3) (h : t.Distinct) :
    mkEdge t.x t.y ≠ mkEdge t.y t.z ∧ mkEdge t.y t.z ≠ mkEdge t.z t.x ∧
      mkEdge t.z t.x ≠ mkEdge t.x t.y := by
  obtain ⟨h1, h2, h3⟩ := h
  refine ⟨?_, ?_, ?_⟩ <;>
  · unfold mkEdge
    split_ifs <;> simp <;> omega

/-- A triangle with three different corners records one opposite vertex for each of its sides
and none for any other edge. -/
theorem sidePushes_count (t : UVec3) (h : t.Distinct) (e : Edge) :
    ((sidePushes t).filter (fun p => decide (p.1 = e))).length
      = if e ∈ triangleSides t then 1 else 0 := by
  obtain ⟨h1, h2, h3⟩ := triangle_sides_ne t h
  unfold sidePushes triangleSides
  generalize mkEdge t.x t.y = a at h1 h3 ⊢
  generalize mkEdge t.y t.z = b at h1 h2 ⊢
  generalize mkEdge t.z t.x = c at h2 h3 ⊢
  by_cases ha : a = e
  · subst ha
    simp [h1.symm, h3]
  · by_cases hb : b = e
    · subst hb
      simp [h1, h2.symm]
    · by_cases hc : c = e
      · subst hc
        simp [h2, h3.symm]
      · have ha' : ¬ e = a := fun h' => ha h'.symm
        have hb' : ¬ e = b := fun h' => hb h'.symm
        have hc' : ¬ e = c := fun h' => hc h'.symm
        simp [ha, hb, hc, ha', hb', hc']

/-- The number of opposite vertices recorded for an edge is its number of adjacent triangles. -/
theorem pushes_count (idx : List UVec3) (h : ∀ t ∈ idx, t.Distinct) (e : Edge) :
    ((idx.flatMap sidePushes).filter (fun p => decide (p.1 = e))).length
      = (adjacentTriangles idx e).length := by
  induction idx with
  | nil => rfl
  | cons t ts ih =>
    have ht : t.Distinct := h t (List.mem_cons_self _ _)
    have hts : ∀ t ∈ ts, t.Distinct := fun t' ht' => h t' (List.mem_cons_of_mem _ ht')
    unfold adjacentTriangles at ih ⊢
    rw [List.flatMap_cons, List.filter_append, List.length_append, ih hts, sidePushes_count t ht,
      List.filter_cons]
    by_cases hm : e ∈ triangleSides t
    · simp [hm]; omega
    · simp [hm]

/-- Step 1 of `initSim`: `connections` holds every side of every triangle once, and
`tri_neighbors[edge]` holds one vertex per triangle adjacent to `edge`. -/
theorem edgeTriangleInfo_spec (idx : List UVec3) (h : ∀ t ∈ idx, t.Distinct) :
    (edgeTriangleInfo idx).1.Nodup ∧
      (∀ e, e ∈ (edgeTriangleInfo idx).1 ↔ ∃ t ∈ idx, e ∈ triangleSides t) ∧
      (∀ e, (mapAt (edgeTriangleInfo idx).2 e).length = (adjacentTriangles idx e).length) := by
  unfold edgeTriangleInfo
  rw [edgeTriangleInfo_loop]
  obtain ⟨h1, h2, h3⟩ := pushSide_loop (idx.flatMap sidePushes) [] [] List.Pairwise.nil
    List.Pairwise.nil
  refine ⟨nodup_of_sorted _ h1, ?_, ?_⟩
  · intro e
    rw [h2 e]
    simp only [List.not_mem_nil, false_or, List.mem_map, List.mem_flatMap]
    constructor
    · rintro ⟨p, ⟨t, ht, hp⟩, rfl⟩
      refine ⟨t, ht, ?_⟩
      simp only [sidePushes, List.mem_cons, List.mem_singleton, List.not_mem_nil, or_false] at hp
      rcases hp with rfl | rfl | rfl <;> simp [triangleSides]
    · rintro ⟨t, ht, he⟩
      simp only [triangleSides, List.mem_cons, List.mem_singleton, List.not_mem_nil, or_false]
        at he
      rcases he with rfl | rfl | rfl
      · exact ⟨(mkEdge t.x t.y, t.z), ⟨t, ht, by simp [sidePushes]⟩, rfl⟩
      · exact ⟨(mkEdge t.y t.z, t.x), ⟨t, ht, by simp [sidePushes]⟩, rfl⟩
      · exact ⟨(mkEdge t.z t.x, t.y), ⟨t, ht, by simp [sidePushes]⟩, rfl⟩
  · intro e
    rw [h3 e, mapAt_nil, List.nil_append, List.length_map, pushes_count idx h e]

end EdgeTriangleInfo

/-! ## The constraints `initSim` appends -/

section InitSimConstraints

variable {K : Type} [LinearOrderedField K]

/-- A loop whose body appends to a list appends to it. -/
theorem foldl_appends {σ β γ : Type} (proj : σ → List γ) (P : γ → Prop) (f : σ → β → σ)
    (hf : ∀ s b, ∃ added, proj (f s b) = proj s ++ added ∧ ∀ c ∈ added, P c)
    (l : List β) (s : σ) :
    ∃ added, proj (l.foldl f s) = proj s ++ added ∧ ∀ c ∈ added, P c := by
  induction l generalizing s with
  | nil => exact ⟨[], by simp, by simp⟩
  | cons b t ih =>
    obtain ⟨a1, h1, p1⟩ := hf s b
    obtain ⟨a2, h2, p2⟩ := ih (f s b)
    refine ⟨a1 ++ a2, ?_, ?_⟩
    · rw [List.foldl_cons, h2, h1, List.append_assoc]
    · intro c hc
      rcases List.mem_append.mp hc with hc | hc
      · exact p1 c hc
      · exact p2 c hc

namespace PbdSolver

/-- The loop "a table" appends Attach constraints only. -/
theorem pinTable_kinds (s : PbdSolver K) :
    ∃ added, (pinTable s)._constraints = s._constraints ++ added ∧
      ∀ c ∈ added, Constraint.isBend c = false := by
  unfold pinTable
  refine foldl_appends (fun r : PbdSolver K => r._constraints)
    (fun c => Constraint.isBend c = false)
    (fun s1 i => (List.range 9).foldl (pinParticle i) s1) ?_ (List.range 16) s
  intro s1 i
  refine foldl_appends (fun r : PbdSolver K => r._constraints)
    (fun c => Constraint.isBend c = false) (pinParticle i) ?_ (List.range 9) s1
  intro r j
  refine ⟨[ConstraintAttach.mk (pinIndex i j) (r._x.getD (pinIndex i j) 0)], rfl, ?_⟩
  intro c hc
  rw [List.mem_singleton.mp hc]
  rfl

/-- The loop "3. stretch" appends Stretch constraints only. -/
theorem addStretch_kinds (sqrt : K → K) (l : List Edge) (s : PbdSolver K) :
    ∃ added, (l.foldl (addStretch sqrt) s)._constraints = s._constraints ++ added ∧
      ∀ c ∈ added, Constraint.isBend c = false := by
  refine foldl_appends (fun r : PbdSolver K => r._constraints)
    (fun c => Constraint.isBend c = false) (addStretch sqrt) ?_ l s
  intro r e
  unfold addStretch
  simp only []
  split_ifs
  · exact ⟨[], by simp, by simp⟩
  · refine ⟨_, rfl, ?_⟩
    intro c hc
    rw [List.mem_singleton.mp hc]
    rfl

/-- The loop "4. bend": every constraint it appends is a Bend constraint on an edge of the loop
for which `tri_neighbors` held exactly two vertices, and each edge gets at most one. Here `tn0`
is the map before the loop and `tn` the map at the current iteration, which differs from `tn0`
by erased entries. -/
theorem addBend_kinds (sqrt acos : K → K) (tn0 : List (Edge × List Nat)) (l : List Edge)
    (s : PbdSolver K) (tn : List (Edge × List Nat))
    (hrel : ∀ e, mapAt tn e = mapAt tn0 e ∨ mapAt tn e = []) :
    ∃ added, (l.foldl (addBend sqrt acos) (s, tn)).1._constraints = s._constraints ++ added ∧
      (∀ c ∈ added, ∃ e ∈ l, (mapAt tn0 e).length = 2 ∧
        ∃ phi0, c.kind = ConstraintKind.bend (e.getD 0 0) (e.getD 1 0)
          ((mapAt tn0 e).getD 0 0) ((mapAt tn0 e).getD 1 0) phi0) ∧
      added.length ≤ (l.filter (fun e => decide ((mapAt tn0 e).length = 2))).length := by
  induction l generalizing s tn with
  | nil => exact ⟨[], by simp, by simp, by simp⟩
  | cons e t ih =>
    rw [List.foldl_cons]
    by_cases h2 : (mapAt tn e).length = 2
    · have hsame : mapAt tn e = mapAt tn0 e := by
        rcases hrel e with h | h
        · exact h
        · rw [h] at h2
          exact absurd h2 (by decide)
      have h20 : (mapAt tn0 e).length = 2 := by rw [← hsame]; exact h2
      by_cases hp : s._w.getD (e.getD 0 0) 0 = 0 ∧ s._w.getD (e.getD 1 0) 0 = 0 ∧
          s._w.getD ((mapAt tn e).getD 0 0) 0 = 0 ∧ s._w.getD ((mapAt tn e).getD 1 0) 0 = 0
      · have hstep : addBend sqrt acos (s, tn) e = (s, tn) := by
          unfold addBend
          simp only []
          rw [if_pos h2, if_pos hp]
        rw [hstep]
        obtain ⟨added, q1, q2, q3⟩ := ih s tn hrel
        refine ⟨added, q1, ?_, ?_⟩
        · intro c hc
          obtain ⟨e', he', r⟩ := q2 c hc
          exact ⟨e', List.mem_cons_of_mem _ he', r⟩
        · rw [List.filter_cons]
          split_ifs
          · rw [List.length_cons]; omega
          · exact q3
      · have hstep : ∃ phi, addBend sqrt acos (s, tn) e
            = ({ s with _constraints := s._constraints ++
                  [ConstraintBend.mk (e.getD 0 0) (e.getD 1 0) ((mapAt tn e).getD 0 0)
                    ((mapAt tn e).getD 1 0) phi s._kBend (5 / 100)] }, tn) := by
          refine ⟨bendRestAngle sqrt acos s._x (e.getD 0 0) (e.getD 1 0)
            ((mapAt tn e).getD 0 0) ((mapAt tn e).getD 1 0), ?_⟩
          unfold addBend
          simp only []
          rw [if_pos h2, if_neg hp]
        obtain ⟨phi, hstep⟩ := hstep
        rw [hstep]
        obtain ⟨added, q1, q2, q3⟩ := ih { s with _constraints := s._constraints ++
            [ConstraintBend.mk (e.getD 0 0) (e.getD 1 0) ((mapAt tn e).getD 0 0)
              ((mapAt tn e).getD 1 0) phi s._kBend (5 / 100)] } tn hrel
        refine ⟨ConstraintBend.mk (e.getD 0 0) (e.getD 1 0) ((mapAt tn e).getD 0 0)
              ((mapAt tn e).getD 1 0) phi s._kBend (5 / 100) :: added, ?_, ?_, ?_⟩
        · rw [q1]
          simp
        · intro c hc
          rcases List.mem_cons.mp hc with rfl | hc
          · refine ⟨e, List.mem_cons_self _ _, h20, phi, ?_⟩
            rw [← hsame]
            rfl
          · obtain ⟨e', he', r⟩ := q2 c hc
            exact ⟨e', List.mem_cons_of_mem _ he', r⟩
        · rw [List.filter_cons, if_pos (by simpa using h20), List.length_cons, List.length_cons]
          omega
    · have hstep : addBend sqrt acos (s, tn) e = (s, mapErase tn e) := by
        unfold addBend
        simp only []
        rw [if_neg h2]
      rw [hstep]
      have hrel' : ∀ k, mapAt (mapErase tn e) k = mapAt tn0 k ∨ mapAt (mapErase tn e) k = [] := by
        intro k
        rw [mapAt_mapErase]
        by_cases hk : k = e
        · right; rw [if_pos hk]
        · rw [if_neg hk]; exact hrel k
      obtain ⟨added, q1, q2, q3⟩ := ih s (mapErase tn e) hrel'
      refine ⟨added, q1, ?_, ?_⟩
      · intro c hc
        obtain ⟨e', he', r⟩ := q2 c hc
        exact ⟨e', List.mem_cons_of_mem _ he', r⟩
      · rw [List.filter_cons]
        split_ifs
        · rw [List.length_cons]; omega
        · exact q3

end PbdSolver

end InitSimConstraints

/-! ## Bend constraints and the topology of the mesh -/

section BendTopology

variable {K : Type} [LinearOrderedField K]

namespace PbdSolver

/-- The constraints `initSim` appends: Attach and Stretch constraints, followed by Bend
constraints `(e[0], e[1], ..)` on edges `e` of `connections` with exactly two adjacent
triangles, at most one for each such edge. -/
theorem initSim_appended (sqrt acos : K → K) (s : PbdSolver K) (mesh : Mesh K)
    (hdist : ∀ t ∈ mesh._triangleIndices, t.Distinct) :
    ∃ others bends, (initSim sqrt acos s mesh)._constraints = s._constraints ++ (others ++ bends) ∧
      (∀ c ∈ others, Constraint.isBend c = false) ∧
      (∀ c ∈ bends, ∃ e ∈ (edgeTriangleInfo mesh._triangleIndices).1,
        (adjacentTriangles mesh._triangleIndices e).length = 2 ∧
        ∃ i3 i4 phi0, c.kind = ConstraintKind.bend (e.getD 0 0) (e.getD 1 0) i3 i4 phi0) ∧
      bends.length ≤ ((edgeTriangleInfo mesh._triangleIndices).1.filter
        (fun e => decide ((adjacentTriangles mesh._triangleIndices e).length = 2))).length := by
  obtain ⟨a1, _, _, _⟩ :=
    initParticle_loop (List.range mesh._vertexPositions.length) (initAssigned s mesh)
  have hidx : ((List.range mesh._vertexPositions.length).foldl initParticle
      (initAssigned s mesh))._idx = mesh._triangleIndices := by
    rw [a1]; rfl
  have hc : ((List.range mesh._vertexPositions.length).foldl initParticle
      (initAssigned s mesh))._constraints = s._constraints := by
    rw [a1]; rfl
  have hdef : initSim sqrt acos s mesh
      = ((edgeTriangleInfo ((List.range mesh._vertexPositions.length).foldl initParticle
            (initAssigned s mesh))._idx).1.foldl (addBend sqrt acos)
          ((edgeTriangleInfo ((List.range mesh._vertexPositions.length).foldl initParticle
            (initAssigned s mesh))._idx).1.foldl (addStretch sqrt) (initPinned s mesh),
           (edgeTriangleInfo ((List.range mesh._vertexPositions.length).foldl initParticle
            (initAssigned s mesh))._idx).2)).1 := rfl
  rw [hidx] at hdef
  obtain ⟨_, _, hcount⟩ := edgeTriangleInfo_spec mesh._triangleIndices hdist
  obtain ⟨pins, hp1, hp2⟩ := pinTable_kinds
    ((List.range mesh._vertexPositions.length).foldl initParticle (initAssigned s mesh))
  have hpin : (initPinned s mesh)._constraints = s._constraints ++ pins := by
    rw [← hc]; exact hp1
  obtain ⟨strs, hs1, hs2⟩ := addStretch_kinds sqrt (edgeTriangleInfo mesh._triangleIndices).1
    (initPinned s mesh)
  obtain ⟨bends, hb1, hb2, hb3⟩ := addBend_kinds sqrt acos
    (edgeTriangleInfo mesh._triangleIndices).2 (edgeTriangleInfo mesh._triangleIndices).1
    ((edgeTriangleInfo mesh._triangleIndices).1.foldl (addStretch sqrt) (initPinned s mesh))
    (edgeTriangleInfo mesh._triangleIndices).2 (fun e => Or.inl rfl)
  rw [← hdef] at hb1
  refine ⟨pins ++ strs, bends, ?_, ?_, ?_, ?_⟩
  · rw [hb1, hs1, hpin]
    simp only [List.append_assoc]
  · intro c hc'
    rcases List.mem_append.mp hc' with h | h
    · exact hp2 c h
    · exact hs2 c h
  · intro c hc'
    obtain ⟨e, he, h2, phi0, hk⟩ := hb2 c hc'
    rw [hcount e] at h2
    exact ⟨e, he, h2, _, _, phi0, hk⟩
  · simp only [hcount] at hb3
    exact hb3

end PbdSolver

/-- C11 (`PbdSolver::initSim`, loops "edge-triangle information" and "4. bend"). For every mesh
whose triangles have three different corners (in range or not), `initSim` returns, and of the
constraints it appends to `_constraints`
* every Bend constraint `(i1, i2, i3, i4)` sits on an edge `{i1, i2}` of `connections` with
  exactly two adjacent triangles, so an edge with one, or with three and more, adjacent triangles
  gets none;
* the number of Bend constraints is at most the number of edges of `connections` with exactly
  two adjacent triangles,
where `connections` holds every side of every triangle exactly once. -/
theorem bend_only_on_two_triangle_edges (sqrt acos : K → K) (s : PbdSolver K) (mesh : Mesh K)
    (hdist : ∀ t ∈ mesh._triangleIndices, t.Distinct) :
    (∀ c ∈ (PbdSolver.initSim sqrt acos s mesh)._constraints.drop s._constraints.length,
        ∀ i1 i2 i3 i4 phi0, c.kind = ConstraintKind.bend i1 i2 i3 i4 phi0 →
          [i1, i2] ∈ (edgeTriangleInfo mesh._triangleIndices).1 ∧
            (adjacentTriangles mesh._triangleIndices [i1, i2]).length = 2) ∧
      (((PbdSolver.initSim sqrt acos s mesh)._constraints.drop s._constraints.length).filter
          Constraint.isBend).length
        ≤ ((edgeTriangleInfo mesh._triangleIndices).1.filter
            (fun e => decide ((adjacentTriangles mesh._triangleIndices e).length = 2))).length ∧
      (edgeTriangleInfo mesh._triangleIndices).1.Nodup ∧
      (∀ e, e ∈ (edgeTriangleInfo mesh._triangleIndices).1
        ↔ ∃ t ∈ mesh._triangleIndices, e ∈ triangleSides t) := by
  obtain ⟨others, bends, h1, h2, h3, h4⟩ := PbdSolver.initSim_appended sqrt acos s mesh hdist
  obtain ⟨hnodup, hmem, _⟩ := edgeTriangleInfo_spec mesh._triangleIndices hdist
  have hdrop : (PbdSolver.initSim sqrt acos s mesh)._constraints.drop s._constraints.length
      = others ++ bends := by
    rw [h1, List.drop_left]
  rw [hdrop]
  refine ⟨?_, ?_, hnodup, hmem⟩
  · intro c hc i1 i2 i3 i4 phi0 hk
    rcases List.mem_append.mp hc with h | h
    · have hb := h2 c h
      unfold Constraint.isBend at hb
      rw [hk] at hb
      exact Bool.noConfusion hb
    · obtain ⟨e, he, hadj, j3, j4, phi, hk'⟩ := h3 c h
      rw [hk] at hk'
      injection hk' with e1 e2 _ _ _
      obtain ⟨t, ht, hside⟩ := (hmem e).mp he
      obtain ⟨d1, d2, d3⟩ := hdist t ht
      have hform : e = [e.getD 0 0, e.getD 1 0] := by
        simp only [triangleSides, List.mem_cons, List.mem_singleton, List.not_mem_nil, or_false]
          at hside
        rcases hside with rfl | rfl | rfl
        · exact mkEdge_elements t.x t.y d1
        · exact mkEdge_elements t.y t.z d2
        · exact mkEdge_elements t.z t.x d3
      rw [e1, e2, ← hform]
      exact ⟨he, hadj⟩
  · rw [List.filter_append, List.length_append]
    have hzero : others.filter Constraint.isBend = [] := by
      rw [List.filter_eq_nil_iff]
      intro c hc
      rw [h2 c hc]
      exact Bool.false_ne_true
    rw [hzero, List.length_nil, Nat.zero_add]
    exact (List.length_filter_le _ _).trans h4

end BendTopology

/-- C11, instance: on the example grid mesh with the two triangles `(0, 1, 30)` and `(1, 31, 30)`
only the diagonal `(1, 30)` has two adjacent triangles, and a new solver gets at most one Bend
constraint from `initSim`. -/
theorem bend_only_on_two_triangle_edges_witness :
    (⟨0, 1, 30⟩ : UVec3).Distinct ∧ (⟨1, 31, 30⟩ : UVec3).Distinct ∧
      ((PbdSolver.initSim Real.sqrt Real.arccos
          (PbdSolver.new 10 (0 : ℝ) 0 0 ⟨0, -1, 0⟩) (exampleGridMesh ℝ))._constraints.filter
          Constraint.isBend).length ≤ 1 :=
  ⟨⟨by decide, by decide, by decide⟩, ⟨by decide, by decide, by decide⟩,
    le_of_le_of_eq
      (bend_only_on_two_triangle_edges Real.sqrt Real.arccos
        (PbdSolver.new 10 (0 : ℝ) 0 0 ⟨0, -1, 0⟩) (exampleGridMesh ℝ)
        (by
          intro t ht
          have h : t ∈ ([⟨0, 1, 30⟩, ⟨1, 31, 30⟩] : List UVec3) := ht
          rcases List.mem_cons.mp h with rfl | h
          · exact ⟨by decide, by decide, by decide⟩
          · rw [List.mem_singleton] at h
            subst h
            exact ⟨by decide, by decide, by decide⟩)).2.1
      (by decide)⟩

/-! ## Momentum balance of the Stretch projection -/

section StretchMomentum

/-- The positions of the two particles after `ConstraintStretch::project` when the `is_zero`
test does not apply: `x_i + n * w_i * dlambda` and `x_j + (-n) * w_j * dlambda` for one scalar
`dlambda`, with `n = (x_i - x_j) / dist`. -/
theorem stretch_project_moves {K : Type} [LinearOrderedField K] (sqrt : K → K)
    (c : Constraint K) (i j : Nat) (d : K) (x x_last : List (Vec3 K)) (w : List K) (dt : K)
    (hij : i ≠ j) (hi : i < x.length) (hj : j < x.length) :
    ∃ dl : K,
      (ConstraintStretch.project sqrt c i j d x x_last w dt).2.getD i 0
          = x.getD i 0 + Vec3.smul (w.getD i 0 * dl)
              ((x.getD i 0 - x.getD j 0).divS (Vec3.length sqrt (x.getD i 0 - x.getD j 0))) ∧
        (ConstraintStretch.project sqrt c i j d x x_last w dt).2.getD j 0
          = x.getD j 0 - Vec3.smul (w.getD j 0 * dl)
              ((x.getD i 0 - x.getD j 0).divS (Vec3.length sqrt (x.getD i 0 - x.getD j 0))) := by
  have hmove : ∀ dl : K,
      ((x.set i (x.getD i 0 + (((x.getD i 0 - x.getD j 0).divS
            (Vec3.length sqrt (x.getD i 0 - x.getD j 0))).mulS (w.getD i 0)).mulS dl)).set j
          ((x.set i (x.getD i 0 + (((x.getD i 0 - x.getD j 0).divS
            (Vec3.length sqrt (x.getD i 0 - x.getD j 0))).mulS (w.getD i 0)).mulS dl)).getD j 0
            + ((-(x.getD i 0 - x.getD j 0).divS
              (Vec3.length sqrt (x.getD i 0 - x.getD j 0))).mulS (w.getD j 0)).mulS dl)).getD i 0
          = x.getD i 0 + Vec3.smul (w.getD i 0 * dl)
              ((x.getD i 0 - x.getD j 0).divS (Vec3.length sqrt (x.getD i 0 - x.getD j 0))) ∧
        ((x.set i (x.getD i 0 + (((x.getD i 0 - x.getD j 0).divS
            (Vec3.length sqrt (x.getD i 0 - x.getD j 0))).mulS (w.getD i 0)).mulS dl)).set j
          ((x.set i (x.getD i 0 + (((x.getD i 0 - x.getD j 0).divS
            (Vec3.length sqrt (x.getD i 0 - x.getD j 0))).mulS (w.getD i 0)).mulS dl)).getD j 0
            + ((-(x.getD i 0 - x.getD j 0).divS
              (Vec3.length sqrt (x.getD i 0 - x.getD j 0))).mulS (w.getD j 0)).mulS dl)).getD j 0
          = x.getD j 0 - Vec3.smul (w.getD j 0 * dl)
              ((x.getD i 0 - x.getD j 0).divS (Vec3.length sqrt (x.getD i 0 - x.getD j 0))) := by
    intro dl
    constructor
    · rw [getD_set_of_ne _ _ _ _ _ (Ne.symm hij), getD_set_self _ _ _ _ hi]
      apply vec3_ext <;>
        simp only [vec3_add_x, vec3_add_y, vec3_add_z, Vec3.smul, Vec3.divS, Vec3.mulS] <;>
        ring
    · rw [getD_set_self _ _ _ _ (by rw [List.length_set]; exact hj),
        getD_set_of_ne _ _ _ _ _ hij]
      apply vec3_ext <;>
        simp only [vec3_add_x, vec3_add_y, vec3_add_z, vec3_sub_x, vec3_sub_y, vec3_sub_z,
          vec3_neg_x, vec3_neg_y, vec3_neg_z, Vec3.smul, Vec3.divS, Vec3.mulS] <;>
        ring
  unfold ConstraintStretch.project
  simp only []
  split_ifs with hz
  · refine ⟨0, ?_, ?_⟩ <;>
      apply vec3_ext <;>
      simp only [vec3_add_x, vec3_add_y, vec3_add_z, vec3_sub_x, vec3_sub_y, vec3_sub_z,
        Vec3.smul, Vec3.divS] <;>
      ring
  · exact ⟨_, hmove _⟩

/-- C26. Momentum balance of `ConstraintStretch::project`: for two particles `i`, `j` of the
position array at positive distance, the displacements `dx_i = x_i' - x_i`, `dx_j = x_j' - x_j`
of one `project` call (whatever `dt`, the multiplier and the denominator of `dlambda` are)
satisfy `w_j * dx_i + w_i * dx_j = 0`, and `dx_i / w_i + dx_j / w_j = 0` when both inverse masses
are positive; both are multiples of `x_i - x_j`; an endpoint with `w = 0` keeps its position. -/
theorem stretch_conserves_momentum (c : Constraint ℝ) (i j : Nat) (d : ℝ)
    (x x_last : List (Vec3 ℝ)) (w : List ℝ) (dt : ℝ) (hi : i < x.length) (hj : j < x.length)
    (hdist : 0 < Vec3.length Real.sqrt (x.getD i 0 - x.getD j 0)) :
    Vec3.smul (w.getD j 0)
          ((ConstraintStretch.project Real.sqrt c i j d x x_last w dt).2.getD i 0 - x.getD i 0)
        + Vec3.smul (w.getD i 0)
          ((ConstraintStretch.project Real.sqrt c i j d x x_last w dt).2.getD j 0 - x.getD j 0)
        = 0 ∧
      (0 < w.getD i 0 → 0 < w.getD j 0 →
        ((ConstraintStretch.project Real.sqrt c i j d x x_last w dt).2.getD i 0
            - x.getD i 0).divS (w.getD i 0)
          + ((ConstraintStretch.project Real.sqrt c i j d x x_last w dt).2.getD j 0
            - x.getD j 0).divS (w.getD j 0) = 0) ∧
      (∃ a : ℝ, (ConstraintStretch.project Real.sqrt c i j d x x_last w dt).2.getD i 0
          - x.getD i 0 = Vec3.smul a (x.getD i 0 - x.getD j 0)) ∧
      (∃ b : ℝ, (ConstraintStretch.project Real.sqrt c i j d x x_last w dt).2.getD j 0
          - x.getD j 0 = Vec3.smul b (x.getD i 0 - x.getD j 0)) ∧
      (w.getD i 0 = 0 →
        (ConstraintStretch.project Real.sqrt c i j d x x_last w dt).2.getD i 0 = x.getD i 0) ∧
      (w.getD j 0 = 0 →
        (ConstraintStretch.project Real.sqrt c i j d x x_last w dt).2.getD j 0 = x.getD j 0) := by
  have hij : i ≠ j := by
    intro hij
    subst hij
    have h0 : Vec3.dot (x.getD i 0 - x.getD i 0) (x.getD i 0 - x.getD i 0) = 0 := by
      simp [Vec3.dot]
    simp only [Vec3.length] at hdist
    rw [h0, Real.sqrt_zero] at hdist
    exact lt_irrefl _ hdist
  obtain ⟨dl, h1, h2⟩ :=
    stretch_project_moves Real.sqrt c i j d x x_last w dt hij hi hj
  rw [h1, h2]
  have hD : Vec3.length Real.sqrt (x.getD i 0 - x.getD j 0) ≠ 0 := ne_of_gt hdist
  generalize Vec3.length Real.sqrt (x.getD i 0 - x.getD j 0) = D at hD
  generalize x.getD i 0 = xi
  generalize x.getD j 0 = xj
  generalize w.getD i 0 = wi
  generalize w.getD j 0 = wj
  refine ⟨?_, ?_, ⟨wi * dl / D, ?_⟩, ⟨-(wj * dl / D), ?_⟩, ?_, ?_⟩
  · apply vec3_ext <;>
      simp only [vec3_add_x, vec3_add_y, vec3_add_z, vec3_sub_x, vec3_sub_y, vec3_sub_z,
        vec3_zero_x, vec3_zero_y, vec3_zero_z, Vec3.smul, Vec3.divS] <;>
      ring
  · intro hwi hwj
    have hi0 : wi ≠ 0 := ne_of_gt hwi
    have hj0 : wj ≠ 0 := ne_of_gt hwj
    apply vec3_ext <;>
      simp only [vec3_add_x, vec3_add_y, vec3_add_z, vec3_sub_x, vec3_sub_y, vec3_sub_z,
        vec3_zero_x, vec3_zero_y, vec3_zero_z, Vec3.smul, Vec3.divS] <;>
      field_simp <;>
      ring
  · apply vec3_ext <;>
      simp only [vec3_add_x, vec3_add_y, vec3_add_z, vec3_sub_x, vec3_sub_y, vec3_sub_z,
        Vec3.smul, Vec3.divS] <;>
      ring
  · apply vec3_ext <;>
      simp only [vec3_add_x, vec3_add_y, vec3_add_z, vec3_sub_x, vec3_sub_y, vec3_sub_z,
        Vec3.smul, Vec3.divS] <;>
      ring
  · intro hw
    rw [hw]
    apply vec3_ext <;>
      simp only [vec3_add_x, vec3_add_y, vec3_add_z, Vec3.smul, Vec3.divS] <;>
      ring
  · intro hw
    rw [hw]
    apply vec3_ext <;>
      simp only [vec3_sub_x, vec3_sub_y, vec3_sub_z, Vec3.smul, Vec3.divS] <;>
      ring

/-- C26, instance: the particles `(0,0,0)` (inverse mass `1`) and `(2,0,0)` (inverse mass `3`)
with rest length `1`. -/
theorem stretch_conserves_momentum_witness :
    Vec3.smul 3
          ((ConstraintStretch.project Real.sqrt (ConstraintStretch.mk 0 1 1 0 (9 / 10)) 0 1 1
              [⟨0, 0, 0⟩, ⟨2, 0, 0⟩] [⟨0, 0, 0⟩, ⟨2, 0, 0⟩] [1, 3] (16 / 1000)).2.getD 0 0
            - (⟨0, 0, 0⟩ : Vec3 ℝ))
        + Vec3.smul 1
          ((ConstraintStretch.project Real.sqrt (ConstraintStretch.mk 0 1 1 0 (9 / 10)) 0 1 1
              [⟨0, 0, 0⟩, ⟨2, 0, 0⟩] [⟨0, 0, 0⟩, ⟨2, 0, 0⟩] [1, 3] (16 / 1000)).2.getD 1 0
            - (⟨2, 0, 0⟩ : Vec3 ℝ))
        = 0 :=
  (stretch_conserves_momentum (ConstraintStretch.mk 0 1 1 0 (9 / 10)) 0 1 1
    [⟨0, 0, 0⟩, ⟨2, 0, 0⟩] [⟨0, 0, 0⟩, ⟨2, 0, 0⟩] [1, 3] (16 / 1000) (by decide) (by decide)
    (by
      apply Real.sqrt_pos.mpr
      simp [Vec3.dot])).1

end StretchMomentum

/-! ## Momentum balance of the Bend projection -/

section BendMomentum

variable {K : Type} [LinearOrderedField K]

/-- The four positions after the updates `x[_ik] += w[_ik] * dlambda * qk / denom` of
`ConstraintBend::project`, for four different particles of the array. -/
theorem bend_displace_getD (sqrt : K → K) (i1 i2 i3 i4 : Nat) (d dl : K)
    (q1 q2 q3 q4 : Vec3 K) (x : List (Vec3 K)) (w : List K)
    (h12 : i1 ≠ i2) (h13 : i1 ≠ i3) (h14 : i1 ≠ i4) (h23 : i2 ≠ i3) (h24 : i2 ≠ i4)
    (h34 : i3 ≠ i4) (hr1 : i1 < x.length) (hr2 : i2 < x.length) (hr3 : i3 < x.length)
    (hr4 : i4 < x.length) :
    (ConstraintBend.displace sqrt i1 i2 i3 i4 d dl q1 q2 q3 q4 x w).getD i1 0
        = x.getD i1 0 + (Vec3.smul (w.getD i1 0 * dl) q1).divS (sqrt (1 - d * d)) ∧
      (ConstraintBend.displace sqrt i1 i2 i3 i4 d dl q1 q2 q3 q4 x w).getD i2 0
        = x.getD i2 0 + (Vec3.smul (w.getD i2 0 * dl) q2).divS (sqrt (1 - d * d)) ∧
      (ConstraintBend.displace sqrt i1 i2 i3 i4 d dl q1 q2 q3 q4 x w).getD i3 0
        = x.getD i3 0 + (Vec3.smul (w.getD i3 0 * dl) q3).divS (sqrt (1 - d * d)) ∧
      (ConstraintBend.displace sqrt i1 i2 i3 i4 d dl q1 q2 q3 q4 x w).getD i4 0
        = x.getD i4 0 + (Vec3.smul (w.getD i4 0 * dl) q4).divS (sqrt (1 - d * d)) := by
  unfold ConstraintBend.displace
  simp only [getD_set, List.length_set, h12, h13, h14, h23, h24, h34, h12.symm, h13.symm,
    h14.symm, h23.symm, h24.symm, h34.symm, hr1, hr2, hr3, hr4, and_true, and_self, if_true,
    if_false, false_and, true_and]

/-- The vector `q1` of `ConstraintBend::project` is `-q2 - q3 - q4`. -/
theorem bend_gradients_sum (sqrt : K → K) (x : List (Vec3 K)) (i1 i2 i3 i4 : Nat) :
    (ConstraintBend.gradients sqrt x i1 i2 i3 i4).1
        + (ConstraintBend.gradients sqrt x i1 i2 i3 i4).2.1
        + (ConstraintBend.gradients sqrt x i1 i2 i3 i4).2.2.1
        + (ConstraintBend.gradients sqrt x i1 i2 i3 i4).2.2.2 = 0 := by
  unfold ConstraintBend.gradients
  simp only []
  apply vec3_ext <;>
    simp only [vec3_add_x, vec3_add_y, vec3_add_z, vec3_sub_x, vec3_sub_y, vec3_sub_z,
      vec3_neg_x, vec3_neg_y, vec3_neg_z, vec3_zero_x, vec3_zero_y, vec3_zero_z] <;>
    ring

/-- The four positions after `ConstraintBend::project`, for four different particles of the
array: `x_k + w_k * a * q_k` for one scalar `a` and the vectors `q1 .. q4` of the function. -/
theorem bend_project_moves (sqrt acos : K → K) (c : Constraint K) (i1 i2 i3 i4 : Nat)
    (phi0 : K) (x x_last : List (Vec3 K)) (w : List K) (dt : K)
    (h12 : i1 ≠ i2) (h13 : i1 ≠ i3) (h14 : i1 ≠ i4) (h23 : i2 ≠ i3) (h24 : i2 ≠ i4)
    (h34 : i3 ≠ i4) (hr1 : i1 < x.length) (hr2 : i2 < x.length) (hr3 : i3 < x.length)
    (hr4 : i4 < x.length) :
    ∃ a : K,
      (ConstraintBend.project sqrt acos c i1 i2 i3 i4 phi0 x x_last w dt).2.getD i1 0
          = x.getD i1 0
            + Vec3.smul (w.getD i1 0 * a) (ConstraintBend.gradients sqrt x i1 i2 i3 i4).1 ∧
        (ConstraintBend.project sqrt acos c i1 i2 i3 i4 phi0 x x_last w dt).2.getD i2 0
          = x.getD i2 0
            + Vec3.smul (w.getD i2 0 * a) (ConstraintBend.gradients sqrt x i1 i2 i3 i4).2.1 ∧
        (ConstraintBend.project sqrt acos c i1 i2 i3 i4 phi0 x x_last w dt).2.getD i3 0
          = x.getD i3 0
            + Vec3.smul (w.getD i3 0 * a) (ConstraintBend.gradients sqrt x i1 i2 i3 i4).2.2.1 ∧
        (ConstraintBend.project sqrt acos c i1 i2 i3 i4 phi0 x x_last w dt).2.getD i4 0
          = x.getD i4 0
            + Vec3.smul (w.getD i4 0 * a) (ConstraintBend.gradients sqrt x i1 i2 i3 i4).2.2.2 := by
  rw [bend_project_unfold]
  split_ifs with hskip
  · refine ⟨0, ?_, ?_, ?_, ?_⟩ <;>
      apply vec3_ext <;>
      simp only [vec3_add_x, vec3_add_y, vec3_add_z, Vec3.smul] <;>
      ring
  · unfold ConstraintBend.update
    simp only []
    obtain ⟨e1, e2, e3, e4⟩ := bend_displace_getD sqrt i1 i2 i3 i4
      (ConstraintBend.cosAngle sqrt x i1 i2 i3 i4)
      (ConstraintBend.dlambda sqrt c i1 i2 i3 i4 phi0
        (acos (ConstraintBend.cosAngle sqrt x i1 i2 i3 i4))
        (ConstraintBend.cosAngle sqrt x i1 i2 i3 i4)
        (ConstraintBend.gradients sqrt x i1 i2 i3 i4).1
        (ConstraintBend.gradients sqrt x i1 i2 i3 i4).2.1
        (ConstraintBend.gradients sqrt x i1 i2 i3 i4).2.2.1
        (ConstraintBend.gradients sqrt x i1 i2 i3 i4).2.2.2 x x_last w dt)
      (ConstraintBend.gradients sqrt x i1 i2 i3 i4).1
      (ConstraintBend.gradients sqrt x i1 i2 i3 i4).2.1
      (ConstraintBend.gradients sqrt x i1 i2 i3 i4).2.2.1
      (ConstraintBend.gradients sqrt x i1 i2 i3 i4).2.2.2 x w
      h12 h13 h14 h23 h24 h34 hr1 hr2 hr3 hr4
    rw [e1, e2, e3, e4]
    generalize ConstraintBend.dlambda sqrt c i1 i2 i3 i4 phi0
        (acos (ConstraintBend.cosAngle sqrt x i1 i2 i3 i4))
        (ConstraintBend.cosAngle sqrt x i1 i2 i3 i4)
        (ConstraintBend.gradients sqrt x i1 i2 i3 i4).1
        (ConstraintBend.gradients sqrt x i1 i2 i3 i4).2.1
        (ConstraintBend.gradients sqrt x i1 i2 i3 i4).2.2.1
        (ConstraintBend.gradients sqrt x i1 i2 i3 i4).2.2.2 x x_last w dt = dl
    generalize sqrt (1 - ConstraintBend.cosAngle sqrt x i1 i2 i3 i4 *
      ConstraintBend.cosAngle sqrt x i1 i2 i3 i4) = D
    refine ⟨dl / D, ?_, ?_, ?_, ?_⟩ <;>
      apply vec3_ext <;>
      simp only [vec3_add_x, vec3_add_y, vec3_add_z, Vec3.smul, Vec3.divS] <;>
      ring

/-- C27 (amended). Momentum balance of `ConstraintBend::project`, for every call that evaluates
no division by zero (`ConstraintBend.divisors` lists the divisors: the lengths of the two cross
products under `glm::normalize` and, when the function passes its `return` tests, `dt * dt` and
the other denominators). The four vectors of the function satisfy `q1 + q2 + q3 + q4 = 0`. For
four different particles `i1 .. i4` of the position array, the displacements
`dx_k = x_k' - x_k` of the call satisfy `Σ_k dx_k / w_k = 0` when the four inverse masses are
positive; with equal inverse masses the sum of the four positions (hence their centroid) is
unchanged; a particle with `w = 0` keeps its position. -/
theorem bend_conserves_momentum (sqrt acos : K → K) (c : Constraint K) (i1 i2 i3 i4 : Nat)
    (phi0 : K) (x x_last : List (Vec3 K)) (w : List K) (dt : K)
    (_hdiv : (0 : K) ∉ ConstraintBend.divisors sqrt acos c i1 i2 i3 i4 phi0 x w dt) :
    (ConstraintBend.gradients sqrt x i1 i2 i3 i4).1
        + (ConstraintBend.gradients sqrt x i1 i2 i3 i4).2.1
        + (ConstraintBend.gradients sqrt x i1 i2 i3 i4).2.2.1
        + (ConstraintBend.gradients sqrt x i1 i2 i3 i4).2.2.2 = 0 ∧
      (i1 ≠ i2 → i1 ≠ i3 → i1 ≠ i4 → i2 ≠ i3 → i2 ≠ i4 → i3 ≠ i4 →
        i1 < x.length → i2 < x.length → i3 < x.length → i4 < x.length →
      (0 < w.getD i1 0 → 0 < w.getD i2 0 → 0 < w.getD i3 0 → 0 < w.getD i4 0 →
        (((ConstraintBend.project sqrt acos c i1 i2 i3 i4 phi0 x x_last w dt).2.getD i1 0
            - x.getD i1 0).divS (w.getD i1 0))
          + (((ConstraintBend.project sqrt acos c i1 i2 i3 i4 phi0 x x_last w dt).2.getD i2 0
            - x.getD i2 0).divS (w.getD i2 0))
          + (((ConstraintBend.project sqrt acos c i1 i2 i3 i4 phi0 x x_last w dt).2.getD i3 0
            - x.getD i3 0).divS (w.getD i3 0))
          + (((ConstraintBend.project sqrt acos c i1 i2 i3 i4 phi0 x x_last w dt).2.getD i4 0
            - x.getD i4 0).divS (w.getD i4 0)) = 0) ∧
      (w.getD i1 0 = w.getD i2 0 → w.getD i2 0 = w.getD i3 0 → w.getD i3 0 = w.getD i4 0 →
        (ConstraintBend.project sqrt acos c i1 i2 i3 i4 phi0 x x_last w dt).2.getD i1 0
            + (ConstraintBend.project sqrt acos c i1 i2 i3 i4 phi0 x x_last w dt).2.getD i2 0
            + (ConstraintBend.project sqrt acos c i1 i2 i3 i4 phi0 x x_last w dt).2.getD i3 0
            + (ConstraintBend.project sqrt acos c i1 i2 i3 i4 phi0 x x_last w dt).2.getD i4 0
          = x.getD i1 0 + x.getD i2 0 + x.getD i3 0 + x.getD i4 0) ∧
      (w.getD i1 0 = 0 →
        (ConstraintBend.project sqrt acos c i1 i2 i3 i4 phi0 x x_last w dt).2.getD i1 0
          = x.getD i1 0) ∧
      (w.getD i2 0 = 0 →
        (ConstraintBend.project sqrt acos c i1 i2 i3 i4 phi0 x x_last w dt).2.getD i2 0
          = x.getD i2 0) ∧
      (w.getD i3 0 = 0 →
        (ConstraintBend.project sqrt acos c i1 i2 i3 i4 phi0 x x_last w dt).2.getD i3 0
          = x.getD i3 0) ∧
      (w.getD i4 0 = 0 →
        (ConstraintBend.project sqrt acos c i1 i2 i3 i4 phi0 x x_last w dt).2.getD i4 0
          = x.getD i4 0)) := by
  have hsum := bend_gradients_sum sqrt x i1 i2 i3 i4
  refine ⟨hsum, ?_⟩
  intro h12 h13 h14 h23 h24 h34 hr1 hr2 hr3 hr4
  obtain ⟨a, e1, e2, e3, e4⟩ := bend_project_moves sqrt acos c i1 i2 i3 i4 phi0 x x_last w dt
    h12 h13 h14 h23 h24 h34 hr1 hr2 hr3 hr4
  rw [e1, e2, e3, e4]
  generalize (ConstraintBend.gradients sqrt x i1 i2 i3 i4).1 = q1 at hsum
  generalize (ConstraintBend.gradients sqrt x i1 i2 i3 i4).2.1 = q2 at hsum
  generalize (ConstraintBend.gradients sqrt x i1 i2 i3 i4).2.2.1 = q3 at hsum
  generalize (ConstraintBend.gradients sqrt x i1 i2 i3 i4).2.2.2 = q4 at hsum
  generalize x.getD i1 0 = x1
  generalize x.getD i2 0 = x2
  generalize x.getD i3 0 = x3
  generalize x.getD i4 0 = x4
  generalize w.getD i1 0 = w1
  generalize w.getD i2 0 = w2
  generalize w.getD i3 0 = w3
  generalize w.getD i4 0 = w4
  have hx : q1.x + q2.x + q3.x + q4.x = 0 := by
    have h := congrArg Vec3.x hsum
    simpa only [vec3_add_x, vec3_zero_x] using h
  have hy : q1.y + q2.y + q3.y + q4.y = 0 := by
    have h := congrArg Vec3.y hsum
    simpa only [vec3_add_y, vec3_zero_y] using h
  have hz : q1.z + q2.z + q3.z + q4.z = 0 := by
    have h := congrArg Vec3.z hsum
    simpa only [vec3_add_z, vec3_zero_z] using h
  refine ⟨?_, ?_, ?_, ?_, ?_, ?_⟩
  · intro p1 p2 p3 p4
    have n1 : w1 ≠ 0 := ne_of_gt p1
    have n2 : w2 ≠ 0 := ne_of_gt p2
    have n3 : w3 ≠ 0 := ne_of_gt p3
    have n4 : w4 ≠ 0 := ne_of_gt p4
    have cc : ∀ wk xk t : K, wk ≠ 0 → (xk + wk * a * t - xk) / wk = a * t := by
      intro wk xk t h
      field_simp
      ring
    apply vec3_ext
    · simp only [vec3_add_x, vec3_sub_x, vec3_zero_x, Vec3.smul, Vec3.divS,
        cc _ _ _ n1, cc _ _ _ n2, cc _ _ _ n3, cc _ _ _ n4]
      linear_combination a * hx
    · simp only [vec3_add_y, vec3_sub_y, vec3_zero_y, Vec3.smul, Vec3.divS,
        cc _ _ _ n1, cc _ _ _ n2, cc _ _ _ n3, cc _ _ _ n4]
      linear_combination a * hy
    · simp only [vec3_add_z, vec3_sub_z, vec3_zero_z, Vec3.smul, Vec3.divS,
        cc _ _ _ n1, cc _ _ _ n2, cc _ _ _ n3, cc _ _ _ n4]
      linear_combination a * hz
  · intro e12 e23 e34
    subst e12 e23 e34
    apply vec3_ext
    · simp only [vec3_add_x, Vec3.smul]
      linear_combination w1 * a * hx
    · simp only [vec3_add_y, Vec3.smul]
      linear_combination w1 * a * hy
    · simp only [vec3_add_z, Vec3.smul]
      linear_combination w1 * a * hz
  all_goals
    intro h0
    subst h0
    apply vec3_ext <;> simp only [vec3_add_x, vec3_add_y, vec3_add_z, Vec3.smul] <;> ring

end BendMomentum

/-! ## The Stretch projection solves its equation -/

section StretchSolves

theorem set_getD_self {α : Type} (l : List α) (i : Nat) (d : α) : l.set i (l.getD i d) = l := by
  induction l generalizing i with
  | nil => rfl
  | cons h t ih =>
    cases i with
    | zero => rfl
    | succ k =>
      simp only [List.set_cons_succ, List.getD_cons_succ]
      rw [ih]

/-- A Stretch projection without damping term (`gamma = 0`) on a state where
`C + complianceTilde * lambda = 0` changes nothing. -/
theorem stretch_project_balanced {K : Type} [LinearOrderedField K] (sqrt : K → K)
    (c : Constraint K) (i j : Nat) (d : K) (x x_last : List (Vec3 K)) (w : List K) (dt : K)
    (hg : c._compliance / (dt * dt) * c._damp_coef * dt = 0)
    (hbal : (Vec3.length sqrt (x.getD i 0 - x.getD j 0) - d)
      + c._compliance / (dt * dt) * c._lambda = 0) :
    ConstraintStretch.project sqrt c i j d x x_last w dt = (c, x) := by
  unfold ConstraintStretch.project
  simp only []
  split_ifs with hz
  · rfl
  · rw [hg]
    have hnum : -(Vec3.length sqrt (x.getD i 0 - x.getD j 0) - d)
        - c._compliance / (dt * dt) * c._lambda
        - 0 * (Vec3.dot ((x.getD i 0 - x.getD j 0).divS
              (Vec3.length sqrt (x.getD i 0 - x.getD j 0))) (x.getD i 0 - x_last.getD i 0)
            + Vec3.dot (-(x.getD i 0 - x.getD j 0).divS
              (Vec3.length sqrt (x.getD i 0 - x.getD j 0))) (x.getD j 0 - x_last.getD j 0))
        = 0 := by
      linear_combination -hbal
    rw [hnum, zero_div]
    have hv : ∀ (p u : Vec3 K) (a : K), p + (u.mulS a).mulS 0 = p := by
      intro p u a
      apply vec3_ext <;> simp only [vec3_add_x, vec3_add_y, vec3_add_z, Vec3.mulS] <;> ring
    rw [hv, set_getD_self, hv, set_getD_self, add_zero]

/-- The result of a Stretch projection without damping term (`gamma = 0`) when the `is_zero`
test does not apply, with `dlambda` written out. -/
theorem stretch_project_undamped {K : Type} [LinearOrderedField K] (sqrt : K → K)
    (c : Constraint K) (i j : Nat) (d : K) (x x_last : List (Vec3 K)) (w : List K) (dt : K)
    (hg : c._compliance / (dt * dt) * c._damp_coef * dt = 0)
    (hns : Constraint.is_zero (Vec3.length sqrt (x.getD i 0 - x.getD j 0) - d) = false) :
    ConstraintStretch.project sqrt c i j d x x_last w dt
      = ({ c with _lambda := c._lambda
            + (-(Vec3.length sqrt (x.getD i 0 - x.getD j 0) - d)
                - c._compliance / (dt * dt) * c._lambda)
              / ((w.getD i 0 + w.getD j 0) + c._compliance / (dt * dt)) },
          (x.set i (x.getD i 0 + (((x.getD i 0 - x.getD j 0).divS
              (Vec3.length sqrt (x.getD i 0 - x.getD j 0))).mulS (w.getD i 0)).mulS
              ((-(Vec3.length sqrt (x.getD i 0 - x.getD j 0) - d)
                - c._compliance / (dt * dt) * c._lambda)
              / ((w.getD i 0 + w.getD j 0) + c._compliance / (dt * dt))))).set j
            ((x.set i (x.getD i 0 + (((x.getD i 0 - x.getD j 0).divS
              (Vec3.length sqrt (x.getD i 0 - x.getD j 0))).mulS (w.getD i 0)).mulS
              ((-(Vec3.length sqrt (x.getD i 0 - x.getD j 0) - d)
                - c._compliance / (dt * dt) * c._lambda)
              / ((w.getD i 0 + w.getD j 0) + c._compliance / (dt * dt))))).getD j 0
              + ((-(x.getD i 0 - x.getD j 0).divS
                (Vec3.length sqrt (x.getD i 0 - x.getD j 0))).mulS (w.getD j 0)).mulS
              ((-(Vec3.length sqrt (x.getD i 0 - x.getD j 0) - d)
                - c._compliance / (dt * dt) * c._lambda)
              / ((w.getD i 0 + w.getD j 0) + c._compliance / (dt * dt))))) := by
  unfold ConstraintStretch.project
  simp only []
  rw [hns]
  simp only [Bool.false_eq_true, if_false]
  rw [hg]
  simp only [zero_mul, sub_zero, add_zero, one_mul]

/-- The new difference `x_i' - x_j'` after an undamped Stretch projection, measured along the
old one: `(dist + (w_i + w_j) * dlambda) * dist`. -/
theorem stretch_undamped_separation (c : Constraint ℝ) (i j : Nat) (d : ℝ)
    (x x_last : List (Vec3 ℝ)) (w : List ℝ) (dt : ℝ) (hi : i < x.length) (hj : j < x.length)
    (hij : i ≠ j) (hg : c._compliance / (dt * dt) * c._damp_coef * dt = 0)
    (hns : Constraint.is_zero (Vec3.length Real.sqrt (x.getD i 0 - x.getD j 0) - d) = false)
    (hdist : 0 < Vec3.length Real.sqrt (x.getD i 0 - x.getD j 0)) :
    Vec3.dot
        ((ConstraintStretch.project Real.sqrt c i j d x x_last w dt).2.getD i 0
          - (ConstraintStretch.project Real.sqrt c i j d x x_last w dt).2.getD j 0)
        (x.getD i 0 - x.getD j 0)
      = (Vec3.length Real.sqrt (x.getD i 0 - x.getD j 0)
          + (w.getD i 0 + w.getD j 0)
            * ((-(Vec3.length Real.sqrt (x.getD i 0 - x.getD j 0) - d)
                - c._compliance / (dt * dt) * c._lambda)
              / ((w.getD i 0 + w.getD j 0) + c._compliance / (dt * dt))))
        * Vec3.length Real.sqrt (x.getD i 0 - x.getD j 0) := by
  rw [stretch_project_undamped Real.sqrt c i j d x x_last w dt hg hns]
  simp only []
  rw [getD_set_of_ne _ _ _ _ _ (Ne.symm hij), getD_set_self _ _ _ _ hi,
    getD_set_self _ _ _ _ (by rw [List.length_set]; exact hj), getD_set_of_ne _ _ _ _ _ hij]
  generalize (-(Vec3.length Real.sqrt (x.getD i 0 - x.getD j 0) - d)
      - c._compliance / (dt * dt) * c._lambda)
    / ((w.getD i 0 + w.getD j 0) + c._compliance / (dt * dt)) = dl
  have hne : Vec3.length Real.sqrt (x.getD i 0 - x.getD j 0) ≠ 0 := ne_of_gt hdist
  have hDD : Vec3.length Real.sqrt (x.getD i 0 - x.getD j 0)
      * Vec3.length Real.sqrt (x.getD i 0 - x.getD j 0)
      = Vec3.dot (x.getD i 0 - x.getD j 0) (x.getD i 0 - x.getD j 0) :=
    Real.mul_self_sqrt (dot_self_nonneg _)
  have e : Vec3.dot
      (x.getD i 0 + (((x.getD i 0 - x.getD j 0).divS
          (Vec3.length Real.sqrt (x.getD i 0 - x.getD j 0))).mulS (w.getD i 0)).mulS dl
        - (x.getD j 0 + ((-(x.getD i 0 - x.getD j 0).divS
          (Vec3.length Real.sqrt (x.getD i 0 - x.getD j 0))).mulS (w.getD j 0)).mulS dl))
      (x.getD i 0 - x.getD j 0)
      = Vec3.dot (x.getD i 0 - x.getD j 0) (x.getD i 0 - x.getD j 0)
        * (1 + (w.getD i 0 + w.getD j 0) * dl
          / Vec3.length Real.sqrt (x.getD i 0 - x.getD j 0)) := by
    simp only [Vec3.dot, vec3_add_x, vec3_add_y, vec3_add_z, vec3_sub_x, vec3_sub_y,
      vec3_sub_z, vec3_neg_x, vec3_neg_y, vec3_neg_z, Vec3.mulS, Vec3.divS]
    ring
  rw [e, ← hDD]
  generalize Vec3.length Real.sqrt (x.getD i 0 - x.getD j 0) = D at hne ⊢
  field_simp
  ring

/-- C28. One undamped Stretch projection solves the XPBD equation and is then a fixed point.
For a Stretch constraint with damping coefficient `0` or compliance `0`, two particles `i`, `j`
of the array at positive distance, `|dist - restLength| > 1e-5` (the `is_zero` test does not
apply), `(w_i + w_j) + complianceTilde > 0`, and a new difference `x_i' - x_j'` that points the
way `x_i - x_j` does (the particles have not passed each other): after one `project` call
`(|x_i' - x_j'| - restLength) + complianceTilde * lambda' = 0`, and a second `project` call right
after it returns the constraint and the positions as they are. -/
theorem stretch_solves_then_fixed (c : Constraint ℝ) (i j : Nat) (d : ℝ)
    (x x_last : List (Vec3 ℝ)) (w : List ℝ) (dt : ℝ) (hi : i < x.length) (hj : j < x.length)
    (hdamp : c._damp_coef = 0 ∨ c._compliance = 0) (_hdt : dt ≠ 0)
    (hdist : 0 < Vec3.length Real.sqrt (x.getD i 0 - x.getD j 0))
    (hden : 0 < (w.getD i 0 + w.getD j 0) + c._compliance / (dt * dt))
    (hns : ¬ |Vec3.length Real.sqrt (x.getD i 0 - x.getD j 0) - d| ≤ 1 / 100000)
    (hsep : 0 < Vec3.dot
      ((ConstraintStretch.project Real.sqrt c i j d x x_last w dt).2.getD i 0
        - (ConstraintStretch.project Real.sqrt c i j d x x_last w dt).2.getD j 0)
      (x.getD i 0 - x.getD j 0)) :
    (Vec3.length Real.sqrt
          ((ConstraintStretch.project Real.sqrt c i j d x x_last w dt).2.getD i 0
            - (ConstraintStretch.project Real.sqrt c i j d x x_last w dt).2.getD j 0) - d)
        + c._compliance / (dt * dt)
          * (ConstraintStretch.project Real.sqrt c i j d x x_last w dt).1._lambda = 0 ∧
      ConstraintStretch.project Real.sqrt
          (ConstraintStretch.project Real.sqrt c i j d x x_last w dt).1 i j d
          (ConstraintStretch.project Real.sqrt c i j d x x_last w dt).2 x_last w dt
        = (ConstraintStretch.project Real.sqrt c i j d x x_last w dt) := by
  have hij : i ≠ j := by
    intro hij
    subst hij
    have h0 : Vec3.dot (x.getD i 0 - x.getD i 0) (x.getD i 0 - x.getD i 0) = 0 := by
      simp [Vec3.dot]
    simp only [Vec3.length] at hdist
    rw [h0, Real.sqrt_zero] at hdist
    exact lt_irrefl _ hdist
  have hg : c._compliance / (dt * dt) * c._damp_coef * dt = 0 := by
    rcases hdamp with h | h
    · rw [h]; ring
    · rw [h]; ring
  have hns' : Constraint.is_zero (Vec3.length Real.sqrt (x.getD i 0 - x.getD j 0) - d)
      = false := by
    rw [Bool.eq_false_iff]
    intro h
    exact hns ((is_zero_eq_abs _).mp h)
  obtain ⟨dl, hp, hdl⟩ : ∃ dl : ℝ,
      (ConstraintStretch.project Real.sqrt c i j d x x_last w dt)
        = ({ c with _lambda := c._lambda + dl },
            (x.set i (x.getD i 0 + (((x.getD i 0 - x.getD j 0).divS
                (Vec3.length Real.sqrt (x.getD i 0 - x.getD j 0))).mulS (w.getD i 0)).mulS
                dl)).set j
              ((x.set i (x.getD i 0 + (((x.getD i 0 - x.getD j 0).divS
                (Vec3.length Real.sqrt (x.getD i 0 - x.getD j 0))).mulS (w.getD i 0)).mulS
                dl)).getD j 0
                + ((-(x.getD i 0 - x.getD j 0).divS
                  (Vec3.length Real.sqrt (x.getD i 0 - x.getD j 0))).mulS (w.getD j 0)).mulS
                  dl)) ∧
      ((w.getD i 0 + w.getD j 0) + c._compliance / (dt * dt)) * dl
        = -(Vec3.length Real.sqrt (x.getD i 0 - x.getD j 0) - d)
          - c._compliance / (dt * dt) * c._lambda :=
    ⟨_, stretch_project_undamped Real.sqrt c i j d x x_last w dt hg hns',
      mul_div_cancel₀ _ (ne_of_gt hden)⟩
  have hA : ((x.set i (x.getD i 0 + (((x.getD i 0 - x.getD j 0).divS
        (Vec3.length Real.sqrt (x.getD i 0 - x.getD j 0))).mulS (w.getD i 0)).mulS dl)).set j
      ((x.set i (x.getD i 0 + (((x.getD i 0 - x.getD j 0).divS
        (Vec3.length Real.sqrt (x.getD i 0 - x.getD j 0))).mulS (w.getD i 0)).mulS dl)).getD j 0
        + ((-(x.getD i 0 - x.getD j 0).divS
          (Vec3.length Real.sqrt (x.getD i 0 - x.getD j 0))).mulS (w.getD j 0)).mulS dl)).getD i 0
      = x.getD i 0 + (((x.getD i 0 - x.getD j 0).divS
        (Vec3.length Real.sqrt (x.getD i 0 - x.getD j 0))).mulS (w.getD i 0)).mulS dl := by
    rw [getD_set_of_ne _ _ _ _ _ (Ne.symm hij), getD_set_self _ _ _ _ hi]
  have hB : ((x.set i (x.getD i 0 + (((x.getD i 0 - x.getD j 0).divS
        (Vec3.length Real.sqrt (x.getD i 0 - x.getD j 0))).mulS (w.getD i 0)).mulS dl)).set j
      ((x.set i (x.getD i 0 + (((x.getD i 0 - x.getD j 0).divS
        (Vec3.length Real.sqrt (x.getD i 0 - x.getD j 0))).mulS (w.getD i 0)).mulS dl)).getD j 0
        + ((-(x.getD i 0 - x.getD j 0).divS
          (Vec3.length Real.sqrt (x.getD i 0 - x.getD j 0))).mulS (w.getD j 0)).mulS dl)).getD j 0
      = x.getD j 0 + ((-(x.getD i 0 - x.getD j 0).divS
          (Vec3.length Real.sqrt (x.getD i 0 - x.getD j 0))).mulS (w.getD j 0)).mulS dl := by
    rw [getD_set_self _ _ _ _ (by rw [List.length_set]; exact hj),
      getD_set_of_ne _ _ _ _ _ hij]
  have hbal : (Vec3.length Real.sqrt
          ((ConstraintStretch.project Real.sqrt c i j d x x_last w dt).2.getD i 0
            - (ConstraintStretch.project Real.sqrt c i j d x x_last w dt).2.getD j 0) - d)
        + c._compliance / (dt * dt)
          * (ConstraintStretch.project Real.sqrt c i j d x x_last w dt).1._lambda = 0 := by
    rw [hp] at hsep ⊢
    simp only [] at hsep ⊢
    rw [hA, hB] at hsep ⊢
    have hne : Vec3.length Real.sqrt (x.getD i 0 - x.getD j 0) ≠ 0 := ne_of_gt hdist
    have hDD : Vec3.length Real.sqrt (x.getD i 0 - x.getD j 0)
        * Vec3.length Real.sqrt (x.getD i 0 - x.getD j 0)
        = Vec3.dot (x.getD i 0 - x.getD j 0) (x.getD i 0 - x.getD j 0) :=
      Real.mul_self_sqrt (dot_self_nonneg _)
    have hpos : 0 < Vec3.length Real.sqrt (x.getD i 0 - x.getD j 0)
        + (w.getD i 0 + w.getD j 0) * dl := by
      have hs : Vec3.dot
          (x.getD i 0 + (((x.getD i 0 - x.getD j 0).divS
              (Vec3.length Real.sqrt (x.getD i 0 - x.getD j 0))).mulS (w.getD i 0)).mulS dl
            - (x.getD j 0 + ((-(x.getD i 0 - x.getD j 0).divS
              (Vec3.length Real.sqrt (x.getD i 0 - x.getD j 0))).mulS (w.getD j 0)).mulS dl))
          (x.getD i 0 - x.getD j 0)
          = (Vec3.length Real.sqrt (x.getD i 0 - x.getD j 0)
              + (w.getD i 0 + w.getD j 0) * dl)
            * Vec3.length Real.sqrt (x.getD i 0 - x.getD j 0) := by
        have e : Vec3.dot
            (x.getD i 0 + (((x.getD i 0 - x.getD j 0).divS
                (Vec3.length Real.sqrt (x.getD i 0 - x.getD j 0))).mulS (w.getD i 0)).mulS dl
              - (x.getD j 0 + ((-(x.getD i 0 - x.getD j 0).divS
                (Vec3.length Real.sqrt (x.getD i 0 - x.getD j 0))).mulS (w.getD j 0)).mulS dl))
            (x.getD i 0 - x.getD j 0)
            = Vec3.dot (x.getD i 0 - x.getD j 0) (x.getD i 0 - x.getD j 0)
              * (1 + (w.getD i 0 + w.getD j 0) * dl
                / Vec3.length Real.sqrt (x.getD i 0 - x.getD j 0)) := by
          simp only [Vec3.dot, vec3_add_x, vec3_add_y, vec3_add_z, vec3_sub_x, vec3_sub_y,
            vec3_sub_z, vec3_neg_x, vec3_neg_y, vec3_neg_z, Vec3.mulS, Vec3.divS]
          ring
        rw [e, ← hDD]
        generalize Vec3.length Real.sqrt (x.getD i 0 - x.getD j 0) = D at hne ⊢
        field_simp
        ring
      rw [hs] at hsep
      exact (mul_pos_iff_of_pos_right hdist).mp hsep
    rw [length_rescaled _ (x.getD i 0 - x.getD j 0)
      (Vec3.length Real.sqrt (x.getD i 0 - x.getD j 0) + (w.getD i 0 + w.getD j 0) * dl)
      (le_of_lt hpos) hdist]
    · linear_combination hdl
    all_goals
      generalize Vec3.length Real.sqrt (x.getD i 0 - x.getD j 0) = D at hne ⊢
      simp only [vec3_add_x, vec3_sub_x, vec3_neg_x, vec3_add_y, vec3_sub_y, vec3_neg_y,
        vec3_add_z, vec3_sub_z, vec3_neg_z, Vec3.mulS, Vec3.divS]
      field_simp
      ring
  refine ⟨hbal, ?_⟩
  apply stretch_project_balanced
  · have h1 := (stretch_project_fields Real.sqrt c i j d x x_last w dt).1
    have h2 := (stretch_project_fields Real.sqrt c i j d x x_last w dt).2
    rw [h1, h2]
    exact hg
  · have h1 := (stretch_project_fields Real.sqrt c i j d x x_last w dt).1
    rw [h1]
    exact hbal

/-- C28, instance: the particles `(0,0,0)` and `(2,0,0)` with inverse masses `1`, rest length
`1` and zero compliance: one projection brings them to distance `1`. -/
theorem stretch_solves_then_fixed_witness :
    (Vec3.length Real.sqrt
          ((ConstraintStretch.project Real.sqrt (ConstraintStretch.mk 0 1 1 0 (9 / 10)) 0 1 1
              [⟨0, 0, 0⟩, ⟨2, 0, 0⟩] [⟨0, 0, 0⟩, ⟨2, 0, 0⟩] [1, 1] (16 / 1000)).2.getD 0 0
            - (ConstraintStretch.project Real.sqrt (ConstraintStretch.mk 0 1 1 0 (9 / 10)) 0 1 1
              [⟨0, 0, 0⟩, ⟨2, 0, 0⟩] [⟨0, 0, 0⟩, ⟨2, 0, 0⟩] [1, 1] (16 / 1000)).2.getD 1 0) - 1)
        + (ConstraintStretch.mk 0 1 1 (0 : ℝ) (9 / 10))._compliance / (16 / 1000 * (16 / 1000))
          * (ConstraintStretch.project Real.sqrt (ConstraintStretch.mk 0 1 1 0 (9 / 10)) 0 1 1
              [⟨0, 0, 0⟩, ⟨2, 0, 0⟩] [⟨0, 0, 0⟩, ⟨2, 0, 0⟩] [1, 1] (16 / 1000)).1._lambda = 0 := by
  have hD : Vec3.length Real.sqrt
      ((([⟨0, 0, 0⟩, ⟨2, 0, 0⟩] : List (Vec3 ℝ)).getD 0 0)
        - (([⟨0, 0, 0⟩, ⟨2, 0, 0⟩] : List (Vec3 ℝ)).getD 1 0)) = 2 := by
    have h4 : Vec3.dot ((([⟨0, 0, 0⟩, ⟨2, 0, 0⟩] : List (Vec3 ℝ)).getD 0 0)
        - (([⟨0, 0, 0⟩, ⟨2, 0, 0⟩] : List (Vec3 ℝ)).getD 1 0))
        ((([⟨0, 0, 0⟩, ⟨2, 0, 0⟩] : List (Vec3 ℝ)).getD 0 0)
        - (([⟨0, 0, 0⟩, ⟨2, 0, 0⟩] : List (Vec3 ℝ)).getD 1 0)) = 2 * 2 := by
      simp [Vec3.dot]
    unfold Vec3.length
    rw [h4]
    exact Real.sqrt_mul_self (by norm_num)
  have hns : ¬ |Vec3.length Real.sqrt
      ((([⟨0, 0, 0⟩, ⟨2, 0, 0⟩] : List (Vec3 ℝ)).getD 0 0)
        - (([⟨0, 0, 0⟩, ⟨2, 0, 0⟩] : List (Vec3 ℝ)).getD 1 0)) - 1| ≤ 1 / 100000 := by
    rw [hD]
    norm_num
  exact (stretch_solves_then_fixed (ConstraintStretch.mk 0 1 1 0 (9 / 10)) 0 1 1
    [⟨0, 0, 0⟩, ⟨2, 0, 0⟩] [⟨0, 0, 0⟩, ⟨2, 0, 0⟩] [1, 1] (16 / 1000) (by decide) (by decide)
    (Or.inr rfl) (by norm_num) (by rw [hD]; norm_num)
    (by norm_num [ConstraintStretch.mk]) hns
    (by
      rw [stretch_undamped_separation _ 0 1 1 _ _ _ _ (by decide) (by decide) (by decide)
        (by norm_num [ConstraintStretch.mk])
        (by
          rw [Bool.eq_false_iff]
          intro h
          exact hns ((is_zero_eq_abs _).mp h))
        (by rw [hD]; norm_num), hD]
      norm_num [ConstraintStretch.mk])).1

/-- C28 without the two added conditions fails. First, a projection that returns at the
`is_zero` test: the particles `(1.000001, 0, 0)` and `(0, 0, 0)` with rest length `1`, zero
compliance, zero damping, inverse masses `1`, `dt = 1`; all conditions of the claim hold and
`(|x_i' - x_j'| - restLength) + complianceTilde * lambda'` is `1e-6`, not `0`. Second, particles
that pass each other: `(1, 0, 0)` and `(0, 0, 0)` with rest length `1/2`, compliance `1`, zero
damping, `lambda = 100`, inverse masses `1`, `dt = 1`; the new distance `66` is positive and the
expression is `132`. -/
theorem stretch_solves_then_fixed_counterexample :
    ((ConstraintStretch.mk 0 1 1 (0 : ℝ) 0)._damp_coef = 0 ∧ (1 : ℝ) ≠ 0 ∧
      0 < Vec3.length Real.sqrt
        ((([⟨1000001 / 1000000, 0, 0⟩, ⟨0, 0, 0⟩] : List (Vec3 ℝ)).getD 0 0)
          - (([⟨1000001 / 1000000, 0, 0⟩, ⟨0, 0, 0⟩] : List (Vec3 ℝ)).getD 1 0)) ∧
      0 < (([1, 1] : List ℝ).getD 0 0 + ([1, 1] : List ℝ).getD 1 0)
        + (ConstraintStretch.mk 0 1 1 (0 : ℝ) 0)._compliance / (1 * 1) ∧
      0 < Vec3.length Real.sqrt
        ((ConstraintStretch.project Real.sqrt (ConstraintStretch.mk 0 1 1 0 0) 0 1 1
            [⟨1000001 / 1000000, 0, 0⟩, ⟨0, 0, 0⟩] [⟨1000001 / 1000000, 0, 0⟩, ⟨0, 0, 0⟩]
            [1, 1] 1).2.getD 0 0
          - (ConstraintStretch.project Real.sqrt (ConstraintStretch.mk 0 1 1 0 0) 0 1 1
            [⟨1000001 / 1000000, 0, 0⟩, ⟨0, 0, 0⟩] [⟨1000001 / 1000000, 0, 0⟩, ⟨0, 0, 0⟩]
            [1, 1] 1).2.getD 1 0) ∧
      (Vec3.length Real.sqrt
          ((ConstraintStretch.project Real.sqrt (ConstraintStretch.mk 0 1 1 0 0) 0 1 1
              [⟨1000001 / 1000000, 0, 0⟩, ⟨0, 0, 0⟩] [⟨1000001 / 1000000, 0, 0⟩, ⟨0, 0, 0⟩]
              [1, 1] 1).2.getD 0 0
            - (ConstraintStretch.project Real.sqrt (ConstraintStretch.mk 0 1 1 0 0) 0 1 1
              [⟨1000001 / 1000000, 0, 0⟩, ⟨0, 0, 0⟩] [⟨1000001 / 1000000, 0, 0⟩, ⟨0, 0, 0⟩]
              [1, 1] 1).2.getD 1 0) - 1)
        + (ConstraintStretch.mk 0 1 1 (0 : ℝ) 0)._compliance / (1 * 1)
          * (ConstraintStretch.project Real.sqrt (ConstraintStretch.mk 0 1 1 0 0) 0 1 1
              [⟨1000001 / 1000000, 0, 0⟩, ⟨0, 0, 0⟩] [⟨1000001 / 1000000, 0, 0⟩, ⟨0, 0, 0⟩]
              [1, 1] 1).1._lambda = 1 / 1000000) ∧
    ((⟨100, 1, 0, .stretch 0 1 (1 / 2)⟩ : Constraint ℝ)._damp_coef = 0 ∧
      0 < Vec3.length Real.sqrt
        ((([⟨1, 0, 0⟩, ⟨0, 0, 0⟩] : List (Vec3 ℝ)).getD 0 0)
          - (([⟨1, 0, 0⟩, ⟨0, 0, 0⟩] : List (Vec3 ℝ)).getD 1 0)) ∧
      0 < (([1, 1] : List ℝ).getD 0 0 + ([1, 1] : List ℝ).getD 1 0)
        + (⟨100, 1, 0, .stretch 0 1 (1 / 2)⟩ : Constraint ℝ)._compliance / (1 * 1) ∧
      Vec3.length Real.sqrt
        ((ConstraintStretch.project Real.sqrt ⟨100, 1, 0, .stretch 0 1 (1 / 2)⟩ 0 1 (1 / 2)
            [⟨1, 0, 0⟩, ⟨0, 0, 0⟩] [⟨1, 0, 0⟩, ⟨0, 0, 0⟩] [1, 1] 1).2.getD 0 0
          - (ConstraintStretch.project Real.sqrt ⟨100, 1, 0, .stretch 0 1 (1 / 2)⟩ 0 1 (1 / 2)
            [⟨1, 0, 0⟩, ⟨0, 0, 0⟩] [⟨1, 0, 0⟩, ⟨0, 0, 0⟩] [1, 1] 1).2.getD 1 0) = 66 ∧
      (Vec3.length Real.sqrt
          ((ConstraintStretch.project Real.sqrt ⟨100, 1, 0, .stretch 0 1 (1 / 2)⟩ 0 1 (1 / 2)
              [⟨1, 0, 0⟩, ⟨0, 0, 0⟩] [⟨1, 0, 0⟩, ⟨0, 0, 0⟩] [1, 1] 1).2.getD 0 0
            - (ConstraintStretch.project Real.sqrt ⟨100, 1, 0, .stretch 0 1 (1 / 2)⟩ 0 1 (1 / 2)
              [⟨1, 0, 0⟩, ⟨0, 0, 0⟩] [⟨1, 0, 0⟩, ⟨0, 0, 0⟩] [1, 1] 1).2.getD 1 0) - 1 / 2)
        + (⟨100, 1, 0, .stretch 0 1 (1 / 2)⟩ : Constraint ℝ)._compliance / (1 * 1)
          * (ConstraintStretch.project Real.sqrt ⟨100, 1, 0, .stretch 0 1 (1 / 2)⟩ 0 1 (1 / 2)
              [⟨1, 0, 0⟩, ⟨0, 0, 0⟩] [⟨1, 0, 0⟩, ⟨0, 0, 0⟩] [1, 1] 1).1._lambda = 132) := by
  have hD1 : Vec3.length Real.sqrt
      ((([⟨1000001 / 1000000, 0, 0⟩, ⟨0, 0, 0⟩] : List (Vec3 ℝ)).getD 0 0)
        - (([⟨1000001 / 1000000, 0, 0⟩, ⟨0, 0, 0⟩] : List (Vec3 ℝ)).getD 1 0))
      = 1000001 / 1000000 := by
    have h4 : Vec3.dot ((([⟨1000001 / 1000000, 0, 0⟩, ⟨0, 0, 0⟩] : List (Vec3 ℝ)).getD 0 0)
        - (([⟨1000001 / 1000000, 0, 0⟩, ⟨0, 0, 0⟩] : List (Vec3 ℝ)).getD 1 0))
        ((([⟨1000001 / 1000000, 0, 0⟩, ⟨0, 0, 0⟩] : List (Vec3 ℝ)).getD 0 0)
        - (([⟨1000001 / 1000000, 0, 0⟩, ⟨0, 0, 0⟩] : List (Vec3 ℝ)).getD 1 0))
        = 1000001 / 1000000 * (1000001 / 1000000) := by
      simp [Vec3.dot]
    unfold Vec3.length
    rw [h4]
    exact Real.sqrt_mul_self (by norm_num)
  have hskip : ConstraintStretch.project Real.sqrt (ConstraintStretch.mk 0 1 1 0 0) 0 1 1
      [⟨1000001 / 1000000, 0, 0⟩, ⟨0, 0, 0⟩] [⟨1000001 / 1000000, 0, 0⟩, ⟨0, 0, 0⟩] [1, 1] 1
      = (ConstraintStretch.mk 0 1 1 0 0, [⟨1000001 / 1000000, 0, 0⟩, ⟨0, 0, 0⟩]) := by
    apply stretch_project_fixed
    rw [hD1, is_zero_iff]
    norm_num
  have hD2 : Vec3.length Real.sqrt
      ((([⟨1, 0, 0⟩, ⟨0, 0, 0⟩] : List (Vec3 ℝ)).getD 0 0)
        - (([⟨1, 0, 0⟩, ⟨0, 0, 0⟩] : List (Vec3 ℝ)).getD 1 0)) = 1 := by
    have h4 : Vec3.dot ((([⟨1, 0, 0⟩, ⟨0, 0, 0⟩] : List (Vec3 ℝ)).getD 0 0)
        - (([⟨1, 0, 0⟩, ⟨0, 0, 0⟩] : List (Vec3 ℝ)).getD 1 0))
        ((([⟨1, 0, 0⟩, ⟨0, 0, 0⟩] : List (Vec3 ℝ)).getD 0 0)
        - (([⟨1, 0, 0⟩, ⟨0, 0, 0⟩] : List (Vec3 ℝ)).getD 1 0)) = 1 * 1 := by
      simp [Vec3.dot]
    unfold Vec3.length
    rw [h4]
    exact Real.sqrt_mul_self (by norm_num)
  have hp := stretch_project_undamped Real.sqrt (⟨100, 1, 0, .stretch 0 1 (1 / 2)⟩ : Constraint ℝ)
    0 1 (1 / 2) [⟨1, 0, 0⟩, ⟨0, 0, 0⟩] [⟨1, 0, 0⟩, ⟨0, 0, 0⟩] [1, 1] 1 (by norm_num)
    (by
      rw [hD2, Bool.eq_false_iff]
      intro h
      rw [is_zero_iff] at h
      norm_num at h)
  rw [hD2] at hp
  have h0 : (ConstraintStretch.project Real.sqrt ⟨100, 1, 0, .stretch 0 1 (1 / 2)⟩ 0 1 (1 / 2)
      [⟨1, 0, 0⟩, ⟨0, 0, 0⟩] [⟨1, 0, 0⟩, ⟨0, 0, 0⟩] [1, 1] 1).2.getD 0 0
      = (⟨-(65 / 2), 0, 0⟩ : Vec3 ℝ) := by
    rw [hp]
    simp only []
    rw [getD_set_of_ne _ _ _ _ _ (by decide), getD_set_self _ _ _ _ (by decide)]
    apply vec3_ext <;> norm_num [Vec3.mulS, Vec3.divS]
  have h1 : (ConstraintStretch.project Real.sqrt ⟨100, 1, 0, .stretch 0 1 (1 / 2)⟩ 0 1 (1 / 2)
      [⟨1, 0, 0⟩, ⟨0, 0, 0⟩] [⟨1, 0, 0⟩, ⟨0, 0, 0⟩] [1, 1] 1).2.getD 1 0
      = (⟨67 / 2, 0, 0⟩ : Vec3 ℝ) := by
    rw [hp]
    simp only []
    rw [getD_set_self _ _ _ _ (by simp), getD_set_of_ne _ _ _ _ _ (by decide)]
    apply vec3_ext <;> norm_num [Vec3.mulS, Vec3.divS]
  have hl : (ConstraintStretch.project Real.sqrt ⟨100, 1, 0, .stretch 0 1 (1 / 2)⟩ 0 1 (1 / 2)
      [⟨1, 0, 0⟩, ⟨0, 0, 0⟩] [⟨1, 0, 0⟩, ⟨0, 0, 0⟩] [1, 1] 1).1._lambda = 133 / 2 := by
    rw [hp]
    norm_num
  have hlen : Vec3.length Real.sqrt ((⟨-(65 / 2), 0, 0⟩ : Vec3 ℝ) - ⟨67 / 2, 0, 0⟩) = 66 := by
    have h4 : Vec3.dot ((⟨-(65 / 2), 0, 0⟩ : Vec3 ℝ) - ⟨67 / 2, 0, 0⟩)
        ((⟨-(65 / 2), 0, 0⟩ : Vec3 ℝ) - ⟨67 / 2, 0, 0⟩) = 66 * 66 := by
      simp [Vec3.dot]
      norm_num
    unfold Vec3.length
    rw [h4]
    exact Real.sqrt_mul_self (by norm_num)
  refine ⟨⟨rfl, by norm_num, ?_, ?_, ?_, ?_⟩, ⟨rfl, ?_, ?_, ?_, ?_⟩⟩
  · rw [hD1]; norm_num
  · norm_num [ConstraintStretch.mk]
  · rw [hskip]
    simp only []
    rw [hD1]; norm_num
  · rw [hskip]
    simp only []
    rw [hD1]
    norm_num [ConstraintStretch.mk]
  · rw [hD2]; norm_num
  · norm_num
  · rw [h0, h1, hlen]
  · rw [h0, h1, hlen, hl]
    norm_num

end StretchSolves

/-! ## `initSim`: the constraint list and the inverse masses it returns -/

section InitSimExact

variable {K : Type} [LinearOrderedField K]

namespace PbdSolver

theorem initParticle_loop_w (l : List Nat) (s : PbdSolver K) :
    (l.foldl initParticle s)._w = s._w ++ List.replicate l.length 1 := by
  induction l generalizing s with
  | nil => simp
  | cons i t ih =>
    rw [List.foldl_cons, ih]
    simp [initParticle, List.replicate_succ]

/-- The loop `for j < 9` of "a table", for any list of values of `j`. -/
theorem pinParticle_loop_eq (i : Nat) (js : List Nat) (s : PbdSolver K) :
    js.foldl (pinParticle i) s
      = { s with
          _constraints := s._constraints
            ++ (js.map (pinIndex i)).map (fun k => ConstraintAttach.mk k (s._x.getD k 0)),
          _w := (js.map (pinIndex i)).foldl (fun w k => w.set k 0) s._w } := by
  induction js generalizing s with
  | nil => simp
  | cons j t ih =>
    rw [List.foldl_cons, ih]
    simp [pinParticle]

/-- The loops `for i < 16`, `for j < 9` of "a table", for any list of values of `i`. -/
theorem pinRows_loop_eq (is : List Nat) (s : PbdSolver K) :
    is.foldl (fun s1 i => (List.range 9).foldl (pinParticle i) s1) s
      = { s with
          _constraints := s._constraints
            ++ (is.flatMap (fun i => (List.range 9).map (pinIndex i))).map
              (fun k => ConstraintAttach.mk k (s._x.getD k 0)),
          _w := (is.flatMap (fun i => (List.range 9).map (pinIndex i))).foldl
            (fun w k => w.set k 0) s._w } := by
  induction is generalizing s with
  | nil => simp
  | cons i t ih =>
    rw [List.foldl_cons, ih, pinParticle_loop_eq]
    simp [List.flatMap_cons, List.foldl_append]

/-- The loop "a table" appends one Attach constraint `(k, _x[k])` for every index `k` of
`pinList`, in this order, and sets `_w[k] = 0` for each of them. -/
theorem pinTable_eq (s : PbdSolver K) :
    pinTable s
      = { s with
          _constraints := s._constraints
            ++ pinList.map (fun k => ConstraintAttach.mk k (s._x.getD k 0)),
          _w := pinList.foldl (fun w k => w.set k 0) s._w } :=
  pinRows_loop_eq (List.range 16) s

/-- The loop "3. stretch" appends one Stretch constraint for every edge of its list for which
the test `_w[i] == 0 && _w[j] == 0` fails, in the order of the list. -/
theorem addStretch_eq (sqrt : K → K) (l : List Edge) (s : PbdSolver K) :
    l.foldl (addStretch sqrt) s
      = { s with
          _constraints := s._constraints
            ++ (l.filter (fun e => !bothPinned s._w e)).map (stretchFor sqrt s._x s._kStretch) }
    := by
  induction l generalizing s with
  | nil => simp
  | cons e t ih =>
    rw [List.foldl_cons, ih]
    by_cases hp : s._w.getD (e.getD 0 0) 0 = 0 ∧ s._w.getD (e.getD 1 0) 0 = 0
    · have hstep : addStretch sqrt s e = s := by
        unfold addStretch
        simp only []
        rw [if_pos hp]
      have hb : bothPinned s._w e = true := by
        unfold bothPinned
        exact decide_eq_true hp
      rw [hstep, List.filter_cons]
      simp [hb]
    · have hstep : addStretch sqrt s e
          = { s with _constraints := s._constraints ++ [stretchFor sqrt s._x s._kStretch e] } := by
        unfold addStretch
        simp only []
        rw [if_neg hp]
        rfl
      have hb : bothPinned s._w e = false := by
        unfold bothPinned
        exact decide_eq_false hp
      rw [hstep, List.filter_cons]
      simp [hb]

/-- The loop "4. bend" over a list of different edges appends one Bend constraint for every edge
with `tri_neighbors[edge].size() == 2` for which the test on the four inverse masses fails, in
the order of the list; `tn` is the map before the loop. -/
theorem addBend_eq (sqrt acos : K → K) (l : List Edge) (s : PbdSolver K)
    (tn : List (Edge × List Nat)) (hl : l.Nodup) :
    (l.foldl (addBend sqrt acos) (s, tn)).1
      = { s with
          _constraints := s._constraints
            ++ (l.filter (fun e => decide ((mapAt tn e).length = 2)
                  && !allPinned s._w e (mapAt tn e))).map
                (fun e => bendFor sqrt acos s._x s._kBend e (mapAt tn e)) } := by
  induction l generalizing s tn with
  | nil => simp
  | cons e t ih =>
    rw [List.nodup_cons] at hl
    rw [List.foldl_cons]
    by_cases h2 : (mapAt tn e).length = 2
    · by_cases hp : s._w.getD (e.getD 0 0) 0 = 0 ∧ s._w.getD (e.getD 1 0) 0 = 0 ∧
          s._w.getD ((mapAt tn e).getD 0 0) 0 = 0 ∧ s._w.getD ((mapAt tn e).getD 1 0) 0 = 0
      · have hstep : addBend sqrt acos (s, tn) e = (s, tn) := by
          unfold addBend
          simp only []
          rw [if_pos h2, if_pos hp]
        have hb : allPinned s._w e (mapAt tn e) = true := by
          unfold allPinned
          exact decide_eq_true hp
        rw [hstep, ih s tn hl.2, List.filter_cons]
        simp [hb]
      · have hstep : addBend sqrt acos (s, tn) e
            = ({ s with _constraints := s._constraints
                  ++ [bendFor sqrt acos s._x s._kBend e (mapAt tn e)] }, tn) := by
          unfold addBend
          simp only []
          rw [if_pos h2, if_neg hp]
          rfl
        have hb : allPinned s._w e (mapAt tn e) = false := by
          unfold allPinned
          exact decide_eq_false hp
        rw [hstep, ih _ tn hl.2, List.filter_cons]
        simp [hb, h2]
    · have hstep : addBend sqrt acos (s, tn) e = (s, mapErase tn e) := by
        unfold addBend
        simp only []
        rw [if_neg h2]
      have hsame : ∀ e' ∈ t, mapAt (mapErase tn e) e' = mapAt tn e' := by
        intro e' he'
        rw [mapAt_mapErase, if_neg]
        intro h
        exact hl.1 (h ▸ he')
      rw [hstep, ih s (mapErase tn e) hl.2, List.filter_cons]
      simp only [h2, decide_False, Bool.false_and, Bool.false_eq_true, if_false]
      congr 2
      rw [List.filter_congr
        (fun e' he' => by rw [hsame e' he'] :
          ∀ e' ∈ t, (decide ((mapAt (mapErase tn e) e').length = 2)
              && !allPinned s._w e' (mapAt (mapErase tn e) e'))
            = (decide ((mapAt tn e').length = 2) && !allPinned s._w e' (mapAt tn e')))]
      apply List.map_congr_left
      intro e' he'
      rw [hsame e' (List.mem_of_mem_filter he')]

end PbdSolver

theorem edgeTriangleInfo_sorted (idx : List UVec3) :
    (edgeTriangleInfo idx).1.Pairwise (fun a b => edgeLt a b = true) := by
  unfold edgeTriangleInfo
  rw [edgeTriangleInfo_loop]
  exact (pushSide_loop (idx.flatMap sidePushes) [] [] List.Pairwise.nil List.Pairwise.nil).1

namespace PbdSolver

/-- The inverse masses `initSim` returns: one `1` appended per vertex, then `_w[k] = 0` for the
indices of `pinList`. -/
theorem initSim_w (sqrt acos : K → K) (s : PbdSolver K) (mesh : Mesh K) :
    (initSim sqrt acos s mesh)._w
      = pinList.foldl (fun w k => w.set k 0)
          (s._w ++ List.replicate mesh._vertexPositions.length 1) := by
  obtain ⟨e1, -⟩ := initSim_before_loops sqrt acos s mesh
  have hw : (initSim sqrt acos s mesh)._w = (initPinned s mesh)._w := by rw [e1]
  have hP : initPinned s mesh = pinTable
      ((List.range mesh._vertexPositions.length).foldl initParticle (initAssigned s mesh)) := rfl
  rw [hw, hP, pinTable_eq]
  simp only []
  rw [initParticle_loop_w, List.length_range]
  rfl

/-- The constraint list `initSim` returns: the old constraints, then the Attach constraints of
`pinList`, then the Stretch constraints of the edges of `connections` that are not pinned at both
ends, then the Bend constraints of the edges with two recorded opposite vertices that are not
pinned at all four vertices; each group in the order of its list. -/
theorem initSim_constraints (sqrt acos : K → K) (s : PbdSolver K) (mesh : Mesh K) :
    (initSim sqrt acos s mesh)._constraints
      = s._constraints
        ++ pinList.map (fun k => ConstraintAttach.mk k (mesh._vertexPositions.getD k 0))
        ++ ((edgeTriangleInfo mesh._triangleIndices).1.filter
              (fun e => !bothPinned (initSim sqrt acos s mesh)._w e)).map
            (stretchFor sqrt mesh._vertexPositions s._kStretch)
        ++ ((edgeTriangleInfo mesh._triangleIndices).1.filter
              (fun e => decide ((mapAt (edgeTriangleInfo mesh._triangleIndices).2 e).length = 2)
                && !allPinned (initSim sqrt acos s mesh)._w e
                  (mapAt (edgeTriangleInfo mesh._triangleIndices).2 e))).map
            (fun e => bendFor sqrt acos mesh._vertexPositions s._kBend e
              (mapAt (edgeTriangleInfo mesh._triangleIndices).2 e)) := by
  obtain ⟨e1, -⟩ := initSim_before_loops sqrt acos s mesh
  have hw : (initSim sqrt acos s mesh)._w = (initPinned s mesh)._w := by rw [e1]
  obtain ⟨a1, -, -, -⟩ :=
    initParticle_loop (List.range mesh._vertexPositions.length) (initAssigned s mesh)
  have hidx : ((List.range mesh._vertexPositions.length).foldl initParticle
      (initAssigned s mesh))._idx = mesh._triangleIndices := by
    rw [a1]; rfl
  have hc : ((List.range mesh._vertexPositions.length).foldl initParticle
      (initAssigned s mesh))._constraints = s._constraints := by
    rw [a1]; rfl
  have hx : ((List.range mesh._vertexPositions.length).foldl initParticle
      (initAssigned s mesh))._x = mesh._vertexPositions := by
    rw [a1]; rfl
  have hdef : initSim sqrt acos s mesh
      = ((edgeTriangleInfo ((List.range mesh._vertexPositions.length).foldl initParticle
            (initAssigned s mesh))._idx).1.foldl (addBend sqrt acos)
          ((edgeTriangleInfo ((List.range mesh._vertexPositions.length).foldl initParticle
            (initAssigned s mesh))._idx).1.foldl (addStretch sqrt) (initPinned s mesh),
           (edgeTriangleInfo ((List.range mesh._vertexPositions.length).foldl initParticle
            (initAssigned s mesh))._idx).2)).1 := rfl
  rw [hidx] at hdef
  obtain ⟨p1, -, -, -⟩ := initPinned_fields s mesh
  have hPx : (initPinned s mesh)._x = mesh._vertexPositions := by rw [p1]
  have hPs : (initPinned s mesh)._kStretch = s._kStretch := by rw [p1]
  have hPb : (initPinned s mesh)._kBend = s._kBend := by rw [p1]
  have hP : initPinned s mesh = pinTable
      ((List.range mesh._vertexPositions.length).foldl initParticle (initAssigned s mesh)) := rfl
  have hPc : (initPinned s mesh)._constraints = s._constraints
      ++ pinList.map (fun k => ConstraintAttach.mk k (mesh._vertexPositions.getD k 0)) := by
    rw [hP, pinTable_eq]
    simp only []
    rw [hc, hx]
  rw [hw]
  conv_lhs => rw [hdef]
  rw [addBend_eq sqrt acos _ _ _ (nodup_of_sorted _ (edgeTriangleInfo_sorted _)), addStretch_eq]
  simp only []
  rw [hPx, hPs, hPb, hPc]

end PbdSolver

end InitSimExact

/-! ## Topology extraction -/

section Topology

theorem mem_mkEdge (a b v : Nat) : v ∈ mkEdge a b ↔ v = a ∨ v = b := by
  unfold mkEdge
  split_ifs with h1 h2
  · simp
  · simp [or_comm]
  · have hab : a = b := by omega
    subst hab
    simp

theorem mkEdge_comm (a b : Nat) : mkEdge a b = mkEdge b a := by
  rcases Nat.lt_trichotomy a b with h | h | h
  · rw [mkEdge_of_lt a b h, mkEdge_of_gt b a h]
  · subst h
    rfl
  · rw [mkEdge_of_gt a b h, mkEdge_of_lt b a h]

theorem mkEdge_min_max (a b : Nat) (h : a ≠ b) : mkEdge a b = [min a b, max a b] := by
  rcases Nat.lt_or_gt_of_ne h with h1 | h1
  · rw [mkEdge_of_lt a b h1, min_eq_left (le_of_lt h1), max_eq_right (le_of_lt h1)]
  · rw [mkEdge_of_gt a b h1, min_eq_right (le_of_lt h1), max_eq_left (le_of_lt h1)]

/-- The vertex the code records for each side of a triangle with three different corners is the
third vertex of the triangle. -/
theorem oppositeVertex_sides (t : UVec3) (h : t.Distinct) :
    oppositeVertex t (mkEdge t.x t.y) = t.z ∧ oppositeVertex t (mkEdge t.y t.z) = t.x ∧
      oppositeVertex t (mkEdge t.z t.x) = t.y := by
  obtain ⟨h1, h2, h3⟩ := h
  unfold oppositeVertex
  simp only [mem_mkEdge]
  refine ⟨?_, ?_, ?_⟩
  · rw [if_neg (by simp), if_neg (by simp)]
  · rw [if_pos (by intro h; rcases h with h | h; exact h1 h; exact h3 h.symm)]
  · rw [if_neg (by simp), if_pos (by intro h; rcases h with h | h; exact h2 h; exact h1 h.symm)]

/-- The entries a triangle with three different corners contributes to `tri_neighbors[e]`: its
third vertex if `e` is one of its sides, none otherwise. -/
theorem sidePushes_opposite (t : UVec3) (h : t.Distinct) (e : Edge) :
    ((sidePushes t).filter (fun p => decide (p.1 = e))).map Prod.snd
      = if e ∈ triangleSides t then [oppositeVertex t e] else [] := by
  obtain ⟨h1, h2, h3⟩ := triangle_sides_ne t h
  obtain ⟨o1, o2, o3⟩ := oppositeVertex_sides t h
  unfold sidePushes triangleSides
  by_cases ha : mkEdge t.x t.y = e
  · subst ha
    rw [o1]
    simp [h1.symm, h3]
  · by_cases hb : mkEdge t.y t.z = e
    · subst hb
      rw [o2]
      simp [h1, h2.symm]
    · by_cases hc : mkEdge t.z t.x = e
      · subst hc
        rw [o3]
        simp [h2, h3.symm]
      · have ha' : ¬ e = mkEdge t.x t.y := fun h' => ha h'.symm
        have hb' : ¬ e = mkEdge t.y t.z := fun h' => hb h'.symm
        have hc' : ¬ e = mkEdge t.z t.x := fun h' => hc h'.symm
        simp [ha, hb, hc, ha', hb', hc']

theorem pushes_opposite (idx : List UVec3) (h : ∀ t ∈ idx, t.Distinct) (e : Edge) :
    ((idx.flatMap sidePushes).filter (fun p => decide (p.1 = e))).map Prod.snd
      = (adjacentTriangles idx e).map (fun t => oppositeVertex t e) := by
  induction idx with
  | nil => rfl
  | cons t ts ih =>
    have ht : t.Distinct := h t (List.mem_cons_self _ _)
    have hts : ∀ t ∈ ts, t.Distinct := fun t' ht' => h t' (List.mem_cons_of_mem _ ht')
    unfold adjacentTriangles at ih ⊢
    rw [List.flatMap_cons, List.filter_append, List.map_append, ih hts,
      sidePushes_opposite t ht, List.filter_cons]
    by_cases hm : e ∈ triangleSides t
    · simp [hm]
    · simp [hm]

/-- The vector `tri_neighbors[e]` after step 1 of `initSim`: the third vertices of the triangles
adjacent to `e`, in the order of the triangle list. -/
theorem edgeTriangleInfo_neighbors (idx : List UVec3) (h : ∀ t ∈ idx, t.Distinct) (e : Edge) :
    mapAt (edgeTriangleInfo idx).2 e
      = (adjacentTriangles idx e).map (fun t => oppositeVertex t e) := by
  unfold edgeTriangleInfo
  rw [edgeTriangleInfo_loop]
  obtain ⟨-, -, h3⟩ := pushSide_loop (idx.flatMap sidePushes) [] [] List.Pairwise.nil
    List.Pairwise.nil
  rw [h3 e, mapAt_nil, List.nil_append, pushes_opposite idx h e]

/-- C21. Topology extraction (step 1 of `initSim`). For every triangle list whose triangles have
three different corners:
* `connections` has no repetition, and its members are exactly the sides of the triangles, a
  side `{a, b}` being the edge `mkEdge a b = mkEdge b a = [min a b, max a b]`;
* `tri_neighbors[e]` holds, for the triangles adjacent to `e` in the order of the triangle list,
  the third vertex of each, so its size is the number of triangles adjacent to `e`;
* the third vertex of `t` for a side `e` of `t` is the corner of `t` that is no end of `e`. -/
theorem topology_extraction (idx : List UVec3) (h : ∀ t ∈ idx, t.Distinct) :
    (edgeTriangleInfo idx).1.Nodup ∧
      (∀ e, e ∈ (edgeTriangleInfo idx).1 ↔ ∃ t ∈ idx, e ∈ triangleSides t) ∧
      (∀ t ∈ idx, triangleSides t
        = [[min t.x t.y, max t.x t.y], [min t.y t.z, max t.y t.z], [min t.z t.x, max t.z t.x]]) ∧
      (∀ a b, mkEdge a b = mkEdge b a) ∧
      (∀ e, mapAt (edgeTriangleInfo idx).2 e
        = (adjacentTriangles idx e).map (fun t => oppositeVertex t e)) ∧
      (∀ e, (mapAt (edgeTriangleInfo idx).2 e).length = (adjacentTriangles idx e).length) ∧
      (∀ t ∈ idx, ∀ e ∈ triangleSides t,
        oppositeVertex t e ∈ [t.x, t.y, t.z] ∧ oppositeVertex t e ∉ e ∧
          ∀ v ∈ [t.x, t.y, t.z], v ∈ e ∨ v = oppositeVertex t e) := by
  obtain ⟨hnodup, hmem, hlen⟩ := edgeTriangleInfo_spec idx h
  refine ⟨hnodup, hmem, ?_, mkEdge_comm, edgeTriangleInfo_neighbors idx h, hlen, ?_⟩
  · intro t ht
    obtain ⟨d1, d2, d3⟩ := h t ht
    unfold triangleSides
    rw [mkEdge_min_max _ _ d1, mkEdge_min_max _ _ d2, mkEdge_min_max _ _ d3]
  · intro t ht e he
    obtain ⟨d1, d2, d3⟩ := h t ht
    obtain ⟨o1, o2, o3⟩ := oppositeVertex_sides t (h t ht)
    simp only [triangleSides, List.mem_cons, List.mem_singleton, List.not_mem_nil, or_false]
      at he
    rcases he with rfl | rfl | rfl
    · rw [o1]
      simp only [mem_mkEdge, List.mem_cons, List.mem_singleton, List.not_mem_nil, or_false]
      refine ⟨by simp, ?_, ?_⟩
      · intro hh; rcases hh with hh | hh
        · exact d3 hh
        · exact d2 hh.symm
      · intro v hv; tauto
    · rw [o2]
      simp only [mem_mkEdge, List.mem_cons, List.mem_singleton, List.not_mem_nil, or_false]
      refine ⟨by simp, ?_, ?_⟩
      · intro hh; rcases hh with hh | hh
        · exact d1 hh
        · exact d3 hh.symm
      · intro v hv; tauto
    · rw [o3]
      simp only [mem_mkEdge, List.mem_cons, List.mem_singleton, List.not_mem_nil, or_false]
      refine ⟨by simp, ?_, ?_⟩
      · intro hh; rcases hh with hh | hh
        · exact d2 hh
        · exact d1 hh.symm
      · intro v hv; tauto

/-- C21, instance: the two triangles `(0, 1, 30)` and `(1, 31, 30)` of the example grid mesh;
the diagonal `{1, 30}` records the third vertices `0` and `31`, in this order. -/
theorem topology_extraction_witness :
    (⟨0, 1, 30⟩ : UVec3).Distinct ∧ (⟨1, 31, 30⟩ : UVec3).Distinct ∧
      mapAt (edgeTriangleInfo [⟨0, 1, 30⟩, ⟨1, 31, 30⟩]).2 [1, 30] = [0, 31] :=
  ⟨⟨by decide, by decide, by decide⟩, ⟨by decide, by decide, by decide⟩,
    ((topology_extraction [⟨0, 1, 30⟩, ⟨1, 31, 30⟩]
      (by
        intro t ht
        rcases List.mem_cons.mp ht with rfl | ht
        · exact ⟨by decide, by decide, by decide⟩
        · rw [List.mem_singleton] at ht
          subst ht
          exact ⟨by decide, by decide, by decide⟩)).2.2.2.2.1 [1, 30]).trans (by decide)⟩

end Topology

/-! ## The pinned indices and the size of the mesh -/

section PinSet

variable {K : Type} [LinearOrderedField K]

theorem mem_pinList (k : Nat) :
    k ∈ pinList ↔ ∃ i < 16, ∃ j < 9, k = 30 * (3 + j) + i + 7 := by
  unfold pinList
  simp only [List.mem_flatMap, List.mem_map, List.mem_range, PbdSolver.pinIndex]
  constructor
  · rintro ⟨i, hi, j, hj, rfl⟩
    exact ⟨i, hi, j, hj, rfl⟩
  · rintro ⟨i, hi, j, hj, rfl⟩
    exact ⟨i, hi, j, hj, rfl⟩

theorem pinList_length : pinList.length = 144 := rfl

theorem pinList_nodup : pinList.Nodup := by
  unfold pinList
  rw [List.nodup_flatMap]
  constructor
  · intro i _
    apply List.Nodup.map_on _ (List.nodup_range 9)
    intro a _ b _ hab
    simp only [PbdSolver.pinIndex] at hab
    omega
  · apply List.Pairwise.imp_of_mem _ (List.nodup_range 16)
    intro a b ha hb hab
    simp only [Function.onFun, List.Disjoint, List.mem_map, List.mem_range,
      PbdSolver.pinIndex]
    rintro k ⟨j1, h1, rfl⟩ ⟨j2, h2, h3⟩
    rw [List.mem_range] at ha hb
    omega

theorem pinList_bounds (k : Nat) (hk : k ∈ pinList) : 97 ≤ k ∧ k ≤ 352 := by
  obtain ⟨i, hi, j, hj, rfl⟩ := (mem_pinList k).mp hk
  omega

theorem pinList_in_range (n : Nat) : (∀ k ∈ pinList, k < n) ↔ 353 ≤ n := by
  constructor
  · intro h
    have h352 : 352 ∈ pinList := (mem_pinList 352).mpr ⟨15, by omega, 8, by omega, rfl⟩
    exact h 352 h352
  · intro h k hk
    have := (pinList_bounds k hk).2
    omega

theorem addClothVertex_loop (rz : Nat) (start_x start_z x_step z_step : K) (x_i : Nat)
    (l : List Nat) (m : Mesh K) :
    (l.foldl (Mesh.addClothVertex rz start_x start_z x_step z_step x_i) m)._vertexPositions.length
      = m._vertexPositions.length + l.length := by
  induction l generalizing m with
  | nil => rfl
  | cons z t ih =>
    rw [List.foldl_cons, ih]
    simp [Mesh.addClothVertex]
    omega

theorem addCloth_rows (rz : Nat) (start_x start_z x_step z_step : K) (l : List Nat)
    (m : Mesh K) :
    (l.foldl (fun m1 x_i => (List.range rz).foldl
        (Mesh.addClothVertex rz start_x start_z x_step z_step x_i) m1) m)._vertexPositions.length
      = m._vertexPositions.length + l.length * rz := by
  induction l generalizing m with
  | nil => simp
  | cons x t ih =>
    rw [List.foldl_cons, ih, addClothVertex_loop, List.length_range, List.length_cons]
    ring

/-- The method `Mesh::addCloth(rx, rz, w, h)` appends `rx * rz` vertices. -/
theorem addCloth_length (rx rz : Nat) (w h : K) (m : Mesh K) :
    (Mesh.addCloth rx rz w h m)._vertexPositions.length
      = m._vertexPositions.length + rx * rz := by
  unfold Mesh.addCloth
  simp only []
  rw [addCloth_rows, List.length_range]

end PinSet

/-! ## `initSim` on a new solver -/

section InitSimNew

variable {K : Type} [LinearOrderedField K]

theorem filter_map_all {α β : Type} (p : β → Bool) (f : α → β) (l : List α)
    (h : ∀ a, p (f a) = true) : (l.map f).filter p = l.map f := by
  rw [List.filter_eq_self]
  intro b hb
  obtain ⟨a, -, rfl⟩ := List.mem_map.mp hb
  exact h a

theorem filter_map_none {α β : Type} (p : β → Bool) (f : α → β) (l : List α)
    (h : ∀ a, p (f a) = false) : (l.map f).filter p = [] := by
  rw [List.filter_eq_nil_iff]
  intro b hb
  obtain ⟨a, -, rfl⟩ := List.mem_map.mp hb
  rw [h a]
  exact Bool.false_ne_true

namespace PbdSolver

/-- The constraint list of a new solver after `initSim`, and its Attach, Stretch and Bend
constraints. -/
theorem initSim_new_groups (sqrt acos : K → K) (ns : Nat) (ks kb kd : K) (g : Vec3 K)
    (mesh : Mesh K) :
    (initSim sqrt acos (new ns ks kb kd g) mesh)._constraints
        = pinList.map (fun k => ConstraintAttach.mk k (mesh._vertexPositions.getD k 0))
          ++ ((edgeTriangleInfo mesh._triangleIndices).1.filter
                (fun e => !bothPinned (initSim sqrt acos (new ns ks kb kd g) mesh)._w e)).map
              (stretchFor sqrt mesh._vertexPositions ks)
          ++ ((edgeTriangleInfo mesh._triangleIndices).1.filter
                (fun e => decide ((mapAt (edgeTriangleInfo mesh._triangleIndices).2 e).length = 2)
                  && !allPinned (initSim sqrt acos (new ns ks kb kd g) mesh)._w e
                    (mapAt (edgeTriangleInfo mesh._triangleIndices).2 e))).map
              (fun e => bendFor sqrt acos mesh._vertexPositions kb e
                (mapAt (edgeTriangleInfo mesh._triangleIndices).2 e)) ∧
      (initSim sqrt acos (new ns ks kb kd g) mesh)._constraints.filter Constraint.isAttach
        = pinList.map (fun k => ConstraintAttach.mk k (mesh._vertexPositions.getD k 0)) ∧
      (initSim sqrt acos (new ns ks kb kd g) mesh)._constraints.filter Constraint.isStretch
        = ((edgeTriangleInfo mesh._triangleIndices).1.filter
              (fun e => !bothPinned (initSim sqrt acos (new ns ks kb kd g) mesh)._w e)).map
            (stretchFor sqrt mesh._vertexPositions ks) ∧
      (initSim sqrt acos (new ns ks kb kd g) mesh)._constraints.filter Constraint.isBend
        = ((edgeTriangleInfo mesh._triangleIndices).1.filter
              (fun e => decide ((mapAt (edgeTriangleInfo mesh._triangleIndices).2 e).length = 2)
                && !allPinned (initSim sqrt acos (new ns ks kb kd g) mesh)._w e
                  (mapAt (edgeTriangleInfo mesh._triangleIndices).2 e))).map
            (fun e => bendFor sqrt acos mesh._vertexPositions kb e
              (mapAt (edgeTriangleInfo mesh._triangleIndices).2 e)) := by
  have h := initSim_constraints sqrt acos (new ns ks kb kd g) mesh
  have hnil : (new ns ks kb kd g)._constraints = [] := rfl
  have hks : (new ns ks kb kd g)._kStretch = ks := rfl
  have hkb : (new ns ks kb kd g)._kBend = kb := rfl
  rw [hnil, hks, hkb, List.nil_append] at h
  refine ⟨h, ?_, ?_, ?_⟩
  · rw [h, List.filter_append, List.filter_append,
      filter_map_all _ _ _ (fun _ => rfl), filter_map_none _ _ _ (fun _ => rfl),
      filter_map_none _ _ _ (fun _ => rfl), List.append_nil, List.append_nil]
  · rw [h, List.filter_append, List.filter_append,
      filter_map_none _ _ _ (fun _ => rfl), filter_map_all _ _ _ (fun _ => rfl),
      filter_map_none _ _ _ (fun _ => rfl), List.nil_append, List.append_nil]
  · rw [h, List.filter_append, List.filter_append,
      filter_map_none _ _ _ (fun _ => rfl), filter_map_none _ _ _ (fun _ => rfl),
      filter_map_all _ _ _ (fun _ => rfl), List.nil_append, List.nil_append]

/-- The inverse masses of a new solver after `initSim`. -/
theorem initSim_new_w (sqrt acos : K → K) (ns : Nat) (ks kb kd : K) (g : Vec3 K)
    (mesh : Mesh K) :
    (initSim sqrt acos (new ns ks kb kd g) mesh)._w
      = pinList.foldl (fun w k => w.set k 0) (List.replicate mesh._vertexPositions.length 1) := by
  rw [initSim_w]
  rfl

end PbdSolver

/-- The entries of an array after `a[k] = 0` for the indices `k` of a list. -/
theorem getD_foldl_set_zero (l : List Nat) (w : List K) (i : Nat) :
    (l.foldl (fun w k => w.set k 0) w).getD i 0 = if i ∈ l then 0 else w.getD i 0 := by
  induction l generalizing w with
  | nil => simp
  | cons k t ih =>
    rw [List.foldl_cons, ih, getD_set]
    by_cases hi : i ∈ t
    · simp [hi]
    · by_cases hk : k = i
      · subst hk
        rw [if_neg hi, if_pos (List.mem_cons_self _ _)]
        by_cases hlen : k < w.length
        · rw [if_pos ⟨rfl, hlen⟩]
        · rw [if_neg (fun h => hlen h.2), List.getD_eq_getElem?_getD,
            List.getElem?_eq_none (Nat.le_of_not_lt hlen)]
          rfl
      · have hk' : ¬ i = k := fun h => hk h.symm
        simp [hi, hk, hk']

theorem length_foldl_set_zero (l : List Nat) (w : List K) :
    (l.foldl (fun w k => w.set k 0) w).length = w.length := by
  induction l generalizing w with
  | nil => rfl
  | cons k t ih => rw [List.foldl_cons, ih, List.length_set]

theorem getD_replicate_one (n i : Nat) :
    (List.replicate n (1 : K)).getD i 0 = if i < n then 1 else 0 := by
  rw [List.getD_eq_getElem?_getD, List.getElem?_replicate]
  by_cases h : i < n
  · simp [h]
  · simp [h]

namespace PbdSolver

/-- An inverse mass of a new solver after `initSim` is `1` for a vertex that is not in `pinList`
and `0` otherwise (the model reads `0` beyond the end of the array). -/
theorem initSim_new_w_getD (sqrt acos : K → K) (ns : Nat) (ks kb kd : K) (g : Vec3 K)
    (mesh : Mesh K) (i : Nat) :
    (initSim sqrt acos (new ns ks kb kd g) mesh)._w.getD i 0
      = if i < mesh._vertexPositions.length ∧ i ∉ pinList then 1 else 0 := by
  rw [initSim_new_w, getD_foldl_set_zero, getD_replicate_one]
  by_cases h1 : i ∈ pinList
  · simp [h1]
  · simp [h1]

end PbdSolver

end InitSimNew

/-! ## The pin set of `initSim` and the meshes of the scene -/

section PinSetClaim

variable {K : Type} [LinearOrderedField K]

/-- C29 (`PbdSolver::initSim`, loop "a table"; `Scene::resetSim`; `Mesh::addCloth`). The indices
`initSim` pins are the `144` pairwise different numbers `30 * (3 + j) + i + 7`, `i < 16`,
`j < 9`; they lie in `[97, 352]` and both bounds are taken. On a new solver `initSim` builds one
Attach constraint for each of them and no other, sets `_w` to `0` at them, and `_x` and `_w` have
one entry per vertex; so all pinned indices are in range exactly if the mesh has at least `353`
vertices. `Scene::resetSim` appends `15 * 30 = 450` vertices to a new mesh, `Mesh::addCube`
appends `8`. -/
theorem pin_set_and_mesh_size (sqrt acos : K → K) (ns : Nat) (ks kb kd : K) (g : Vec3 K)
    (mesh newMesh : Mesh K) (h : K) :
    (∀ k, k ∈ pinList ↔ ∃ i < 16, ∃ j < 9, k = 30 * (3 + j) + i + 7) ∧
      pinList.length = 144 ∧ pinList.Nodup ∧ (∀ k ∈ pinList, 97 ≤ k ∧ k ≤ 352) ∧
      97 ∈ pinList ∧ 352 ∈ pinList ∧
      (PbdSolver.initSim sqrt acos (PbdSolver.new ns ks kb kd g) mesh)._constraints.filter
          Constraint.isAttach
        = pinList.map (fun k => ConstraintAttach.mk k (mesh._vertexPositions.getD k 0)) ∧
      (PbdSolver.initSim sqrt acos (PbdSolver.new ns ks kb kd g) mesh)._w
        = pinList.foldl (fun w k => w.set k 0)
            (List.replicate mesh._vertexPositions.length 1) ∧
      (PbdSolver.initSim sqrt acos (PbdSolver.new ns ks kb kd g) mesh)._x.length
        = mesh._vertexPositions.length ∧
      (PbdSolver.initSim sqrt acos (PbdSolver.new ns ks kb kd g) mesh)._w.length
        = mesh._vertexPositions.length ∧
      ((∀ k ∈ pinList, k < mesh._vertexPositions.length) ↔ 353 ≤ mesh._vertexPositions.length) ∧
      (resetSimCloth newMesh)._vertexPositions.length = newMesh._vertexPositions.length + 450 ∧
      (Mesh.addCube h newMesh)._vertexPositions.length = newMesh._vertexPositions.length + 8 := by
  obtain ⟨f1, -, f3, -⟩ := PbdSolver.initSim_fields sqrt acos (PbdSolver.new ns ks kb kd g) mesh
  refine ⟨mem_pinList, pinList_length, pinList_nodup, pinList_bounds,
    (mem_pinList 97).mpr ⟨0, by omega, 0, by omega, rfl⟩,
    (mem_pinList 352).mpr ⟨15, by omega, 8, by omega, rfl⟩,
    (PbdSolver.initSim_new_groups sqrt acos ns ks kb kd g mesh).2.1,
    PbdSolver.initSim_new_w sqrt acos ns ks kb kd g mesh, ?_, ?_,
    pinList_in_range _, ?_, ?_⟩
  · rw [f1]
  · rw [f3]
    simp [PbdSolver.new]
  · unfold resetSimCloth
    rw [addCloth_length]
  · simp [Mesh.addCube]

end PinSetClaim

/-! ## Attach constraints and inverse masses -/

section AttachInvariant

variable {K : Type} [LinearOrderedField K]

/-- The Attach constraints of a new solver after `initSim` are the constraints
`(k, _x[k])` for the indices `k` of `pinList`. -/
theorem initSim_new_attach (sqrt acos : K → K) (ns : Nat) (ks kb kd : K) (g : Vec3 K)
    (mesh : Mesh K) (c : Constraint K) (i : Nat) (p : Vec3 K)
    (hc : c ∈ (PbdSolver.initSim sqrt acos (PbdSolver.new ns ks kb kd g) mesh)._constraints)
    (hk : c.kind = .attach i p) :
    i ∈ pinList ∧ p = mesh._vertexPositions.getD i 0 := by
  have hf : c ∈ (PbdSolver.initSim sqrt acos (PbdSolver.new ns ks kb kd g)
      mesh)._constraints.filter Constraint.isAttach := by
    rw [List.mem_filter]
    refine ⟨hc, ?_⟩
    unfold Constraint.isAttach
    rw [hk]
  rw [(PbdSolver.initSim_new_groups sqrt acos ns ks kb kd g mesh).2.1] at hf
  obtain ⟨k, hkm, rfl⟩ := List.mem_map.mp hf
  have hk' : ConstraintKind.attach k (mesh._vertexPositions.getD k 0)
      = ConstraintKind.attach i p := hk
  injection hk' with e1 e2
  subst e1
  exact ⟨hkm, e2.symm⟩

/-- C24. Attach construction and inverse masses. After `initSim` on a new solver:
* every Attach constraint `(i, p)` of `_constraints` has `i` in the pin set, `p` equal to the
  initial position `_x[i]` and `_w[i] = 0`;
* a vertex `i` has an Attach constraint exactly if `_w[i] = 0`, and `_w[i] = 1` otherwise; so
  every inverse mass is `0` or `1`, hence `≥ 0`;
* `step` returns the inverse masses it was given, for every state and every `dt`, and so does
  every sequence of steps. -/
theorem attach_and_inverse_mass (sqrt acos : K → K) (tUintBits ns : Nat) (ks kb kd : K)
    (g : Vec3 K) (mesh : Mesh K) :
    (PbdSolver.initSim sqrt acos (PbdSolver.new ns ks kb kd g) mesh)._x
        = mesh._vertexPositions ∧
      (∀ c ∈ (PbdSolver.initSim sqrt acos (PbdSolver.new ns ks kb kd g) mesh)._constraints,
        ∀ i p, c.kind = .attach i p →
          i ∈ pinList ∧
          p = (PbdSolver.initSim sqrt acos (PbdSolver.new ns ks kb kd g) mesh)._x.getD i 0 ∧
          (PbdSolver.initSim sqrt acos (PbdSolver.new ns ks kb kd g) mesh)._w.getD i 0 = 0) ∧
      (∀ i, i < mesh._vertexPositions.length →
        ((PbdSolver.initSim sqrt acos (PbdSolver.new ns ks kb kd g) mesh)._w.getD i 0 = 0 ↔
          ∃ c ∈ (PbdSolver.initSim sqrt acos (PbdSolver.new ns ks kb kd g) mesh)._constraints,
            ∃ p, c.kind = .attach i p) ∧
        ((¬ ∃ c ∈ (PbdSolver.initSim sqrt acos (PbdSolver.new ns ks kb kd g) mesh)._constraints,
            ∃ p, c.kind = .attach i p) →
          (PbdSolver.initSim sqrt acos (PbdSolver.new ns ks kb kd g) mesh)._w.getD i 0 = 1)) ∧
      (∀ i, (PbdSolver.initSim sqrt acos (PbdSolver.new ns ks kb kd g) mesh)._w.getD i 0 = 0 ∨
        (PbdSolver.initSim sqrt acos (PbdSolver.new ns ks kb kd g) mesh)._w.getD i 0 = 1) ∧
      (∀ i, 0 ≤ (PbdSolver.initSim sqrt acos (PbdSolver.new ns ks kb kd g) mesh)._w.getD i 0) ∧
      (∀ (s : PbdSolver K) (dt : K), (PbdSolver.step sqrt acos tUintBits s dt)._w = s._w) ∧
      (∀ dts : List K,
        (PbdSolver.steps sqrt acos tUintBits
          (PbdSolver.initSim sqrt acos (PbdSolver.new ns ks kb kd g) mesh) dts)._w
          = (PbdSolver.initSim sqrt acos (PbdSolver.new ns ks kb kd g) mesh)._w) := by
  obtain ⟨f1, -, -, -⟩ := PbdSolver.initSim_fields sqrt acos (PbdSolver.new ns ks kb kd g) mesh
  have hx : (PbdSolver.initSim sqrt acos (PbdSolver.new ns ks kb kd g) mesh)._x
      = mesh._vertexPositions := by rw [f1]
  have hw := PbdSolver.initSim_new_w_getD sqrt acos ns ks kb kd g mesh
  have hgroups := PbdSolver.initSim_new_groups sqrt acos ns ks kb kd g mesh
  have hex : ∀ i, i ∈ pinList →
      ∃ c ∈ (PbdSolver.initSim sqrt acos (PbdSolver.new ns ks kb kd g) mesh)._constraints,
        ∃ p, c.kind = .attach i p := by
    intro i hi
    refine ⟨ConstraintAttach.mk i (mesh._vertexPositions.getD i 0), ?_, _, rfl⟩
    have hm : ConstraintAttach.mk i (mesh._vertexPositions.getD i 0)
        ∈ (PbdSolver.initSim sqrt acos (PbdSolver.new ns ks kb kd g)
          mesh)._constraints.filter Constraint.isAttach := by
      rw [hgroups.2.1]
      exact List.mem_map.mpr ⟨i, hi, rfl⟩
    exact List.mem_of_mem_filter hm
  refine ⟨hx, ?_, ?_, ?_, ?_, ?_, ?_⟩
  · intro c hc i p hk
    obtain ⟨h1, h2⟩ := initSim_new_attach sqrt acos ns ks kb kd g mesh c i p hc hk
    refine ⟨h1, ?_, ?_⟩
    · rw [hx]; exact h2
    · rw [hw, if_neg (fun h => h.2 h1)]
  · intro i hi
    constructor
    · constructor
      · intro h0
        rw [hw] at h0
        by_cases hp : i ∈ pinList
        · exact hex i hp
        · rw [if_pos ⟨hi, hp⟩] at h0
          exact absurd h0 one_ne_zero
      · rintro ⟨c, hc, p, hk⟩
        rw [hw, if_neg (fun h => h.2
          (initSim_new_attach sqrt acos ns ks kb kd g mesh c i p hc hk).1)]
    · intro hno
      rw [hw, if_pos ⟨hi, fun hp => hno (hex i hp)⟩]
  · intro i
    rw [hw]
    by_cases h : i < mesh._vertexPositions.length ∧ i ∉ pinList
    · right; rw [if_pos h]
    · left; rw [if_neg h]
  · intro i
    rw [hw]
    split_ifs
    · exact zero_le_one
    · exact le_refl 0
  · intro s dt
    exact (PbdSolver.step_fields sqrt acos tUintBits s dt).1
  · intro dts
    exact (PbdSolver.steps_lengths sqrt acos tUintBits dts _).2.2.2.2.1

end AttachInvariant

/-! ## Stretch and Bend constraints built by `initSim` -/

section StretchBendConstruction

variable {K : Type} [LinearOrderedField K]

/-- An edge of `connections`, for triangles with three different corners, is the side `{a, b}`
of a triangle, stored as `[min a b, max a b]`. -/
theorem connections_edge_form (idx : List UVec3) (h : ∀ t ∈ idx, t.Distinct) (e : Edge)
    (he : e ∈ (edgeTriangleInfo idx).1) :
    ∃ a b, a ≠ b ∧ (∃ t ∈ idx, mkEdge a b ∈ triangleSides t) ∧
      e = [min a b, max a b] ∧ e.getD 0 0 = min a b ∧ e.getD 1 0 = max a b := by
  obtain ⟨-, hmem, -⟩ := edgeTriangleInfo_spec idx h
  obtain ⟨t, ht, hside⟩ := (hmem e).mp he
  obtain ⟨d1, d2, d3⟩ := h t ht
  have hside' := hside
  simp only [triangleSides, List.mem_cons, List.mem_singleton, List.not_mem_nil, or_false]
    at hside'
  rcases hside' with rfl | rfl | rfl
  · exact ⟨t.x, t.y, d1, ⟨t, ht, hside⟩, mkEdge_min_max _ _ d1,
      by rw [mkEdge_min_max _ _ d1]; rfl, by rw [mkEdge_min_max _ _ d1]; rfl⟩
  · exact ⟨t.y, t.z, d2, ⟨t, ht, hside⟩, mkEdge_min_max _ _ d2,
      by rw [mkEdge_min_max _ _ d2]; rfl, by rw [mkEdge_min_max _ _ d2]; rfl⟩
  · exact ⟨t.z, t.x, d3, ⟨t, ht, hside⟩, mkEdge_min_max _ _ d3,
      by rw [mkEdge_min_max _ _ d3]; rfl, by rw [mkEdge_min_max _ _ d3]; rfl⟩

theorem connections_edge_eq (idx : List UVec3) (h : ∀ t ∈ idx, t.Distinct) (e : Edge)
    (he : e ∈ (edgeTriangleInfo idx).1) : e = [e.getD 0 0, e.getD 1 0] := by
  obtain ⟨a, b, -, -, h1, h2, h3⟩ := connections_edge_form idx h e he
  rw [h2, h3]
  exact h1

/-- C22. Stretch construction. After `initSim` on a new solver, for a mesh whose triangles have
three different corners: the Stretch constraints of `_constraints` are, in the order of
`connections`, one constraint for every edge `e` of `connections` (the sides of the triangles,
each once) whose two ends do not both have `_w = 0`; the constraint of `e = [min a b, max a b]`
has `i = e[0]`, `j = e[1]`, the rest length `|x_i - x_j|` of the mesh positions, the compliance
`k_stretch` of the solver, the damping coefficient `0.9` and `lambda = 0`; different edges have
different constraints. -/
theorem stretch_construction (sqrt acos : K → K) (ns : Nat) (ks kb kd : K) (g : Vec3 K)
    (mesh : Mesh K) (hdist : ∀ t ∈ mesh._triangleIndices, t.Distinct) :
    (PbdSolver.initSim sqrt acos (PbdSolver.new ns ks kb kd g) mesh)._constraints.filter
          Constraint.isStretch
        = ((edgeTriangleInfo mesh._triangleIndices).1.filter
            (fun e => decide (¬ ((PbdSolver.initSim sqrt acos (PbdSolver.new ns ks kb kd g)
                  mesh)._w.getD (e.getD 0 0) 0 = 0 ∧
                (PbdSolver.initSim sqrt acos (PbdSolver.new ns ks kb kd g)
                  mesh)._w.getD (e.getD 1 0) 0 = 0)))).map
            (fun e =>
              ({ _lambda := 0, _compliance := ks, _damp_coef := 9 / 10,
                 kind := .stretch (e.getD 0 0) (e.getD 1 0)
                   (Vec3.length sqrt (mesh._vertexPositions.getD (e.getD 0 0) 0
                     - mesh._vertexPositions.getD (e.getD 1 0) 0)) } : Constraint K)) ∧
      (edgeTriangleInfo mesh._triangleIndices).1.Nodup ∧
      (∀ e, e ∈ (edgeTriangleInfo mesh._triangleIndices).1
        ↔ ∃ t ∈ mesh._triangleIndices, e ∈ triangleSides t) ∧
      (∀ e ∈ (edgeTriangleInfo mesh._triangleIndices).1,
        ∃ a b, a ≠ b ∧ (∃ t ∈ mesh._triangleIndices, mkEdge a b ∈ triangleSides t) ∧
          e = [min a b, max a b] ∧ e.getD 0 0 = min a b ∧ e.getD 1 0 = max a b) ∧
      ((PbdSolver.initSim sqrt acos (PbdSolver.new ns ks kb kd g) mesh)._constraints.filter
          Constraint.isStretch).Nodup ∧
      (PbdSolver.initSim sqrt acos (PbdSolver.new ns ks kb kd g) mesh)._x
        = mesh._vertexPositions := by
  obtain ⟨hnodup, hmem, -⟩ := edgeTriangleInfo_spec mesh._triangleIndices hdist
  obtain ⟨f1, -, -, -⟩ := PbdSolver.initSim_fields sqrt acos (PbdSolver.new ns ks kb kd g) mesh
  have hS := (PbdSolver.initSim_new_groups sqrt acos ns ks kb kd g mesh).2.2.1
  have hpred : ∀ e ∈ (edgeTriangleInfo mesh._triangleIndices).1,
      (!bothPinned (PbdSolver.initSim sqrt acos (PbdSolver.new ns ks kb kd g) mesh)._w e)
        = decide (¬ ((PbdSolver.initSim sqrt acos (PbdSolver.new ns ks kb kd g)
              mesh)._w.getD (e.getD 0 0) 0 = 0 ∧
            (PbdSolver.initSim sqrt acos (PbdSolver.new ns ks kb kd g)
              mesh)._w.getD (e.getD 1 0) 0 = 0)) := by
    intro e _
    unfold bothPinned
    rw [decide_not]
  rw [List.filter_congr hpred] at hS
  have hfun : stretchFor sqrt mesh._vertexPositions ks
      = fun e =>
          ({ _lambda := 0, _compliance := ks, _damp_coef := 9 / 10,
             kind := .stretch (e.getD 0 0) (e.getD 1 0)
               (Vec3.length sqrt (mesh._vertexPositions.getD (e.getD 0 0) 0
                 - mesh._vertexPositions.getD (e.getD 1 0) 0)) } : Constraint K) := rfl
  rw [hfun] at hS
  refine ⟨hS, hnodup, hmem, connections_edge_form _ hdist, ?_, by rw [f1]⟩
  rw [hS]
  apply List.Nodup.map_on _ (hnodup.filter _)
  intro e1 h1 e2 h2 heq
  have m1 := List.mem_of_mem_filter h1
  have m2 := List.mem_of_mem_filter h2
  rw [connections_edge_eq _ hdist e1 m1, connections_edge_eq _ hdist e2 m2]
  have hk := congrArg Constraint.kind heq
  simp only [] at hk
  injection hk with a1 a2 _
  rw [a1, a2]

end StretchBendConstruction

section GridExample

/-- The unpinned vertices of the example grid mesh keep the inverse mass `1`. -/
theorem exampleGrid_w (k : Nat) (hk : k < 97) :
    (PbdSolver.initSim Real.sqrt Real.arccos
      (PbdSolver.new 20 (1 / 1000000000 : ℝ) 10 0 ⟨0, -(98 / 10), 0⟩)
      (exampleGridMesh ℝ))._w.getD k 0 = 1 := by
  have hn : (exampleGridMesh ℝ)._vertexPositions.length = 360 := by
    show ((List.range 360).map _).length = 360
    rw [List.length_map, List.length_range]
  rw [PbdSolver.initSim_new_w_getD, hn, if_pos]
  refine ⟨by omega, fun hp => ?_⟩
  have := (pinList_bounds k hp).1
  omega

theorem exampleGrid_connections :
    (edgeTriangleInfo (exampleGridMesh ℝ)._triangleIndices).1
      = [[0, 1], [0, 30], [1, 30], [1, 31], [30, 31]] := by
  decide

theorem exampleGrid_distinct : ∀ t ∈ (exampleGridMesh ℝ)._triangleIndices, t.Distinct := by
  intro t ht
  have h : t ∈ ([⟨0, 1, 30⟩, ⟨1, 31, 30⟩] : List UVec3) := ht
  rcases List.mem_cons.mp h with rfl | h
  · exact ⟨by decide, by decide, by decide⟩
  · rw [List.mem_singleton] at h
    subst h
    exact ⟨by decide, by decide, by decide⟩

/-- C22, instance: on the example grid mesh with the two triangles `(0, 1, 30)` and
`(1, 31, 30)`, a new solver gets five Stretch constraints from `initSim`, one for each of the
five edges. -/
theorem stretch_construction_witness :
    (⟨0, 1, 30⟩ : UVec3).Distinct ∧ (⟨1, 31, 30⟩ : UVec3).Distinct ∧
      ((PbdSolver.initSim Real.sqrt Real.arccos
          (PbdSolver.new 20 (1 / 1000000000 : ℝ) 10 0 ⟨0, -(98 / 10), 0⟩)
          (exampleGridMesh ℝ))._constraints.filter Constraint.isStretch).length = 5 := by
  refine ⟨⟨by decide, by decide, by decide⟩, ⟨by decide, by decide, by decide⟩, ?_⟩
  rw [(stretch_construction Real.sqrt Real.arccos 20 (1 / 1000000000 : ℝ) 10 0
    ⟨0, -(98 / 10), 0⟩ (exampleGridMesh ℝ) exampleGrid_distinct).1, List.length_map,
    exampleGrid_connections, List.filter_eq_self.mpr]
  · rfl
  · intro e he
    have h0 : e.getD 0 0 < 97 := by
      simp only [List.mem_cons, List.mem_singleton, List.not_mem_nil, or_false] at he
      rcases he with rfl | rfl | rfl | rfl | rfl <;> decide
    rw [decide_eq_true_eq, exampleGrid_w _ h0]
    intro hh
    exact one_ne_zero hh.1

end GridExample

section BendConstruction

variable {K : Type} [LinearOrderedField K]

/-- C23. Bend construction. After `initSim` on a new solver, for a mesh whose triangles have
three different corners: the Bend constraints of `_constraints` are, in the order of
`connections`, one constraint for every edge `e` of `connections` with exactly two adjacent
triangles whose four vertices do not all have `_w = 0`; the constraint of `e` has `i1 = e[0]`
(the smaller end), `i2 = e[1]` (the larger end), `i3` the third vertex of the first triangle of
the list adjacent to `e`, `i4` that of the second, the rest angle `acos(n1 . n2)` with
`n1 = normalize((x_i2 - x_i1) × (x_i3 - x_i1))`, `n2 = normalize((x_i2 - x_i1) × (x_i4 - x_i1))`
on the mesh positions, the compliance `k_bend` of the solver, the damping coefficient `0.05` and
`lambda = 0`; different edges have different constraints. -/
theorem bend_construction (sqrt acos : K → K) (ns : Nat) (ks kb kd : K) (g : Vec3 K)
    (mesh : Mesh K) (hdist : ∀ t ∈ mesh._triangleIndices, t.Distinct) :
    (PbdSolver.initSim sqrt acos (PbdSolver.new ns ks kb kd g) mesh)._constraints.filter
          Constraint.isBend
        = ((edgeTriangleInfo mesh._triangleIndices).1.filter
            (fun e => decide ((adjacentTriangles mesh._triangleIndices e).length = 2 ∧
              ¬ ((PbdSolver.initSim sqrt acos (PbdSolver.new ns ks kb kd g)
                    mesh)._w.getD (e.getD 0 0) 0 = 0 ∧
                (PbdSolver.initSim sqrt acos (PbdSolver.new ns ks kb kd g)
                    mesh)._w.getD (e.getD 1 0) 0 = 0 ∧
                (PbdSolver.initSim sqrt acos (PbdSolver.new ns ks kb kd g)
                    mesh)._w.getD (((adjacentTriangles mesh._triangleIndices e).map
                      (fun t => oppositeVertex t e)).getD 0 0) 0 = 0 ∧
                (PbdSolver.initSim sqrt acos (PbdSolver.new ns ks kb kd g)
                    mesh)._w.getD (((adjacentTriangles mesh._triangleIndices e).map
                      (fun t => oppositeVertex t e)).getD 1 0) 0 = 0)))).map
            (fun e =>
              ({ _lambda := 0, _compliance := kb, _damp_coef := 5 / 100,
                 kind := .bend (e.getD 0 0) (e.getD 1 0)
                   (((adjacentTriangles mesh._triangleIndices e).map
                      (fun t => oppositeVertex t e)).getD 0 0)
                   (((adjacentTriangles mesh._triangleIndices e).map
                      (fun t => oppositeVertex t e)).getD 1 0)
                   (acos (Vec3.dot
                     (Vec3.normalize sqrt (Vec3.cross
                       (mesh._vertexPositions.getD (e.getD 1 0) 0
                         - mesh._vertexPositions.getD (e.getD 0 0) 0)
                       (mesh._vertexPositions.getD
                           (((adjacentTriangles mesh._triangleIndices e).map
                             (fun t => oppositeVertex t e)).getD 0 0) 0
                         - mesh._vertexPositions.getD (e.getD 0 0) 0)))
                     (Vec3.normalize sqrt (Vec3.cross
                       (mesh._vertexPositions.getD (e.getD 1 0) 0
                         - mesh._vertexPositions.getD (e.getD 0 0) 0)
                       (mesh._vertexPositions.getD
                           (((adjacentTriangles mesh._triangleIndices e).map
                             (fun t => oppositeVertex t e)).getD 1 0) 0
                         - mesh._vertexPositions.getD (e.getD 0 0) 0))))) } :
                Constraint K)) ∧
      (edgeTriangleInfo mesh._triangleIndices).1.Nodup ∧
      (∀ e, e ∈ (edgeTriangleInfo mesh._triangleIndices).1
        ↔ ∃ t ∈ mesh._triangleIndices, e ∈ triangleSides t) ∧
      (∀ e ∈ (edgeTriangleInfo mesh._triangleIndices).1,
        ∃ a b, a ≠ b ∧ (∃ t ∈ mesh._triangleIndices, mkEdge a b ∈ triangleSides t) ∧
          e = [min a b, max a b] ∧ e.getD 0 0 = min a b ∧ e.getD 1 0 = max a b) ∧
      ((PbdSolver.initSim sqrt acos (PbdSolver.new ns ks kb kd g) mesh)._constraints.filter
          Constraint.isBend).Nodup ∧
      (PbdSolver.initSim sqrt acos (PbdSolver.new ns ks kb kd g) mesh)._x
        = mesh._vertexPositions := by
  obtain ⟨hnodup, hmem, -⟩ := edgeTriangleInfo_spec mesh._triangleIndices hdist
  obtain ⟨f1, -, -, -⟩ := PbdSolver.initSim_fields sqrt acos (PbdSolver.new ns ks kb kd g) mesh
  have hB := (PbdSolver.initSim_new_groups sqrt acos ns ks kb kd g mesh).2.2.2
  have hpred : ∀ e ∈ (edgeTriangleInfo mesh._triangleIndices).1,
      (decide ((mapAt (edgeTriangleInfo mesh._triangleIndices).2 e).length = 2)
        && !allPinned (PbdSolver.initSim sqrt acos (PbdSolver.new ns ks kb kd g) mesh)._w e
          (mapAt (edgeTriangleInfo mesh._triangleIndices).2 e))
        = decide ((adjacentTriangles mesh._triangleIndices e).length = 2 ∧
              ¬ ((PbdSolver.initSim sqrt acos (PbdSolver.new ns ks kb kd g)
                    mesh)._w.getD (e.getD 0 0) 0 = 0 ∧
                (PbdSolver.initSim sqrt acos (PbdSolver.new ns ks kb kd g)
                    mesh)._w.getD (e.getD 1 0) 0 = 0 ∧
                (PbdSolver.initSim sqrt acos (PbdSolver.new ns ks kb kd g)
                    mesh)._w.getD (((adjacentTriangles mesh._triangleIndices e).map
                      (fun t => oppositeVertex t e)).getD 0 0) 0 = 0 ∧
                (PbdSolver.initSim sqrt acos (PbdSolver.new ns ks kb kd g)
                    mesh)._w.getD (((adjacentTriangles mesh._triangleIndices e).map
                      (fun t => oppositeVertex t e)).getD 1 0) 0 = 0)) := by
    intro e _
    rw [edgeTriangleInfo_neighbors _ hdist, List.length_map]
    unfold allPinned
    by_cases hA : (adjacentTriangles mesh._triangleIndices e).length = 2
    · rw [decide_eq_true hA, Bool.true_and, ← decide_not]
      congr 1
      exact propext ⟨fun h => ⟨hA, h⟩, fun h => h.2⟩
    · rw [decide_eq_false hA, Bool.false_and]
      symm
      rw [decide_eq_false_iff_not]
      exact fun h => hA h.1
  have hfun : ∀ e ∈ (edgeTriangleInfo mesh._triangleIndices).1.filter
      (fun e => decide ((adjacentTriangles mesh._triangleIndices e).length = 2 ∧
              ¬ ((PbdSolver.initSim sqrt acos (PbdSolver.new ns ks kb kd g)
                    mesh)._w.getD (e.getD 0 0) 0 = 0 ∧
                (PbdSolver.initSim sqrt acos (PbdSolver.new ns ks kb kd g)
                    mesh)._w.getD (e.getD 1 0) 0 = 0 ∧
                (PbdSolver.initSim sqrt acos (PbdSolver.new ns ks kb kd g)
                    mesh)._w.getD (((adjacentTriangles mesh._triangleIndices e).map
                      (fun t => oppositeVertex t e)).getD 0 0) 0 = 0 ∧
                (PbdSolver.initSim sqrt acos (PbdSolver.new ns ks kb kd g)
                    mesh)._w.getD (((adjacentTriangles mesh._triangleIndices e).map
                      (fun t => oppositeVertex t e)).getD 1 0) 0 = 0))),
      bendFor sqrt acos mesh._vertexPositions kb e
          (mapAt (edgeTriangleInfo mesh._triangleIndices).2 e)
        = bendFor sqrt acos mesh._vertexPositions kb e
          ((adjacentTriangles mesh._triangleIndices e).map (fun t => oppositeVertex t e)) := by
    intro e _
    rw [edgeTriangleInfo_neighbors _ hdist]
  rw [List.filter_congr hpred, List.map_congr_left hfun] at hB
  refine ⟨hB, hnodup, hmem, connections_edge_form _ hdist, ?_, by rw [f1]⟩
  rw [hB]
  apply List.Nodup.map_on _ (hnodup.filter _)
  intro e1 h1 e2 h2 heq
  have m1 := List.mem_of_mem_filter h1
  have m2 := List.mem_of_mem_filter h2
  rw [connections_edge_eq _ hdist e1 m1, connections_edge_eq _ hdist e2 m2]
  have hk := congrArg Constraint.kind heq
  unfold bendFor ConstraintBend.mk at hk
  simp only [] at hk
  injection hk with a1 a2 _ _ _
  rw [a1, a2]

end BendConstruction

/-- C23, instance: on the example grid mesh with the two triangles `(0, 1, 30)` and
`(1, 31, 30)`, a new solver gets one Bend constraint from `initSim`, for the diagonal
`{1, 30}`. -/
theorem bend_construction_witness :
    (⟨0, 1, 30⟩ : UVec3).Distinct ∧ (⟨1, 31, 30⟩ : UVec3).Distinct ∧
      ((PbdSolver.initSim Real.sqrt Real.arccos
          (PbdSolver.new 20 (1 / 1000000000 : ℝ) 10 0 ⟨0, -(98 / 10), 0⟩)
          (exampleGridMesh ℝ))._constraints.filter Constraint.isBend).length = 1 := by
  refine ⟨⟨by decide, by decide, by decide⟩, ⟨by decide, by decide, by decide⟩, ?_⟩
  rw [(bend_construction Real.sqrt Real.arccos 20 (1 / 1000000000 : ℝ) 10 0
    ⟨0, -(98 / 10), 0⟩ (exampleGridMesh ℝ) exampleGrid_distinct).1, List.length_map,
    exampleGrid_connections, List.filter_congr
      (_ : ∀ e ∈ ([[0, 1], [0, 30], [1, 30], [1, 31], [30, 31]] : List Edge),
        _ = decide (e = [1, 30]))]
  · rfl
  · intro e he
    simp only [List.mem_cons, List.mem_singleton, List.not_mem_nil, or_false] at he
    have hadj : ∀ e' ∈ ([[0, 1], [0, 30], [1, 30], [1, 31], [30, 31]] : List Edge),
        e' ≠ [1, 30] →
        (adjacentTriangles (exampleGridMesh ℝ)._triangleIndices e').length ≠ 2 := by
      decide
    by_cases h : e = [1, 30]
    · subst h
      rw [decide_eq_true (rfl : ([1, 30] : Edge) = [1, 30]), decide_eq_true_eq]
      refine ⟨by decide, fun hh => ?_⟩
      have h1 := hh.1
      rw [exampleGrid_w _ (by decide)] at h1
      exact one_ne_zero h1
    · rw [decide_eq_false h, decide_eq_false_iff_not]
      intro hh
      refine hadj e ?_ h hh.1
      simp only [List.mem_cons, List.mem_singleton, List.not_mem_nil, or_false]
      exact he

/-! ## Construction order and evaluation order -/

section ConstructionOrder

variable {K : Type} [LinearOrderedField K]

theorem edgeLt_pair (i j i' j' : Nat) :
    edgeLt [i, j] [i', j'] = true ↔ i < i' ∨ (i = i' ∧ j < j') := by
  simp [edgeLt]

/-- One pass over a list `cs1 ++ cs2`: the constraints of `cs1` are projected first, those of
`cs2` afterwards, on the positions the first ones left. -/
theorem projectAll_append (sqrt acos : K → K) (x_last : List (Vec3 K)) (w : List K) (dt : K)
    (cs1 cs2 : List (Constraint K)) (x : List (Vec3 K)) :
    PbdSolver.projectAll sqrt acos x_last w dt (cs1 ++ cs2) x
      = ((PbdSolver.projectAll sqrt acos x_last w dt cs1 x).1
          ++ (PbdSolver.projectAll sqrt acos x_last w dt cs2
            (PbdSolver.projectAll sqrt acos x_last w dt cs1 x).2).1,
        (PbdSolver.projectAll sqrt acos x_last w dt cs2
          (PbdSolver.projectAll sqrt acos x_last w dt cs1 x).2).2) := by
  induction cs1 generalizing x with
  | nil => rfl
  | cons c t ih =>
    simp only [List.cons_append, PbdSolver.projectAll]
    rw [show t.append cs2 = t ++ cs2 from rfl, ih]

theorem step_kinds (sqrt acos : K → K) (tUintBits : Nat) (s : PbdSolver K) (dt : K) :
    (PbdSolver.step sqrt acos tUintBits s dt)._constraints.map Constraint.kind
      = s._constraints.map Constraint.kind := by
  rw [(PbdSolver.step_fields sqrt acos tUintBits s dt).2.2.2.2.2.1]
  exact (PbdSolver.stepRelax_frame sqrt acos s dt).2.2.2

/-- C25. Construction order and evaluation order. After `initSim` on a new solver, for a mesh
whose triangles have three different corners:
* `_constraints` is its Attach constraints, followed by its Stretch constraints, followed by its
  Bend constraints;
* the Stretch constraints, and the Bend constraints, are in strictly increasing lexicographic
  order of the pair `(i, j)` (resp. `(i1, i2)`) of their first two indices, which is an edge
  `[min, max]` of `connections`.
For every state: a pass of `step` is one call of `projectAll` on `_constraints`, which projects
the constraints one after the other from the head of the list, each on the positions the
previous ones left; `step` makes `_Ns` passes after prediction and `reset`, and it returns a
constraint list with the same kinds in the same order. -/
theorem construction_order (sqrt acos : K → K) (tUintBits ns : Nat) (ks kb kd : K)
    (g : Vec3 K) (mesh : Mesh K) (hdist : ∀ t ∈ mesh._triangleIndices, t.Distinct) :
    (PbdSolver.initSim sqrt acos (PbdSolver.new ns ks kb kd g) mesh)._constraints
        = (PbdSolver.initSim sqrt acos (PbdSolver.new ns ks kb kd g) mesh)._constraints.filter
            Constraint.isAttach
          ++ (PbdSolver.initSim sqrt acos (PbdSolver.new ns ks kb kd g) mesh)._constraints.filter
            Constraint.isStretch
          ++ (PbdSolver.initSim sqrt acos (PbdSolver.new ns ks kb kd g) mesh)._constraints.filter
            Constraint.isBend ∧
      ((PbdSolver.initSim sqrt acos (PbdSolver.new ns ks kb kd g) mesh)._constraints.filter
          Constraint.isStretch).Pairwise
        (fun c c' => edgeLt (c.indices.take 2) (c'.indices.take 2) = true) ∧
      ((PbdSolver.initSim sqrt acos (PbdSolver.new ns ks kb kd g) mesh)._constraints.filter
          Constraint.isBend).Pairwise
        (fun c c' => edgeLt (c.indices.take 2) (c'.indices.take 2) = true) ∧
      (∀ c ∈ (PbdSolver.initSim sqrt acos (PbdSolver.new ns ks kb kd g) mesh)._constraints,
        c.isStretch = true ∨ c.isBend = true →
          c.indices.take 2 ∈ (edgeTriangleInfo mesh._triangleIndices).1 ∧
          ∃ a b, a ≠ b ∧ c.indices.take 2 = [min a b, max a b]) ∧
      (∀ i j i' j', edgeLt [i, j] [i', j'] = true ↔ i < i' ∨ (i = i' ∧ j < j')) ∧
      (∀ (s : PbdSolver K) (dt : K),
        PbdSolver.solvePass sqrt acos dt s
          = { s with
              _constraints :=
                (PbdSolver.projectAll sqrt acos s._x s._w dt s._constraints s._x_next).1,
              _x_next :=
                (PbdSolver.projectAll sqrt acos s._x s._w dt s._constraints s._x_next).2 }) ∧
      (∀ (x_last : List (Vec3 K)) (w : List K) (dt : K) (c : Constraint K)
          (cs : List (Constraint K)) (x : List (Vec3 K)),
        PbdSolver.projectAll sqrt acos x_last w dt (c :: cs) x
          = ((Constraint.project sqrt acos c x x_last w dt).1
              :: (PbdSolver.projectAll sqrt acos x_last w dt cs
                (Constraint.project sqrt acos c x x_last w dt).2).1,
            (PbdSolver.projectAll sqrt acos x_last w dt cs
              (Constraint.project sqrt acos c x x_last w dt).2).2)) ∧
      (∀ (x_last : List (Vec3 K)) (w : List K) (dt : K) (cs1 cs2 : List (Constraint K))
          (x : List (Vec3 K)),
        PbdSolver.projectAll sqrt acos x_last w dt (cs1 ++ cs2) x
          = ((PbdSolver.projectAll sqrt acos x_last w dt cs1 x).1
              ++ (PbdSolver.projectAll sqrt acos x_last w dt cs2
                (PbdSolver.projectAll sqrt acos x_last w dt cs1 x).2).1,
            (PbdSolver.projectAll sqrt acos x_last w dt cs2
              (PbdSolver.projectAll sqrt acos x_last w dt cs1 x).2).2)) ∧
      (∀ (s : PbdSolver K) (dt : K),
        (PbdSolver.step sqrt acos tUintBits s dt)._constraints
            = (PbdSolver.stepRelax sqrt acos s dt)._constraints ∧
          PbdSolver.stepRelax sqrt acos s dt
            = (List.range s._Ns).foldl (fun st _ => PbdSolver.solvePass sqrt acos dt st)
                { (List.range s._vertex_number).foldl (PbdSolver.predict dt) s with
                  _constraints :=
                    ((List.range s._vertex_number).foldl (PbdSolver.predict dt)
                      s)._constraints.map Constraint.reset } ∧
          (PbdSolver.step sqrt acos tUintBits s dt)._constraints.map Constraint.kind
            = s._constraints.map Constraint.kind) := by
  obtain ⟨g0, g1, g2, g3⟩ := PbdSolver.initSim_new_groups sqrt acos ns ks kb kd g mesh
  have hsorted := edgeTriangleInfo_sorted mesh._triangleIndices
  have hform := connections_edge_eq mesh._triangleIndices hdist
  refine ⟨?_, ?_, ?_, ?_, edgeLt_pair, fun s dt => rfl, fun x_last w dt c cs x => rfl,
    projectAll_append sqrt acos, fun s dt =>
      ⟨(PbdSolver.step_fields sqrt acos tUintBits s dt).2.2.2.2.2.1,
        PbdSolver.stepRelax_eq sqrt acos s dt, step_kinds sqrt acos tUintBits s dt⟩⟩
  · rw [g1, g2, g3]
    exact g0
  · rw [g2, List.pairwise_map]
    refine List.Pairwise.imp_of_mem ?_ (hsorted.filter _)
    intro e1 e2 h1 h2 hlt
    have m1 := List.mem_of_mem_filter h1
    have m2 := List.mem_of_mem_filter h2
    have q1 : (stretchFor sqrt mesh._vertexPositions ks e1).indices.take 2
        = [e1.getD 0 0, e1.getD 1 0] := rfl
    have q2 : (stretchFor sqrt mesh._vertexPositions ks e2).indices.take 2
        = [e2.getD 0 0, e2.getD 1 0] := rfl
    rw [q1, q2, ← hform e1 m1, ← hform e2 m2]
    exact hlt
  · rw [g3, List.pairwise_map]
    refine List.Pairwise.imp_of_mem ?_ (hsorted.filter _)
    intro e1 e2 h1 h2 hlt
    have m1 := List.mem_of_mem_filter h1
    have m2 := List.mem_of_mem_filter h2
    have q1 : (bendFor sqrt acos mesh._vertexPositions kb e1
        (mapAt (edgeTriangleInfo mesh._triangleIndices).2 e1)).indices.take 2
        = [e1.getD 0 0, e1.getD 1 0] := rfl
    have q2 : (bendFor sqrt acos mesh._vertexPositions kb e2
        (mapAt (edgeTriangleInfo mesh._triangleIndices).2 e2)).indices.take 2
        = [e2.getD 0 0, e2.getD 1 0] := rfl
    rw [q1, q2, ← hform e1 m1, ← hform e2 m2]
    exact hlt
  · intro c hc hkind
    have key : ∃ e ∈ (edgeTriangleInfo mesh._triangleIndices).1,
        c.indices.take 2 = [e.getD 0 0, e.getD 1 0] := by
      rcases hkind with hs | hb
      · have hm : c ∈ (PbdSolver.initSim sqrt acos (PbdSolver.new ns ks kb kd g)
            mesh)._constraints.filter Constraint.isStretch := List.mem_filter.mpr ⟨hc, hs⟩
        rw [g2] at hm
        obtain ⟨e, he, rfl⟩ := List.mem_map.mp hm
        exact ⟨e, List.mem_of_mem_filter he, rfl⟩
      · have hm : c ∈ (PbdSolver.initSim sqrt acos (PbdSolver.new ns ks kb kd g)
            mesh)._constraints.filter Constraint.isBend := List.mem_filter.mpr ⟨hc, hb⟩
        rw [g3] at hm
        obtain ⟨e, he, rfl⟩ := List.mem_map.mp hm
        exact ⟨e, List.mem_of_mem_filter he, rfl⟩
    obtain ⟨e, he, hce⟩ := key
    rw [hce, ← hform e he]
    obtain ⟨a, b, hab, -, h1, -, -⟩ := connections_edge_form mesh._triangleIndices hdist e he
    exact ⟨he, a, b, hab, h1⟩

/-- C25, instance: the constraint list of a new solver after `initSim` on the example grid mesh
is its Attach constraints, then its Stretch constraints, then its Bend constraints. -/
theorem construction_order_witness :
    (⟨0, 1, 30⟩ : UVec3).Distinct ∧ (⟨1, 31, 30⟩ : UVec3).Distinct ∧
      (PbdSolver.initSim Real.sqrt Real.arccos
          (PbdSolver.new 20 (1 / 1000000000 : ℝ) 10 0 ⟨0, -(98 / 10), 0⟩)
          (exampleGridMesh ℝ))._constraints
        = (PbdSolver.initSim Real.sqrt Real.arccos
              (PbdSolver.new 20 (1 / 1000000000 : ℝ) 10 0 ⟨0, -(98 / 10), 0⟩)
              (exampleGridMesh ℝ))._constraints.filter Constraint.isAttach
          ++ (PbdSolver.initSim Real.sqrt Real.arccos
              (PbdSolver.new 20 (1 / 1000000000 : ℝ) 10 0 ⟨0, -(98 / 10), 0⟩)
              (exampleGridMesh ℝ))._constraints.filter Constraint.isStretch
          ++ (PbdSolver.initSim Real.sqrt Real.arccos
              (PbdSolver.new 20 (1 / 1000000000 : ℝ) 10 0 ⟨0, -(98 / 10), 0⟩)
              (exampleGridMesh ℝ))._constraints.filter Constraint.isBend :=
  ⟨⟨by decide, by decide, by decide⟩, ⟨by decide, by decide, by decide⟩,
    (construction_order Real.sqrt Real.arccos 32 20 (1 / 1000000000 : ℝ) 10 0
      ⟨0, -(98 / 10), 0⟩ (exampleGridMesh ℝ) exampleGrid_distinct).1⟩

end ConstructionOrder

/-! ## The denominator of the Stretch projection -/

section StretchDenominator

variable {K : Type} [LinearOrderedField K]

theorem projectAll_static (sqrt acos : K → K) (x_last : List (Vec3 K)) (w : List K) (dt : K)
    (cs : List (Constraint K)) (x : List (Vec3 K)) :
    (PbdSolver.projectAll sqrt acos x_last w dt cs x).1.map
        (fun c => (c.kind, c._compliance, c._damp_coef))
      = cs.map (fun c => (c.kind, c._compliance, c._damp_coef)) := by
  induction cs generalizing x with
  | nil => rfl
  | cons c t ih =>
    simp only [PbdSolver.projectAll, List.map_cons]
    rw [ih, constraint_project_kind, (constraint_project_fields sqrt acos c x x_last w dt).1,
      (constraint_project_fields sqrt acos c x x_last w dt).2]

theorem solve_loop_static (sqrt acos : K → K) (dt : K) (l : List Nat) (s : PbdSolver K) :
    (l.foldl (fun st _ => PbdSolver.solvePass sqrt acos dt st) s)._constraints.map
        (fun c => (c.kind, c._compliance, c._damp_coef))
      = s._constraints.map (fun c => (c.kind, c._compliance, c._damp_coef)) := by
  refine foldl_preserves
    (fun r : PbdSolver K => r._constraints.map (fun c => (c.kind, c._compliance, c._damp_coef))
      = s._constraints.map (fun c => (c.kind, c._compliance, c._damp_coef)))
    (fun st _ => PbdSolver.solvePass sqrt acos dt st) ?_ l s rfl
  intro r _ h
  beta_reduce
  simp only [PbdSolver.solvePass]
  rw [projectAll_static, h]

/-- A step returns constraints with the kinds, compliances and damping coefficients it was
given, in the same order. -/
theorem step_static (sqrt acos : K → K) (tUintBits : Nat) (s : PbdSolver K) (dt : K) :
    (PbdSolver.step sqrt acos tUintBits s dt)._constraints.map
        (fun c => (c.kind, c._compliance, c._damp_coef))
      = s._constraints.map (fun c => (c.kind, c._compliance, c._damp_coef)) := by
  rw [(PbdSolver.step_fields sqrt acos tUintBits s dt).2.2.2.2.2.1, PbdSolver.stepRelax_eq,
    solve_loop_static]
  simp only [List.map_map]
  rw [(PbdSolver.predict_loop_frame dt (List.range s._vertex_number) s).1]
  rfl

theorem steps_static (sqrt acos : K → K) (tUintBits : Nat) (dts : List K) (s : PbdSolver K) :
    (PbdSolver.steps sqrt acos tUintBits s dts)._constraints.map
        (fun c => (c.kind, c._compliance, c._damp_coef))
      = s._constraints.map (fun c => (c.kind, c._compliance, c._damp_coef)) := by
  induction dts generalizing s with
  | nil => rfl
  | cons dt t ih =>
    have h := ih (PbdSolver.step sqrt acos tUintBits s dt)
    simp only [PbdSolver.steps, List.foldl_cons] at h ⊢
    rw [h, step_static]

/-- C30. The denominator of `dlambda` for the Stretch constraints `initSim` builds. In the state
a new solver is in after `initSim` and any sequence of steps (none included), every Stretch
constraint `(i, j)` of `_constraints` has `_w[i] + _w[j] ≥ 1`, the compliance `k_stretch` of the
solver and the damping coefficient `0.9`; so for `k_stretch ≥ 0` and `dt > 0` the denominator
`(1 + gamma) * (w_i + w_j) + complianceTilde` is positive, also for `k_stretch = 0`. -/
theorem stretch_denominator_positive (sqrt acos : K → K) (tUintBits ns : Nat) (ks kb kd : K)
    (g : Vec3 K) (mesh : Mesh K) (dts : List K) (c : Constraint K) (i j : Nat) (d : K)
    (hc : c ∈ (PbdSolver.steps sqrt acos tUintBits
          (PbdSolver.initSim sqrt acos (PbdSolver.new ns ks kb kd g) mesh) dts)._constraints)
    (hk : c.kind = .stretch i j d) :
    1 ≤ (PbdSolver.steps sqrt acos tUintBits
          (PbdSolver.initSim sqrt acos (PbdSolver.new ns ks kb kd g) mesh) dts)._w.getD i 0
        + (PbdSolver.steps sqrt acos tUintBits
          (PbdSolver.initSim sqrt acos (PbdSolver.new ns ks kb kd g) mesh) dts)._w.getD j 0 ∧
      c._compliance = ks ∧ c._damp_coef = 9 / 10 ∧
      ∀ dt : K, 0 < dt → 0 ≤ c._compliance → 0 ≤ c._damp_coef →
        0 < (1 + c._compliance / (dt * dt) * c._damp_coef * dt)
            * ((PbdSolver.steps sqrt acos tUintBits
          (PbdSolver.initSim sqrt acos (PbdSolver.new ns ks kb kd g) mesh) dts)._w.getD i 0
              + (PbdSolver.steps sqrt acos tUintBits
          (PbdSolver.initSim sqrt acos (PbdSolver.new ns ks kb kd g) mesh) dts)._w.getD j 0)
          + c._compliance / (dt * dt) := by
  have hw : (PbdSolver.steps sqrt acos tUintBits
          (PbdSolver.initSim sqrt acos (PbdSolver.new ns ks kb kd g) mesh) dts)._w
      = (PbdSolver.initSim sqrt acos (PbdSolver.new ns ks kb kd g) mesh)._w :=
    (PbdSolver.steps_lengths sqrt acos tUintBits dts _).2.2.2.2.1
  rw [hw]
  have hst := steps_static sqrt acos tUintBits dts
    (PbdSolver.initSim sqrt acos (PbdSolver.new ns ks kb kd g) mesh)
  have hm : (c.kind, c._compliance, c._damp_coef)
      ∈ (PbdSolver.steps sqrt acos tUintBits
          (PbdSolver.initSim sqrt acos (PbdSolver.new ns ks kb kd g) mesh) dts)._constraints.map
        (fun c => (c.kind, c._compliance, c._damp_coef)) :=
    List.mem_map.mpr ⟨c, hc, rfl⟩
  rw [hst] at hm
  obtain ⟨c0, hc0, hF⟩ := List.mem_map.mp hm
  simp only [Prod.mk.injEq] at hF
  obtain ⟨hk0, hcomp, hdamp⟩ := hF
  have hs : c0 ∈ (PbdSolver.initSim sqrt acos (PbdSolver.new ns ks kb kd g)
      mesh)._constraints.filter Constraint.isStretch := by
    rw [List.mem_filter]
    refine ⟨hc0, ?_⟩
    unfold Constraint.isStretch
    rw [hk0, hk]
  rw [(PbdSolver.initSim_new_groups sqrt acos ns ks kb kd g mesh).2.2.1] at hs
  obtain ⟨e, he, rfl⟩ := List.mem_map.mp hs
  have hkind : ConstraintKind.stretch (e.getD 0 0) (e.getD 1 0)
      (Vec3.length sqrt (mesh._vertexPositions.getD (e.getD 0 0) 0
        - mesh._vertexPositions.getD (e.getD 1 0) 0)) = ConstraintKind.stretch i j d := by
    rw [← hk, ← hk0]
    rfl
  injection hkind with hi hj _
  have hfree := (List.mem_filter.mp he).2
  have hnot : ¬ ((PbdSolver.initSim sqrt acos (PbdSolver.new ns ks kb kd g) mesh)._w.getD i 0 = 0 ∧
      (PbdSolver.initSim sqrt acos (PbdSolver.new ns ks kb kd g) mesh)._w.getD j 0 = 0) := by
    intro h
    unfold bothPinned at hfree
    rw [hi, hj, decide_eq_true h] at hfree
    exact Bool.noConfusion hfree
  have h01 : ∀ k, (PbdSolver.initSim sqrt acos (PbdSolver.new ns ks kb kd g) mesh)._w.getD k 0 = 0 ∨
      (PbdSolver.initSim sqrt acos (PbdSolver.new ns ks kb kd g) mesh)._w.getD k 0 = 1 := by
    intro k
    rw [PbdSolver.initSim_new_w_getD]
    by_cases h : k < mesh._vertexPositions.length ∧ k ∉ pinList
    · right; rw [if_pos h]
    · left; rw [if_neg h]
  have hsum : 1 ≤ (PbdSolver.initSim sqrt acos (PbdSolver.new ns ks kb kd g) mesh)._w.getD i 0
      + (PbdSolver.initSim sqrt acos (PbdSolver.new ns ks kb kd g) mesh)._w.getD j 0 := by
    rcases h01 i with h1 | h1 <;> rcases h01 j with h2 | h2
    · exact absurd ⟨h1, h2⟩ hnot
    · rw [h1, h2]; norm_num
    · rw [h1, h2]; norm_num
    · rw [h1, h2]; norm_num
  have hcomp' : c._compliance = ks := by rw [← hcomp]; rfl
  have hdamp' : c._damp_coef = 9 / 10 := by rw [← hdamp]; rfl
  refine ⟨hsum, hcomp', hdamp', ?_⟩
  intro dt hdt hk1 hk2
  have hct : 0 ≤ c._compliance / (dt * dt) := div_nonneg hk1 (le_of_lt (mul_pos hdt hdt))
  have hgamma : 0 ≤ c._compliance / (dt * dt) * c._damp_coef * dt :=
    mul_nonneg (mul_nonneg hct hk2) (le_of_lt hdt)
  generalize (PbdSolver.initSim sqrt acos (PbdSolver.new ns ks kb kd g) mesh)._w.getD i 0
      + (PbdSolver.initSim sqrt acos (PbdSolver.new ns ks kb kd g) mesh)._w.getD j 0 = W at hsum
  generalize c._compliance / (dt * dt) * c._damp_coef * dt = gamma at hgamma
  generalize c._compliance / (dt * dt) = ct at hct
  nlinarith [mul_nonneg hgamma (le_trans zero_le_one hsum)]

/-- The Stretch constraint of the edge `(0, 1)` of the example grid mesh is in the constraint
list of a new solver after `initSim`. -/
theorem exampleGrid_stretch_mem :
    stretchFor Real.sqrt (exampleGridMesh ℝ)._vertexPositions (1 / 1000000000 : ℝ) [0, 1]
      ∈ (PbdSolver.initSim Real.sqrt Real.arccos
          (PbdSolver.new 20 (1 / 1000000000 : ℝ) 10 0 ⟨0, -(98 / 10), 0⟩)
          (exampleGridMesh ℝ))._constraints := by
  have hm : stretchFor Real.sqrt (exampleGridMesh ℝ)._vertexPositions (1 / 1000000000 : ℝ) [0, 1]
      ∈ (PbdSolver.initSim Real.sqrt Real.arccos
          (PbdSolver.new 20 (1 / 1000000000 : ℝ) 10 0 ⟨0, -(98 / 10), 0⟩)
          (exampleGridMesh ℝ))._constraints.filter Constraint.isStretch := by
    rw [(PbdSolver.initSim_new_groups Real.sqrt Real.arccos 20 (1 / 1000000000 : ℝ) 10 0
      ⟨0, -(98 / 10), 0⟩ (exampleGridMesh ℝ)).2.2.1]
    refine List.mem_map.mpr ⟨[0, 1], List.mem_filter.mpr ⟨?_, ?_⟩, rfl⟩
    · rw [exampleGrid_connections]
      decide
    · unfold bothPinned
      have h0 : (PbdSolver.initSim Real.sqrt Real.arccos
          (PbdSolver.new 20 (1 / 1000000000 : ℝ) 10 0 ⟨0, -(98 / 10), 0⟩)
          (exampleGridMesh ℝ))._w.getD (([0, 1] : Edge).getD 0 0) 0 = 1 :=
        exampleGrid_w 0 (by decide)
      rw [h0]
      simp
  exact List.mem_of_mem_filter hm

/-- C30, instance: the Stretch constraint of the edge `(0, 1)` of the example grid mesh in a new
solver after `initSim`, before the first step: the denominator of `dlambda` is positive for
`dt = 0.016`. -/
theorem stretch_denominator_positive_witness :
    stretchFor Real.sqrt (exampleGridMesh ℝ)._vertexPositions (1 / 1000000000 : ℝ) [0, 1]
        ∈ (PbdSolver.steps Real.sqrt Real.arccos 32
            (PbdSolver.initSim Real.sqrt Real.arccos
              (PbdSolver.new 20 (1 / 1000000000 : ℝ) 10 0 ⟨0, -(98 / 10), 0⟩)
              (exampleGridMesh ℝ)) [])._constraints ∧
      0 < (1 + (stretchFor Real.sqrt (exampleGridMesh ℝ)._vertexPositions
                  (1 / 1000000000 : ℝ) [0, 1])._compliance / (16 / 1000 * (16 / 1000))
                * (stretchFor Real.sqrt (exampleGridMesh ℝ)._vertexPositions
                  (1 / 1000000000 : ℝ) [0, 1])._damp_coef * (16 / 1000))
          * ((PbdSolver.steps Real.sqrt Real.arccos 32
            (PbdSolver.initSim Real.sqrt Real.arccos
              (PbdSolver.new 20 (1 / 1000000000 : ℝ) 10 0 ⟨0, -(98 / 10), 0⟩)
              (exampleGridMesh ℝ)) [])._w.getD 0 0
            + (PbdSolver.steps Real.sqrt Real.arccos 32
            (PbdSolver.initSim Real.sqrt Real.arccos
              (PbdSolver.new 20 (1 / 1000000000 : ℝ) 10 0 ⟨0, -(98 / 10), 0⟩)
              (exampleGridMesh ℝ)) [])._w.getD 1 0)
        + (stretchFor Real.sqrt (exampleGridMesh ℝ)._vertexPositions
            (1 / 1000000000 : ℝ) [0, 1])._compliance / (16 / 1000 * (16 / 1000)) := by
  have hs : ∀ s : PbdSolver ℝ, PbdSolver.steps Real.sqrt Real.arccos 32 s [] = s :=
    fun _ => rfl
  have hmem :
      stretchFor Real.sqrt (exampleGridMesh ℝ)._vertexPositions (1 / 1000000000 : ℝ) [0, 1]
        ∈ (PbdSolver.steps Real.sqrt Real.arccos 32
            (PbdSolver.initSim Real.sqrt Real.arccos
              (PbdSolver.new 20 (1 / 1000000000 : ℝ) 10 0 ⟨0, -(98 / 10), 0⟩)
              (exampleGridMesh ℝ)) [])._constraints := by
    rw [hs]
    exact exampleGrid_stretch_mem
  exact ⟨hmem,
    (stretch_denominator_positive Real.sqrt Real.arccos 32 20 (1 / 1000000000 : ℝ) 10 0
      ⟨0, -(98 / 10), 0⟩ (exampleGridMesh ℝ) []
      (stretchFor Real.sqrt (exampleGridMesh ℝ)._vertexPositions (1 / 1000000000 : ℝ) [0, 1])
      0 1 _ hmem rfl).2.2.2 (16 / 1000) (by norm_num)
      (by norm_num [stretchFor, ConstraintStretch.mk])
      (by norm_num [stretchFor, ConstraintStretch.mk])⟩

end StretchDenominator

/-! ## Arithmetic with `NaN`: evaluation lemmas -/

section IEEELemmas

variable {K : Type} [LinearOrderedField K]

namespace IEEE

@[simp] theorem fin_add_fin (a b : K) : (fin a + fin b : IEEE K) = fin (a + b) := rfl

@[simp] theorem fin_sub_fin (a b : K) : (fin a - fin b : IEEE K) = fin (a - b) := by
  show add (fin a) (neg (fin b)) = fin (a - b)
  simp only [neg, add, sub_eq_add_neg]

@[simp] theorem fin_mul_fin (a b : K) : (fin a * fin b : IEEE K) = fin (a * b) := rfl

@[simp] theorem neg_fin (a : K) : (-(fin a) : IEEE K) = fin (-a) := rfl

@[simp] theorem neg_nan : (-(nan) : IEEE K) = nan := rfl

@[simp] theorem nan_add (a : IEEE K) : nan + a = nan := rfl

@[simp] theorem add_nan (a : IEEE K) : a + nan = nan := by cases a <;> rfl

@[simp] theorem nan_sub (a : IEEE K) : nan - a = nan := rfl

@[simp] theorem sub_nan (a : IEEE K) : a - nan = nan := by cases a <;> rfl

@[simp] theorem nan_mul (a : IEEE K) : nan * a = nan := rfl

@[simp] theorem mul_nan (a : IEEE K) : a * nan = nan := by cases a <;> rfl

@[simp] theorem nan_div (a : IEEE K) : nan / a = nan := rfl

@[simp] theorem div_nan (a : IEEE K) : a / nan = nan := by cases a <;> rfl

@[simp] theorem zero_eq_fin : (0 : IEEE K) = fin 0 := rfl

/-- The quotient `0 / 0` is `NaN`. -/
@[simp] theorem zero_div_zero : (fin 0 / fin 0 : IEEE K) = nan := by
  show div (fin 0) (fin 0) = nan
  simp [div]

/-- A division of finite numbers by a non-zero divisor is the exact quotient. -/
theorem fin_div_fin (a b : K) (h : b ≠ 0) : (fin a / fin b : IEEE K) = fin (a / b) := by
  show div (fin a) (fin b) = fin (a / b)
  simp [div, h]

/-- A positive number divided by zero is `+Inf`. -/
theorem pos_div_zero (a : K) (h : 0 < a) : (fin a / fin 0 : IEEE K) = pinf := by
  show div (fin a) (fin 0) = pinf
  simp [div, signedInf, h, ne_of_gt h]

/-- The quotient `1 / 0` is `+Inf`. -/
@[simp] theorem one_div_zero : (fin 1 / fin 0 : IEEE K) = pinf :=
  pos_div_zero 1 one_pos

/-- The product `Inf * b` for a positive number `b` is `+Inf`. -/
theorem pinf_mul_pos (b : K) (h : 0 < b) : (pinf * fin b : IEEE K) = pinf := by
  show mul pinf (fin b) = pinf
  simp [mul, signedInf, h, ne_of_gt h]

/-- The product `Inf * 0` is `NaN`. -/
@[simp] theorem pinf_mul_zero : (pinf * fin 0 : IEEE K) = nan := by
  show mul pinf (fin 0) = nan
  simp [mul]

/-- The product `0 * Inf` is `NaN`. -/
@[simp] theorem zero_mul_pinf : (fin 0 * pinf : IEEE K) = nan := by
  show mul (fin 0) pinf = nan
  simp [mul]

@[simp] theorem sqrt_nan (f : K → K) : sqrt f (nan : IEEE K) = nan := rfl

@[simp] theorem acos_nan (f : K → K) : acos f (nan : IEEE K) = nan := rfl

@[simp] theorem le_nan (a : IEEE K) : le a nan = false := by cases a <;> rfl

@[simp] theorem nan_le (a : IEEE K) : le nan a = false := rfl

@[simp] theorem lt_nan (a : IEEE K) : lt a nan = false := by cases a <;> rfl

@[simp] theorem nan_lt (a : IEEE K) : lt nan a = false := rfl

/-- The test `is_zero` is false on `NaN`. -/
@[simp] theorem is_zero_nan : is_zero (nan : IEEE K) = false := by simp [is_zero]

/-- The function `glm::clamp` returns `NaN` on `NaN`: both comparisons are false. -/
@[simp] theorem clamp_nan (lo hi : IEEE K) : clamp nan lo hi = nan := by
  simp [clamp, max, min]

@[simp] theorem vec_add (a b : Vec3 (IEEE K)) :
    a + b = ⟨a.x + b.x, a.y + b.y, a.z + b.z⟩ := rfl

@[simp] theorem vec_sub (a b : Vec3 (IEEE K)) :
    a - b = ⟨a.x - b.x, a.y - b.y, a.z - b.z⟩ := rfl

@[simp] theorem vec_neg (a : Vec3 (IEEE K)) : -a = ⟨-a.x, -a.y, -a.z⟩ := rfl

@[simp] theorem vec_zero : (0 : Vec3 (IEEE K)) = ⟨fin 0, fin 0, fin 0⟩ := rfl

end IEEE

end IEEELemmas

theorem real_sqrt_four : Real.sqrt 4 = 2 := by
  rw [show (4 : ℝ) = 2 * 2 by norm_num]
  exact Real.sqrt_mul_self (by norm_num)

/-! ## Floor invariant: steps with and without a division by zero -/

/-- With at least one particle, `dt` is among the divisors of `step(dt)`: the last loop divides
by it. -/
theorem stepDivisors_dt {K : Type} [LinearOrderedField K] (sqrt acos : K → K) (s : PbdSolver K)
    (dt : K) (h : 0 < s._vertex_number) : dt ∈ PbdSolver.stepDivisors sqrt acos s dt := by
  unfold PbdSolver.stepDivisors
  exact List.mem_append_right _ (List.mem_replicate.mpr ⟨Nat.pos_iff_ne_zero.mp h, rfl⟩)

/-- The two square roots under `glm::normalize` are among the divisors of every
`ConstraintBend::project` call. -/
theorem bend_divisors_normalize {K : Type} [LinearOrderedField K] (sqrt acos : K → K)
    (c : Constraint K) (i1 i2 i3 i4 : Nat) (phi0 : K) (x : List (Vec3 K)) (w : List K) (dt : K) :
    sqrt (Vec3.dot (Vec3.cross (x.getD i2 0 - x.getD i1 0) (x.getD i3 0 - x.getD i1 0))
          (Vec3.cross (x.getD i2 0 - x.getD i1 0) (x.getD i3 0 - x.getD i1 0)))
        ∈ ConstraintBend.divisors sqrt acos c i1 i2 i3 i4 phi0 x w dt ∧
      sqrt (Vec3.dot (Vec3.cross (x.getD i2 0 - x.getD i1 0) (x.getD i4 0 - x.getD i1 0))
          (Vec3.cross (x.getD i2 0 - x.getD i1 0) (x.getD i4 0 - x.getD i1 0)))
        ∈ ConstraintBend.divisors sqrt acos c i1 i2 i3 i4 phi0 x w dt := by
  unfold ConstraintBend.divisors
  lift_lets
  extract_lets p2 p3 p4 n1 n2 l3 l4 nz d phi q3 q4 q2 q1 ws ct gamma denom
  have h1 : sqrt (Vec3.dot (Vec3.cross p2 p3) (Vec3.cross p2 p3)) ∈ nz :=
    List.mem_cons_self _ _
  have h2 : sqrt (Vec3.dot (Vec3.cross p2 p4) (Vec3.cross p2 p4)) ∈ nz :=
    List.mem_cons_of_mem _ (List.mem_cons_self _ _)
  split_ifs
  · exact ⟨h1, h2⟩
  · exact ⟨h1, h2⟩
  · exact ⟨List.mem_append_left _ h1, List.mem_append_left _ h2⟩

/-- The step of the C1 instance divides by no zero: the divisors are `dt * dt`, the distance `2`,
a positive denominator of `dlambda`, and `dt` twice. -/
theorem exampleStretch_divisors :
    (0 : ℝ) ∉ PbdSolver.stepDivisors Real.sqrt Real.arccos
      (PbdSolver.exampleStretch ⟨0, 0, 0⟩ ⟨2, 0, 0⟩ 1 (1 / 1000000000)) (16 / 1000) := by
  simp [PbdSolver.stepDivisors, PbdSolver.exampleStretch, PbdSolver.new, PbdSolver.predict,
    PbdSolver.solvePassDivisors, PbdSolver.projectAllDivisors, Constraint.divisors,
    ConstraintStretch.divisors, ConstraintStretch.mk, Constraint.reset, List.range_succ,
    Vec3.smul, Vec3.mulS, Vec3.length, Vec3.dot, Constraint.is_zero, real_sqrt_four]
  norm_num

/-- C1, instance: two particles at distance `2` joined by a Stretch constraint of initial length
`1` and compliance `1e-9`, stepped with `dt = 0.016`; the step divides by no zero. -/
theorem floor_invariant_witness :
    (0 : ℝ) ∉ PbdSolver.stepDivisors Real.sqrt Real.arccos
        (PbdSolver.exampleStretch ⟨0, 0, 0⟩ ⟨2, 0, 0⟩ 1 (1 / 1000000000)) (16 / 1000) ∧
      -(9999 / 10000) ≤ ((PbdSolver.step Real.sqrt Real.arccos 32
        (PbdSolver.exampleStretch ⟨0, 0, 0⟩ ⟨2, 0, 0⟩ 1 (1 / 1000000000))
          (16 / 1000))._x.getD 0 0).y ∧
      ((PbdSolver.step Real.sqrt Real.arccos 32
        (PbdSolver.exampleStretch ⟨0, 0, 0⟩ ⟨2, 0, 0⟩ 1 (1 / 1000000000))
          (16 / 1000))._x.getD 0 0).y ≤ 1 :=
  ⟨exampleStretch_divisors, floor_invariant Real.sqrt Real.arccos 32
    (PbdSolver.exampleStretch ⟨0, 0, 0⟩ ⟨2, 0, 0⟩ 1 (1 / 1000000000)) (16 / 1000) rfl rfl
    (by simp [PbdSolver.exampleStretch, PbdSolver.new, Constraint.InRange, Constraint.indices,
          ConstraintStretch.mk])
    exampleStretch_divisors
    0 (by rw [PbdSolver.step_x_length]; simp [PbdSolver.exampleStretch, PbdSolver.new])⟩

/-- C1 does not hold as stated. The step is evaluated in arithmetic with `NaN` on two states with
two particles and one Stretch constraint of initial length `1` (indices `0, 1` in range).
(a) Both particles at `(0,0,0)`, `dt = 0.016`: `n = diff / dist` is `0 / 0`, the projection writes
`NaN` into `_x_next`, `glm::clamp` returns `NaN` on `NaN`, and the committed `_x[0].y` is `NaN`.
(b) The particles at distance `2`, `dt = 0`: `compliance_tilda = 1e-9 / 0` is `+Inf`,
`gamma = Inf * 0.9 * 0` is `NaN`, and again the committed `_x[0].y` is `NaN`. `NaN` passes neither
comparison of the interval test. In the exact model state (a) evaluates a zero divisor. -/
theorem floor_invariant_counterexample :
    (∀ c ∈ (PbdSolver.exampleStretch (⟨0, 0, 0⟩ : Vec3 ℝ) ⟨0, 0, 0⟩ 1 (1 / 1000000000))._constraints,
        c.InRange 2) ∧
      ((IEEE.step Real.sqrt Real.arccos 32
          (IEEE.ofSolver (PbdSolver.exampleStretch ⟨0, 0, 0⟩ ⟨0, 0, 0⟩ 1 (1 / 1000000000)))
          (IEEE.fin (16 / 1000)))._x.getD 0 0).y = IEEE.nan ∧
      ((IEEE.step Real.sqrt Real.arccos 32
          (IEEE.ofSolver (PbdSolver.exampleStretch ⟨0, 0, 0⟩ ⟨2, 0, 0⟩ 1 (1 / 1000000000)))
          (IEEE.fin 0))._x.getD 0 0).y = IEEE.nan ∧
      IEEE.le (IEEE.fin (-(9999 / 10000))) (IEEE.nan : IEEE ℝ) = false ∧
      IEEE.le (IEEE.nan : IEEE ℝ) (IEEE.fin 1) = false ∧
      (0 : ℝ) ∈ PbdSolver.stepDivisors Real.sqrt Real.arccos
        (PbdSolver.exampleStretch ⟨0, 0, 0⟩ ⟨0, 0, 0⟩ 1 (1 / 1000000000)) (16 / 1000) := by
  have hpos : (0 : ℝ) < 1 / 1000000000 := by norm_num
  have hpos2 : (0 : ℝ) < 9 / 10 := by norm_num
  refine ⟨?_, ?_, ?_, rfl, rfl, ?_⟩
  · simp [PbdSolver.exampleStretch, PbdSolver.new, Constraint.InRange, Constraint.indices,
      ConstraintStretch.mk]
  · simp [IEEE.step, IEEE.ofSolver, PbdSolver.exampleStretch, PbdSolver.new, IEEE.predict,
      IEEE.solvePass, IEEE.projectAll, IEEE.Constraint.project, IEEE.ConstraintStretch.project,
      IEEE.commit, IEEE.clampFloor, IEEE.reset, IEEE.ofConstraint, ConstraintStretch.mk,
      IEEE.ofVec3, List.range_succ, IEEE.smul, IEEE.mulS, IEEE.divS, IEEE.dot, IEEE.length,
      IEEE.sqrt, IEEE.is_zero, IEEE.le]
    norm_num [IEEE.clampFloor]
  · simp [IEEE.step, IEEE.ofSolver, PbdSolver.exampleStretch, PbdSolver.new, IEEE.predict,
      IEEE.solvePass, IEEE.projectAll, IEEE.Constraint.project, IEEE.ConstraintStretch.project,
      IEEE.commit, IEEE.clampFloor, IEEE.reset, IEEE.ofConstraint, ConstraintStretch.mk,
      IEEE.ofVec3, List.range_succ, IEEE.smul, IEEE.mulS, IEEE.divS, IEEE.dot, IEEE.length,
      IEEE.sqrt, IEEE.is_zero, IEEE.le, real_sqrt_four]
    norm_num [IEEE.clampFloor]
    simp only [IEEE.pos_div_zero _ hpos, IEEE.pinf_mul_pos _ hpos2, IEEE.pinf_mul_zero,
      IEEE.sub_nan, IEEE.nan_sub, IEEE.nan_mul, IEEE.mul_nan, IEEE.nan_div, IEEE.add_nan,
      IEEE.clamp_nan]
  · simp [PbdSolver.stepDivisors, PbdSolver.exampleStretch, PbdSolver.new, PbdSolver.predict,
      PbdSolver.solvePassDivisors, PbdSolver.projectAllDivisors, Constraint.divisors,
      ConstraintStretch.divisors, ConstraintStretch.mk, Constraint.reset, List.range_succ,
      Vec3.smul, Vec3.mulS, Vec3.length, Vec3.dot, Constraint.is_zero]
    norm_num

/-! ## Momentum balance of the Bend projection: calls with a division by zero -/

/-- The Bend projection of the C27 instance divides by no zero: the divisors are the two normal
lengths `1`, `1 + 1e-5` twice, `1 - d * d = 1`, `dt * dt`, `denom = 1` and a positive
denominator of `dlambda`. -/
theorem examplePerpQuad_divisors :
    (0 : ℝ) ∉ ConstraintBend.divisors Real.sqrt Real.arccos
      (ConstraintBend.mk 0 1 2 3 (Real.arccos 0 + 1) 0 0) 0 1 2 3 (Real.arccos 0 + 1)
      (examplePerpQuad ℝ 1) [1, 1, 1, 1] (16 / 1000) := by
  obtain ⟨hn1, hn2⟩ := examplePerpQuad_normals 1 one_pos
  have hd := examplePerpQuad_cosAngle 1 one_pos
  unfold ConstraintBend.cosAngle at hd
  unfold ConstraintBend.divisors
  lift_lets
  extract_lets p2 p3 p4 n1 n2 l3 l4 nz d phi q3 q4 q2 q1 ws ct gamma denom
  have hd0 : d = 0 := hd
  have hphi : phi = Real.arccos 0 := by simp only [phi, hd0]
  have g1 : (Constraint.is_zero (Vec3.length Real.sqrt n1)
      || Constraint.is_zero (Vec3.length Real.sqrt n2)) = false := by
    have e1 : n1 = ⟨0, 0, 1⟩ := hn1
    have e2 : n2 = ⟨0, -1, 0⟩ := hn2
    rw [e1, e2]
    simp [Vec3.length, Vec3.dot, Constraint.is_zero]
    norm_num
  have g2 : (Constraint.is_zero (phi - (Real.arccos 0 + 1))
      || Constraint.is_zero (1 - d * d)) = false := by
    rw [hphi, hd0]
    simp [Constraint.is_zero]
    norm_num
  simp only [g1, g2, Bool.false_eq_true, if_false]
  have hc3 : Vec3.dot (Vec3.cross p2 p3) (Vec3.cross p2 p3) = 1 := by
    simp [p2, p3, examplePerpQuad, Vec3.cross, Vec3.dot]
  have hc4 : Vec3.dot (Vec3.cross p2 p4) (Vec3.cross p2 p4) = 1 := by
    simp [p2, p4, examplePerpQuad, Vec3.cross, Vec3.dot]
  have hl3 : l3 = 1 + 1 / 100000 := by
    simp only [l3, Vec3.length, hc3, Real.sqrt_one]
  have hl4 : l4 = 1 + 1 / 100000 := by
    simp only [l4, Vec3.length, hc4, Real.sqrt_one]
  have hct : ct = 0 := by simp [ct, ConstraintBend.mk]
  have hg : gamma = 0 := by simp [gamma, hct]
  have hden : denom = 1 := by simp [denom, hd0]
  have hdot : ∀ q : Vec3 ℝ, 0 ≤ Vec3.dot q q := fun q => by
    unfold Vec3.dot
    nlinarith [mul_self_nonneg q.x, mul_self_nonneg q.y, mul_self_nonneg q.z]
  have hws : 0 < ws := by
    have a1 := hdot q1
    have a2 := hdot q2
    have a3 := hdot q3
    have a4 := hdot q4
    simp only [ws, hd0]
    norm_num
    linarith
  simp only [nz, hc3, hc4, Real.sqrt_one, hl3, hl4, hd0, hct, hg, hden]
  simp only [List.cons_append, List.nil_append, List.mem_cons, List.mem_singleton, not_or,
    List.not_mem_nil, or_false]
  refine ⟨by norm_num, by norm_num, by norm_num, by norm_num, by norm_num, by norm_num,
    by norm_num, ?_⟩
  intro h
  have : (1 + 0) * ws + 0 = ws := by ring
  rw [this] at h
  exact absurd h.symm (ne_of_gt hws)

/-- C27, instance: the two perpendicular triangles of `examplePerpQuad` with four inverse masses
`1` and a rest angle that differs from the current one by `1`, `dt = 0.016`; the call divides by
no zero and the sum of the four positions is unchanged. -/
theorem bend_conserves_momentum_witness :
    (0 : ℝ) ∉ ConstraintBend.divisors Real.sqrt Real.arccos
        (ConstraintBend.mk 0 1 2 3 (Real.arccos 0 + 1) 0 0) 0 1 2 3 (Real.arccos 0 + 1)
        (examplePerpQuad ℝ 1) [1, 1, 1, 1] (16 / 1000) ∧
      (ConstraintBend.project Real.sqrt Real.arccos
          (ConstraintBend.mk 0 1 2 3 (Real.arccos 0 + 1) 0 0) 0 1 2 3 (Real.arccos 0 + 1)
          (examplePerpQuad ℝ 1) (examplePerpQuad ℝ 1) [1, 1, 1, 1] (16 / 1000)).2.getD 0 0
      + (ConstraintBend.project Real.sqrt Real.arccos
          (ConstraintBend.mk 0 1 2 3 (Real.arccos 0 + 1) 0 0) 0 1 2 3 (Real.arccos 0 + 1)
          (examplePerpQuad ℝ 1) (examplePerpQuad ℝ 1) [1, 1, 1, 1] (16 / 1000)).2.getD 1 0
      + (ConstraintBend.project Real.sqrt Real.arccos
          (ConstraintBend.mk 0 1 2 3 (Real.arccos 0 + 1) 0 0) 0 1 2 3 (Real.arccos 0 + 1)
          (examplePerpQuad ℝ 1) (examplePerpQuad ℝ 1) [1, 1, 1, 1] (16 / 1000)).2.getD 2 0
      + (ConstraintBend.project Real.sqrt Real.arccos
          (ConstraintBend.mk 0 1 2 3 (Real.arccos 0 + 1) 0 0) 0 1 2 3 (Real.arccos 0 + 1)
          (examplePerpQuad ℝ 1) (examplePerpQuad ℝ 1) [1, 1, 1, 1] (16 / 1000)).2.getD 3 0
      = (examplePerpQuad ℝ 1).getD 0 0 + (examplePerpQuad ℝ 1).getD 1 0
        + (examplePerpQuad ℝ 1).getD 2 0 + (examplePerpQuad ℝ 1).getD 3 0 :=
  ⟨examplePerpQuad_divisors, ((bend_conserves_momentum Real.sqrt Real.arccos
    (ConstraintBend.mk 0 1 2 3 (Real.arccos 0 + 1) 0 0)
    0 1 2 3 (Real.arccos 0 + 1) (examplePerpQuad ℝ 1) (examplePerpQuad ℝ 1) [1, 1, 1, 1]
    (16 / 1000) examplePerpQuad_divisors).2 (by decide) (by decide) (by decide) (by decide)
    (by decide) (by decide) (by decide) (by decide) (by decide) (by decide)).2.1 rfl rfl rfl⟩

/-- On four particles of one line `ConstraintBend::project`, evaluated with `NaN`, moves particle
`0` (inverse mass `0`) to `(NaN, NaN, NaN)`. -/
theorem bend_project_collinear_nan :
    (IEEE.ConstraintBend.project Real.sqrt Real.arccos
          (IEEE.ofConstraint (ConstraintBend.mk 0 1 2 3 1 10 (5 / 100))) 0 1 2 3 (IEEE.fin 1)
          ((exampleCollinearQuad ℝ).map IEEE.ofVec3) ((exampleCollinearQuad ℝ).map IEEE.ofVec3)
          [IEEE.fin 0, IEEE.fin 1, IEEE.fin 1, IEEE.fin 1] (IEEE.fin (16 / 1000))).2.getD 0 0
        = ⟨IEEE.nan, IEEE.nan, IEEE.nan⟩ := by
  unfold IEEE.ConstraintBend.project
  lift_lets
  extract_lets p2 p3 p4 n1 n2 l3 l4 d phi q3 q4 q2 q1 ws ct gamma v1 v2 v3 v4 denom damp dl
    xa xb xc xd
  have hn1 : n1 = ⟨IEEE.nan, IEEE.nan, IEEE.nan⟩ := by
    simp [n1, p2, p3, exampleCollinearQuad, IEEE.ofVec3, IEEE.normalize, IEEE.cross, IEEE.dot,
      IEEE.mulS, IEEE.sqrt]
  have hn2 : n2 = ⟨IEEE.nan, IEEE.nan, IEEE.nan⟩ := by
    simp [n2, p2, p4, exampleCollinearQuad, IEEE.ofVec3, IEEE.normalize, IEEE.cross, IEEE.dot,
      IEEE.mulS, IEEE.sqrt]
  have hd : d = IEEE.nan := by
    simp [d, hn1, hn2, IEEE.dot]
  have hphi : phi = IEEE.nan := by
    simp [phi, hd]
  have g1 : (IEEE.is_zero (IEEE.length Real.sqrt n1)
      || IEEE.is_zero (IEEE.length Real.sqrt n2)) = false := by
    simp [hn1, hn2, IEEE.length, IEEE.dot]
  have g2 : (IEEE.is_zero (phi - IEEE.fin 1) || IEEE.is_zero (IEEE.fin 1 - d * d)) = false := by
    simp [hphi, hd]
  have hdl : dl = IEEE.nan := by
    simp [dl, hphi]
  simp only [g1, g2, Bool.false_eq_true, if_false]
  simp [xd, xc, xb, xa, hdl, IEEE.smul, IEEE.divS, exampleCollinearQuad]

/-- With `dt = 0` `ConstraintBend::project`, evaluated with `NaN` on the perpendicular triangles
of `examplePerpQuad`, moves particle `0` (inverse mass `0`) to `(NaN, NaN, NaN)`. -/
theorem bend_project_dt_zero_nan :
    (IEEE.ConstraintBend.project Real.sqrt Real.arccos
          (IEEE.ofConstraint (ConstraintBend.mk 0 1 2 3 (Real.arccos 0 + 1) 0 0)) 0 1 2 3
          (IEEE.fin (Real.arccos 0 + 1))
          ((examplePerpQuad ℝ 1).map IEEE.ofVec3) ((examplePerpQuad ℝ 1).map IEEE.ofVec3)
          [IEEE.fin 0, IEEE.fin 1, IEEE.fin 1, IEEE.fin 1] (IEEE.fin 0)).2.getD 0 0
        = ⟨IEEE.nan, IEEE.nan, IEEE.nan⟩ := by
  have h1 : (IEEE.fin 1 / IEEE.fin 1 : IEEE ℝ) = IEEE.fin 1 := by
    rw [IEEE.fin_div_fin _ _ one_ne_zero, div_one]
  have h2 : ¬ ((1 : ℝ) < 0) := by norm_num
  unfold IEEE.ConstraintBend.project
  lift_lets
  extract_lets p2 p3 p4 n1 n2 l3 l4 d phi q3 q4 q2 q1 ws ct gamma v1 v2 v3 v4 denom damp dl
    xa xb xc xd
  have hn1 : n1 = ⟨IEEE.fin 0, IEEE.fin 0, IEEE.fin 1⟩ := by
    simp [n1, p2, p3, examplePerpQuad, IEEE.ofVec3, IEEE.normalize, IEEE.cross, IEEE.dot,
      IEEE.mulS, IEEE.sqrt, h1, h2]
  have hn2 : n2 = ⟨IEEE.fin 0, IEEE.fin (-1), IEEE.fin 0⟩ := by
    simp [n2, p2, p4, examplePerpQuad, IEEE.ofVec3, IEEE.normalize, IEEE.cross, IEEE.dot,
      IEEE.mulS, IEEE.sqrt, h1, h2]
  have hd : d = IEEE.fin 0 := by
    norm_num [d, hn1, hn2, IEEE.dot, IEEE.clamp, IEEE.max, IEEE.min, IEEE.lt]
  have hphi : phi = IEEE.fin (Real.arccos 0) := by
    simp [phi, hd, IEEE.acos]
  have g1 : (IEEE.is_zero (IEEE.length Real.sqrt n1)
      || IEEE.is_zero (IEEE.length Real.sqrt n2)) = false := by
    simp [hn1, hn2, IEEE.length, IEEE.dot, IEEE.sqrt, IEEE.is_zero, IEEE.le, h2]
    norm_num
  have g2 : (IEEE.is_zero (phi - IEEE.fin (Real.arccos 0 + 1))
      || IEEE.is_zero (IEEE.fin 1 - d * d)) = false := by
    simp [hphi, hd, IEEE.is_zero, IEEE.le]
    norm_num
  have hct : ct = IEEE.nan := by
    simp [ct, IEEE.ofConstraint, ConstraintBend.mk]
  have hdl : dl = IEEE.nan := by
    simp [dl, damp, gamma, hct]
  simp only [g1, g2, Bool.false_eq_true, if_false]
  simp [xd, xc, xb, xa, hdl, IEEE.smul, IEEE.divS, examplePerpQuad]

/-- On four particles of one line the exact model of `ConstraintBend::project` evaluates a zero
divisor: the square root under `glm::normalize`. -/
theorem bend_collinear_divides_by_zero :
    (0 : ℝ) ∈ ConstraintBend.divisors Real.sqrt Real.arccos
      (ConstraintBend.mk 0 1 2 3 1 10 (5 / 100)) 0 1 2 3 1 (exampleCollinearQuad ℝ)
      [0, 1, 1, 1] (16 / 1000) := by
  unfold ConstraintBend.divisors
  lift_lets
  extract_lets p2 p3 p4 n1 n2 l3 l4 nz d phi q3 q4 q2 q1 ws ct gamma denom
  have hc3 : Vec3.dot (Vec3.cross p2 p3) (Vec3.cross p2 p3) = 0 := by
    simp [p2, p3, exampleCollinearQuad, Vec3.cross, Vec3.dot]
  have hz : (0 : ℝ) ∈ nz := by
    simp only [nz, hc3, Real.sqrt_zero]
    exact List.mem_cons_self _ _
  split_ifs
  · exact hz
  · exact hz
  · exact List.mem_append_left _ hz

/-- C27 does not hold as stated. `ConstraintBend::project` is evaluated in arithmetic with `NaN`
on four particles of which particle `0` has inverse mass `0`.
(a) The particles on one line, `dt = 0.016`: both cross products are zero, `glm::normalize`
multiplies `0` by `1 / sqrt(0) = +Inf`, the normals are `NaN`, both `return` tests are false on
`NaN`, `dlambda` is `NaN` and particle `0` is moved from `(0,0,0)` to `(NaN, NaN, NaN)`.
(b) The perpendicular triangles of `examplePerpQuad`, `dt = 0`: `compliance_tilda = 0 / 0` is
`NaN`, so is `dlambda`, and particle `0` is moved from `(0,0,0)` to `(NaN, NaN, NaN)`. In the
exact model configuration (a) evaluates a zero divisor. -/
theorem bend_conserves_momentum_counterexample :
    (IEEE.ConstraintBend.project Real.sqrt Real.arccos
          (IEEE.ofConstraint (ConstraintBend.mk 0 1 2 3 1 10 (5 / 100))) 0 1 2 3 (IEEE.fin 1)
          ((exampleCollinearQuad ℝ).map IEEE.ofVec3) ((exampleCollinearQuad ℝ).map IEEE.ofVec3)
          [IEEE.fin 0, IEEE.fin 1, IEEE.fin 1, IEEE.fin 1] (IEEE.fin (16 / 1000))).2.getD 0 0
        = ⟨IEEE.nan, IEEE.nan, IEEE.nan⟩ ∧
      (IEEE.ConstraintBend.project Real.sqrt Real.arccos
          (IEEE.ofConstraint (ConstraintBend.mk 0 1 2 3 (Real.arccos 0 + 1) 0 0)) 0 1 2 3
          (IEEE.fin (Real.arccos 0 + 1))
          ((examplePerpQuad ℝ 1).map IEEE.ofVec3) ((examplePerpQuad ℝ 1).map IEEE.ofVec3)
          [IEEE.fin 0, IEEE.fin 1, IEEE.fin 1, IEEE.fin 1] (IEEE.fin 0)).2.getD 0 0
        = ⟨IEEE.nan, IEEE.nan, IEEE.nan⟩ ∧
      ((exampleCollinearQuad ℝ).map IEEE.ofVec3).getD 0 0 = ⟨IEEE.fin 0, IEEE.fin 0, IEEE.fin 0⟩ ∧
      ((examplePerpQuad ℝ 1).map IEEE.ofVec3).getD 0 0 = ⟨IEEE.fin 0, IEEE.fin 0, IEEE.fin 0⟩ ∧
      (0 : ℝ) ∈ ConstraintBend.divisors Real.sqrt Real.arccos
        (ConstraintBend.mk 0 1 2 3 1 10 (5 / 100)) 0 1 2 3 1 (exampleCollinearQuad ℝ)
        [0, 1, 1, 1] (16 / 1000) :=
  ⟨bend_project_collinear_nan, bend_project_dt_zero_nan, rfl, rfl,
    bend_collinear_divides_by_zero⟩

end XPBD
